import Mathlib

/-! # tgcalls: negotiation codec, group call manager and orchestrator

Shallow embedding of the line-oriented session description codec of
`tgcalls/group/GroupInstanceImpl.cpp` (`parseSdpIntoJoinPayload`, `createSdp`,
`parseJoinResponseIntoSdp` and their helpers), of the negotiation, recovery and
connection state code of its `GroupInstanceManager`, and of the state callback,
the low-cost flag and the message routing of `tgcalls/Manager.cpp`, followed by
the theorems that settle the claims of the specification about them.

Conventions of the embedding:
* `std::string` is a list of characters (`Str`);
* `uint32_t` is a natural number below `2 ^ 32`;
* `std::vector` is a list;
* `absl::optional` is `Option`; an out-of-range `operator[]` is `none`.
-/

namespace tgcalls

/-- A `std::string`. -/
abbrev Str := List Char

/-! ## Standard library primitives used by the codec -/

/-- Successive strings read by `std::getline(stream, s, delim)` from a stream
holding the given text, up to the first call that fails: the text is cut at
every delimiter, and the piece after the last delimiter is read only when it
is not empty. -/
def getlineAll (delim : Char) : Str → List Str
  | [] => []
  | c :: cs =>
    if c = delim then [] :: getlineAll delim cs
    else
      match getlineAll delim cs with
      | [] => [[c]]
      | s :: rest => (c :: s) :: rest

/-- Loop `for (int i = 0; std::getline(stream, s, delim); i++) body` over the
pieces read from the stream, threading the variables the body assigns. -/
def forPieces {σ : Type} (body : Nat → Str → σ → σ) : Nat → List Str → σ → σ
  | _, [], st => st
  | i, s :: rest, st => forPieces body (i + 1) rest (body i s st)

/-- The value of `std::isspace` in the classic locale. -/
def isSpaceChar (c : Char) : Bool :=
  c = ' ' || c = '\t' || c = '\n' || c = '\x0b' || c = '\x0c' || c = '\r'

/-- The value of a decimal digit string, most significant digit first. -/
def digitsValue (ds : Str) : Nat :=
  ds.foldl (fun acc c => 10 * acc + (c.toNat - '0'.toNat)) 0

/-- An optional sign in front of a number: whether it is a minus sign, and
the text after it. -/
def readSign (s : Str) : Bool × Str :=
  match s with
  | '-' :: r => (true, r)
  | '+' :: r => (false, r)
  | _ => (false, s)

/-- The value left in `v` by `uint32_t v = 0; std::istringstream(s) >> v;`:
leading white space is skipped, an optional sign and the longest run of
decimal digits are read; no digit leaves `0`, a value above `2 ^ 32 - 1`
leaves `2 ^ 32 - 1`, and a minus sign negates modulo `2 ^ 32`. -/
def readUInt32 (s : Str) : Nat :=
  let signed := readSign (s.dropWhile isSpaceChar)
  let ds := signed.2.takeWhile Char.isDigit
  if ds.length = 0 then 0
  else
    let v := digitsValue ds
    if v > 4294967295 then 4294967295
    else if signed.1 then (4294967296 - v) % 4294967296
    else v

/-- The characters written by `stream << v` for an unsigned integer `v`. -/
def showUInt (v : Nat) : Str := Nat.toDigits 10 v

/-! ## Data model (structures of `GroupInstanceImpl.h`, as the codec uses them) -/

/-- Modelled from the spec: `GroupJoinPayloadFingerprint` is declared in
`GroupInstanceImpl.h`, which is not among the sources; the fields are those of
the join payload of the specification (`fingerprints[{hash, fingerprint, setup}]`),
as the codec reads and writes them. -/
structure GroupJoinPayloadFingerprint where
  hash : Str
  setup : Str
  fingerprint : Str
deriving DecidableEq

/-- Modelled from the spec: `GroupJoinPayloadVideoSourceGroup` is declared in
`GroupInstanceImpl.h`, which is not among the sources; a source group is a list
of source identifiers that share a semantics, as the codec reads and writes it. -/
structure GroupJoinPayloadVideoSourceGroup where
  ssrcs : List Nat
  semantics : Str
deriving DecidableEq

/-- Modelled from the spec: `GroupJoinPayloadVideoPayloadFeedbackType` is
declared in `GroupInstanceImpl.h`, which is not among the sources; a feedback
type is a `type [subtype]` pair, as the codec reads and writes it. -/
structure GroupJoinPayloadVideoPayloadFeedbackType where
  type : Str
  subtype : Str
deriving DecidableEq

/-- Modelled from the spec: `GroupJoinPayloadVideoPayloadType` is declared in
`GroupInstanceImpl.h`, which is not among the sources; a codec capability has
an id, a name, a clock rate, a channel count, feedback types and key/value
format parameters, as the codec reads and writes them. -/
structure GroupJoinPayloadVideoPayloadType where
  id : Nat
  name : Str
  clockrate : Nat
  channels : Nat
  feedbackTypes : List GroupJoinPayloadVideoPayloadFeedbackType
  parameters : List (Str × Str)
deriving DecidableEq

/-- Modelled from the spec: `GroupJoinPayload` is declared in
`GroupInstanceImpl.h`, which is not among the sources; the fields are those of
the join payload of the specification, as the codec reads and writes them. -/
structure GroupJoinPayload where
  ufrag : Str
  pwd : Str
  fingerprints : List GroupJoinPayloadFingerprint
  videoPayloadTypes : List GroupJoinPayloadVideoPayloadType
  videoExtensionMap : List (Nat × Str)
  ssrc : Nat
  videoSourceGroups : List GroupJoinPayloadVideoSourceGroup
deriving DecidableEq

/-- Modelled from the spec: `GroupJoinResponseCandidate` is declared in
`GroupInstanceImpl.h`, which is not among the sources; the fields are the
strings that `createSdp` writes on an `a=candidate:` line. -/
structure GroupJoinResponseCandidate where
  port : Str
  protocol : Str
  generation : Str
  component : Str
  foundation : Str
  priority : Str
  ip : Str
  type : Str
  tcpType : Str
  relAddr : Str
  relPort : Str
deriving DecidableEq

/-- Modelled from the spec: `GroupJoinResponsePayload` is declared in
`GroupInstanceImpl.h`, which is not among the sources; the fields are the
credentials, fingerprints and candidates that `createSdp` writes. -/
structure GroupJoinResponsePayload where
  ufrag : Str
  pwd : Str
  fingerprints : List GroupJoinPayloadFingerprint
  candidates : List GroupJoinResponseCandidate
deriving DecidableEq

/-- Modelled from the spec: `GroupParticipantDescription` is declared in
`GroupInstanceImpl.h`, which is not among the sources; a participant has a
primary audio source identifier and an optional video description, as
`parseJoinResponseIntoSdp` reads them. -/
structure GroupParticipantDescription where
  audioSsrc : Nat
  videoPayloadTypes : List GroupJoinPayloadVideoPayloadType
  videoExtensionMap : List (Nat × Str)
  videoSourceGroups : List GroupJoinPayloadVideoSourceGroup
deriving DecidableEq

/-- The structure `StreamSpec` of `GroupInstanceImpl.cpp`. -/
structure StreamSpec where
  isMain : Bool
  isOutgoing : Bool
  streamId : Nat
  ssrc : Nat
  videoSourceGroups : List GroupJoinPayloadVideoSourceGroup
  videoPayloadTypes : List GroupJoinPayloadVideoPayloadType
  videoExtensionMap : List (Nat × Str)
  isRemoved : Bool
deriving DecidableEq

/-! ## Decoding: `parseSdpIntoJoinPayload` and its helpers -/

/-- `splitSdpLines`: the lines of the text, empty lines dropped, one trailing
carriage return removed from each. -/
def splitSdpLines (sdp : Str) : List Str :=
  (getlineAll '\n' sdp).filterMap fun s =>
    if s.length = 0 then none
    else if s.getLast? = some '\r' then some s.dropLast
    else some s

/-- `splitFingerprintLines`: the non-empty pieces between spaces. -/
def splitFingerprintLines (line : Str) : List Str :=
  (getlineAll ' ' line).filterMap fun s =>
    if s.length = 0 then none else some s

/-- `splitSsrcList`: the numbers read from the non-empty pieces between spaces. -/
def splitSsrcList (line : Str) : List Nat :=
  (getlineAll ' ' line).filterMap fun s =>
    if s.length = 0 then none else some (readUInt32 s)

/-- `getLines`: the lines that start with `pfx`, each with `pfx` cut off. -/
def getLines (lines : List Str) (pfx : Str) : List Str :=
  lines.filterMap fun line =>
    if pfx.isPrefixOf line then some (line.drop pfx.length) else none

/-- `parsePayloadType`: `codec[/clockrate[/channels]]`. -/
def parsePayloadType (id : Nat) (line : Str) : Option GroupJoinPayloadVideoPayloadType :=
  let st : Str × Nat × Nat :=
    forPieces (fun i s (st : Str × Nat × Nat) =>
      if s.length = 0 then st
      else if i = 0 then (s, st.2.1, st.2.2)
      else if i = 1 then (st.1, readUInt32 s, st.2.2)
      else if i = 2 then (st.1, st.2.1, readUInt32 s)
      else st) 0 (getlineAll '/' line) ([], 0, 0)
  if st.1.length ≠ 0 then
    some { id := id, name := st.1, clockrate := st.2.1, channels := st.2.2,
           feedbackTypes := [], parameters := [] }
  else none

/-- `parseFeedbackType`: `type [subtype]`. -/
def parseFeedbackType (line : Str) : Option GroupJoinPayloadVideoPayloadFeedbackType :=
  let st : Str × Str :=
    forPieces (fun i s (st : Str × Str) =>
      if s.length = 0 then st
      else if i = 0 then (s, st.2)
      else if i = 1 then (st.1, s)
      else st) 0 (getlineAll ' ' line) ([], [])
  if st.1.length ≠ 0 then some { type := st.1, subtype := st.2 } else none

/-- `parsePayloadParameter`: appends `(key, value)` of `key=value` to `result`
when both are present. -/
def parsePayloadParameter (line : Str) (result : List (Str × Str)) : List (Str × Str) :=
  let st : Str × Str :=
    forPieces (fun i s (st : Str × Str) =>
      if s.length = 0 then st
      else if i = 0 then (s, st.2)
      else if i = 1 then (st.1, s)
      else st) 0 (getlineAll '=' line) ([], [])
  if st.1.length ≠ 0 ∧ st.2.length ≠ 0 then result ++ [(st.1, st.2)] else result

/-- `parsePayloadParameters`: the `;`-separated `key=value` list. -/
def parsePayloadParameters (line : Str) : List (Str × Str) :=
  (getlineAll ';' line).foldl (fun result s =>
    if s.length = 0 then result else parsePayloadParameter s result) []

/-- The first loop of `parseSdpIntoJoinPayload`: every line goes to
`audioLines` or to `videoLines` according to the last `m=` line seen; the
flag `isAudioLine` is threaded through. -/
def splitAudioVideo : Bool → List Str → List Str × List Str
  | _, [] => ([], [])
  | isAudioLine, line :: rest =>
    let isAudioLine :=
      if "m=audio".toList.isPrefixOf line then true
      else if "m=video".toList.isPrefixOf line then false
      else isAudioLine
    let r := splitAudioVideo isAudioLine rest
    if isAudioLine then (line :: r.1, r.2) else (r.1, line :: r.2)

/-- Body of the loop over the `a=fingerprint:` lines. -/
def parseFingerprintLine (line : Str) : Option GroupJoinPayloadFingerprint :=
  match splitFingerprintLines line with
  | [h, f] => some { hash := h, fingerprint := f, setup := "active".toList }
  | _ => none

/-- Body of the loop over the `a=rtpmap:` lines: the payload types the line
adds to `result.videoPayloadTypes`. -/
def parseRtpmapLine (videoLines : List Str) (line : Str) : List GroupJoinPayloadVideoPayloadType :=
  let st : Nat × List GroupJoinPayloadVideoPayloadType :=
    forPieces (fun i s (st : Nat × List GroupJoinPayloadVideoPayloadType) =>
      if s.length = 0 then st
      else if i = 0 then (readUInt32 s, st.2)
      else if i = 1 then
        if st.1 ≠ 0 then
          match parsePayloadType st.1 s with
          | some payloadType =>
            let feedbackTypes :=
              (getLines videoLines ("a=rtcp-fb:".toList ++ showUInt st.1 ++ " ".toList)).filterMap
                parseFeedbackType
            let parameters :=
              (getLines videoLines ("a=fmtp:".toList ++ showUInt st.1 ++ " ".toList)).foldl
                (fun _ parametersLine => parsePayloadParameters parametersLine)
                payloadType.parameters
            (st.1, st.2 ++ [{ payloadType with
              feedbackTypes := payloadType.feedbackTypes ++ feedbackTypes,
              parameters := parameters }])
          | none => st
        else st
      else st) 0 (getlineAll ' ' line) (0, [])
  st.2

/-- Body of the loop over the `a=extmap:` lines: the pairs the line adds to
`result.videoExtensionMap`. -/
def parseExtmapLine (line : Str) : List (Nat × Str) :=
  let st : Nat × List (Nat × Str) :=
    forPieces (fun i s (st : Nat × List (Nat × Str)) =>
      if s.length = 0 then st
      else if i = 0 then (readUInt32 s, st.2)
      else if i = 1 then
        if st.1 ≠ 0 then (st.1, st.2 ++ [(st.1, s)]) else st
      else st) 0 (getlineAll ' ' line) (0, [])
  st.2

/-- The part of `parseSdpIntoJoinPayload` that follows the split of the lines
into `audioLines` and `videoLines`. -/
def parseSections (audioLines videoLines : List Str) : Option GroupJoinPayload :=
  let ufragLines := getLines audioLines "a=ice-ufrag:".toList
  if ufragLines.length ≠ 1 then none
  else
    let pwdLines := getLines audioLines "a=ice-pwd:".toList
    if pwdLines.length ≠ 1 then none
    else
      some {
        ssrc := 0
        ufrag := ufragLines.headD []
        pwd := pwdLines.headD []
        fingerprints :=
          (getLines audioLines "a=fingerprint:".toList).filterMap parseFingerprintLine
        videoPayloadTypes :=
          (getLines videoLines "a=rtpmap:".toList).flatMap (parseRtpmapLine videoLines)
        videoExtensionMap :=
          (getLines videoLines "a=extmap:".toList).flatMap parseExtmapLine
        videoSourceGroups :=
          (getLines videoLines "a=ssrc-group:FID ".toList).map
              (fun line => { semantics := "FID".toList, ssrcs := splitSsrcList line }) ++
          (getLines videoLines "a=ssrc-group:SIM ".toList).map
              (fun line => { semantics := "SIM".toList, ssrcs := splitSsrcList line }) }

/-- `parseSdpIntoJoinPayload`. -/
def parseSdpIntoJoinPayload (sdp : Str) : Option GroupJoinPayload :=
  let lines := splitSdpLines sdp
  let sections := splitAudioVideo false lines
  parseSections sections.1 sections.2

/-! ## Encoding: `createSdp` and `parseJoinResponseIntoSdp` -/

/-- The entry `createSdp` writes for a stream on the `a=group:BUNDLE` line
(first loop over `bundleStreams`). -/
def bundleEntry (stream : StreamSpec) : Str :=
  if stream.isOutgoing then
    if stream.videoPayloadTypes.length = 0 then "0".toList else "1".toList
  else if stream.videoPayloadTypes.length = 0 then
    "audio".toList ++ showUInt stream.streamId
  else
    "video".toList ++ showUInt stream.streamId

/-- The string `streamMidString` that `createSdp` builds for a stream
(second loop over `bundleStreams`). -/
def streamMidString (stream : StreamSpec) : Str :=
  if stream.isOutgoing then
    if stream.videoPayloadTypes.length = 0 then "0".toList else "1".toList
  else if stream.videoPayloadTypes.length = 0 then
    "audio".toList ++ showUInt stream.streamId
  else
    "video".toList ++ showUInt stream.streamId

/-- The string `mLineString` of a stream. -/
def mLineString (stream : StreamSpec) : Str :=
  (if stream.videoPayloadTypes.length = 0 then "m=audio ".toList else "m=video ".toList) ++
  (if stream.isMain then "1".toList else "0".toList) ++
  (if stream.videoPayloadTypes.length = 0 then " RTP/SAVPF 111 126".toList
   else " RTP/SAVPF".toList ++
     stream.videoPayloadTypes.flatMap (fun it => " ".toList ++ showUInt it.id))

/-- The string `candidateString` of a candidate. -/
def candidateString (candidate : GroupJoinResponseCandidate) : Str :=
  "a=candidate:".toList ++ candidate.foundation ++ " ".toList ++ candidate.component ++
  " ".toList ++ candidate.protocol ++ " ".toList ++ candidate.priority ++ " ".toList ++
  candidate.ip ++ " ".toList ++ candidate.port ++ " ".toList ++ "typ ".toList ++
  candidate.type ++ " ".toList ++
  (if candidate.type = "srflx".toList ∨ candidate.type = "prflx".toList ∨
      candidate.type = "relay".toList then
    if candidate.relAddr.length ≠ 0 ∧ candidate.relPort.length ≠ 0 then
      "raddr ".toList ++ candidate.relAddr ++ " ".toList ++ "rport ".toList ++
      candidate.relPort ++ " ".toList
    else []
   else []) ++
  (if candidate.protocol = "tcp".toList then
    if candidate.tcpType.length ≠ 0 then
      "tcptype ".toList ++ candidate.tcpType ++ " ".toList
    else []
   else []) ++
  "generation ".toList ++ candidate.generation

/-- The lines `createSdp` appends for the main stream after its `a=mid:`
line: credentials, fingerprints and candidates. -/
def mainTransportLines (payload : GroupJoinResponsePayload) : List Str :=
  [ "a=ice-ufrag:".toList ++ payload.ufrag,
    "a=ice-pwd:".toList ++ payload.pwd ] ++
  payload.fingerprints.flatMap (fun fingerprint =>
    [ "a=fingerprint:".toList ++ fingerprint.hash ++ " ".toList ++ fingerprint.fingerprint,
      "a=setup:passive".toList ]) ++
  payload.candidates.map candidateString

/-- The four `a=ssrc:` lines of one source identifier; `kind` is `audio` or
`video`. -/
def ssrcLines (kind : Str) (ssrc streamId : Nat) : List Str :=
  [ "a=ssrc:".toList ++ showUInt ssrc ++ " cname:stream".toList ++ showUInt streamId,
    "a=ssrc:".toList ++ showUInt ssrc ++ " msid:stream".toList ++ showUInt streamId ++
      " ".toList ++ kind ++ showUInt streamId,
    "a=ssrc:".toList ++ showUInt ssrc ++ " mslabel:".toList ++ kind ++ showUInt streamId,
    "a=ssrc:".toList ++ showUInt ssrc ++ " label:".toList ++ kind ++ showUInt streamId ]

/-- The lines of a stream without video payload types (branch
`stream.videoPayloadTypes.size() == 0`). -/
def audioContentLines (isAnswer : Bool) (stream : StreamSpec) : List Str :=
  [ "a=rtpmap:111 opus/48000/2".toList,
    "a=rtpmap:126 telephone-event/8000".toList,
    "a=fmtp:111 minptime=10; useinbandfec=1".toList,
    "a=rtcp:1 IN IP4 0.0.0.0".toList,
    "a=rtcp-mux".toList,
    "a=extmap:1 urn:ietf:params:rtp-hdrext:ssrc-audio-level".toList,
    "a=extmap:3 http://www.webrtc.org/experiments/rtp-hdrext/abs-send-time".toList,
    "a=extmap:5 http://www.ietf.org/id/draft-holmer-rmcat-transport-wide-cc-extensions-01".toList,
    "a=rtcp-fb:111 transport-cc".toList ] ++
  (if isAnswer && stream.isMain then [ "a=recvonly".toList ]
   else
    (if stream.isMain then [ "a=sendrecv".toList ]
     else [ "a=sendonly".toList, "a=bundle-only".toList ]) ++
    (if stream.isRemoved then [ "a=inactive".toList ]
     else ssrcLines "audio".toList stream.ssrc stream.streamId))

/-- The `key=value` list of an `a=fmtp:` line, from index `i` on. -/
def fmtpParameters : Nat → List (Str × Str) → Str
  | _, [] => []
  | i, p :: rest =>
    (if i ≠ 0 then ";".toList else []) ++ p.1 ++ "=".toList ++ p.2 ++
      fmtpParameters (i + 1) rest

/-- The lines of one video payload type: `a=rtpmap:`, its `a=rtcp-fb:` lines
and, when it has parameters, its `a=fmtp:` line. -/
def payloadTypeLines (it : GroupJoinPayloadVideoPayloadType) : List Str :=
  [ "a=rtpmap:".toList ++ showUInt it.id ++ " ".toList ++ it.name ++ "/".toList ++
      showUInt it.clockrate ++
      (if it.channels ≠ 0 then "/".toList ++ showUInt it.channels else []) ] ++
  it.feedbackTypes.map (fun feedbackType =>
    "a=rtcp-fb:".toList ++ showUInt it.id ++ " ".toList ++ feedbackType.type ++
      (if feedbackType.subtype.length ≠ 0 then " ".toList ++ feedbackType.subtype else [])) ++
  (if it.parameters.length ≠ 0 then
    [ "a=fmtp:".toList ++ showUInt it.id ++ " ".toList ++ fmtpParameters 0 it.parameters ]
   else [])

/-- The line `a=ssrc-group:` of a source group. -/
def ssrcGroupLine (group : GroupJoinPayloadVideoSourceGroup) : Str :=
  "a=ssrc-group:".toList ++ group.semantics ++
    group.ssrcs.flatMap (fun ssrc => " ".toList ++ showUInt ssrc)

/-- The vector `ssrcs` collected over the source groups: every source
identifier once, in the order of first occurrence. -/
def collectSsrcs (groups : List GroupJoinPayloadVideoSourceGroup) : List Nat :=
  groups.foldl (fun ssrcs group =>
    group.ssrcs.foldl (fun ssrcs ssrc =>
      if ssrc ∈ ssrcs then ssrcs else ssrcs ++ [ssrc]) ssrcs) []

/-- The lines of a stream with video payload types. -/
def videoContentLines (isAnswer : Bool) (stream : StreamSpec) : List Str :=
  [ "a=rtcp:1 IN IP4 0.0.0.0".toList, "a=rtcp-mux".toList ] ++
  stream.videoPayloadTypes.flatMap payloadTypeLines ++
  stream.videoExtensionMap.map (fun it =>
    "a=extmap:".toList ++ showUInt it.1 ++ " ".toList ++ it.2) ++
  (if isAnswer && stream.isOutgoing then [ "a=recvonly".toList, "a=bundle-only".toList ]
   else
    [ "a=sendonly".toList, "a=bundle-only".toList ] ++
    (if stream.isRemoved then [ "a=inactive".toList ]
     else
      stream.videoSourceGroups.map ssrcGroupLine ++
      (collectSsrcs stream.videoSourceGroups).flatMap (fun ssrc =>
        ssrcLines "video".toList ssrc stream.streamId)))

/-- The lines `createSdp` appends for one stream (body of its second loop). -/
def streamLines (payload : GroupJoinResponsePayload) (isAnswer : Bool)
    (stream : StreamSpec) : List Str :=
  [ mLineString stream ] ++
  (if stream.isMain then [ "c=IN IP4 0.0.0.0".toList ] else []) ++
  [ "a=mid:".toList ++ streamMidString stream ] ++
  (if stream.isMain then mainTransportLines payload else []) ++
  (if stream.videoPayloadTypes.length = 0 then audioContentLines isAnswer stream
   else videoContentLines isAnswer stream)

/-- The string `bundleString` of `createSdp`. -/
def bundleString (bundleStreams : List StreamSpec) : Str :=
  "a=group:BUNDLE".toList ++
    bundleStreams.flatMap (fun stream => " ".toList ++ bundleEntry stream)

/-- The vector `sdp` of lines that `createSdp` builds. -/
def createSdpLines (sessionId : Nat) (payload : GroupJoinResponsePayload) (isAnswer : Bool)
    (bundleStreams : List StreamSpec) : List Str :=
  [ "v=0".toList,
    "o=- ".toList ++ showUInt sessionId ++ " 2 IN IP4 0.0.0.0".toList,
    "s=-".toList,
    "t=0 0".toList,
    bundleString bundleStreams,
    "a=ice-lite".toList ] ++
  bundleStreams.flatMap (streamLines payload isAnswer)

/-- `createSdp`: every line of the vector followed by a line feed. -/
def createSdp (sessionId : Nat) (payload : GroupJoinResponsePayload) (isAnswer : Bool)
    (bundleStreams : List StreamSpec) : Str :=
  (createSdpLines sessionId payload isAnswer bundleStreams).flatMap
    (fun line => line ++ "\n".toList)

/-- The element `videoSourceGroups[0].ssrcs[0]`, `none` when an index is out
of range. -/
def firstVideoSsrc (videoSourceGroups : List GroupJoinPayloadVideoSourceGroup) : Option Nat :=
  match videoSourceGroups with
  | [] => none
  | group :: _ =>
    match group.ssrcs with
    | [] => none
    | ssrc :: _ => some ssrc

/-- The stream `mainStream` of `parseJoinResponseIntoSdp`: the outgoing audio. -/
def mainStream (joinPayload : GroupJoinPayload) : StreamSpec :=
  { isMain := true, isOutgoing := true, streamId := 0, ssrc := joinPayload.ssrc,
    videoSourceGroups := [], videoPayloadTypes := [], videoExtensionMap := [],
    isRemoved := false }

/-- The stream `mainVideoStream` of `parseJoinResponseIntoSdp`: the outgoing
video; `ssrc` is `joinPayload.videoSourceGroups[0].ssrcs[0]`. -/
def mainVideoStream (joinPayload : GroupJoinPayload) (ssrc : Nat) : StreamSpec :=
  { isMain := false, isOutgoing := true, streamId := ssrc, ssrc := ssrc,
    videoSourceGroups := joinPayload.videoSourceGroups,
    videoPayloadTypes := joinPayload.videoPayloadTypes,
    videoExtensionMap := joinPayload.videoExtensionMap,
    isRemoved := false }

/-- The streams `parseJoinResponseIntoSdp` adds for the outgoing side. -/
def outgoingStreams (joinPayload : GroupJoinPayload) : Option (List StreamSpec) :=
  if joinPayload.videoSourceGroups.length ≠ 0 then
    match firstVideoSsrc joinPayload.videoSourceGroups with
    | none => none
    | some ssrc => some [ mainStream joinPayload, mainVideoStream joinPayload ssrc ]
  else some [ mainStream joinPayload ]

/-- The streams `parseJoinResponseIntoSdp` adds for one participant. -/
def participantStreams (participant : GroupParticipantDescription) : Option (List StreamSpec) :=
  let audioStream : StreamSpec :=
    { isMain := false, isOutgoing := false, streamId := participant.audioSsrc,
      ssrc := participant.audioSsrc, videoSourceGroups := [], videoPayloadTypes := [],
      videoExtensionMap := [], isRemoved := false }
  if participant.videoPayloadTypes.length ≠ 0 then
    match firstVideoSsrc participant.videoSourceGroups with
    | none => none
    | some ssrc =>
      some [ audioStream,
        { isMain := false, isOutgoing := false, streamId := ssrc, ssrc := ssrc,
          videoSourceGroups := participant.videoSourceGroups,
          videoPayloadTypes := participant.videoPayloadTypes,
          videoExtensionMap := participant.videoExtensionMap,
          isRemoved := false } ]
  else some [ audioStream ]

/-- The loop of `parseJoinResponseIntoSdp` over `allOtherParticipants`. -/
def allParticipantStreams : List GroupParticipantDescription → Option (List StreamSpec)
  | [] => some []
  | participant :: rest =>
    match participantStreams participant with
    | none => none
    | some streams =>
      match allParticipantStreams rest with
      | none => none
      | some more => some (streams ++ more)

/-- The vector `bundleStreams` of `parseJoinResponseIntoSdp`. -/
def joinResponseStreams (joinPayload : GroupJoinPayload)
    (allOtherParticipants : List GroupParticipantDescription) : Option (List StreamSpec) :=
  match outgoingStreams joinPayload with
  | none => none
  | some outgoing =>
    match allParticipantStreams allOtherParticipants with
    | none => none
    | some others => some (outgoing ++ others)

/-- `parseJoinResponseIntoSdp`; `none` stands for an out-of-range read of
`videoSourceGroups[0].ssrcs[0]`. -/
def parseJoinResponseIntoSdp (sessionId : Nat) (joinPayload : GroupJoinPayload)
    (payload : GroupJoinResponsePayload) (isAnswer : Bool)
    (allOtherParticipants : List GroupParticipantDescription) : Option Str :=
  match joinResponseStreams joinPayload allOtherParticipants with
  | none => none
  | some bundleStreams => some (createSdp sessionId payload isAnswer bundleStreams)

/-! ## Auxiliary notions used to state and prove the properties -/

/-- Some text of `heads` starts the line. -/
def hasHead (heads : List Str) (l : Str) : Bool :=
  heads.any (fun t => t.isPrefixOf l)

/-- Neither text starts the other one. -/
def clash (p t : Str) : Bool :=
  !(p.isPrefixOf t) && !(t.isPrefixOf p)

/-- The fixed beginnings of the lines of `mainTransportLines`. -/
def transportHeads : List Str :=
  [ "a=ice-ufrag:".toList, "a=ice-pwd:".toList, "a=fingerprint:".toList,
    "a=setup:passive".toList, "a=candidate:".toList ]

/-- The fixed beginnings of the lines of `audioContentLines` and
`videoContentLines`. -/
def contentHeads : List Str :=
  [ "a=rtpmap:".toList, "a=fmtp:".toList, "a=rtcp:".toList, "a=rtcp-mux".toList,
    "a=extmap:".toList, "a=rtcp-fb:".toList, "a=recvonly".toList, "a=sendrecv".toList,
    "a=sendonly".toList, "a=bundle-only".toList, "a=inactive".toList,
    "a=ssrc-group:".toList, "a=ssrc:".toList ]

/-- The fixed beginnings of the lines of a stream after its `m=` line. -/
def bodyHeads : List Str :=
  [ "c=IN".toList, "a=mid:".toList ] ++ transportHeads ++ contentHeads

/-- The content identifier scheme in the words of the specification: an
outgoing stream is `0` when it is audio and `1` when it is video; the stream
of a remote participant is `audio` or `video` followed by its decimal source
identifier. -/
def contentIdentifier (isOutgoing isAudio : Bool) (sourceId : Nat) : Str :=
  if isOutgoing then (if isAudio then "0".toList else "1".toList)
  else (if isAudio then "audio".toList else "video".toList) ++ showUInt sourceId

/-- The content block that `createSdp` writes for the stream is an `m=audio`
block. -/
def isAudioContent (stream : StreamSpec) : Bool :=
  "m=audio".toList.isPrefixOf (mLineString stream)

/-! ## Concrete inputs used to instantiate the properties -/

/-- A join payload with one video payload type and one source group. -/
def exampleJoinPayload : GroupJoinPayload :=
  { ufrag := [], pwd := [], fingerprints := [], ssrc := 5,
    videoExtensionMap := [(2, "urn:x".toList)],
    videoSourceGroups := [ { semantics := "FID".toList, ssrcs := [1, 3] } ],
    videoPayloadTypes :=
      [ { id := 100, name := "VP8".toList, clockrate := 90000, channels := 0,
          feedbackTypes := [ { type := "nack".toList, subtype := "pli".toList } ],
          parameters := [("x".toList, "y".toList)] } ] }

/-- A join response payload with one fingerprint and one candidate. -/
def exampleResponse : GroupJoinResponsePayload :=
  { ufrag := "uf".toList, pwd := "pw".toList,
    fingerprints :=
      [ { hash := "sha-256".toList, setup := "passive".toList,
          fingerprint := "AA:BB".toList } ],
    candidates :=
      [ { port := "1".toList, protocol := "udp".toList, generation := "0".toList,
          component := "1".toList, foundation := "f".toList, priority := "9".toList,
          ip := "1.2.3.4".toList, type := "host".toList, tcpType := [], relAddr := [],
          relPort := [] } ] }

/-- One audio-only remote participant. -/
def exampleParticipants : List GroupParticipantDescription :=
  [ { audioSsrc := 111, videoPayloadTypes := [], videoExtensionMap := [],
      videoSourceGroups := [] } ]

/-- The streams of `exampleJoinPayload` and `exampleParticipants`. -/
def exampleStreams : List StreamSpec :=
  [ mainStream exampleJoinPayload,
    mainVideoStream exampleJoinPayload 1,
    { isMain := false, isOutgoing := false, streamId := 111, ssrc := 111,
      videoSourceGroups := [], videoPayloadTypes := [], videoExtensionMap := [],
      isRemoved := false } ]

/-! ## Content blocks of a text, in the words of the specification -/

/-- The line opens a content block: it starts with `m=audio` or `m=video`. -/
def isMediaLine (l : Str) : Bool :=
  "m=audio".toList.isPrefixOf l || "m=video".toList.isPrefixOf l

/-- The lines cut into the session-level lines, which precede the first `m=`
line, and the content blocks, each of which starts at its `m=` line and runs
to the next one. -/
def contentBlocks : List Str → List Str × List (List Str)
  | [] => ([], [])
  | l :: rest =>
    let r := contentBlocks rest
    if isMediaLine l then ([], (l :: r.1) :: r.2) else (l :: r.1, r.2)

/-- The block is an `m=audio` block. -/
def isAudioBlock (block : List Str) : Bool :=
  match block with
  | [] => false
  | l :: _ => "m=audio".toList.isPrefixOf l

/-- The `m=audio` content blocks of a text. -/
def audioBlocks (sdp : Str) : List (List Str) :=
  (contentBlocks (splitSdpLines sdp)).2.filter isAudioBlock

/-- The number of lines that start with `pfx`. -/
def countLines (lines : List Str) (pfx : Str) : Nat :=
  (lines.filter (fun l => pfx.isPrefixOf l)).length

/-- A position of a text is a line start: the part of the text in front of it
is empty or ends with a line feed. -/
def atLineStart (before : Str) : Bool :=
  match before.getLast? with
  | none => true
  | some c => c = '\n'

/-- The beginnings of lines that `parseSdpIntoJoinPayload` looks for, as the
specification lists them. -/
def recognisedHeads : List Str :=
  [ "m=audio".toList, "m=video".toList, "a=ice-ufrag:".toList, "a=ice-pwd:".toList,
    "a=fingerprint:".toList, "a=rtpmap:".toList, "a=rtcp-fb:".toList, "a=fmtp:".toList,
    "a=extmap:".toList, "a=ssrc-group:FID ".toList, "a=ssrc-group:SIM ".toList ]

/-- The part of `parseSdpIntoJoinPayload` that follows `splitSdpLines`. -/
def parseLines (lines : List Str) : Option GroupJoinPayload :=
  parseSections (splitAudioVideo false lines).1 (splitAudioVideo false lines).2

/-- The beginnings of lines whose every occurrence takes part in the result
of `parseSections`. -/
def exactHeads : List Str :=
  [ "a=ice-ufrag:".toList, "a=ice-pwd:".toList, "a=rtcp-fb:".toList, "a=fmtp:".toList,
    "a=ssrc-group:FID ".toList, "a=ssrc-group:SIM ".toList ]

/-- The beginnings of lines that `parseSections` drops when nothing follows
them on the line. -/
def skipHeads : List Str :=
  [ "a=fingerprint:".toList, "a=rtpmap:".toList, "a=extmap:".toList ]

/-- The line has no effect on the result of `parseLines`: it opens no content
block, starts with none of `exactHeads`, and either starts with none of
`skipHeads` or is exactly one of them. -/
def ignorable (x : Str) : Bool :=
  !isMediaLine x && exactHeads.all (fun p => !p.isPrefixOf x) &&
    skipHeads.all (fun p => !p.isPrefixOf x || x == p)

/-! ## Well-formed inputs of the encoder -/

/-- The string holds no line break: neither a line feed nor a carriage
return. -/
def noLineBreak (s : Str) : Bool :=
  s.all (fun c => c != '\n' && c != '\r')

/-- The string is not empty and holds no space and no line break. -/
def isToken (s : Str) : Bool :=
  s.length != 0 && s.all (fun c => c != ' ' && c != '\n' && c != '\r')

/-- The number fits `uint32_t`. -/
def isUInt32 (v : Nat) : Bool := decide (v < 4294967296)

/-- No string of the candidate that `createSdp` writes holds a line break. -/
def candidateNoLineBreak (c : GroupJoinResponseCandidate) : Bool :=
  noLineBreak c.foundation && noLineBreak c.component && noLineBreak c.protocol &&
  noLineBreak c.priority && noLineBreak c.ip && noLineBreak c.port && noLineBreak c.type &&
  noLineBreak c.relAddr && noLineBreak c.relPort && noLineBreak c.tcpType &&
  noLineBreak c.generation

/-- No string of the response payload holds a line break. -/
def responseNoLineBreak (payload : GroupJoinResponsePayload) : Bool :=
  noLineBreak payload.ufrag && noLineBreak payload.pwd &&
  payload.fingerprints.all (fun f => noLineBreak f.hash && noLineBreak f.fingerprint) &&
  payload.candidates.all candidateNoLineBreak

/-- No string of the video payload type holds a line break. -/
def payloadTypeNoLineBreak (it : GroupJoinPayloadVideoPayloadType) : Bool :=
  noLineBreak it.name &&
  it.feedbackTypes.all (fun f => noLineBreak f.type && noLineBreak f.subtype) &&
  it.parameters.all (fun p => noLineBreak p.1 && noLineBreak p.2)

/-- No string of a video description holds a line break. -/
def videoNoLineBreak (videoSourceGroups : List GroupJoinPayloadVideoSourceGroup)
    (videoPayloadTypes : List GroupJoinPayloadVideoPayloadType)
    (videoExtensionMap : List (Nat × Str)) : Bool :=
  videoSourceGroups.all (fun g => noLineBreak g.semantics) &&
  videoPayloadTypes.all payloadTypeNoLineBreak &&
  videoExtensionMap.all (fun e => noLineBreak e.2)

/-- No string of the stream holds a line break. -/
def streamNoLineBreak (stream : StreamSpec) : Bool :=
  videoNoLineBreak stream.videoSourceGroups stream.videoPayloadTypes stream.videoExtensionMap

/-- No string of the join payload that the encoder writes holds a line
break. -/
def joinPayloadNoLineBreak (joinPayload : GroupJoinPayload) : Bool :=
  videoNoLineBreak joinPayload.videoSourceGroups joinPayload.videoPayloadTypes
    joinPayload.videoExtensionMap

/-- No string of the participant holds a line break. -/
def participantNoLineBreak (participant : GroupParticipantDescription) : Bool :=
  videoNoLineBreak participant.videoSourceGroups participant.videoPayloadTypes
    participant.videoExtensionMap

/-- A line that `splitSdpLines` reads back unchanged: not empty and without
line break. -/
def lineOk (l : Str) : Bool :=
  l.length != 0 && noLineBreak l

/-- The response payload of the counterexample to the round trip of the
credentials: the last field of its candidate holds a line feed. -/
def responseWithLineFeed : GroupJoinResponsePayload :=
  { ufrag := "uf".toList, pwd := "pw".toList, fingerprints := [],
    candidates :=
      [ { port := "1".toList, protocol := "udp".toList,
          generation := "0\na=ice-ufrag:zz".toList,
          component := "1".toList, foundation := "f".toList, priority := "9".toList,
          ip := "1.2.3.4".toList, type := "host".toList, tcpType := [], relAddr := [],
          relPort := [] } ] }

/-- A join payload without video. -/
def audioOnlyJoinPayload : GroupJoinPayload :=
  { ufrag := [], pwd := [], fingerprints := [], ssrc := 5, videoExtensionMap := [],
    videoSourceGroups := [], videoPayloadTypes := [] }

/-! ## Round trip of the video description: conditions and expected values -/

/-- The string holds no space and no line break. -/
def noSpaceNoBreak (s : Str) : Bool :=
  s.all (fun c => c != ' ' && c != '\n' && c != '\r')

/-- The conditions of the round trip on a video payload type: a non-zero id,
a name that is not empty and holds no `/`, no space and no line break,
feedback types that are not empty and hold no space and no line break,
feedback subtypes that hold no space and no line break; the numbers fit
`uint32_t`. -/
def payloadTypeValid (it : GroupJoinPayloadVideoPayloadType) : Bool :=
  isUInt32 it.id && it.id != 0 && isUInt32 it.clockrate && isUInt32 it.channels &&
  isToken it.name && it.name.all (fun c => c != '/') &&
  it.feedbackTypes.all (fun f => isToken f.type && noSpaceNoBreak f.subtype)

/-- A key or a value of a format parameter that is read back: not empty, and
without `=`, `;` and line break. -/
def isParameterPart (s : Str) : Bool :=
  s.length != 0 && s.all (fun c => c != '=' && c != ';' && c != '\n' && c != '\r')

/-- The format parameters are a `key=value` list that is read back. -/
def parametersValid (parameters : List (Str × Str)) : Bool :=
  parameters.all (fun p => isParameterPart p.1 && isParameterPart p.2)

/-- The value that `createSdp` writes after `a=rtpmap:`. -/
def rtpmapValue (it : GroupJoinPayloadVideoPayloadType) : Str :=
  showUInt it.id ++ ' ' :: (it.name ++ '/' :: (showUInt it.clockrate ++
    (if it.channels ≠ 0 then '/' :: showUInt it.channels else [])))

/-- The value that `createSdp` writes after `a=rtcp-fb:<id> `. -/
def feedbackValue (f : GroupJoinPayloadVideoPayloadFeedbackType) : Str :=
  f.type ++ (if f.subtype.length ≠ 0 then ' ' :: f.subtype else [])

/-- The `a=fmtp:<id> ` values of a payload type: one when it has parameters. -/
def fmtpValues (it : GroupJoinPayloadVideoPayloadType) : List Str :=
  if it.parameters.length ≠ 0 then [fmtpParameters 0 it.parameters] else []

/-- The payload type as the decoder reads it back: everything as written,
the parameters read from the `a=fmtp:` line. -/
def decodedPayloadType (it : GroupJoinPayloadVideoPayloadType) :
    GroupJoinPayloadVideoPayloadType :=
  { id := it.id, name := it.name, clockrate := it.clockrate, channels := it.channels,
    feedbackTypes := it.feedbackTypes,
    parameters := (fmtpValues it).foldl (fun _ l => parsePayloadParameters l) [] }

/-- The conditions of the round trip on a source group: `FID` or `SIM`, with
source identifiers that fit `uint32_t`, at least one. -/
def sourceGroupValid (g : GroupJoinPayloadVideoSourceGroup) : Bool :=
  (g.semantics = "FID".toList || g.semantics = "SIM".toList) && g.ssrcs.length != 0 &&
  g.ssrcs.all isUInt32

/-- The fixed beginnings of the lines of `videoContentLines` that are not
lines of a payload type. -/
def videoOtherHeads : List Str :=
  [ "a=rtcp:".toList, "a=rtcp-mux".toList, "a=extmap:".toList, "a=recvonly".toList,
    "a=bundle-only".toList, "a=sendonly".toList, "a=inactive".toList,
    "a=ssrc-group:".toList, "a=ssrc:".toList ]

/-- The fixed beginnings of the lines of `videoContentLines` that are not
`a=ssrc-group:` lines. -/
def videoNoGroupHeads : List Str :=
  [ "a=rtcp:".toList, "a=rtcp-mux".toList, "a=rtpmap:".toList, "a=rtcp-fb:".toList,
    "a=fmtp:".toList, "a=extmap:".toList, "a=sendonly".toList, "a=bundle-only".toList,
    "a=ssrc:".toList ]

/-- The fixed beginnings of the lines in front of the streams. -/
def headerHeads : List Str :=
  [ "v=".toList, "o=".toList, "s=".toList, "t=".toList, "a=group:".toList,
    "a=ice-lite".toList ]

/-- The video lines of the text of `createSdp`: the lines in front of the
streams and the lines of the streams with video payload types. -/
def encodedVideoLines (sessionId : Nat) (payload : GroupJoinResponsePayload) (isAnswer : Bool)
    (streams : List StreamSpec) : List Str :=
  ["v=0".toList, "o=- ".toList ++ showUInt sessionId ++ " 2 IN IP4 0.0.0.0".toList,
    "s=-".toList, "t=0 0".toList, bundleString streams, "a=ice-lite".toList] ++
  (streams.filter (fun s => !isAudioContent s)).flatMap (streamLines payload isAnswer)

/-- A join payload whose parameter value holds a line feed followed by an
`a=rtpmap:` line: the counterexample to the round trip of the payload types. -/
def joinPayloadWithLineFeed : GroupJoinPayload :=
  { ufrag := [], pwd := [], fingerprints := [], ssrc := 5, videoExtensionMap := [],
    videoSourceGroups := [ { semantics := "FID".toList, ssrcs := [1, 3] } ],
    videoPayloadTypes :=
      [ { id := 100, name := "VP8".toList, clockrate := 90000, channels := 0,
          feedbackTypes := [],
          parameters := [("x".toList, "y\na=rtpmap:7 H264/90000".toList)] } ] }

/-- A join payload with a parameter value that holds `=`: the counterexample
to the round trip of the format parameters. -/
def joinPayloadWithEquals : GroupJoinPayload :=
  { ufrag := [], pwd := [], fingerprints := [], ssrc := 5, videoExtensionMap := [],
    videoSourceGroups := [ { semantics := "FID".toList, ssrcs := [1, 3] } ],
    videoPayloadTypes :=
      [ { id := 100, name := "H264".toList, clockrate := 90000, channels := 0,
          feedbackTypes := [],
          parameters := [("sprop-parameter-sets".toList, "Z0IAH5WoFAFuQA==".toList)] } ] }

/-- A join payload with a parameter-free payload type and an extension whose
URI holds a line feed followed by an `a=fmtp:` line. -/
def joinPayloadWithFmtpInUri : GroupJoinPayload :=
  { ufrag := [], pwd := [], fingerprints := [], ssrc := 5,
    videoExtensionMap := [(2, "urn:x\na=fmtp:100 k=v".toList)],
    videoSourceGroups := [ { semantics := "FID".toList, ssrcs := [1, 3] } ],
    videoPayloadTypes :=
      [ { id := 100, name := "VP8".toList, clockrate := 90000, channels := 0,
          feedbackTypes := [], parameters := [] } ] }

/-- A join payload whose `SIM` group precedes its `FID` group: the
counterexample to the round trip of the source groups. -/
def joinPayloadSimFirst : GroupJoinPayload :=
  { ufrag := [], pwd := [], fingerprints := [], ssrc := 5, videoExtensionMap := [],
    videoSourceGroups :=
      [ { semantics := "SIM".toList, ssrcs := [1, 2] },
        { semantics := "FID".toList, ssrcs := [1, 3] } ],
    videoPayloadTypes :=
      [ { id := 100, name := "VP8".toList, clockrate := 90000, channels := 0,
          feedbackTypes := [], parameters := [] } ] }

/-- A join payload with an extension whose URI holds a line feed followed by
an `a=ssrc-group:FID` line. -/
def joinPayloadWithGroupInUri : GroupJoinPayload :=
  { ufrag := [], pwd := [], fingerprints := [], ssrc := 5,
    videoExtensionMap := [(2, "urn:x\na=ssrc-group:FID 8 9".toList)],
    videoSourceGroups := [ { semantics := "FID".toList, ssrcs := [1, 3] } ],
    videoPayloadTypes :=
      [ { id := 100, name := "VP8".toList, clockrate := 90000, channels := 0,
          feedbackTypes := [], parameters := [] } ] }

/-! ## Concrete inputs for the properties of the encoder -/

/-- Two audio-only participants, inserted in the order `111`, `222`. -/
def twoAudioParticipants : List GroupParticipantDescription :=
  [ { audioSsrc := 111, videoPayloadTypes := [], videoExtensionMap := [],
      videoSourceGroups := [] },
    { audioSsrc := 222, videoPayloadTypes := [], videoExtensionMap := [],
      videoSourceGroups := [] } ]

/-- A participant whose extension URI holds a line feed followed by a
credential line: the counterexample to the credential lines being confined to
the main content block. -/
def participantWithCredentialLine : List GroupParticipantDescription :=
  [ { audioSsrc := 111,
      videoPayloadTypes :=
        [ { id := 100, name := "VP8".toList, clockrate := 90000, channels := 0,
            feedbackTypes := [], parameters := [] } ],
      videoExtensionMap := [(2, "urn:x\na=ice-ufrag:zz".toList)],
      videoSourceGroups := [ { semantics := "FID".toList, ssrcs := [7, 8] } ] } ]

/-! ## The candidate line, in the words of the specification -/

/-- The `a=candidate:` line as the specification describes it: the six leading
fields and `typ <type>`, then `raddr <relAddr> rport <relPort>` exactly when
the type is `srflx`, `prflx` or `relay` and both values are non-empty, then
`tcptype <tcpType>` exactly when the protocol is `tcp` and the value is
non-empty, then `generation <generation>`. -/
def candidateLineFormat (c : GroupJoinResponseCandidate) : Str :=
  "a=candidate:".toList ++ c.foundation ++ " ".toList ++ c.component ++ " ".toList ++
  c.protocol ++ " ".toList ++ c.priority ++ " ".toList ++ c.ip ++ " ".toList ++ c.port ++
  " typ ".toList ++ c.type ++ " ".toList ++
  (if (c.type = "srflx".toList ∨ c.type = "prflx".toList ∨ c.type = "relay".toList) ∧
      c.relAddr ≠ [] ∧ c.relPort ≠ [] then
    "raddr ".toList ++ c.relAddr ++ " rport ".toList ++ c.relPort ++ " ".toList
   else []) ++
  (if c.protocol = "tcp".toList ∧ c.tcpType ≠ [] then
    "tcptype ".toList ++ c.tcpType ++ " ".toList
   else []) ++
  "generation ".toList ++ c.generation

/-! ## The group call manager (`GroupInstanceManager`)

Conventions of this part of the embedding:
* the manager is a record of its member variables, and a member function maps
  the record to the record after the call; `none` means that the call has no
  defined result: an out-of-range read in `parseJoinResponseIntoSdp`, a failed
  `assert`, or an overflow of the `int` counter;
* the calls of the manager into the transport library and the application, and
  the tasks it posts, are appended to the member `effects`;
* `webrtc::CreateSessionDescription` belongs to the transport library: it is a
  parameter, `true` when it returns a description;
* `rtc::TimeMillis()` is the parameter `now`, one value per task (the clock
  does not advance while a task runs); millisecond timestamps are integers;
* a `std::set<uint32_t>` is the list of its elements in ascending order. -/

/-- The loop of `adjustLocalDescription` over the lines, from the given value
of `foundAudio` on: what it writes to `result`. Every line is written back
followed by a line feed, and `b=AS:32` is written after the first line that
starts with `c=IN `. -/
def adjustLines : Bool → List Str → Str
  | _, [] => []
  | foundAudio, it :: rest =>
    it ++ "\n".toList ++
      (if !foundAudio && "c=IN ".toList.isPrefixOf it then
        "b=AS:".toList ++ showUInt 32 ++ "\n".toList ++ adjustLines true rest
       else adjustLines foundAudio rest)

/-- `adjustLocalDescription`: the loop over the lines of `split(sdp, '\n')`. -/
def adjustLocalDescription (sdp : Str) : Str :=
  adjustLines false (getlineAll '\n' sdp)

/-- A call of the manager into its environment, or a task it posts. -/
inductive GroupManagerEffect where
  /-- The call `_peerConnection->SetRemoteDescription(observer, sessionDescription)`:
  the type and text the description was created from, and the flags its
  observer holds. -/
  | setRemoteDescription (type sdp : Str)
      (isInitialJoinAnswer isAnswer completeMissingSsrcSetup : Bool)
  /-- The call `_networkStateUpdated(isConnected)`. -/
  | networkStateUpdated (isConnected : Bool)
  /-- The task posted by `updateIsConnected`, with the `taskId` it holds. -/
  | postIsConnectedCheck (taskId : Int) (delayMs : Nat)
  /-- The task posted by `beginProcessingMissingSsrcs`. -/
  | postApplyMissingSsrcs (delayMs : Nat)
deriving DecidableEq

/-- The member variables of `GroupInstanceManager` that the negotiation, the
orphan-source recovery and the connection state use. -/
structure GroupInstanceManager where
  sessionId : Nat
  joinPayload : Option GroupJoinPayload
  joinResponsePayload : Option GroupJoinResponsePayload
  appliedOfferTimestamp : Int
  isConnected : Bool
  isConnectedUpdateValidTaskId : Int
  allOtherParticipants : List GroupParticipantDescription
  processedMissingSsrcs : List Nat
  missingSsrcsProcessedTimestamp : Int
  isProcessingMissingSsrcs : Bool
  missingSsrcQueue : List Nat
  appliedRemoteRescription : Str
  effects : List GroupManagerEffect
deriving DecidableEq

/-- The manager after construction (the member initialisers). -/
def newGroupInstanceManager : GroupInstanceManager :=
  { sessionId := 6543245, joinPayload := none, joinResponsePayload := none,
    appliedOfferTimestamp := 0, isConnected := false, isConnectedUpdateValidTaskId := 0,
    allOtherParticipants := [], processedMissingSsrcs := [],
    missingSsrcsProcessedTimestamp := 0, isProcessingMissingSsrcs := false,
    missingSsrcQueue := [], appliedRemoteRescription := [], effects := [] }

/-- The body of `completeProcessingMissingSsrcs`; the parameter is its call of
`beginProcessingMissingSsrcs`. -/
def completeProcessingMissingSsrcsBody
    (beginProcessingMissingSsrcs : GroupInstanceManager → Option GroupInstanceManager)
    (now : Int) (self : GroupInstanceManager) : Option GroupInstanceManager :=
  if self.isProcessingMissingSsrcs = false then none
  else
    let self := { self with isProcessingMissingSsrcs := false,
                            missingSsrcsProcessedTimestamp := now }
    if self.missingSsrcQueue.length ≠ 0 then beginProcessingMissingSsrcs self
    else some self

/-- The body of `setOfferSdp`; the first parameter is its call of
`completeProcessingMissingSsrcs`. The observer callbacks run in later tasks. -/
def setOfferSdpBody
    (completeProcessingMissingSsrcs : GroupInstanceManager → Option GroupInstanceManager)
    (createSessionDescription : Str → Str → Bool) (now : Int) (offerSdp : Str)
    (isInitialJoinAnswer isAnswer completeMissingSsrcSetup : Bool)
    (self : GroupInstanceManager) : Option GroupInstanceManager :=
  if isAnswer = false ∧ self.appliedRemoteRescription = offerSdp then
    if completeMissingSsrcSetup then completeProcessingMissingSsrcs self else some self
  else
    let self := { self with appliedRemoteRescription := offerSdp }
    if createSessionDescription (if isAnswer then "answer".toList else "offer".toList)
        (adjustLocalDescription offerSdp) = false then
      if completeMissingSsrcSetup then completeProcessingMissingSsrcs self else some self
    else
      let self := if isAnswer = false then { self with appliedOfferTimestamp := now } else self
      some { self with effects := self.effects ++
        [ GroupManagerEffect.setRemoteDescription
            (if isAnswer then "answer".toList else "offer".toList)
            (adjustLocalDescription offerSdp)
            isInitialJoinAnswer isAnswer completeMissingSsrcSetup ] }

/-- The loop of `addParticipantsInternal` over `participants`: a participant
whose `audioSsrc` is found in `_allOtherParticipants` is skipped, any other one
is pushed back. -/
def pushNewParticipants (allOtherParticipants participants : List GroupParticipantDescription) :
    List GroupParticipantDescription :=
  participants.foldl (fun all participant =>
    if all.any (fun other => other.audioSsrc = participant.audioSsrc) then all
    else all ++ [participant]) allOtherParticipants

/-- The body of `addParticipantsInternal`; the first parameter is its call of
`completeProcessingMissingSsrcs`. -/
def addParticipantsInternalBody
    (completeProcessingMissingSsrcs : GroupInstanceManager → Option GroupInstanceManager)
    (createSessionDescription : Str → Str → Bool) (now : Int)
    (participants : List GroupParticipantDescription) (completeMissingSsrcSetup : Bool)
    (self : GroupInstanceManager) : Option GroupInstanceManager :=
  match self.joinPayload, self.joinResponsePayload with
  | some joinPayload, some joinResponsePayload =>
    let allOtherParticipants := pushNewParticipants self.allOtherParticipants participants
    let self := { self with allOtherParticipants := allOtherParticipants }
    match parseJoinResponseIntoSdp self.sessionId joinPayload joinResponsePayload false
        self.allOtherParticipants with
    | none => none
    | some sdp =>
      setOfferSdpBody completeProcessingMissingSsrcs createSessionDescription now sdp
        false false completeMissingSsrcSetup self
  | _, _ =>
    if completeMissingSsrcSetup then completeProcessingMissingSsrcs self else some self

/-- The body of `applyMissingSsrcs`; the first parameter is its call of
`completeProcessingMissingSsrcs`. A default-constructed participant has no
video description. -/
def applyMissingSsrcsBody
    (completeProcessingMissingSsrcs : GroupInstanceManager → Option GroupInstanceManager)
    (createSessionDescription : Str → Str → Bool) (now : Int)
    (self : GroupInstanceManager) : Option GroupInstanceManager :=
  if self.isProcessingMissingSsrcs = false then none
  else if self.missingSsrcQueue.length = 0 then completeProcessingMissingSsrcs self
  else
    let addParticipants : List GroupParticipantDescription :=
      self.missingSsrcQueue.map (fun ssrc =>
        { audioSsrc := ssrc, videoPayloadTypes := [], videoExtensionMap := [],
          videoSourceGroups := [] })
    let self := { self with missingSsrcQueue := [] }
    addParticipantsInternalBody completeProcessingMissingSsrcs createSessionDescription now
      addParticipants true self

/-- The body of `beginProcessingMissingSsrcs`; the first parameter is its call
of `applyMissingSsrcs`. -/
def beginProcessingMissingSsrcsBody
    (applyMissingSsrcs : GroupInstanceManager → Option GroupInstanceManager)
    (now : Int) (self : GroupInstanceManager) : Option GroupInstanceManager :=
  if self.isProcessingMissingSsrcs then some self
  else
    let self := { self with isProcessingMissingSsrcs := true }
    let timestamp := now
    if timestamp > self.missingSsrcsProcessedTimestamp + 200 then applyMissingSsrcs self
    else some { self with effects := self.effects ++ [ GroupManagerEffect.postApplyMissingSsrcs 200 ] }

/-- `beginProcessingMissingSsrcs`, which calls `applyMissingSsrcs`, which calls
`completeProcessingMissingSsrcs`, which calls `beginProcessingMissingSsrcs`:
`fuel` bounds the depth of this recursion, and `none` is also the result when
it runs out. -/
def beginProcessingMissingSsrcs (createSessionDescription : Str → Str → Bool) (now : Int) :
    Nat → GroupInstanceManager → Option GroupInstanceManager
  | 0, _ => none
  | fuel + 1, self =>
    beginProcessingMissingSsrcsBody
      (applyMissingSsrcsBody
        (completeProcessingMissingSsrcsBody
          (fun next => beginProcessingMissingSsrcs createSessionDescription now fuel next) now)
        createSessionDescription now)
      now self

/-- `completeProcessingMissingSsrcs`. -/
def completeProcessingMissingSsrcs (createSessionDescription : Str → Str → Bool) (now : Int)
    (fuel : Nat) (self : GroupInstanceManager) : Option GroupInstanceManager :=
  completeProcessingMissingSsrcsBody
    (beginProcessingMissingSsrcs createSessionDescription now fuel) now self

/-- `applyMissingSsrcs`. -/
def applyMissingSsrcs (createSessionDescription : Str → Str → Bool) (now : Int)
    (fuel : Nat) (self : GroupInstanceManager) : Option GroupInstanceManager :=
  applyMissingSsrcsBody (completeProcessingMissingSsrcs createSessionDescription now fuel)
    createSessionDescription now self

/-- `setOfferSdp`. -/
def setOfferSdp (createSessionDescription : Str → Str → Bool) (now : Int) (fuel : Nat)
    (offerSdp : Str) (isInitialJoinAnswer isAnswer completeMissingSsrcSetup : Bool)
    (self : GroupInstanceManager) : Option GroupInstanceManager :=
  setOfferSdpBody (completeProcessingMissingSsrcs createSessionDescription now fuel)
    createSessionDescription now offerSdp isInitialJoinAnswer isAnswer
    completeMissingSsrcSetup self

/-- `addParticipantsInternal`. -/
def addParticipantsInternal (createSessionDescription : Str → Str → Bool) (now : Int)
    (fuel : Nat) (participants : List GroupParticipantDescription)
    (completeMissingSsrcSetup : Bool) (self : GroupInstanceManager) :
    Option GroupInstanceManager :=
  addParticipantsInternalBody (completeProcessingMissingSsrcs createSessionDescription now fuel)
    createSessionDescription now participants completeMissingSsrcSetup self

/-- `addParticipants`. -/
def addParticipants (createSessionDescription : Str → Str → Bool) (now : Int) (fuel : Nat)
    (participants : List GroupParticipantDescription) (self : GroupInstanceManager) :
    Option GroupInstanceManager :=
  addParticipantsInternal createSessionDescription now fuel participants false self

/-- `setJoinResponsePayload`. -/
def setJoinResponsePayload (createSessionDescription : Str → Str → Bool) (now : Int)
    (fuel : Nat) (payload : GroupJoinResponsePayload)
    (participants : List GroupParticipantDescription) (self : GroupInstanceManager) :
    Option GroupInstanceManager :=
  match self.joinPayload with
  | none => some self
  | some joinPayload =>
    let self := { self with joinResponsePayload := some payload }
    match parseJoinResponseIntoSdp self.sessionId joinPayload payload true
        self.allOtherParticipants with
    | none => none
    | some sdp =>
      match setOfferSdp createSessionDescription now fuel sdp true true false self with
      | none => none
      | some self =>
        addParticipantsInternal createSessionDescription now fuel participants false self

/-- `onMissingSsrc`: its body is commented out in the source, the call does
nothing. -/
def onMissingSsrc (_ssrc : Nat) (self : GroupInstanceManager) : GroupInstanceManager :=
  self

/-- `updateIsConnected`. -/
def updateIsConnected (now : Int) (isConnected : Bool) (self : GroupInstanceManager) :
    Option GroupInstanceManager :=
  let self := { self with isConnected := isConnected }
  let timestamp := now
  if self.isConnectedUpdateValidTaskId ≥ 2147483647 then none
  else
    let self := { self with
      isConnectedUpdateValidTaskId := self.isConnectedUpdateValidTaskId + 1 }
    if isConnected = false ∧ self.appliedOfferTimestamp > timestamp - 1000 then
      let taskId := self.isConnectedUpdateValidTaskId
      some { self with effects := self.effects ++
        [ GroupManagerEffect.postIsConnectedCheck taskId 1000 ] }
    else
      some { self with effects := self.effects ++
        [ GroupManagerEffect.networkStateUpdated self.isConnected ] }

/-- The task that `updateIsConnected` posts with a delay of 1000 ms; `taskId`
is the value it holds. -/
def isConnectedCheckTask (taskId : Int) (self : GroupInstanceManager) : GroupInstanceManager :=
  if self.isConnectedUpdateValidTaskId = taskId then
    { self with effects := self.effects ++
        [ GroupManagerEffect.networkStateUpdated self.isConnected ] }
  else self

/-- A call of the manager that can change `_allOtherParticipants`. -/
inductive GroupManagerCall where
  | setJoinResponsePayload (now : Int) (payload : GroupJoinResponsePayload)
      (participants : List GroupParticipantDescription)
  | addParticipants (now : Int) (participants : List GroupParticipantDescription)
  | applyMissingSsrcs (now : Int)
deriving DecidableEq

/-- The manager after one call. -/
def callGroupManager (createSessionDescription : Str → Str → Bool) (fuel : Nat)
    (call : GroupManagerCall) (self : GroupInstanceManager) : Option GroupInstanceManager :=
  match call with
  | GroupManagerCall.setJoinResponsePayload now payload participants =>
    setJoinResponsePayload createSessionDescription now fuel payload participants self
  | GroupManagerCall.addParticipants now participants =>
    addParticipants createSessionDescription now fuel participants self
  | GroupManagerCall.applyMissingSsrcs now =>
    applyMissingSsrcs createSessionDescription now fuel self

/-- The manager after a sequence of calls. -/
def callsGroupManager (createSessionDescription : Str → Str → Bool) (fuel : Nat) :
    List GroupManagerCall → GroupInstanceManager → Option GroupInstanceManager
  | [], self => some self
  | call :: rest, self =>
    match callGroupManager createSessionDescription fuel call self with
    | none => none
    | some next => callsGroupManager createSessionDescription fuel rest next

/-- The manager is joined: it holds a join payload and a join response. -/
def isJoined (self : GroupInstanceManager) : Bool :=
  self.joinPayload.isSome && self.joinResponsePayload.isSome

/-- The audio source identifiers of the ledger `_allOtherParticipants`, in
ledger order. -/
def ledgerIds (self : GroupInstanceManager) : List Nat :=
  self.allOtherParticipants.map (fun other => other.audioSsrc)

/-- A transport library that accepts every description. -/
def acceptAll : Str → Str → Bool := fun _ _ => true

/-- A transport library that accepts no description. -/
def acceptNone : Str → Str → Bool := fun _ _ => false

/-- A joined manager with an empty ledger. -/
def joinedManager : GroupInstanceManager :=
  { newGroupInstanceManager with
    joinPayload := some audioOnlyJoinPayload, joinResponsePayload := some exampleResponse }

/-- A participant list that repeats the identifier `111`. -/
def repeatingParticipants : List GroupParticipantDescription :=
  twoAudioParticipants ++
    [ { audioSsrc := 111, videoPayloadTypes := [], videoExtensionMap := [(9, "late".toList)],
        videoSourceGroups := [] } ]

/-- The offer text of `joinedManager` with the participants `111` and `222`. -/
def twoAudioOffer : Str :=
  createSdp 6543245 exampleResponse false
    [ mainStream audioOnlyJoinPayload,
      { isMain := false, isOutgoing := false, streamId := 111, ssrc := 111,
        videoSourceGroups := [], videoPayloadTypes := [], videoExtensionMap := [],
        isRemoved := false },
      { isMain := false, isOutgoing := false, streamId := 222, ssrc := 222,
        videoSourceGroups := [], videoPayloadTypes := [], videoExtensionMap := [],
        isRemoved := false } ]

/-- The manager `joinedManager` after `addParticipants` of the participants
`111` and `222` at time `40`: the offer is submitted, its round is not
completed yet. -/
def offeredManager : GroupInstanceManager :=
  { joinedManager with
    allOtherParticipants := twoAudioParticipants, appliedOfferTimestamp := 40,
    appliedRemoteRescription := twoAudioOffer,
    effects :=
      [ GroupManagerEffect.setRemoteDescription "offer".toList
          (adjustLocalDescription twoAudioOffer) false false false ] }

/-- The stream of an audio-only participant with the given identifier. -/
def remoteAudioStream (ssrc : Nat) : StreamSpec :=
  { isMain := false, isOutgoing := false, streamId := ssrc, ssrc := ssrc,
    videoSourceGroups := [], videoPayloadTypes := [], videoExtensionMap := [],
    isRemoved := false }

/-- A manager that holds a join payload and no join response yet, with a
running recovery cycle and two orphan sources in its queue. -/
def awaitingManager : GroupInstanceManager :=
  { newGroupInstanceManager with
    joinPayload := some audioOnlyJoinPayload, isProcessingMissingSsrcs := true,
    missingSsrcQueue := [111, 333] }

/-- The answer text of the join response, without participants. -/
def joinAnswerText : Str :=
  createSdp 6543245 exampleResponse true [ mainStream audioOnlyJoinPayload ]

/-- The offer text with the participant `111`. -/
def oneAudioOffer : Str :=
  createSdp 6543245 exampleResponse false
    [ mainStream audioOnlyJoinPayload, remoteAudioStream 111 ]

/-- The offer text with the participants `111` and `333`. -/
def recoveredOffer : Str :=
  createSdp 6543245 exampleResponse false
    [ mainStream audioOnlyJoinPayload, remoteAudioStream 111, remoteAudioStream 333 ]

/-- The manager `awaitingManager` after `setJoinResponsePayload` with the
participant `111` at time `10`. -/
def recoveringManager : GroupInstanceManager :=
  { awaitingManager with
    joinResponsePayload := some exampleResponse, allOtherParticipants := exampleParticipants,
    appliedOfferTimestamp := 10, appliedRemoteRescription := oneAudioOffer,
    effects :=
      [ GroupManagerEffect.setRemoteDescription "answer".toList
          (adjustLocalDescription joinAnswerText) true true false,
        GroupManagerEffect.setRemoteDescription "offer".toList
          (adjustLocalDescription oneAudioOffer) false false false ] }

/-- The manager `recoveringManager` after `applyMissingSsrcs` at time `500`. -/
def recoveredManager : GroupInstanceManager :=
  { recoveringManager with
    allOtherParticipants :=
      exampleParticipants ++
        [ { audioSsrc := 333, videoPayloadTypes := [], videoExtensionMap := [],
            videoSourceGroups := [] } ],
    appliedOfferTimestamp := 500, appliedRemoteRescription := recoveredOffer,
    missingSsrcQueue := [],
    effects := recoveringManager.effects ++
      [ GroupManagerEffect.setRemoteDescription "offer".toList
          (adjustLocalDescription recoveredOffer) false false true ] }

/-- The calls that lead from `awaitingManager` to `recoveredManager`. -/
def exampleCalls : List GroupManagerCall :=
  [ GroupManagerCall.setJoinResponsePayload 10 exampleResponse exampleParticipants,
    GroupManagerCall.addParticipants 40 exampleParticipants,
    GroupManagerCall.applyMissingSsrcs 500 ]

/-- The manager after a sequence of calls of `updateIsConnected`, each given
with the time of the call. -/
def updatesIsConnected :
    List (Int × Bool) → GroupInstanceManager → Option GroupInstanceManager
  | [], self => some self
  | update :: rest, self =>
    match updateIsConnected update.1 update.2 self with
    | none => none
    | some next => updatesIsConnected rest next

/-- The manager after construction and a deferred disconnected update. -/
def deferredManager : GroupInstanceManager :=
  { newGroupInstanceManager with
    isConnectedUpdateValidTaskId := 1,
    effects := [ GroupManagerEffect.postIsConnectedCheck 1 1000 ] }

/-- The manager `deferredManager` after a connected and a further disconnected
update. -/
def flippedManager : GroupInstanceManager :=
  { newGroupInstanceManager with
    isConnectedUpdateValidTaskId := 3,
    effects :=
      [ GroupManagerEffect.postIsConnectedCheck 1 1000,
        GroupManagerEffect.networkStateUpdated true,
        GroupManagerEffect.postIsConnectedCheck 3 1000 ] }

/-! ## The orchestrator (`Manager`)

The member functions of `Manager` run on one thread; a call maps the record of
the member variables to the record after the call, and the calls into the
transport domain, the media domain and the application are appended to the
member `effects`. -/

/-- Modelled from the spec: `State` is declared in `Instance.h`, which is not
among the sources; these are the observable states that the state callback of
`Manager::start` assigns. -/
inductive State where
  | Reconnecting
  | Established
  | Failed
deriving DecidableEq

/-- Modelled from the spec: `ProtocolVersion` is declared in `Instance.h`,
which is not among the sources; `Manager` distinguishes `V1` from the other
version. -/
inductive ProtocolVersion where
  | V0
  | V1
deriving DecidableEq

/-- Modelled from the spec: `NetworkManager::State` is declared in
`NetworkManager.h`, which is not among the sources; these are the two members
that the state callback reads. -/
structure NetworkManagerState where
  isReadyToSendData : Bool
  isFailed : Bool
deriving DecidableEq

/-- Modelled from the spec: the alternatives of `Message::data` are declared
in `Message.h`, which is not among the sources; these are the alternatives
that `Manager` tells apart, with the members it reads, and `other` stands for
every further alternative. -/
inductive Message where
  | candidatesList
  | videoFormats
  | remoteMediaState (audio video : Nat)
  | remoteBatteryLevelIsLow (batteryLow : Bool)
  | remoteNetworkType (isLowCost : Bool)
  | videoParameters (aspectRatio : Nat)
  | other
deriving DecidableEq

/-- A call of `Manager` into the transport domain, the media domain or the
application. -/
inductive ManagerEffect where
  /-- The callback `_stateUpdated(mappedState)`. -/
  | stateUpdated (state : State)
  /-- The task `mediaManager->setIsConnected(isConnected)`. -/
  | mediaSetIsConnected (isConnected : Bool)
  /-- The call `_sendTransportMessage({ message })`. -/
  | sendTransportMessage (message : Message)
  /-- The task `networkManager->setIsLocalNetworkLowCost(isLowCost)`. -/
  | networkSetIsLocalNetworkLowCost (isLowCost : Bool)
  /-- The task `mediaManager->setIsCurrentNetworkLowCost(isLowCost)`. -/
  | mediaSetIsCurrentNetworkLowCost (isLowCost : Bool)
  /-- The task `networkManager->receiveSignalingMessage(message)`. -/
  | networkReceiveSignalingMessage (message : Message)
  /-- The task `mediaManager->receiveMessage(message)`. -/
  | mediaReceiveMessage (message : Message)
  /-- The callback `_remoteMediaStateUpdated(audio, video)`. -/
  | remoteMediaStateUpdated (audio video : Nat)
  /-- The task `mediaManager->remoteVideoStateUpdated(video)`. -/
  | mediaRemoteVideoStateUpdated (video : Nat)
  /-- The callback `_remoteBatteryLevelIsLowUpdated(batteryLow)`. -/
  | remoteBatteryLevelIsLowUpdated (batteryLow : Bool)
  /-- The callback `_remotePrefferedAspectRatioUpdated(aspectRatio / 1000.0)`,
  recorded with the integer `aspectRatio`. -/
  | remotePrefferedAspectRatioUpdated (aspectRatio : Nat)
deriving DecidableEq

/-- The member variables of `Manager` that its state callback, its low-cost
flag and its message routing use. The three `has` members tell whether the
optional callback is set; `sendInitialSignalingMessagesCalls` is a counter of
the model, not a member of the class: the number of calls of
`sendInitialSignalingMessages`. -/
structure Manager where
  protocolVersion : ProtocolVersion
  didConnectOnce : Bool
  state : State
  localNetworkIsLowCost : Bool
  remoteNetworkIsLowCost : Bool
  hasRemoteMediaStateUpdated : Bool
  hasRemoteBatteryLevelIsLowUpdated : Bool
  hasRemotePrefferedAspectRatioUpdated : Bool
  sendInitialSignalingMessagesCalls : Nat
  effects : List ManagerEffect
deriving DecidableEq

/-- `Manager::sendInitialSignalingMessages`. -/
def sendInitialSignalingMessages (self : Manager) : Manager :=
  let self := { self with
    sendInitialSignalingMessagesCalls := self.sendInitialSignalingMessagesCalls + 1 }
  match self.protocolVersion with
  | ProtocolVersion.V1 =>
    { self with effects := self.effects ++
        [ ManagerEffect.sendTransportMessage
            (Message.remoteNetworkType self.localNetworkIsLowCost) ] }
  | _ => self

/-- The task that the state callback of `Manager::start` posts for a state of
the transport. -/
def stateUpdatedTask (state : NetworkManagerState) (self : Manager) : Manager :=
  let mappedState :=
    if state.isFailed then State.Failed
    else if state.isReadyToSendData then State.Established else State.Reconnecting
  let isFirstConnection := state.isReadyToSendData && !self.didConnectOnce
  let self :=
    if state.isReadyToSendData then
      if !self.didConnectOnce then { self with didConnectOnce := true } else self
    else self
  let self := { self with state := mappedState }
  let self := { self with effects := self.effects ++ [ ManagerEffect.stateUpdated mappedState ] }
  let self := { self with effects := self.effects ++
    [ ManagerEffect.mediaSetIsConnected state.isReadyToSendData ] }
  if isFirstConnection then sendInitialSignalingMessages self else self

/-- The manager after the tasks of a sequence of transport states. -/
def stateUpdatedTasks (states : List NetworkManagerState) (self : Manager) : Manager :=
  states.foldl (fun manager state => stateUpdatedTask state manager) self

/-- `Manager::calculateIsCurrentNetworkLowCost`. -/
def calculateIsCurrentNetworkLowCost (self : Manager) : Bool :=
  self.localNetworkIsLowCost && self.remoteNetworkIsLowCost

/-- `Manager::updateIsCurrentNetworkLowCost`. -/
def updateIsCurrentNetworkLowCost (wasLowCost : Bool) (self : Manager) : Manager :=
  let isLowCost := calculateIsCurrentNetworkLowCost self
  if isLowCost ≠ wasLowCost then
    { self with effects := self.effects ++
        [ ManagerEffect.mediaSetIsCurrentNetworkLowCost isLowCost ] }
  else self

/-- `Manager::setIsLocalNetworkLowCost`. -/
def setIsLocalNetworkLowCost (isLocalNetworkLowCost : Bool) (self : Manager) : Manager :=
  if isLocalNetworkLowCost ≠ self.localNetworkIsLowCost then
    let self := { self with effects := self.effects ++
      [ ManagerEffect.networkSetIsLocalNetworkLowCost isLocalNetworkLowCost ] }
    let wasCurrentNetworkLowCost := calculateIsCurrentNetworkLowCost self
    let self := { self with localNetworkIsLowCost := isLocalNetworkLowCost }
    let self := updateIsCurrentNetworkLowCost wasCurrentNetworkLowCost self
    match self.protocolVersion with
    | ProtocolVersion.V1 =>
      if self.didConnectOnce then
        { self with effects := self.effects ++
            [ ManagerEffect.sendTransportMessage
                (Message.remoteNetworkType isLocalNetworkLowCost) ] }
      else self
    | _ => self
  else self

/-- `Manager::receiveMessage`, for the message of a decrypted packet. -/
def receiveMessage (message : Message) (self : Manager) : Manager :=
  match message with
  | Message.candidatesList =>
    { self with effects := self.effects ++
        [ ManagerEffect.networkReceiveSignalingMessage message ] }
  | Message.videoFormats =>
    { self with effects := self.effects ++ [ ManagerEffect.mediaReceiveMessage message ] }
  | Message.remoteMediaState audio video =>
    let self :=
      if self.hasRemoteMediaStateUpdated then
        { self with effects := self.effects ++
            [ ManagerEffect.remoteMediaStateUpdated audio video ] }
      else self
    { self with effects := self.effects ++ [ ManagerEffect.mediaRemoteVideoStateUpdated video ] }
  | Message.remoteBatteryLevelIsLow batteryLow =>
    if self.hasRemoteBatteryLevelIsLowUpdated then
      { self with effects := self.effects ++
          [ ManagerEffect.remoteBatteryLevelIsLowUpdated batteryLow ] }
    else self
  | Message.remoteNetworkType isLowCost =>
    let wasCurrentNetworkLowCost := calculateIsCurrentNetworkLowCost self
    let self := { self with remoteNetworkIsLowCost := isLowCost }
    updateIsCurrentNetworkLowCost wasCurrentNetworkLowCost self
  | _ =>
    let self :=
      match message with
      | Message.videoParameters aspectRatio =>
        if self.hasRemotePrefferedAspectRatioUpdated then
          { self with effects := self.effects ++
              [ ManagerEffect.remotePrefferedAspectRatioUpdated aspectRatio ] }
        else self
      | _ => self
    { self with effects := self.effects ++ [ ManagerEffect.mediaReceiveMessage message ] }

/-- The effect is a call of `_sendTransportMessage`. -/
def isSendTransportMessage (effect : ManagerEffect) : Bool :=
  match effect with
  | ManagerEffect.sendTransportMessage _ => true
  | _ => false

/-- A manager of protocol version `V1` that has not connected yet. -/
def startedManager : Manager :=
  { protocolVersion := ProtocolVersion.V1, didConnectOnce := false,
    state := State.Reconnecting, localNetworkIsLowCost := true,
    remoteNetworkIsLowCost := false, hasRemoteMediaStateUpdated := true,
    hasRemoteBatteryLevelIsLowUpdated := true, hasRemotePrefferedAspectRatioUpdated := true,
    sendInitialSignalingMessagesCalls := 0, effects := [] }

/-- The transport is not ready, becomes ready, drops, and becomes ready
again. -/
def exampleStates : List NetworkManagerState :=
  [ { isReadyToSendData := false, isFailed := false },
    { isReadyToSendData := true, isFailed := false },
    { isReadyToSendData := false, isFailed := false },
    { isReadyToSendData := true, isFailed := false } ]

/-! ## Sequences of calls of the orchestrator -/

/-- A step that can change the low-cost flags: a call of
`setIsLocalNetworkLowCost`, or an inbound `RemoteNetworkTypeMessage`. -/
inductive LowCostEvent where
  | setIsLocalNetworkLowCost (isLowCost : Bool)
  | remoteNetworkType (isLowCost : Bool)
deriving DecidableEq

/-- The manager after one step of the low-cost flags. -/
def lowCostStep (event : LowCostEvent) (self : Manager) : Manager :=
  match event with
  | LowCostEvent.setIsLocalNetworkLowCost isLowCost => setIsLocalNetworkLowCost isLowCost self
  | LowCostEvent.remoteNetworkType isLowCost =>
    receiveMessage (Message.remoteNetworkType isLowCost) self

/-- The manager after a sequence of steps of the low-cost flags. -/
def lowCostSteps (events : List LowCostEvent) (self : Manager) : Manager :=
  events.foldl (fun manager event => lowCostStep event manager) self

/-- The values posted to the media domain with `setIsCurrentNetworkLowCost`,
in the order of the posts. -/
def postedLowCost (effects : List ManagerEffect) : List Bool :=
  effects.filterMap fun effect =>
    match effect with
    | ManagerEffect.mediaSetIsCurrentNetworkLowCost isLowCost => some isLowCost
    | _ => none

/-- The low-cost flags in the words of the specification: the local and the
remote flag after a step. -/
def flagsAfter (flags : Bool × Bool) (event : LowCostEvent) : Bool × Bool :=
  match event with
  | LowCostEvent.setIsLocalNetworkLowCost isLowCost => (isLowCost, flags.2)
  | LowCostEvent.remoteNetworkType isLowCost => (flags.1, isLowCost)

/-- The posts in the words of the specification: along a sequence of steps
that starts with the given local and remote flag, the new value of
(local AND remote) at each step where this value changes. -/
def conjunctionChanges : Bool × Bool → List LowCostEvent → List Bool
  | _, [] => []
  | flags, event :: rest =>
    (if ((flagsAfter flags event).1 && (flagsAfter flags event).2) ≠ (flags.1 && flags.2) then
      [ (flagsAfter flags event).1 && (flagsAfter flags event).2 ]
     else []) ++ conjunctionChanges (flagsAfter flags event) rest

/-- A step of the remote view of the local network cost: a call of
`setIsLocalNetworkLowCost`, or the task of a transport state. -/
inductive LocalCostEvent where
  | setIsLocalNetworkLowCost (isLowCost : Bool)
  | stateUpdated (state : NetworkManagerState)
deriving DecidableEq

/-- The manager after one step of the remote view. -/
def localCostStep (event : LocalCostEvent) (self : Manager) : Manager :=
  match event with
  | LocalCostEvent.setIsLocalNetworkLowCost isLowCost => setIsLocalNetworkLowCost isLowCost self
  | LocalCostEvent.stateUpdated state => stateUpdatedTask state self

/-- The manager after a sequence of steps of the remote view. -/
def localCostSteps (events : List LocalCostEvent) (self : Manager) : Manager :=
  events.foldl (fun manager event => localCostStep event manager) self

/-- The values sent to the remote side in a `RemoteNetworkTypeMessage`, in the
order of the messages. -/
def sentNetworkTypes (effects : List ManagerEffect) : List Bool :=
  effects.filterMap fun effect =>
    match effect with
    | ManagerEffect.sendTransportMessage (Message.remoteNetworkType isLowCost) => some isLowCost
    | _ => none

/-- The step is the task of a transport state that is ready to send. -/
def isReadyEvent (event : LocalCostEvent) : Bool :=
  match event with
  | LocalCostEvent.stateUpdated state => state.isReadyToSendData
  | _ => false

/-- The message is handed to `networkManager->receiveSignalingMessage`. -/
def toTransportDomain (message : Message) (effects : List ManagerEffect) : Bool :=
  effects.contains (ManagerEffect.networkReceiveSignalingMessage message)

/-- The message is handed to `mediaManager->receiveMessage`. -/
def toMediaReceiveMessage (message : Message) (effects : List ManagerEffect) : Bool :=
  effects.contains (ManagerEffect.mediaReceiveMessage message)

/-- A sequence of steps of the remote view: the local flag changes before the
connection, the transport becomes ready, the flag changes twice. -/
def exampleLocalCostEvents : List LocalCostEvent :=
  [ LocalCostEvent.setIsLocalNetworkLowCost false,
    LocalCostEvent.stateUpdated { isReadyToSendData := true, isFailed := false },
    LocalCostEvent.setIsLocalNetworkLowCost true,
    LocalCostEvent.setIsLocalNetworkLowCost false ]

/-- A manager whose last recovery cycle was completed at time `1000`, with no
cycle running and one orphan source in its queue. -/
def idleManager : GroupInstanceManager :=
  { newGroupInstanceManager with
    missingSsrcsProcessedTimestamp := 1000, missingSsrcQueue := [333] }

/-- The manager `idleManager` after a start of the cycle that posts the delayed
task. -/
def waitingManager : GroupInstanceManager :=
  { idleManager with
    isProcessingMissingSsrcs := true,
    effects := [ GroupManagerEffect.postApplyMissingSsrcs 200 ] }

/-! ## Inputs of the encoder that lead to an out-of-range read, and the video
identifiers of a ledger -/

/-- A participant with a video payload type and no video source group. -/
def participantWithoutGroups : List GroupParticipantDescription :=
  [ { audioSsrc := 111,
      videoPayloadTypes :=
        [ { id := 100, name := "VP8".toList, clockrate := 90000, channels := 0,
            feedbackTypes := [], parameters := [] } ],
      videoExtensionMap := [], videoSourceGroups := [] } ]

/-- A text whose video block holds an `a=ssrc-group:FID ` line without source
identifiers. -/
def textWithEmptyGroup : Str :=
  "m=audio 1 RTP/SAVPF 111\na=ice-ufrag:x\na=ice-pwd:y\nm=video 0 RTP/SAVPF 100\na=ssrc-group:FID \n".toList

/-- The element `videoSourceGroups[0].ssrcs[0]` that `parseJoinResponseIntoSdp`
reads for a participant: none for a participant without video payload types,
the value of `firstVideoSsrc` otherwise. -/
def participantVideoSsrc (participant : GroupParticipantDescription) : Option Nat :=
  if participant.videoPayloadTypes.length ≠ 0 then firstVideoSsrc participant.videoSourceGroups
  else none

/-- The video identifiers of the participants of a ledger, in ledger order. -/
def firstVideoSsrcs (participants : List GroupParticipantDescription) : List Nat :=
  participants.flatMap (fun participant => (participantVideoSsrc participant).toList)

/-- A join payload with a video source group and no video payload type. -/
def joinPayloadGroupsOnly : GroupJoinPayload :=
  { ufrag := [], pwd := [], fingerprints := [], ssrc := 5, videoExtensionMap := [],
    videoSourceGroups := [ { semantics := "FID".toList, ssrcs := [1, 3] } ],
    videoPayloadTypes := [] }

/-- Two participants with the audio identifiers `111` and `222` whose video
source groups both start with the identifier `7`. -/
def participantsSameVideo : List GroupParticipantDescription :=
  [ { audioSsrc := 111,
      videoPayloadTypes :=
        [ { id := 100, name := "VP8".toList, clockrate := 90000, channels := 0,
            feedbackTypes := [], parameters := [] } ],
      videoExtensionMap := [],
      videoSourceGroups := [ { semantics := "FID".toList, ssrcs := [7, 8] } ] },
    { audioSsrc := 222,
      videoPayloadTypes :=
        [ { id := 100, name := "VP8".toList, clockrate := 90000, channels := 0,
            feedbackTypes := [], parameters := [] } ],
      videoExtensionMap := [],
      videoSourceGroups := [ { semantics := "FID".toList, ssrcs := [7, 9] } ] } ]

/-! ## Line endings -/

/-- The text in which every line feed is replaced by a carriage return
followed by a line feed. -/
def lfToCrLf (text : Str) : Str :=
  text.flatMap (fun c => if c = '\n' then ['\r', '\n'] else [c])

/-- A text without carriage return that holds an empty line. -/
def textWithEmptyLine : Str :=
  "m=audio 1 RTP/SAVPF 111\n\na=ice-ufrag:x\na=ice-pwd:y\na=ssrc:5 cname:c\n".toList

/-! ## Content coordination context (`v2/ContentCoordination.h`)

The header declares the class; the bodies of its member functions are not
part of the sources, so the operations are modelled from the specification.
The type `Content` stands for `signaling::MediaContent`. -/

/-- Modelled from the spec: the struct `NegotiationContents` of the header, a
content list tagged with an exchange identifier; the identifier is a natural
number since the specification has it increase monotonically. -/
structure NegotiationContents (Content : Type) where
  exchangeId : Nat
  contents : List Content
deriving DecidableEq

/-- Modelled from the spec: the struct `PendingOutgoingOffer` of the header,
with the snapshot of the desired outgoing contents that `requestOffer` takes
(the header keeps the exchange identifier only; the function bodies are
missing). -/
structure PendingOutgoingOffer (Content : Type) where
  exchangeId : Nat
  contents : List Content
deriving DecidableEq

/-- Modelled from the spec: the argument of `applyRemoteContents`, the reply
of the remote side to an exchange: the contents it accepted and the contents
it declared (the body of `setRemoteNegotiationContent` is missing). -/
structure RemoteNegotiationContents (Content : Type) where
  exchangeId : Nat
  accepted : List Content
  declared : List Content
deriving DecidableEq

/-- Modelled from the spec: the struct `CoordinatedState` of the header. -/
structure CoordinatedState (Content : Type) where
  outgoingContents : List Content
  incomingContents : List Content
deriving DecidableEq

/-- Modelled from the spec: the states `Idle`, `OfferPending` and
`AnswerApplied` of the context (the header has no such member; the function
bodies are missing). -/
inductive ExchangeState where
  | Idle
  | OfferPending
  | AnswerApplied
deriving DecidableEq

/-- Modelled from the spec: the member variables of
`ContentCoordinationContext` that the operations of the specification use (the
bodies of the member functions are missing): the state, the next exchange
identifier, the desired outgoing contents (`_outgoingChannelDescriptions`),
the pending offer (`_pendingOutgoingOffer`) and the coordinated contents
(`_outgoingChannels`, `_incomingChannels`). -/
structure ContentCoordinationContext (Content : Type) where
  state : ExchangeState
  nextExchangeId : Nat
  outgoingChannelDescriptions : List Content
  pendingOutgoingOffer : Option (PendingOutgoingOffer Content)
  outgoingChannels : List Content
  incomingChannels : List Content
deriving DecidableEq

/-- Modelled from the spec: the context after its constructor (body missing):
idle, nothing desired, nothing pending, nothing coordinated. -/
def newContentCoordinationContext {Content : Type} : ContentCoordinationContext Content :=
  { state := ExchangeState.Idle, nextExchangeId := 0, outgoingChannelDescriptions := [],
    pendingOutgoingOffer := none, outgoingChannels := [], incomingChannels := [] }

/-- Modelled from the spec: `addOutgoingChannel` (body missing) adds a content
to the desired outgoing contents of the caller. -/
def addOutgoingChannel {Content : Type} (content : Content)
    (self : ContentCoordinationContext Content) : ContentCoordinationContext Content :=
  { self with outgoingChannelDescriptions := self.outgoingChannelDescriptions ++ [content] }

/-- Modelled from the spec: `coordinatedState` (body missing), the read-only
projection of the coordinated contents. -/
def coordinatedState {Content : Type} (self : ContentCoordinationContext Content) :
    CoordinatedState Content :=
  { outgoingContents := self.outgoingChannels, incomingContents := self.incomingChannels }

/-- Modelled from the spec: `getOffer`, the `requestOffer` of the
specification (body missing): it returns no offer if a prior offer is still
pending; otherwise it assigns the next exchange identifier, snapshots the
desired outgoing contents, moves to `OfferPending` and returns the content
list tagged with the exchange identifier. -/
def getOffer {Content : Type} (self : ContentCoordinationContext Content) :
    Option (NegotiationContents Content) × ContentCoordinationContext Content :=
  match self.pendingOutgoingOffer with
  | some _ => (none, self)
  | none =>
    (some { exchangeId := self.nextExchangeId, contents := self.outgoingChannelDescriptions },
      { self with
        state := ExchangeState.OfferPending,
        nextExchangeId := self.nextExchangeId + 1,
        pendingOutgoingOffer :=
          some { exchangeId := self.nextExchangeId,
                 contents := self.outgoingChannelDescriptions } })

/-- Modelled from the spec: `setRemoteNegotiationContent`, the
`applyRemoteContents` of the specification (body missing): valid only against
the pending exchange identifier, any other reply is discarded; it makes the
outgoing contents what the local side offered and the remote accepted and the
incoming contents what the remote declared, moves to `AnswerApplied` and
returns the new coordinated state. -/
def setRemoteNegotiationContent {Content : Type} [DecidableEq Content]
    (remoteNegotiationContent : RemoteNegotiationContents Content)
    (self : ContentCoordinationContext Content) :
    Option (CoordinatedState Content) × ContentCoordinationContext Content :=
  match self.pendingOutgoingOffer with
  | none => (none, self)
  | some pending =>
    if remoteNegotiationContent.exchangeId = pending.exchangeId then
      let applied : ContentCoordinationContext Content :=
        { self with
          state := ExchangeState.AnswerApplied,
          pendingOutgoingOffer := none,
          outgoingChannels :=
            pending.contents.filter (fun content => content ∈ remoteNegotiationContent.accepted),
          incomingChannels := remoteNegotiationContent.declared }
      (some (coordinatedState applied), applied)
    else (none, self)

/-- A call of a public member function of the context. -/
inductive ContextCall (Content : Type) where
  | addOutgoingChannel (content : Content)
  | getOffer
  | setRemoteNegotiationContent (remoteNegotiationContent : RemoteNegotiationContents Content)

/-- The context after a call. -/
def callContext {Content : Type} [DecidableEq Content] (call : ContextCall Content)
    (self : ContentCoordinationContext Content) : ContentCoordinationContext Content :=
  match call with
  | ContextCall.addOutgoingChannel content => addOutgoingChannel content self
  | ContextCall.getOffer => (getOffer self).2
  | ContextCall.setRemoteNegotiationContent remote => (setRemoteNegotiationContent remote self).2

/-- The context after a sequence of calls. -/
def callsContext {Content : Type} [DecidableEq Content] (calls : List (ContextCall Content))
    (self : ContentCoordinationContext Content) : ContentCoordinationContext Content :=
  calls.foldl (fun context call => callContext call context) self

/-- A sequence of calls that leaves an offer pending: two channels are added
and an offer is requested. -/
def pendingCalls : List (ContextCall Nat) :=
  [ ContextCall.addOutgoingChannel 1, ContextCall.addOutgoingChannel 2, ContextCall.getOffer ]

/-! ## Concrete inputs for the bundle line and for the state reports -/

/-- A stream list whose video stream has an extension URI that holds a line
feed followed by `a=mid:zz`. -/
def streamsWithMidLine : List StreamSpec :=
  [ mainStream audioOnlyJoinPayload,
    { isMain := false, isOutgoing := false, streamId := 111, ssrc := 111,
      videoSourceGroups := [], videoPayloadTypes := [], videoExtensionMap := [],
      isRemoved := false },
    { isMain := false, isOutgoing := false, streamId := 7, ssrc := 7,
      videoSourceGroups := [ { semantics := "FID".toList, ssrcs := [7, 8] } ],
      videoPayloadTypes :=
        [ { id := 100, name := "VP8".toList, clockrate := 90000, channels := 0,
            feedbackTypes := [], parameters := [] } ],
      videoExtensionMap := [(2, "urn:x\na=mid:zz".toList)],
      isRemoved := false } ]

/-- The transport is not ready, becomes ready, and reports ready again without
having dropped. -/
def readyTwiceStates : List NetworkManagerState :=
  [ { isReadyToSendData := false, isFailed := false },
    { isReadyToSendData := true, isFailed := false },
    { isReadyToSendData := true, isFailed := false } ]

/-- The transport is ready in one state of the sequence. -/
def readyOnceStates : List NetworkManagerState :=
  [ { isReadyToSendData := false, isFailed := false },
    { isReadyToSendData := true, isFailed := false },
    { isReadyToSendData := false, isFailed := false } ]

/-! # Properties of the codec -/

/-! ## Facts about the standard library primitives -/

theorem getlineAll_nil (d : Char) : getlineAll d [] = [] := rfl

theorem getlineAll_delim_cons (d : Char) (cs : Str) :
    getlineAll d (d :: cs) = [] :: getlineAll d cs := by
  simp [getlineAll]

/-- A piece without the delimiter, followed by the delimiter, is read whole. -/
theorem getlineAll_append_delim (d : Char) (s rest : Str) (hs : d ∉ s) :
    getlineAll d (s ++ d :: rest) = s :: getlineAll d rest := by
  induction s with
  | nil => simp [getlineAll]
  | cons c cs ih =>
    have hc : c ≠ d := fun h => hs (by simp [h])
    have hcs : d ∉ cs := fun h => hs (by simp [h])
    simp [getlineAll, hc, ih hcs]

/-- A non-empty text without the delimiter is read as one piece. -/
theorem getlineAll_of_not_mem (d : Char) (s : Str) (hs : d ∉ s) (hne : s ≠ []) :
    getlineAll d s = [s] := by
  induction s with
  | nil => exact absurd rfl hne
  | cons c cs ih =>
    have hc : c ≠ d := fun h => hs (by simp [h])
    have hcs : d ∉ cs := fun h => hs (by simp [h])
    cases cs with
    | nil => simp [getlineAll, hc]
    | cons c2 cs2 =>
      have := ih hcs (by simp)
      simp only [getlineAll, hc, if_false] at this ⊢
      simp [this]

/-- Reading back lines that were written each followed by the delimiter. -/
theorem getlineAll_flatMap (d : Char) (ls : List Str) (h : ∀ l ∈ ls, d ∉ l) :
    getlineAll d (ls.flatMap (fun l => l ++ [d])) = ls := by
  induction ls with
  | nil => rfl
  | cons l ls ih =>
    have h1 : d ∉ l := h l (by simp)
    have h2 : ∀ l ∈ ls, d ∉ l := fun x hx => h x (by simp [hx])
    simp only [List.flatMap_cons, List.append_assoc, List.singleton_append]
    rw [getlineAll_append_delim d l _ h1, ih h2]

theorem digitChar_isDigit (k : Nat) (hk : k < 10) :
    (Nat.digitChar k).isDigit = true ∧ (Nat.digitChar k).toNat - '0'.toNat = k := by
  interval_cases k <;> decide

/-- The digits written by `Nat.toDigitsCore` in base ten. -/
theorem toDigitsCore_spec (fuel : Nat) : ∀ (n : Nat) (ds : List Char), n < fuel →
    ∃ L : List Char, Nat.toDigitsCore 10 fuel n ds = L ++ ds ∧ L ≠ [] ∧
      (∀ c ∈ L, c.isDigit = true) ∧ digitsValue L = n := by
  induction fuel with
  | zero => intro n ds h; omega
  | succ fuel ih =>
    intro n ds hn
    simp only [Nat.toDigitsCore]
    by_cases h0 : n / 10 = 0
    · have hlt : n < 10 := by omega
      have hmod : n % 10 = n := Nat.mod_eq_of_lt hlt
      refine ⟨[Nat.digitChar n], by simp [h0, hmod], by simp, ?_, ?_⟩
      · intro c hc
        simp only [List.mem_singleton] at hc
        subst hc
        exact (digitChar_isDigit n hlt).1
      · simpa [digitsValue] using (digitChar_isDigit n hlt).2
    · have hlt : n / 10 < fuel := by omega
      obtain ⟨L, hL, _, hdig, hval⟩ := ih (n / 10) (Nat.digitChar (n % 10) :: ds) hlt
      have hm : n % 10 < 10 := Nat.mod_lt _ (by decide)
      refine ⟨L ++ [Nat.digitChar (n % 10)], by simp [h0, hL], by simp, ?_, ?_⟩
      · intro c hc
        rcases List.mem_append.1 hc with hc | hc
        · exact hdig c hc
        · simp only [List.mem_singleton] at hc
          subst hc
          exact (digitChar_isDigit _ hm).1
      · have h2 := (digitChar_isDigit _ hm).2
        simp only [digitsValue, List.foldl_append, List.foldl_cons, List.foldl_nil] at hval ⊢
        rw [hval, h2]
        omega

theorem showUInt_ne_nil (v : Nat) : showUInt v ≠ [] := by
  obtain ⟨L, hL, hne, _, _⟩ := toDigitsCore_spec (v + 1) v [] (by omega)
  simp only [showUInt, Nat.toDigits, hL, List.append_nil]
  exact hne

theorem showUInt_isDigit (v : Nat) : ∀ c ∈ showUInt v, c.isDigit = true := by
  obtain ⟨L, hL, _, hd, _⟩ := toDigitsCore_spec (v + 1) v [] (by omega)
  simp only [showUInt, Nat.toDigits, hL, List.append_nil]
  exact hd

theorem digitsValue_showUInt (v : Nat) : digitsValue (showUInt v) = v := by
  obtain ⟨L, hL, _, _, hv⟩ := toDigitsCore_spec (v + 1) v [] (by omega)
  simp only [showUInt, Nat.toDigits, hL, List.append_nil]
  exact hv

theorem showUInt_injective (a b : Nat) (h : showUInt a = showUInt b) : a = b := by
  rw [← digitsValue_showUInt a, ← digitsValue_showUInt b, h]

/-- A character that is not a digit does not occur in a written number. -/
theorem not_mem_showUInt (v : Nat) (c : Char) (hc : c.isDigit = false) : c ∉ showUInt v := by
  intro h
  rw [showUInt_isDigit v c h] at hc
  exact Bool.noConfusion hc

/-- Reading back a written number. -/
theorem readUInt32_showUInt (v : Nat) (hv : v < 4294967296) : readUInt32 (showUInt v) = v := by
  have hne := showUInt_ne_nil v
  have hd := showUInt_isDigit v
  have hval := digitsValue_showUInt v
  generalize showUInt v = s at hne hd hval
  cases s with
  | nil => exact absurd rfl hne
  | cons c t =>
    have hc : c.isDigit = true := hd c (by simp)
    have hsp : isSpaceChar c = false := by
      cases hsc : isSpaceChar c with
      | false => rfl
      | true =>
        simp only [isSpaceChar, Bool.or_eq_true, decide_eq_true_eq] at hsc
        rcases hsc with ((((h | h) | h) | h) | h) | h <;> (subst h; exact absurd hc (by decide))
    have hm : c ≠ '-' := by rintro rfl; exact absurd hc (by decide)
    have hp : c ≠ '+' := by rintro rfl; exact absurd hc (by decide)
    have htw : (c :: t).takeWhile Char.isDigit = c :: t := by
      rw [List.takeWhile_eq_self_iff]
      exact hd
    have hdw : (c :: t).dropWhile isSpaceChar = c :: t := by
      simp [List.dropWhile, hsp]
    have hsign : readSign (c :: t) = (false, c :: t) := by
      unfold readSign
      split
      · rename_i heq; exact absurd (List.cons.inj heq).1 hm
      · rename_i heq; exact absurd (List.cons.inj heq).1 hp
      · rfl
    have hle : ¬ v > 4294967295 := by omega
    simp [readUInt32, hdw, hsign, htw, hval, hle]

/-! ## Facts about `getLines` -/

theorem getLines_nil (p : Str) : getLines [] p = [] := rfl

theorem getLines_append (a b : List Str) (p : Str) :
    getLines (a ++ b) p = getLines a p ++ getLines b p := by
  simp [getLines]

theorem getLines_cons (l : Str) (ls : List Str) (p : Str) :
    getLines (l :: ls) p = getLines [l] p ++ getLines ls p :=
  getLines_append [l] ls p

theorem getLines_flatMap {α : Type} (xs : List α) (f : α → List Str) (p : Str) :
    getLines (xs.flatMap f) p = xs.flatMap (fun x => getLines (f x) p) := by
  induction xs with
  | nil => rfl
  | cons x xs ih => simp [getLines_append, ih]

theorem getLines_map {α : Type} (xs : List α) (f : α → Str) (p : Str) :
    getLines (xs.map f) p = xs.flatMap (fun x => getLines [f x] p) := by
  induction xs with
  | nil => rfl
  | cons x xs ih =>
    rw [List.map_cons, getLines_cons, ih]
    rfl

theorem flatMap_nil_of_forall {α β : Type} (xs : List α) (f : α → List β)
    (h : ∀ x ∈ xs, f x = []) : xs.flatMap f = [] := by
  induction xs with
  | nil => rfl
  | cons x xs ih =>
    rw [List.flatMap_cons, h x (by simp), ih (fun y hy => h y (by simp [hy]))]
    rfl

theorem isPrefixOf_false_of_clash (p y t l : Str) (hc : clash p t = true)
    (ht : t.isPrefixOf l = true) : (p ++ y).isPrefixOf l = false := by
  cases h : (p ++ y).isPrefixOf l with
  | false => rfl
  | true =>
    exfalso
    rw [List.isPrefixOf_iff_prefix] at h ht
    have hp : p <+: l := (List.prefix_append p y).trans h
    simp only [clash, Bool.and_eq_true, Bool.not_eq_true', ← Bool.not_eq_true,
      List.isPrefixOf_iff_prefix] at hc
    rcases List.prefix_or_prefix_of_prefix hp ht with h1 | h1
    · exact hc.1 h1
    · exact hc.2 h1

theorem isPrefixOf_false_of_hasHead (heads : List Str) (p y l : Str)
    (hl : hasHead heads l = true) (hp : heads.all (clash p) = true) :
    (p ++ y).isPrefixOf l = false := by
  simp only [hasHead, List.any_eq_true] at hl
  obtain ⟨t, ht, htl⟩ := hl
  exact isPrefixOf_false_of_clash p y t l (List.all_eq_true.1 hp t ht) htl

theorem getLines_eq_nil_of_heads (heads : List Str) (ls : List Str) (p y : Str)
    (hl : ls.all (hasHead heads) = true) (hp : heads.all (clash p) = true) :
    getLines ls (p ++ y) = [] := by
  simp only [getLines, List.filterMap_eq_nil_iff]
  intro l hlmem
  rw [isPrefixOf_false_of_hasHead heads p y l (List.all_eq_true.1 hl l hlmem) hp]
  simp

theorem all_flatMap_of_forall {α β : Type} (xs : List α) (f : α → List β) (q : β → Bool)
    (h : ∀ x, (f x).all q = true) : (xs.flatMap f).all q = true := by
  simp only [List.all_eq_true, List.mem_flatMap]
  rintro y ⟨x, _, hy⟩
  exact List.all_eq_true.1 (h x) y hy

theorem all_map_of_forall {α β : Type} (xs : List α) (f : α → β) (q : β → Bool)
    (h : ∀ x, q (f x) = true) : (xs.map f).all q = true := by
  simp only [List.all_eq_true, List.mem_map]
  rintro y ⟨x, _, rfl⟩
  exact h x

theorem mainTransportLines_heads (payload : GroupJoinResponsePayload) :
    (mainTransportLines payload).all (hasHead transportHeads) = true := by
  simp only [mainTransportLines, List.all_append, Bool.and_eq_true]
  refine ⟨⟨?_, ?_⟩, ?_⟩
  · simp [hasHead, transportHeads]
  · exact all_flatMap_of_forall _ _ _ (fun fp => by simp [hasHead, transportHeads])
  · exact all_map_of_forall _ _ _ (fun c => by simp [hasHead, transportHeads, candidateString])

theorem audioContentLines_heads (isAnswer : Bool) (s : StreamSpec) :
    (audioContentLines isAnswer s).all (hasHead contentHeads) = true := by
  simp only [audioContentLines, ssrcLines]
  split_ifs <;> simp [hasHead, contentHeads]

theorem payloadTypeLines_heads (it : GroupJoinPayloadVideoPayloadType) :
    (payloadTypeLines it).all (hasHead contentHeads) = true := by
  simp only [payloadTypeLines, List.all_append, Bool.and_eq_true]
  refine ⟨⟨?_, ?_⟩, ?_⟩
  · simp [hasHead, contentHeads]
  · exact all_map_of_forall _ _ _ (fun c => by simp [hasHead, contentHeads])
  · split_ifs <;> simp [hasHead, contentHeads]

theorem videoContentLines_heads (isAnswer : Bool) (s : StreamSpec) :
    (videoContentLines isAnswer s).all (hasHead contentHeads) = true := by
  simp only [videoContentLines, List.all_append, Bool.and_eq_true]
  refine ⟨⟨⟨?_, ?_⟩, ?_⟩, ?_⟩
  · simp [hasHead, contentHeads]
  · exact all_flatMap_of_forall _ _ _ payloadTypeLines_heads
  · exact all_map_of_forall _ _ _ (fun c => by simp [hasHead, contentHeads])
  · split_ifs
    · simp [hasHead, contentHeads]
    · simp [hasHead, contentHeads]
    · simp only [List.all_append, Bool.and_eq_true]
      refine ⟨by simp [hasHead, contentHeads], ?_, ?_⟩
      · exact all_map_of_forall _ _ _ (fun c => by simp [hasHead, contentHeads, ssrcGroupLine])
      · exact all_flatMap_of_forall _ _ _ (fun c => by simp [hasHead, contentHeads, ssrcLines])

/-- The lines of a stream after its `m=` line. -/
theorem streamLines_eq (payload : GroupJoinResponsePayload) (isAnswer : Bool) (s : StreamSpec) :
    streamLines payload isAnswer s = mLineString s :: (streamLines payload isAnswer s).tail := by
  simp [streamLines]

theorem all_of_subset_heads (T U : List Str) (ls : List Str)
    (h : ls.all (hasHead T) = true) (hTU : ∀ t ∈ T, t ∈ U) : ls.all (hasHead U) = true := by
  simp only [List.all_eq_true, hasHead, List.any_eq_true] at h ⊢
  intro l hl
  obtain ⟨t, ht, htl⟩ := h l hl
  exact ⟨t, hTU t ht, htl⟩

theorem streamLines_tail_heads (payload : GroupJoinResponsePayload) (isAnswer : Bool)
    (s : StreamSpec) :
    (streamLines payload isAnswer s).tail.all (hasHead bodyHeads) = true := by
  have ht := all_of_subset_heads transportHeads bodyHeads _ (mainTransportLines_heads payload)
    (by decide)
  have ha := all_of_subset_heads contentHeads bodyHeads _ (audioContentLines_heads isAnswer s)
    (by decide)
  have hv := all_of_subset_heads contentHeads bodyHeads _ (videoContentLines_heads isAnswer s)
    (by decide)
  simp only [streamLines, List.singleton_append, List.cons_append, List.tail_cons,
    List.all_append, Bool.and_eq_true]
  refine ⟨⟨⟨?_, ?_⟩, ?_⟩, ?_⟩
  · split_ifs <;> simp [hasHead, bodyHeads]
  · simp [hasHead, bodyHeads]
  · split_ifs
    · exact ht
    · rfl
  · split_ifs
    · exact ha
    · exact hv

/-! ## Selecting lines from the lines of one stream -/

theorem mLineString_heads (s : StreamSpec) :
    hasHead ["m=audio ".toList, "m=video ".toList] (mLineString s) = true := by
  simp only [mLineString]
  split_ifs <;> simp [hasHead]

/-- A search that can match neither an `m=` line, nor `c=IN`, nor a transport
line, nor a content line finds at most the `a=mid:` line of a stream. -/
theorem getLines_streamLines_mid_only (payload : GroupJoinResponsePayload) (isAnswer : Bool)
    (s : StreamSpec) (p y : Str)
    (hp : (["m=audio ".toList, "m=video ".toList, "c=IN".toList] ++ transportHeads ++
      contentHeads).all (clash p) = true) :
    getLines (streamLines payload isAnswer s) (p ++ y) =
      getLines ["a=mid:".toList ++ streamMidString s] (p ++ y) := by
  simp only [List.all_append, Bool.and_eq_true] at hp
  obtain ⟨⟨hm, ht⟩, hc⟩ := hp
  simp only [List.all_cons, Bool.and_eq_true, List.all_nil, and_true] at hm
  have h1 : getLines [mLineString s] (p ++ y) = [] :=
    getLines_eq_nil_of_heads ["m=audio ".toList, "m=video ".toList] _ p y
      (by simp only [List.all_cons, List.all_nil, Bool.and_true]; exact mLineString_heads s)
      (by simp only [List.all_cons, List.all_nil, Bool.and_true, Bool.and_eq_true]
          exact ⟨hm.1, hm.2.1⟩)
  have h2 : getLines (if s.isMain then ["c=IN IP4 0.0.0.0".toList] else []) (p ++ y) = [] :=
    getLines_eq_nil_of_heads ["c=IN".toList] _ p y
      (by split_ifs <;> simp [hasHead])
      (by simp only [List.all_cons, List.all_nil, Bool.and_true]; exact hm.2.2)
  have h3 : getLines (if s.isMain then mainTransportLines payload else []) (p ++ y) = [] :=
    getLines_eq_nil_of_heads transportHeads _ p y
      (by split_ifs
          · exact mainTransportLines_heads payload
          · rfl) ht
  have h4 : getLines (if s.videoPayloadTypes.length = 0 then audioContentLines isAnswer s
      else videoContentLines isAnswer s) (p ++ y) = [] :=
    getLines_eq_nil_of_heads contentHeads _ p y
      (by split_ifs
          · exact audioContentLines_heads isAnswer s
          · exact videoContentLines_heads isAnswer s) hc
  simp only [streamLines, getLines_append, h1, h2, h3, h4, List.nil_append, List.append_nil]

theorem getLines_streamLines_mid (payload : GroupJoinResponsePayload) (isAnswer : Bool)
    (s : StreamSpec) :
    getLines (streamLines payload isAnswer s) "a=mid:".toList = [streamMidString s] := by
  have h := getLines_streamLines_mid_only payload isAnswer s "a=mid:".toList [] (by decide)
  rw [List.append_nil] at h
  rw [h]
  simp [getLines]

theorem getLines_streamLines_bundle (payload : GroupJoinResponsePayload) (isAnswer : Bool)
    (s : StreamSpec) :
    getLines (streamLines payload isAnswer s) "a=group:BUNDLE".toList = [] := by
  have h := getLines_streamLines_mid_only payload isAnswer s "a=group:BUNDLE".toList []
    (by decide)
  rw [List.append_nil] at h
  rw [h]
  simp [getLines, List.isPrefixOf]

/-- The two places of `createSdp` that compute the content identifier agree. -/
theorem bundleEntry_eq_streamMidString (s : StreamSpec) : bundleEntry s = streamMidString s := by
  simp only [bundleEntry, streamMidString]

theorem streamMidString_ne_nil (s : StreamSpec) : streamMidString s ≠ [] := by
  simp only [streamMidString]
  split_ifs <;> simp

theorem space_not_mem_streamMidString (s : StreamSpec) : ' ' ∉ streamMidString s := by
  have h := not_mem_showUInt s.streamId ' ' (by decide)
  simp only [streamMidString]
  split_ifs <;> simp [h]

theorem filterMap_nonempty (ls : List Str) (h : ∀ x ∈ ls, x ≠ []) :
    ls.filterMap (fun s => if s.length = 0 then none else some s) = ls := by
  induction ls with
  | nil => rfl
  | cons x xs ih =>
    have hx : x.length ≠ 0 := fun h0 => h x (by simp) (List.length_eq_zero.1 h0)
    rw [List.filterMap_cons, if_neg hx, ih (fun z hz => h z (by simp [hz]))]

/-- Reading back pieces that were written each after one delimiter. -/
theorem getlineAll_append_flatMap (d : Char) (m : Str) (ms : List Str) (hm : d ∉ m)
    (hne : m ≠ []) (hms : ∀ x ∈ ms, d ∉ x ∧ x ≠ []) :
    getlineAll d (m ++ ms.flatMap (fun x => d :: x)) = m :: ms := by
  induction ms generalizing m with
  | nil => simpa using getlineAll_of_not_mem d m hm hne
  | cons x xs ih =>
    have hx := hms x (by simp)
    have hxs : ∀ z ∈ xs, d ∉ z ∧ z ≠ [] := fun z hz => hms z (by simp [hz])
    simp only [List.flatMap_cons, List.cons_append]
    rw [getlineAll_append_delim d m _ hm, ih x hx.1 hx.2 hxs]

theorem splitFingerprintLines_flatMap (ms : List Str) (hms : ∀ x ∈ ms, ' ' ∉ x ∧ x ≠ []) :
    splitFingerprintLines (ms.flatMap (fun x => ' ' :: x)) = ms := by
  cases ms with
  | nil => rfl
  | cons m ms =>
    have hm := hms m (by simp)
    have hrest : ∀ z ∈ ms, ' ' ∉ z ∧ z ≠ [] := fun z hz => hms z (by simp [hz])
    simp only [splitFingerprintLines, List.flatMap_cons, List.cons_append,
      getlineAll_delim_cons, getlineAll_append_flatMap ' ' m ms hm.1 hm.2 hrest]
    rw [List.filterMap_cons]
    simp only [List.length_nil, if_true]
    exact filterMap_nonempty (m :: ms) (fun x hx => (hms x hx).2)

/-- The `a=mid:` lines of the text are those of its streams, in order. -/
theorem getLines_createSdpLines_mid (sessionId : Nat) (payload : GroupJoinResponsePayload)
    (isAnswer : Bool) (bundleStreams : List StreamSpec) :
    getLines (createSdpLines sessionId payload isAnswer bundleStreams) "a=mid:".toList =
      bundleStreams.map streamMidString := by
  simp only [createSdpLines, getLines_append, getLines_flatMap, getLines_streamLines_mid]
  have h : getLines ["v=0".toList, "o=- ".toList ++ showUInt sessionId ++
      " 2 IN IP4 0.0.0.0".toList, "s=-".toList, "t=0 0".toList, bundleString bundleStreams,
      "a=ice-lite".toList] "a=mid:".toList = [] := by
    simp [getLines, List.isPrefixOf, bundleString]
  rw [h, List.nil_append]
  clear h
  induction bundleStreams with
  | nil => rfl
  | cons s ss ih => simp [ih]

/-- The `a=group:BUNDLE` line of the vector of lines that `createSdp` builds
enumerates the content identifiers of its `a=mid:` lines: the vector has
exactly one `a=group:BUNDLE` line, its value is every `a=mid:` value of the
vector preceded by one space, in the order of the `a=mid:` lines; cutting it
at the spaces gives back exactly those values; and the `a=mid:` lines of the
vector are those of the streams, in stream order, one for each stream. -/
theorem createSdpLines_bundle_enumerates_mids (sessionId : Nat) (payload : GroupJoinResponsePayload)
    (isAnswer : Bool) (bundleStreams : List StreamSpec) :
    getLines (createSdpLines sessionId payload isAnswer bundleStreams) "a=group:BUNDLE".toList =
      [ (getLines (createSdpLines sessionId payload isAnswer bundleStreams)
          "a=mid:".toList).flatMap (fun mid => ' ' :: mid) ] ∧
    splitFingerprintLines
      ((getLines (createSdpLines sessionId payload isAnswer bundleStreams)
          "a=mid:".toList).flatMap (fun mid => ' ' :: mid)) =
      getLines (createSdpLines sessionId payload isAnswer bundleStreams) "a=mid:".toList ∧
    getLines (createSdpLines sessionId payload isAnswer bundleStreams) "a=mid:".toList =
      bundleStreams.flatMap
        (fun stream => getLines (streamLines payload isAnswer stream) "a=mid:".toList) ∧
    ∀ stream : StreamSpec,
      (getLines (streamLines payload isAnswer stream) "a=mid:".toList).length = 1 := by
  refine ⟨?_, ?_, ?_, ?_⟩
  · rw [getLines_createSdpLines_mid]
    simp only [createSdpLines, getLines_append, getLines_flatMap, getLines_streamLines_bundle]
    have h : getLines ["v=0".toList, "o=- ".toList ++ showUInt sessionId ++
        " 2 IN IP4 0.0.0.0".toList, "s=-".toList, "t=0 0".toList, bundleString bundleStreams,
        "a=ice-lite".toList] "a=group:BUNDLE".toList =
        [bundleStreams.flatMap (fun stream => " ".toList ++ bundleEntry stream)] := by
      simp [getLines, List.isPrefixOf, bundleString]
    rw [h]
    have h2 : (bundleStreams.flatMap fun _ => ([] : List Str)) = [] := by
      induction bundleStreams with
      | nil => rfl
      | cons s ss ih => simp
    rw [h2, List.append_nil]
    congr 1
    clear h h2
    induction bundleStreams with
    | nil => rfl
    | cons s ss ih =>
      have ih2 : (ss.flatMap fun stream => ' ' :: streamMidString stream) =
          (List.map streamMidString ss).flatMap fun mid => ' ' :: mid := by
        simpa [bundleEntry_eq_streamMidString] using ih
      simp [ih2, bundleEntry_eq_streamMidString]
  · rw [getLines_createSdpLines_mid]
    apply splitFingerprintLines_flatMap
    intro x hx
    obtain ⟨s, _, rfl⟩ := List.mem_map.1 hx
    exact ⟨space_not_mem_streamMidString s, streamMidString_ne_nil s⟩
  · rw [getLines_createSdpLines_mid]
    simp only [getLines_streamLines_mid]
    induction bundleStreams with
    | nil => rfl
    | cons s ss ih => simp [ih]
  · intro stream
    rw [getLines_streamLines_mid]
    rfl

/-! ## The streams of `parseJoinResponseIntoSdp` -/

theorem isAudioContent_iff (s : StreamSpec) :
    isAudioContent s = decide (s.videoPayloadTypes.length = 0) := by
  simp only [isAudioContent, mLineString]
  split_ifs with h <;> simp [List.isPrefixOf, h]

/-- The streams of the outgoing side: the main stream, followed by the main
video stream when the join payload has source groups. -/
theorem outgoingStreams_cases (J : GroupJoinPayload) (out : List StreamSpec)
    (h : outgoingStreams J = some out) :
    (J.videoSourceGroups = [] ∧ out = [mainStream J]) ∨
    (∃ ssrc, J.videoSourceGroups ≠ [] ∧ firstVideoSsrc J.videoSourceGroups = some ssrc ∧
      out = [mainStream J, mainVideoStream J ssrc]) := by
  simp only [outgoingStreams] at h
  split_ifs at h with hg
  · cases hf : firstVideoSsrc J.videoSourceGroups with
    | none => simp [hf] at h
    | some ssrc =>
      simp only [hf, Option.some.injEq] at h
      exact Or.inr ⟨ssrc, fun h0 => hg (by rw [h0]; rfl), rfl, h.symm⟩
  · simp only [Option.some.injEq] at h
    exact Or.inl ⟨List.length_eq_zero.1 (not_not.1 hg), h.symm⟩

theorem outgoingStreams_isOutgoing (J : GroupJoinPayload) (out : List StreamSpec)
    (h : outgoingStreams J = some out) : ∀ s ∈ out, s.isOutgoing = true := by
  rcases outgoingStreams_cases J out h with ⟨_, rfl⟩ | ⟨ssrc, _, _, rfl⟩
  · intro s hs
    simp only [List.mem_singleton] at hs
    subst hs
    rfl
  · intro s hs
    simp only [List.mem_cons, List.mem_singleton, List.not_mem_nil, or_false] at hs
    rcases hs with rfl | rfl <;> rfl

theorem participantStreams_spec (p : GroupParticipantDescription) (ps : List StreamSpec)
    (h : participantStreams p = some ps) :
    ∀ s ∈ ps, s.isOutgoing = false ∧ s.isMain = false ∧ s.streamId = s.ssrc := by
  simp only [participantStreams] at h
  split_ifs at h
  · split at h
    · exact absurd h (by simp)
    · simp only [Option.some.injEq] at h
      subst h
      simp
  · simp only [Option.some.injEq] at h
    subst h
    simp

theorem allParticipantStreams_spec (P : List GroupParticipantDescription) :
    ∀ others : List StreamSpec, allParticipantStreams P = some others →
      ∀ s ∈ others, s.isOutgoing = false ∧ s.isMain = false ∧ s.streamId = s.ssrc := by
  induction P with
  | nil =>
    intro others h
    simp only [allParticipantStreams, Option.some.injEq] at h
    subst h
    simp
  | cons p P ih =>
    intro others h
    simp only [allParticipantStreams] at h
    split at h
    · exact absurd h (by simp)
    · rename_i ps hps
      split at h
      · exact absurd h (by simp)
      · rename_i more hmore
        simp only [Option.some.injEq] at h
        subst h
        intro s hs
        rcases List.mem_append.1 hs with hs | hs
        · exact participantStreams_spec p ps hps s hs
        · exact ih more hmore s hs

theorem joinResponseStreams_split (J : GroupJoinPayload) (P : List GroupParticipantDescription)
    (streams : List StreamSpec) (h : joinResponseStreams J P = some streams) :
    ∃ out others, outgoingStreams J = some out ∧ allParticipantStreams P = some others ∧
      streams = out ++ others := by
  cases hout : outgoingStreams J with
  | none => simp [joinResponseStreams, hout] at h
  | some out =>
    cases hoth : allParticipantStreams P with
    | none => simp [joinResponseStreams, hout, hoth] at h
    | some others =>
      simp only [joinResponseStreams, hout, hoth, Option.some.injEq] at h
      exact ⟨out, others, rfl, rfl, h.symm⟩

/-- Claim C10. Content identifier scheme. In the text that
`parseJoinResponseIntoSdp` produces, the `a=mid:` values are, stream by
stream, `0` for an outgoing stream whose block is `m=audio` and `1` for an
outgoing stream whose block is `m=video`, and `audio` or `video` (according to
the block) followed by the decimal source identifier for a stream of a remote
participant; the streams are the outgoing ones followed by those of the
participants. -/
theorem content_identifier_scheme (sessionId : Nat) (joinPayload : GroupJoinPayload)
    (payload : GroupJoinResponsePayload) (isAnswer : Bool)
    (allOtherParticipants : List GroupParticipantDescription) (bundleStreams : List StreamSpec)
    (h : joinResponseStreams joinPayload allOtherParticipants = some bundleStreams) :
    getLines (createSdpLines sessionId payload isAnswer bundleStreams) "a=mid:".toList =
      bundleStreams.map (fun stream =>
        contentIdentifier stream.isOutgoing (isAudioContent stream) stream.ssrc) ∧
    ∃ outgoing others,
      outgoingStreams joinPayload = some outgoing ∧
      allParticipantStreams allOtherParticipants = some others ∧
      bundleStreams = outgoing ++ others ∧
      (∀ stream ∈ outgoing, stream.isOutgoing = true) ∧
      (∀ stream ∈ others, stream.isOutgoing = false) := by
  obtain ⟨out, others, hout, hothers, hsplit⟩ := joinResponseStreams_split _ _ _ h
  have ho := outgoingStreams_isOutgoing joinPayload out hout
  have hp := allParticipantStreams_spec allOtherParticipants others hothers
  refine ⟨?_, out, others, hout, hothers, hsplit, ho, fun s hs => (hp s hs).1⟩
  rw [getLines_createSdpLines_mid]
  apply List.map_congr_left
  intro s hs
  rw [hsplit] at hs
  rw [isAudioContent_iff]
  rcases List.mem_append.1 hs with hs | hs
  · have h1 := ho s hs
    simp only [streamMidString, contentIdentifier, h1, if_true]
    split_ifs <;> simp_all
  · obtain ⟨h1, _, h3⟩ := hp s hs
    simp only [streamMidString, contentIdentifier, h1, h3]
    split_ifs <;> simp_all

theorem content_identifier_scheme_witness :
    joinResponseStreams exampleJoinPayload exampleParticipants = some exampleStreams ∧
    getLines (createSdpLines 7 exampleResponse false exampleStreams) "a=mid:".toList =
      exampleStreams.map (fun stream =>
        contentIdentifier stream.isOutgoing (isAudioContent stream) stream.ssrc) :=
  ⟨by decide,
   (content_identifier_scheme 7 exampleJoinPayload exampleResponse false exampleParticipants
      exampleStreams (by decide)).1⟩

/-! ## The split into audio and video lines, and the content blocks -/

theorem parseSdpIntoJoinPayload_eq (sdp : Str) :
    parseSdpIntoJoinPayload sdp = parseLines (splitSdpLines sdp) := rfl

theorem splitAudioVideo_cons (b : Bool) (l : Str) (rest : List Str) :
    splitAudioVideo b (l :: rest) =
      (if (if "m=audio".toList.isPrefixOf l then true
            else if "m=video".toList.isPrefixOf l then false else b) = true
       then (l :: (splitAudioVideo (if "m=audio".toList.isPrefixOf l then true
            else if "m=video".toList.isPrefixOf l then false else b) rest).1,
            (splitAudioVideo (if "m=audio".toList.isPrefixOf l then true
            else if "m=video".toList.isPrefixOf l then false else b) rest).2)
       else ((splitAudioVideo (if "m=audio".toList.isPrefixOf l then true
            else if "m=video".toList.isPrefixOf l then false else b) rest).1,
            l :: (splitAudioVideo (if "m=audio".toList.isPrefixOf l then true
            else if "m=video".toList.isPrefixOf l then false else b) rest).2)) := by
  simp only [splitAudioVideo]

/-- The audio lines are the lines of the `m=audio` blocks, preceded by the
session-level lines when the flag is set at the start. -/
theorem splitAudioVideo_fst (lines : List Str) : ∀ b : Bool,
    (splitAudioVideo b lines).1 =
      (if b then (contentBlocks lines).1 else []) ++
        ((contentBlocks lines).2.filter isAudioBlock).flatten := by
  induction lines with
  | nil => intro b; cases b <;> rfl
  | cons l rest ih =>
    intro b
    rw [splitAudioVideo_cons]
    cases ha : "m=audio".toList.isPrefixOf l with
    | true =>
      have hm : isMediaLine l = true := by simp only [isMediaLine, ha, Bool.true_or]
      have hb : isAudioBlock (l :: (contentBlocks rest).1) = true := by
        simp only [isAudioBlock, ha]
      simp only [if_true, contentBlocks, hm, ih true, List.filter_cons, hb,
        List.flatten_cons, List.cons_append]
      cases b <;> rfl
    | false =>
      have hb : isAudioBlock (l :: (contentBlocks rest).1) = false := by
        simp only [isAudioBlock, ha]
      cases hv : "m=video".toList.isPrefixOf l with
      | true =>
        have hm : isMediaLine l = true := by simp only [isMediaLine, hv, Bool.or_true]
        simp only [if_true, contentBlocks, hm, ih false, List.filter_cons, hb,
          Bool.false_eq_true, if_false, List.nil_append]
        cases b <;> rfl
      | false =>
        have hm : isMediaLine l = false := by simp only [isMediaLine, ha, hv, Bool.or_false]
        simp only [Bool.false_eq_true, if_false, contentBlocks, hm, ih b]
        cases b <;> simp

theorem audioLines_eq (sdp : Str) :
    (splitAudioVideo false (splitSdpLines sdp)).1 = (audioBlocks sdp).flatten := by
  rw [splitAudioVideo_fst]
  rfl

theorem length_getLines (ls : List Str) (p : Str) :
    (getLines ls p).length = countLines ls p := by
  induction ls with
  | nil => rfl
  | cons l ls ih =>
    simp only [getLines, countLines, List.filterMap_cons, List.filter_cons] at ih ⊢
    cases h : p.isPrefixOf l with
    | true => simp only [if_true, List.length_cons, ih]
    | false => simp only [Bool.false_eq_true, if_false, ih]

theorem countLines_flatten (bs : List (List Str)) (p : Str) :
    countLines bs.flatten p = (bs.map (fun b => countLines b p)).sum := by
  induction bs with
  | nil => rfl
  | cons b bs ih =>
    simp only [countLines, List.flatten_cons, List.filter_append, List.length_append,
      List.map_cons, List.sum_cons] at ih ⊢
    rw [ih]

theorem parseSections_isSome (a v : List Str) :
    (parseSections a v).isSome = true ↔
      (getLines a "a=ice-ufrag:".toList).length = 1 ∧
      (getLines a "a=ice-pwd:".toList).length = 1 := by
  simp only [parseSections]
  split_ifs with h1 h2
  · simp only [Option.isSome_none, Bool.false_eq_true, false_iff, not_and]
    intro h; exact absurd h h1
  · simp only [Option.isSome_none, Bool.false_eq_true, false_iff, not_and]
    intro _ h; exact absurd h h2
  · simp only [Option.isSome_some, true_iff]
    exact ⟨not_not.1 h1, not_not.1 h2⟩

theorem parseSections_eq_none (a v : List Str)
    (h : ¬ ((getLines a "a=ice-ufrag:".toList).length = 1 ∧
      (getLines a "a=ice-pwd:".toList).length = 1)) : parseSections a v = none := by
  cases hp : parseSections a v with
  | none => rfl
  | some j =>
    exact absurd ((parseSections_isSome a v).1 (by rw [hp]; rfl)) h

/-- Claim C5. `parseSdpIntoJoinPayload` returns a payload exactly when the lines
of the `m=audio` content blocks of the text, taken together, contain exactly
one line starting with `a=ice-ufrag:` and exactly one line starting with
`a=ice-pwd:`. -/
theorem parse_isSome_iff_one_audio_credential_pair (sdp : Str) :
    (parseSdpIntoJoinPayload sdp).isSome = true ↔
      countLines (audioBlocks sdp).flatten "a=ice-ufrag:".toList = 1 ∧
      countLines (audioBlocks sdp).flatten "a=ice-pwd:".toList = 1 := by
  rw [parseSdpIntoJoinPayload_eq, parseLines, parseSections_isSome, audioLines_eq,
    length_getLines, length_getLines]

/-- Counterexample to claim C5 as it is stated. A text without any `m=audio` line that holds
exactly one `a=ice-ufrag:` line and exactly one `a=ice-pwd:` line is decoded
to no value. -/
theorem parse_none_with_one_credential_pair :
    countLines (splitSdpLines "a=ice-ufrag:x\na=ice-pwd:y\n".toList) "a=ice-ufrag:".toList = 1 ∧
    countLines (splitSdpLines "a=ice-ufrag:x\na=ice-pwd:y\n".toList) "a=ice-pwd:".toList = 1 ∧
    parseSdpIntoJoinPayload "a=ice-ufrag:x\na=ice-pwd:y\n".toList = none := by
  decide

/-- Claim C6. When the `m=audio` content blocks of a text, taken together, do
not contain exactly one `a=ice-ufrag:` line and exactly one `a=ice-pwd:` line
(the counts are summed over the `m=audio` blocks), `parseSdpIntoJoinPayload`
returns no value. -/
theorem parse_none_of_audio_blocks_credentials (sdp : Str)
    (h : ((audioBlocks sdp).map (fun block => countLines block "a=ice-ufrag:".toList)).sum ≠ 1 ∨
      ((audioBlocks sdp).map (fun block => countLines block "a=ice-pwd:".toList)).sum ≠ 1) :
    parseSdpIntoJoinPayload sdp = none := by
  rw [parseSdpIntoJoinPayload_eq, parseLines]
  apply parseSections_eq_none
  rw [audioLines_eq, length_getLines, length_getLines, countLines_flatten, countLines_flatten]
  rintro ⟨h1, h2⟩
  rcases h with h | h
  · exact h h1
  · exact h h2

theorem parse_none_of_audio_blocks_credentials_witness :
    parseSdpIntoJoinPayload
      "m=audio 1\na=ice-ufrag:x\na=ice-pwd:y\nm=audio 0\na=ice-ufrag:z\n".toList = none :=
  parse_none_of_audio_blocks_credentials _ (by decide)

/-- Counterexample to claim C6 as it is stated. A text with an `m=audio` block that holds the
credential pair and an `m=video` block that holds neither line is decoded to a
payload. -/
theorem parse_some_with_block_lacking_credentials :
    (contentBlocks (splitSdpLines
      "m=audio 1\na=ice-ufrag:x\na=ice-pwd:y\nm=video 0\na=mid:1\n".toList)).2 =
      [ [ "m=audio 1".toList, "a=ice-ufrag:x".toList, "a=ice-pwd:y".toList ],
        [ "m=video 0".toList, "a=mid:1".toList ] ] ∧
    countLines [ "m=video 0".toList, "a=mid:1".toList ] "a=ice-ufrag:".toList = 0 ∧
    (parseSdpIntoJoinPayload
      "m=audio 1\na=ice-ufrag:x\na=ice-pwd:y\nm=video 0\na=mid:1\n".toList).isSome = true := by
  decide

/-! ## Lines without effect on the decoder -/

theorem getLines_insert_of_not_prefix (a b : List Str) (x p y : Str)
    (h : p.isPrefixOf x = false) :
    getLines (a ++ x :: b) (p ++ y) = getLines (a ++ b) (p ++ y) := by
  have hx : (p ++ y).isPrefixOf x = false := by
    cases hc : (p ++ y).isPrefixOf x with
    | false => rfl
    | true =>
      rw [List.isPrefixOf_iff_prefix] at hc
      have : p.isPrefixOf x = true :=
        List.isPrefixOf_iff_prefix.2 ((List.prefix_append p y).trans hc)
      rw [h] at this
      exact Bool.noConfusion this
  rw [getLines_append, getLines_cons, getLines_append]
  have h1 : getLines [x] (p ++ y) = [] := by
    simp only [getLines, List.filterMap_cons, hx, Bool.false_eq_true, if_false,
      List.filterMap_nil]
  rw [h1, List.nil_append]

theorem getLines_insert_of_not_prefix_nil (a b : List Str) (x p : Str)
    (h : p.isPrefixOf x = false) :
    getLines (a ++ x :: b) p = getLines (a ++ b) p := by
  have := getLines_insert_of_not_prefix a b x p [] h
  rwa [List.append_nil] at this

theorem getLines_insert_self (a b : List Str) (p : Str) :
    getLines (a ++ p :: b) p = getLines a p ++ [] :: getLines b p := by
  rw [getLines_append, getLines_cons]
  have h1 : getLines [p] p = [[]] := by
    have hp : p.isPrefixOf p = true := List.isPrefixOf_iff_prefix.2 (List.prefix_refl p)
    simp only [getLines, List.filterMap_cons, hp, if_true, List.drop_length,
      List.filterMap_nil]
  rw [h1]
  rfl

theorem filterMap_insert_none {α β : Type} (f : α → Option β) (a b : List α) (x : α)
    (h : f x = none) : (a ++ x :: b).filterMap f = (a ++ b).filterMap f := by
  simp [List.filterMap_append, List.filterMap_cons, h]

theorem flatMap_insert_nil {α β : Type} (f : α → List β) (a b : List α) (x : α)
    (h : f x = []) : (a ++ x :: b).flatMap f = (a ++ b).flatMap f := by
  simp [List.flatMap_append, h]

theorem parseFingerprintLine_nil : parseFingerprintLine [] = none := rfl

theorem parseRtpmapLine_nil (v : List Str) : parseRtpmapLine v [] = [] := rfl

theorem parseExtmapLine_nil : parseExtmapLine [] = [] := rfl

theorem ignorable_spec (x : Str) (h : ignorable x = true) :
    isMediaLine x = false ∧ (∀ p ∈ exactHeads, p.isPrefixOf x = false) ∧
      (∀ p ∈ skipHeads, p.isPrefixOf x = false ∨ x = p) := by
  simp only [ignorable, Bool.and_eq_true, Bool.not_eq_true', List.all_eq_true,
    Bool.or_eq_true, beq_iff_eq] at h
  exact ⟨h.1.1, h.1.2, h.2⟩

/-- A lookup with one of `skipHeads`, followed by the dropping of the empty
values, does not see an ignorable line. -/
theorem getLines_insert_skip {β : Type} (f : Str → List β) (hf : f [] = [])
    (a b : List Str) (x p : Str) (h : p.isPrefixOf x = false ∨ x = p) :
    (getLines (a ++ x :: b) p).flatMap f = (getLines (a ++ b) p).flatMap f := by
  rcases h with h | h
  · rw [getLines_insert_of_not_prefix_nil a b x p h]
  · subst h
    rw [getLines_insert_self, getLines_append]
    exact flatMap_insert_nil f _ _ [] hf

theorem filterMap_eq_flatMap {α β : Type} (f : α → Option β) (xs : List α) :
    xs.filterMap f = xs.flatMap (fun x => (f x).toList) := by
  induction xs with
  | nil => rfl
  | cons x xs ih =>
    rw [List.filterMap_cons, List.flatMap_cons, ← ih]
    cases f x <;> rfl

/-- An ignorable line among the audio lines does not change the result. -/
theorem parseSections_insert_audio (a1 a2 v : List Str) (x : Str) (h : ignorable x = true) :
    parseSections (a1 ++ x :: a2) v = parseSections (a1 ++ a2) v := by
  obtain ⟨_, he, hs⟩ := ignorable_spec x h
  have h1 := getLines_insert_of_not_prefix_nil a1 a2 x "a=ice-ufrag:".toList
    (he _ (by decide))
  have h2 := getLines_insert_of_not_prefix_nil a1 a2 x "a=ice-pwd:".toList
    (he _ (by decide))
  have h3 : (getLines (a1 ++ x :: a2) "a=fingerprint:".toList).filterMap parseFingerprintLine =
      (getLines (a1 ++ a2) "a=fingerprint:".toList).filterMap parseFingerprintLine := by
    rw [filterMap_eq_flatMap, filterMap_eq_flatMap]
    exact getLines_insert_skip _ rfl a1 a2 x _ (hs _ (by decide))
  simp only [parseSections, h1, h2, h3]

theorem parseRtpmapLine_insert (v1 v2 : List Str) (x : Str) (h : ignorable x = true) :
    parseRtpmapLine (v1 ++ x :: v2) = parseRtpmapLine (v1 ++ v2) := by
  obtain ⟨_, he, _⟩ := ignorable_spec x h
  have h1 : ∀ n : Nat, getLines (v1 ++ x :: v2)
      ("a=rtcp-fb:".toList ++ showUInt n ++ " ".toList) =
      getLines (v1 ++ v2) ("a=rtcp-fb:".toList ++ showUInt n ++ " ".toList) := by
    intro n
    rw [List.append_assoc]
    exact getLines_insert_of_not_prefix v1 v2 x _ _ (he _ (by decide))
  have h2 : ∀ n : Nat, getLines (v1 ++ x :: v2)
      ("a=fmtp:".toList ++ showUInt n ++ " ".toList) =
      getLines (v1 ++ v2) ("a=fmtp:".toList ++ showUInt n ++ " ".toList) := by
    intro n
    rw [List.append_assoc]
    exact getLines_insert_of_not_prefix v1 v2 x _ _ (he _ (by decide))
  funext line
  simp only [parseRtpmapLine, h1, h2]

/-- An ignorable line among the video lines does not change the result. -/
theorem parseSections_insert_video (a v1 v2 : List Str) (x : Str) (h : ignorable x = true) :
    parseSections a (v1 ++ x :: v2) = parseSections a (v1 ++ v2) := by
  obtain ⟨_, he, hs⟩ := ignorable_spec x h
  have h1 : (getLines (v1 ++ x :: v2) "a=rtpmap:".toList).flatMap
        (parseRtpmapLine (v1 ++ x :: v2)) =
      (getLines (v1 ++ v2) "a=rtpmap:".toList).flatMap (parseRtpmapLine (v1 ++ v2)) := by
    rw [parseRtpmapLine_insert v1 v2 x h]
    exact getLines_insert_skip _ (parseRtpmapLine_nil _) v1 v2 x _ (hs _ (by decide))
  have h2 : (getLines (v1 ++ x :: v2) "a=extmap:".toList).flatMap parseExtmapLine =
      (getLines (v1 ++ v2) "a=extmap:".toList).flatMap parseExtmapLine :=
    getLines_insert_skip _ parseExtmapLine_nil v1 v2 x _ (hs _ (by decide))
  have h3 := getLines_insert_of_not_prefix_nil v1 v2 x "a=ssrc-group:FID ".toList
    (he _ (by decide))
  have h4 := getLines_insert_of_not_prefix_nil v1 v2 x "a=ssrc-group:SIM ".toList
    (he _ (by decide))
  simp only [parseSections, h1, h2, h3, h4]

/-- A line that opens no content block goes to the audio or to the video
lines and leaves the split of the other lines as it is. -/
theorem splitAudioVideo_insert (x : Str) (post : List Str) (hx : isMediaLine x = false)
    (pre : List Str) : ∀ b : Bool, ∃ a1 a2 v1 v2,
      splitAudioVideo b (pre ++ post) = (a1 ++ a2, v1 ++ v2) ∧
      (splitAudioVideo b (pre ++ x :: post) = (a1 ++ x :: a2, v1 ++ v2) ∨
       splitAudioVideo b (pre ++ x :: post) = (a1 ++ a2, v1 ++ x :: v2)) := by
  simp only [isMediaLine, Bool.or_eq_false_iff] at hx
  induction pre with
  | nil =>
    intro b
    refine ⟨[], (splitAudioVideo b post).1, [], (splitAudioVideo b post).2, rfl, ?_⟩
    simp only [List.nil_append, splitAudioVideo_cons, hx.1, hx.2, Bool.false_eq_true, if_false]
    cases b
    · right; rfl
    · left; rfl
  | cons l pre ih =>
    intro b
    simp only [List.cons_append, splitAudioVideo_cons]
    generalize (if "m=audio".toList.isPrefixOf l = true then true
      else if "m=video".toList.isPrefixOf l = true then false else b) = f
    obtain ⟨a1, a2, v1, v2, h1, h2⟩ := ih f
    cases f
    · simp only [Bool.false_eq_true, if_false]
      refine ⟨a1, a2, l :: v1, v2, ?_, ?_⟩
      · rw [h1]; rfl
      · rcases h2 with h2 | h2
        · left; rw [h2]; rfl
        · right; rw [h2]; rfl
    · simp only [if_true]
      refine ⟨l :: a1, a2, v1, v2, ?_, ?_⟩
      · rw [h1]; rfl
      · rcases h2 with h2 | h2
        · left; rw [h2]; rfl
        · right; rw [h2]; rfl

/-- An ignorable line does not change the result of `parseLines`. -/
theorem parseLines_insert (pre post : List Str) (x : Str) (h : ignorable x = true) :
    parseLines (pre ++ x :: post) = parseLines (pre ++ post) := by
  obtain ⟨a1, a2, v1, v2, h1, h2⟩ :=
    splitAudioVideo_insert x post (ignorable_spec x h).1 pre false
  simp only [parseLines, h1]
  rcases h2 with h2 | h2
  · rw [h2]
    exact parseSections_insert_audio a1 a2 _ x h
  · rw [h2]
    exact parseSections_insert_video _ v1 v2 x h

/-! ## Inserting a line into a text -/

theorem getlineAll_cons_of_ne (d c : Char) (cs : Str) (h : c ≠ d) :
    getlineAll d (c :: cs) =
      (c :: (getlineAll d cs).headD []) :: (getlineAll d cs).tail := by
  rw [getlineAll, if_neg h]
  cases getlineAll d cs <;> rfl

theorem getlineAll_append_singleton_ne_nil (d : Char) (t : Str) :
    getlineAll d (t ++ [d]) ≠ [] := by
  cases t with
  | nil => simp [getlineAll]
  | cons c t =>
    by_cases hc : c = d
    · subst hc
      rw [List.cons_append, getlineAll_delim_cons]
      simp
    · rw [List.cons_append, getlineAll_cons_of_ne d c _ hc]
      simp

theorem getlineAll_append_delim_cons (d : Char) (t rest : Str) :
    getlineAll d (t ++ d :: rest) = getlineAll d (t ++ [d]) ++ getlineAll d rest := by
  induction t with
  | nil => simp [getlineAll]
  | cons c t ih =>
    by_cases hc : c = d
    · subst hc
      rw [List.cons_append, List.cons_append, getlineAll_delim_cons, getlineAll_delim_cons, ih]
      rfl
    · rw [List.cons_append, List.cons_append, getlineAll_cons_of_ne d c _ hc,
        getlineAll_cons_of_ne d c _ hc, ih]
      have hne := getlineAll_append_singleton_ne_nil d t
      cases hg : getlineAll d (t ++ [d]) with
      | nil => exact absurd hg hne
      | cons s r => rfl

theorem atLineStart_cases (before : Str) (h : atLineStart before = true) :
    before = [] ∨ ∃ t, before = t ++ ['\n'] := by
  rcases List.eq_nil_or_concat before with h0 | ⟨t, c, hc⟩
  · left; exact h0
  · right
    rw [List.concat_eq_append] at hc
    subst hc
    have hl : (t ++ [c]).getLast? = some c := by simp
    simp only [atLineStart, hl, decide_eq_true_eq] at h
    exact ⟨t, by rw [h]⟩

theorem getlineAll_append_of_atLineStart (before rest : Str) (h : atLineStart before = true) :
    getlineAll '\n' (before ++ rest) = getlineAll '\n' before ++ getlineAll '\n' rest := by
  rcases atLineStart_cases before h with h0 | ⟨t, ht⟩
  · subst h0; rfl
  · subst ht
    rw [List.append_assoc, List.singleton_append, getlineAll_append_delim_cons]

theorem splitSdpLines_append_of_atLineStart (before rest : Str)
    (h : atLineStart before = true) :
    splitSdpLines (before ++ rest) = splitSdpLines before ++ splitSdpLines rest := by
  simp only [splitSdpLines, getlineAll_append_of_atLineStart before rest h,
    List.filterMap_append]

theorem splitSdpLines_line_append (line rest : Str) (h : '\n' ∉ line) :
    splitSdpLines (line ++ '\n' :: rest) = splitSdpLines line ++ splitSdpLines rest := by
  cases line with
  | nil =>
    rw [List.nil_append]
    simp only [splitSdpLines, getlineAll_delim_cons, getlineAll_nil, List.filterMap_cons,
      List.length_nil, if_true, List.filterMap_nil, List.nil_append]
  | cons c t =>
    simp only [splitSdpLines, getlineAll_append_delim '\n' (c :: t) rest h,
      getlineAll_of_not_mem '\n' (c :: t) h (by simp), List.filterMap_cons]
    split <;> rfl

/-- The lines that `splitSdpLines` makes of a text without line feed: none, or
one line that starts the text. -/
theorem splitSdpLines_line (line : Str) (h : '\n' ∉ line) :
    splitSdpLines line = [] ∨ ∃ x, splitSdpLines line = [x] ∧ x <+: line := by
  cases line with
  | nil => left; rfl
  | cons c t =>
    right
    simp only [splitSdpLines, getlineAll_of_not_mem '\n' (c :: t) h (by simp),
      List.filterMap_cons, List.filterMap_nil, List.length_cons, Nat.add_one_ne_zero, if_false]
    split_ifs
    · exact ⟨_, rfl, List.dropLast_prefix _⟩
    · exact ⟨_, rfl, List.prefix_refl _⟩

theorem getlineAll_append_singleton (d : Char) (t : Str) :
    getlineAll d (t ++ [d]) = getlineAll d t ∨
      getlineAll d (t ++ [d]) = getlineAll d t ++ [[]] := by
  induction t with
  | nil => right; simp [getlineAll]
  | cons c t ih =>
    by_cases hc : c = d
    · subst hc
      rw [List.cons_append, getlineAll_delim_cons, getlineAll_delim_cons]
      rcases ih with ih | ih
      · left; rw [ih]
      · right; rw [ih]; rfl
    · rw [List.cons_append, getlineAll_cons_of_ne d c _ hc, getlineAll_cons_of_ne d c _ hc]
      rcases ih with ih | ih
      · left; rw [ih]
      · rw [ih]
        cases getlineAll d t with
        | nil => left; rfl
        | cons s r => right; rfl

theorem splitSdpLines_append_lf (text : Str) :
    splitSdpLines (text ++ ['\n']) = splitSdpLines text := by
  rcases getlineAll_append_singleton '\n' text with h | h
  · simp only [splitSdpLines, h]
  · simp only [splitSdpLines, h, List.filterMap_append, List.filterMap_cons, List.length_nil,
      if_true, List.filterMap_nil, List.append_nil]

theorem atLineStart_append_lf (text : Str) : atLineStart (text ++ ['\n']) = true := by
  have hl : (text ++ ['\n']).getLast? = some '\n' := by simp
  simp only [atLineStart, hl, decide_True]

/-- A line whose cleaned form is ignorable, inserted at a line start, does not
change the result of the decoder. -/
theorem parse_insert_line (line : Str) (hline : '\n' ∉ line)
    (hig : ∀ x ∈ splitSdpLines line, ignorable x = true)
    (before after : Str) (hb : atLineStart before = true) :
    parseSdpIntoJoinPayload (before ++ line ++ '\n' :: after) =
      parseSdpIntoJoinPayload (before ++ after) := by
  rw [parseSdpIntoJoinPayload_eq, parseSdpIntoJoinPayload_eq, List.append_assoc,
    splitSdpLines_append_of_atLineStart _ _ hb, splitSdpLines_append_of_atLineStart _ _ hb,
    splitSdpLines_line_append line after hline]
  rcases splitSdpLines_line line hline with h0 | ⟨x, hx, _⟩
  · rw [h0, List.nil_append]
  · rw [hx] at hig ⊢
    exact parseLines_insert _ _ x (hig x (by simp))

/-- A line whose cleaned form is ignorable, added after the end of a text,
does not change the result of the decoder. -/
theorem parse_append_line (line : Str) (hline : '\n' ∉ line)
    (hig : ∀ x ∈ splitSdpLines line, ignorable x = true) (text : Str) :
    parseSdpIntoJoinPayload (text ++ '\n' :: line) = parseSdpIntoJoinPayload text := by
  have h1 : text ++ '\n' :: line = (text ++ ['\n']) ++ line := by simp
  rw [parseSdpIntoJoinPayload_eq, parseSdpIntoJoinPayload_eq, h1,
    splitSdpLines_append_of_atLineStart _ _ (atLineStart_append_lf text),
    splitSdpLines_append_lf]
  rcases splitSdpLines_line line hline with h0 | ⟨x, hx, _⟩
  · rw [h0, List.append_nil]
  · rw [hx] at hig ⊢
    have := parseLines_insert (splitSdpLines text) [] x (hig x (by simp))
    rw [List.append_nil] at this
    exact this

theorem isPrefixOf_false_of_prefix (p x line : Str) (hx : x <+: line)
    (h : p.isPrefixOf line = false) : p.isPrefixOf x = false := by
  cases hc : p.isPrefixOf x with
  | false => rfl
  | true =>
    have : p.isPrefixOf line = true :=
      List.isPrefixOf_iff_prefix.2 ((List.isPrefixOf_iff_prefix.1 hc).trans hx)
    rw [h] at this
    exact Bool.noConfusion this

/-- A line that starts with none of the recognised beginnings is ignorable,
and so is what `splitSdpLines` makes of it. -/
theorem ignorable_of_unknown (line : Str) (hline : '\n' ∉ line)
    (hunknown : ∀ p ∈ recognisedHeads, p.isPrefixOf line = false) :
    ∀ x ∈ splitSdpLines line, ignorable x = true := by
  intro x hx
  have hpre : x <+: line := by
    rcases splitSdpLines_line line hline with h0 | ⟨y, hy, hyl⟩
    · rw [h0] at hx; exact absurd hx (by simp)
    · rw [hy] at hx
      simp only [List.mem_singleton] at hx
      subst hx
      exact hyl
  have hx' : ∀ p ∈ recognisedHeads, p.isPrefixOf x = false :=
    fun p hp => isPrefixOf_false_of_prefix p x line hpre (hunknown p hp)
  simp only [ignorable, isMediaLine, exactHeads, skipHeads, List.all_cons, List.all_nil,
    hx' "m=audio".toList (by decide), hx' "m=video".toList (by decide),
    hx' "a=ice-ufrag:".toList (by decide), hx' "a=ice-pwd:".toList (by decide),
    hx' "a=fingerprint:".toList (by decide), hx' "a=rtpmap:".toList (by decide),
    hx' "a=rtcp-fb:".toList (by decide), hx' "a=fmtp:".toList (by decide),
    hx' "a=extmap:".toList (by decide), hx' "a=ssrc-group:FID ".toList (by decide),
    hx' "a=ssrc-group:SIM ".toList (by decide), Bool.or_self, Bool.not_false, Bool.true_or,
    Bool.and_self]

/-- Claim C7. Unknown lines are ignored by the decoder: for a line without line
feed that starts with none of `m=audio`, `m=video`, `a=ice-ufrag:`,
`a=ice-pwd:`, `a=fingerprint:`, `a=rtpmap:`, `a=rtcp-fb:`, `a=fmtp:`,
`a=extmap:`, `a=ssrc-group:FID `, `a=ssrc-group:SIM `, the result of
`parseSdpIntoJoinPayload` is the same with the line inserted at any line start
of a text, and with the line added after the end of a text. -/
theorem unknown_line_ignored (line : Str) (hline : '\n' ∉ line)
    (hunknown : ∀ p ∈ recognisedHeads, p.isPrefixOf line = false) :
    (∀ before after : Str, atLineStart before = true →
      parseSdpIntoJoinPayload (before ++ line ++ '\n' :: after) =
        parseSdpIntoJoinPayload (before ++ after)) ∧
    (∀ text : Str,
      parseSdpIntoJoinPayload (text ++ '\n' :: line) = parseSdpIntoJoinPayload text) :=
  ⟨parse_insert_line line hline (ignorable_of_unknown line hline hunknown),
   parse_append_line line hline (ignorable_of_unknown line hline hunknown)⟩

theorem unknown_line_ignored_witness :
    parseSdpIntoJoinPayload
        ("m=audio 1\na=ice-ufrag:x\n".toList ++ "a=msid-semantic: WMS".toList ++
          '\n' :: "a=ice-pwd:y\n".toList) =
      parseSdpIntoJoinPayload ("m=audio 1\na=ice-ufrag:x\n".toList ++ "a=ice-pwd:y\n".toList) :=
  (unknown_line_ignored "a=msid-semantic: WMS".toList (by decide) (by decide)).1
    "m=audio 1\na=ice-ufrag:x\n".toList "a=ice-pwd:y\n".toList (by decide)

/-- Claim C8. A line that consists of `a=fingerprint:`, `a=rtpmap:` or
`a=extmap:` with nothing after it is skipped by the decoder: the result of
`parseSdpIntoJoinPayload` is the same as on the text without the line, be the
line at a line start of the text or after its end. -/
theorem empty_value_line_skipped (line : Str) (hline : line ∈ skipHeads) :
    (∀ before after : Str, atLineStart before = true →
      parseSdpIntoJoinPayload (before ++ line ++ '\n' :: after) =
        parseSdpIntoJoinPayload (before ++ after)) ∧
    (∀ text : Str,
      parseSdpIntoJoinPayload (text ++ '\n' :: line) = parseSdpIntoJoinPayload text) := by
  have h : '\n' ∉ line ∧ ∀ x ∈ splitSdpLines line, ignorable x = true := by
    simp only [skipHeads, List.mem_cons, List.mem_singleton, List.not_mem_nil, or_false]
      at hline
    rcases hline with h | h | h <;> subst h <;> decide
  exact ⟨parse_insert_line line h.1 h.2, parse_append_line line h.1 h.2⟩

theorem empty_value_line_skipped_witness :
    parseSdpIntoJoinPayload
        ("m=audio 1\na=ice-ufrag:x\n".toList ++ "a=fingerprint:".toList ++
          '\n' :: "a=ice-pwd:y\n".toList) =
      parseSdpIntoJoinPayload ("m=audio 1\na=ice-ufrag:x\n".toList ++ "a=ice-pwd:y\n".toList) :=
  (empty_value_line_skipped "a=fingerprint:".toList (by decide)).1
    "m=audio 1\na=ice-ufrag:x\n".toList "a=ice-pwd:y\n".toList (by decide)

/-- Counterexample to claim C8 as it is stated. An `a=ice-ufrag:` line with an empty value is
counted as a credential line and makes the decoding of a text fail that is
decoded without it; an `a=ssrc-group:FID ` line with an empty value adds a
source group without source identifiers. -/
theorem empty_value_line_not_skipped :
    parseSdpIntoJoinPayload
        "m=audio 1\na=ice-ufrag:\na=ice-ufrag:x\na=ice-pwd:y\n".toList = none ∧
    (parseSdpIntoJoinPayload "m=audio 1\na=ice-ufrag:x\na=ice-pwd:y\n".toList).isSome = true ∧
    parseSdpIntoJoinPayload
        "m=audio 1\na=ice-ufrag:x\na=ice-pwd:\na=ice-pwd:y\n".toList = none ∧
    (parseSdpIntoJoinPayload
        "m=audio 1\na=ice-ufrag:x\na=ice-pwd:y\nm=video 0\na=ssrc-group:FID \n".toList).map
        (fun j => j.videoSourceGroups) = some [ { semantics := "FID".toList, ssrcs := [] } ] ∧
    (parseSdpIntoJoinPayload
        "m=audio 1\na=ice-ufrag:x\na=ice-pwd:y\nm=video 0\n".toList).map
        (fun j => j.videoSourceGroups) = some [] := by
  decide

/-! ## The lines of the encoder are read back by `splitSdpLines` -/

theorem noLineBreak_nil : noLineBreak [] = true := rfl

theorem noLineBreak_cons (c : Char) (s : Str) :
    noLineBreak (c :: s) = ((c != '\n' && c != '\r') && noLineBreak s) := rfl

theorem noLineBreak_append (a b : Str) :
    noLineBreak (a ++ b) = (noLineBreak a && noLineBreak b) := by
  simp only [noLineBreak, List.all_append]

theorem noLineBreak_showUInt (v : Nat) : noLineBreak (showUInt v) = true := by
  simp only [noLineBreak, List.all_eq_true, Bool.and_eq_true, bne_iff_ne]
  intro c hc
  have hd := showUInt_isDigit v c hc
  constructor
  · rintro rfl; exact absurd hd (by decide)
  · rintro rfl; exact absurd hd (by decide)

theorem noLineBreak_flatMap {α : Type} (xs : List α) (f : α → Str)
    (h : ∀ x ∈ xs, noLineBreak (f x) = true) : noLineBreak (xs.flatMap f) = true := by
  simp only [noLineBreak, List.all_eq_true, List.mem_flatMap] at h ⊢
  rintro c ⟨x, hx, hc⟩
  exact h x hx c hc

theorem all_flatMap_of_forall_mem {α β : Type} (xs : List α) (f : α → List β) (q : β → Bool)
    (h : ∀ x ∈ xs, (f x).all q = true) : (xs.flatMap f).all q = true := by
  simp only [List.all_eq_true, List.mem_flatMap]
  rintro y ⟨x, hx, hy⟩
  exact List.all_eq_true.1 (h x hx) y hy

theorem all_map_of_forall_mem {α β : Type} (xs : List α) (f : α → β) (q : β → Bool)
    (h : ∀ x ∈ xs, q (f x) = true) : (xs.map f).all q = true := by
  simp only [List.all_eq_true, List.mem_map]
  rintro y ⟨x, hx, rfl⟩
  exact h x hx

theorem lineOk_cons_append (c : Char) (s : Str) :
    lineOk (c :: s) = ((c != '\n' && c != '\r') && noLineBreak s) := by
  simp [lineOk, noLineBreak_cons]

theorem candidateString_ok (c : GroupJoinResponseCandidate)
    (h : candidateNoLineBreak c = true) : lineOk (candidateString c) = true := by
  simp only [candidateNoLineBreak, Bool.and_eq_true] at h
  obtain ⟨⟨⟨⟨⟨⟨⟨⟨⟨⟨h1, h2⟩, h3⟩, h4⟩, h5⟩, h6⟩, h7⟩, h8⟩, h9⟩, h10⟩, h11⟩ := h
  simp only [candidateString]
  split_ifs <;>
    simp [lineOk_cons_append, noLineBreak_append, noLineBreak_cons, noLineBreak_nil, *]

theorem mainTransportLines_ok (payload : GroupJoinResponsePayload)
    (h : responseNoLineBreak payload = true) :
    (mainTransportLines payload).all lineOk = true := by
  simp only [responseNoLineBreak, Bool.and_eq_true, List.all_eq_true] at h
  obtain ⟨⟨⟨h1, h2⟩, h3⟩, h4⟩ := h
  simp only [mainTransportLines, List.all_append, Bool.and_eq_true]
  refine ⟨⟨?_, ?_⟩, ?_⟩
  · simp [lineOk_cons_append, noLineBreak_append, noLineBreak_cons, noLineBreak_nil, h1, h2]
  · apply all_flatMap_of_forall_mem
    intro f hf
    have := h3 f hf
    simp [lineOk_cons_append, noLineBreak_append, noLineBreak_cons, noLineBreak_nil, this.1,
      this.2]
  · apply all_map_of_forall_mem
    intro c hc
    exact candidateString_ok c (h4 c hc)

theorem ssrcLines_ok (kind : Str) (hk : noLineBreak kind = true) (ssrc streamId : Nat) :
    (ssrcLines kind ssrc streamId).all lineOk = true := by
  simp [ssrcLines, lineOk_cons_append, noLineBreak_append, noLineBreak_cons, noLineBreak_nil,
    noLineBreak_showUInt, hk]

theorem audioContentLines_ok (isAnswer : Bool) (s : StreamSpec) :
    (audioContentLines isAnswer s).all lineOk = true := by
  have hs := ssrcLines_ok "audio".toList (by decide) s.ssrc s.streamId
  simp only [audioContentLines, List.all_append, Bool.and_eq_true]
  refine ⟨by decide, ?_⟩
  split_ifs
  · decide
  · decide
  · rw [List.all_append, hs]; decide
  · decide
  · rw [List.all_append, hs]; decide

theorem fmtpParameters_noLineBreak (ps : List (Str × Str))
    (h : ∀ p ∈ ps, (noLineBreak p.1 && noLineBreak p.2) = true) :
    ∀ i : Nat, noLineBreak (fmtpParameters i ps) = true := by
  induction ps with
  | nil => intro i; rfl
  | cons p ps ih =>
    intro i
    have hp := h p (by simp)
    simp only [Bool.and_eq_true] at hp
    have hps := ih (fun q hq => h q (by simp [hq])) (i + 1)
    simp only [fmtpParameters]
    split_ifs <;>
      simp [noLineBreak_append, noLineBreak_cons, noLineBreak_nil, hp.1, hp.2, hps]

theorem payloadTypeLines_ok (it : GroupJoinPayloadVideoPayloadType)
    (h : payloadTypeNoLineBreak it = true) : (payloadTypeLines it).all lineOk = true := by
  simp only [payloadTypeNoLineBreak, Bool.and_eq_true, List.all_eq_true] at h
  obtain ⟨⟨h1, h2⟩, h3⟩ := h
  simp only [payloadTypeLines, List.all_append, Bool.and_eq_true]
  refine ⟨⟨?_, ?_⟩, ?_⟩
  · split_ifs <;>
      simp [lineOk_cons_append, noLineBreak_append, noLineBreak_cons, noLineBreak_nil,
        noLineBreak_showUInt, h1]
  · apply all_map_of_forall_mem
    intro f hf
    have := h2 f hf
    split_ifs <;>
      simp [lineOk_cons_append, noLineBreak_append, noLineBreak_cons, noLineBreak_nil,
        noLineBreak_showUInt, this.1, this.2]
  · have hp := fmtpParameters_noLineBreak it.parameters
      (fun p hp => by simpa using h3 p hp) 0
    split_ifs <;>
      simp [lineOk_cons_append, noLineBreak_append, noLineBreak_cons, noLineBreak_nil,
        noLineBreak_showUInt, hp]

theorem ssrcGroupLine_ok (g : GroupJoinPayloadVideoSourceGroup)
    (h : noLineBreak g.semantics = true) : lineOk (ssrcGroupLine g) = true := by
  have h2 : noLineBreak (g.ssrcs.flatMap fun ssrc => " ".toList ++ showUInt ssrc) = true :=
    noLineBreak_flatMap _ _ (fun x _ => by
      simp [noLineBreak_append, noLineBreak_cons, noLineBreak_nil, noLineBreak_showUInt])
  simp only [ssrcGroupLine]
  simp [lineOk_cons_append, noLineBreak_append, noLineBreak_cons, noLineBreak_nil, h]
  simpa using h2

theorem videoContentLines_ok (isAnswer : Bool) (s : StreamSpec)
    (h : streamNoLineBreak s = true) : (videoContentLines isAnswer s).all lineOk = true := by
  simp only [streamNoLineBreak, videoNoLineBreak, Bool.and_eq_true, List.all_eq_true] at h
  obtain ⟨⟨h1, h2⟩, h3⟩ := h
  simp only [videoContentLines, List.all_append, Bool.and_eq_true]
  refine ⟨⟨⟨by decide, ?_⟩, ?_⟩, ?_⟩
  · exact all_flatMap_of_forall_mem _ _ _ (fun it hit => payloadTypeLines_ok it (h2 it hit))
  · apply all_map_of_forall_mem
    intro e he
    simp [lineOk_cons_append, noLineBreak_append, noLineBreak_cons, noLineBreak_nil,
      noLineBreak_showUInt, h3 e he]
  · split_ifs
    · decide
    · decide
    · simp only [List.all_append, Bool.and_eq_true]
      refine ⟨by decide, ?_, ?_⟩
      · exact all_map_of_forall_mem _ _ _ (fun g hg => ssrcGroupLine_ok g (h1 g hg))
      · exact all_flatMap_of_forall_mem _ _ _
          (fun x _ => ssrcLines_ok "video".toList (by decide) x s.streamId)

theorem streamLines_ok (payload : GroupJoinResponsePayload) (isAnswer : Bool) (s : StreamSpec)
    (hp : responseNoLineBreak payload = true) (hs : streamNoLineBreak s = true) :
    (streamLines payload isAnswer s).all lineOk = true := by
  have hmid : lineOk ("a=mid:".toList ++ streamMidString s) = true := by
    simp only [streamMidString]
    split_ifs <;>
      simp [lineOk_cons_append, noLineBreak_append, noLineBreak_cons, noLineBreak_nil,
        noLineBreak_showUInt]
  have hm : lineOk (mLineString s) = true := by
    have h2 : noLineBreak (s.videoPayloadTypes.flatMap fun it => " ".toList ++ showUInt it.id)
        = true :=
      noLineBreak_flatMap _ _ (fun x _ => by
        simp [noLineBreak_append, noLineBreak_cons, noLineBreak_nil, noLineBreak_showUInt])
    simp only [mLineString]
    split_ifs <;>
      simp [lineOk_cons_append, noLineBreak_append, noLineBreak_cons, noLineBreak_nil]
    all_goals simpa using h2
  simp only [streamLines, List.all_append, Bool.and_eq_true, List.all_cons, List.all_nil,
    Bool.and_true]
  refine ⟨⟨⟨⟨hm, ?_⟩, hmid⟩, ?_⟩, ?_⟩
  · split_ifs <;> decide
  · split_ifs
    · exact mainTransportLines_ok payload hp
    · rfl
  · split_ifs
    · exact audioContentLines_ok isAnswer s
    · exact videoContentLines_ok isAnswer s hs

theorem createSdpLines_ok (sessionId : Nat) (payload : GroupJoinResponsePayload)
    (isAnswer : Bool) (streams : List StreamSpec) (hp : responseNoLineBreak payload = true)
    (hs : ∀ s ∈ streams, streamNoLineBreak s = true) :
    (createSdpLines sessionId payload isAnswer streams).all lineOk = true := by
  have hb : noLineBreak (streams.flatMap fun stream => " ".toList ++ bundleEntry stream)
      = true :=
    noLineBreak_flatMap _ _ (fun x _ => by
      simp only [bundleEntry]
      split_ifs <;>
        simp [noLineBreak_append, noLineBreak_cons, noLineBreak_nil, noLineBreak_showUInt])
  simp only [createSdpLines, List.all_append, Bool.and_eq_true]
  refine ⟨?_, all_flatMap_of_forall_mem _ _ _
    (fun s hsm => streamLines_ok payload isAnswer s hp (hs s hsm))⟩
  simp [bundleString, lineOk_cons_append, noLineBreak_append, noLineBreak_cons,
    noLineBreak_nil, noLineBreak_showUInt]
  simpa using hb

theorem lineOk_spec (l : Str) (h : lineOk l = true) :
    l.length ≠ 0 ∧ '\n' ∉ l ∧ l.getLast? ≠ some '\r' := by
  simp only [lineOk, noLineBreak, Bool.and_eq_true, bne_iff_ne, List.all_eq_true] at h
  refine ⟨h.1, fun hm => (h.2 _ hm).1 rfl, fun hl => ?_⟩
  exact (h.2 _ (List.mem_of_getLast?_eq_some hl)).2 rfl

/-- Lines that are not empty and hold no line break, written each followed by
a line feed, are read back by `splitSdpLines`. -/
theorem splitSdpLines_flatMap (ls : List Str) (h : ls.all lineOk = true) :
    splitSdpLines (ls.flatMap (fun l => l ++ "\n".toList)) = ls := by
  have h' : ∀ l ∈ ls, lineOk l = true := List.all_eq_true.1 h
  have hg : getlineAll '\n' (ls.flatMap (fun l => l ++ ['\n'])) = ls :=
    getlineAll_flatMap '\n' ls (fun l hl => (lineOk_spec l (h' l hl)).2.1)
  have hlit : "\n".toList = ['\n'] := rfl
  rw [splitSdpLines, hlit, hg]
  clear hg h
  induction ls with
  | nil => rfl
  | cons l ls ih =>
    obtain ⟨h1, _, h3⟩ := lineOk_spec l (h' l (by simp))
    rw [List.filterMap_cons, if_neg h1, if_neg h3, ih (fun x hx => h' x (by simp [hx]))]

/-- The text of `createSdp` is read back line by line. -/
theorem splitSdpLines_createSdp (sessionId : Nat) (payload : GroupJoinResponsePayload)
    (isAnswer : Bool) (streams : List StreamSpec) (hp : responseNoLineBreak payload = true)
    (hs : ∀ s ∈ streams, streamNoLineBreak s = true) :
    splitSdpLines (createSdp sessionId payload isAnswer streams) =
      createSdpLines sessionId payload isAnswer streams :=
  splitSdpLines_flatMap _ (createSdpLines_ok sessionId payload isAnswer streams hp hs)

/-! ## The audio and the video lines of the text of the encoder -/

theorem isMediaLine_false_of_hasHead (l : Str) (h : hasHead bodyHeads l = true) :
    isMediaLine l = false := by
  have h1 := isPrefixOf_false_of_hasHead bodyHeads "m=audio".toList [] l h (by decide)
  have h2 := isPrefixOf_false_of_hasHead bodyHeads "m=video".toList [] l h (by decide)
  rw [List.append_nil] at h1 h2
  simp only [isMediaLine, h1, h2, Bool.or_false]

theorem splitAudioVideo_of_no_media (ls rest : List Str)
    (h : ∀ l ∈ ls, isMediaLine l = false) (b : Bool) :
    splitAudioVideo b (ls ++ rest) =
      ((if b then ls else []) ++ (splitAudioVideo b rest).1,
       (if b then [] else ls) ++ (splitAudioVideo b rest).2) := by
  induction ls with
  | nil => cases b <;> rfl
  | cons l ls ih =>
    have hl := h l (by simp)
    simp only [isMediaLine, Bool.or_eq_false_iff] at hl
    have ih' := ih (fun x hx => h x (by simp [hx]))
    rw [List.cons_append, splitAudioVideo_cons]
    simp only [hl.1, hl.2, Bool.false_eq_true, if_false, ih']
    cases b <;> rfl

theorem splitAudioVideo_streamLines (payload : GroupJoinResponsePayload) (isAnswer : Bool)
    (s : StreamSpec) (rest : List Str) (b : Bool) :
    splitAudioVideo b (streamLines payload isAnswer s ++ rest) =
      ((if isAudioContent s then streamLines payload isAnswer s else []) ++
          (splitAudioVideo (isAudioContent s) rest).1,
       (if isAudioContent s then [] else streamLines payload isAnswer s) ++
          (splitAudioVideo (isAudioContent s) rest).2) := by
  have htail : ∀ l ∈ (streamLines payload isAnswer s).tail, isMediaLine l = false :=
    fun l hl => isMediaLine_false_of_hasHead l
      (List.all_eq_true.1 (streamLines_tail_heads payload isAnswer s) l hl)
  have hflag : (if "m=audio".toList.isPrefixOf (mLineString s) = true then true
      else if "m=video".toList.isPrefixOf (mLineString s) = true then false else b) =
      isAudioContent s := by
    rw [isAudioContent_iff]
    simp only [mLineString]
    split_ifs <;> simp_all [List.isPrefixOf]
  rw [streamLines_eq, List.cons_append, splitAudioVideo_cons, hflag,
    splitAudioVideo_of_no_media _ rest htail]
  cases isAudioContent s <;> rfl

theorem splitAudioVideo_flatMap_streamLines (payload : GroupJoinResponsePayload)
    (isAnswer : Bool) (streams : List StreamSpec) : ∀ b : Bool,
    splitAudioVideo b (streams.flatMap (streamLines payload isAnswer)) =
      ((streams.filter isAudioContent).flatMap (streamLines payload isAnswer),
       (streams.filter (fun s => !isAudioContent s)).flatMap (streamLines payload isAnswer)) := by
  induction streams with
  | nil => intro b; rfl
  | cons s ss ih =>
    intro b
    rw [List.flatMap_cons, splitAudioVideo_streamLines, ih]
    cases h : isAudioContent s <;> simp [h]

/-- The six lines in front of the streams. -/
theorem headerLines_heads (sessionId : Nat) (streams : List StreamSpec) :
    ["v=0".toList, "o=- ".toList ++ showUInt sessionId ++ " 2 IN IP4 0.0.0.0".toList,
      "s=-".toList, "t=0 0".toList, bundleString streams, "a=ice-lite".toList].all
      (hasHead ["v=".toList, "o=".toList, "s=".toList, "t=".toList, "a=group:".toList,
        "a=ice-lite".toList]) = true := by
  simp [hasHead, bundleString]

/-- The audio lines of the text are the lines of its audio streams, the video
lines are the header lines and the lines of its video streams. -/
theorem splitAudioVideo_createSdpLines (sessionId : Nat) (payload : GroupJoinResponsePayload)
    (isAnswer : Bool) (streams : List StreamSpec) :
    splitAudioVideo false (createSdpLines sessionId payload isAnswer streams) =
      ((streams.filter isAudioContent).flatMap (streamLines payload isAnswer),
       ["v=0".toList, "o=- ".toList ++ showUInt sessionId ++ " 2 IN IP4 0.0.0.0".toList,
        "s=-".toList, "t=0 0".toList, bundleString streams, "a=ice-lite".toList] ++
       (streams.filter (fun s => !isAudioContent s)).flatMap (streamLines payload isAnswer)) := by
  have hh : ∀ l ∈ ["v=0".toList, "o=- ".toList ++ showUInt sessionId ++
      " 2 IN IP4 0.0.0.0".toList, "s=-".toList, "t=0 0".toList, bundleString streams,
      "a=ice-lite".toList], isMediaLine l = false := by
    intro l hl
    have hhead := List.all_eq_true.1 (headerLines_heads sessionId streams) l hl
    have h1 := isPrefixOf_false_of_hasHead _ "m=audio".toList [] l hhead (by decide)
    have h2 := isPrefixOf_false_of_hasHead _ "m=video".toList [] l hhead (by decide)
    rw [List.append_nil] at h1 h2
    simp only [isMediaLine, h1, h2, Bool.or_false]
  rw [createSdpLines, splitAudioVideo_of_no_media _ _ hh, splitAudioVideo_flatMap_streamLines]
  rfl

/-! ## Round trip of the transport credentials -/

/-- A search that can match neither an `m=` line, nor `c=IN`, nor `a=mid:`,
nor a content line finds only transport lines, which the main stream has. -/
theorem getLines_streamLines_transport_only (payload : GroupJoinResponsePayload)
    (isAnswer : Bool) (s : StreamSpec) (p y : Str)
    (hp : (["m=audio ".toList, "m=video ".toList, "c=IN".toList, "a=mid:".toList] ++
      contentHeads).all (clash p) = true) :
    getLines (streamLines payload isAnswer s) (p ++ y) =
      if s.isMain then getLines (mainTransportLines payload) (p ++ y) else [] := by
  simp only [List.all_append, Bool.and_eq_true] at hp
  obtain ⟨hm, hc⟩ := hp
  simp only [List.all_cons, Bool.and_eq_true, List.all_nil, and_true] at hm
  have h1 : getLines [mLineString s] (p ++ y) = [] :=
    getLines_eq_nil_of_heads ["m=audio ".toList, "m=video ".toList] _ p y
      (by simp only [List.all_cons, List.all_nil, Bool.and_true]; exact mLineString_heads s)
      (by simp only [List.all_cons, List.all_nil, Bool.and_true, Bool.and_eq_true]
          exact ⟨hm.1, hm.2.1⟩)
  have h2 : getLines (if s.isMain then ["c=IN IP4 0.0.0.0".toList] else []) (p ++ y) = [] :=
    getLines_eq_nil_of_heads ["c=IN".toList] _ p y
      (by split_ifs <;> simp [hasHead])
      (by simp only [List.all_cons, List.all_nil, Bool.and_true]; exact hm.2.2.1)
  have h3 : getLines ["a=mid:".toList ++ streamMidString s] (p ++ y) = [] :=
    getLines_eq_nil_of_heads ["a=mid:".toList] _ p y
      (by simp [hasHead])
      (by simp only [List.all_cons, List.all_nil, Bool.and_true]; exact hm.2.2.2)
  have h4 : getLines (if s.videoPayloadTypes.length = 0 then audioContentLines isAnswer s
      else videoContentLines isAnswer s) (p ++ y) = [] :=
    getLines_eq_nil_of_heads contentHeads _ p y
      (by split_ifs
          · exact audioContentLines_heads isAnswer s
          · exact videoContentLines_heads isAnswer s) hc
  simp only [streamLines, getLines_append, h1, h2, h3, h4, List.nil_append, List.append_nil]
  split_ifs <;> rfl

theorem getLines_mainTransportLines_ufrag (payload : GroupJoinResponsePayload) :
    getLines (mainTransportLines payload) "a=ice-ufrag:".toList = [payload.ufrag] := by
  simp only [mainTransportLines, getLines_append, getLines_flatMap, getLines_map]
  rw [flatMap_nil_of_forall, flatMap_nil_of_forall]
  · simp [getLines, List.isPrefixOf]
  · intro c _; simp [getLines, List.isPrefixOf, candidateString]
  · intro c _; simp [getLines, List.isPrefixOf]

theorem getLines_mainTransportLines_pwd (payload : GroupJoinResponsePayload) :
    getLines (mainTransportLines payload) "a=ice-pwd:".toList = [payload.pwd] := by
  simp only [mainTransportLines, getLines_append, getLines_flatMap, getLines_map]
  rw [flatMap_nil_of_forall, flatMap_nil_of_forall]
  · simp [getLines, List.isPrefixOf]
  · intro c _; simp [getLines, List.isPrefixOf, candidateString]
  · intro c _; simp [getLines, List.isPrefixOf]

theorem flatMap_singleton_eq_map {α β : Type} (xs : List α) (f : α → β) :
    xs.flatMap (fun x => [f x]) = xs.map f := by
  induction xs with
  | nil => rfl
  | cons x xs ih => simp [ih]

theorem getLines_mainTransportLines_fingerprint (payload : GroupJoinResponsePayload) :
    getLines (mainTransportLines payload) "a=fingerprint:".toList =
      payload.fingerprints.map (fun f => f.hash ++ ' ' :: f.fingerprint) := by
  simp only [mainTransportLines, getLines_append, getLines_flatMap, getLines_map]
  rw [flatMap_nil_of_forall payload.candidates]
  · have h : ∀ f : GroupJoinPayloadFingerprint,
        getLines ["a=fingerprint:".toList ++ f.hash ++ " ".toList ++ f.fingerprint,
          "a=setup:passive".toList] "a=fingerprint:".toList = [f.hash ++ ' ' :: f.fingerprint] := by
      intro f; simp [getLines, List.isPrefixOf]
    simp only [h, flatMap_singleton_eq_map]
    simp [getLines, List.isPrefixOf]
  · intro c _; simp [getLines, List.isPrefixOf, candidateString]

theorem isToken_spec (s : Str) (h : isToken s = true) :
    s ≠ [] ∧ ' ' ∉ s ∧ noLineBreak s = true := by
  simp only [isToken, Bool.and_eq_true, bne_iff_ne, List.all_eq_true, ne_eq,
    List.length_eq_zero] at h
  refine ⟨h.1, fun hm => (h.2 _ hm).1.1 rfl, ?_⟩
  simp only [noLineBreak, List.all_eq_true, Bool.and_eq_true, bne_iff_ne]
  exact fun c hc => ⟨(h.2 c hc).1.2, (h.2 c hc).2⟩

theorem parseFingerprintLine_pair (h f : Str) (hh : isToken h = true) (hf : isToken f = true) :
    parseFingerprintLine (h ++ ' ' :: f) =
      some { hash := h, fingerprint := f, setup := "active".toList } := by
  obtain ⟨h1, h2, _⟩ := isToken_spec h hh
  obtain ⟨f1, f2, _⟩ := isToken_spec f hf
  have hs : splitFingerprintLines (h ++ ' ' :: f) = [h, f] := by
    have := splitFingerprintLines_flatMap [h, f] (by
      intro x hx
      simp only [List.mem_cons, List.mem_singleton, List.not_mem_nil, or_false] at hx
      rcases hx with rfl | rfl
      · exact ⟨h2, h1⟩
      · exact ⟨f2, f1⟩)
    simp only [List.flatMap_cons, List.flatMap_nil, List.append_nil] at this
    simp only [splitFingerprintLines, List.cons_append, getlineAll_delim_cons,
      List.filterMap_cons, List.length_nil, if_true] at this
    simpa [splitFingerprintLines] using this
  simp only [parseFingerprintLine, hs]

/-- The main stream comes first and is the only main stream. -/
theorem joinResponseStreams_main (J : GroupJoinPayload) (P : List GroupParticipantDescription)
    (streams : List StreamSpec) (h : joinResponseStreams J P = some streams) :
    ∃ main rest, streams = main :: rest ∧ main.isMain = true ∧
      isAudioContent main = true ∧ ∀ s ∈ rest, s.isMain = false := by
  obtain ⟨out, others, hout, hothers, hsplit⟩ := joinResponseStreams_split J P streams h
  have hp := allParticipantStreams_spec P others hothers
  have ha : isAudioContent (mainStream J) = true := by rw [isAudioContent_iff]; rfl
  rcases outgoingStreams_cases J out hout with ⟨_, rfl⟩ | ⟨ssrc, _, _, rfl⟩
  · subst hsplit
    exact ⟨_, _, rfl, rfl, ha, fun s hs => (hp s hs).2.1⟩
  · subst hsplit
    refine ⟨_, _, rfl, rfl, ha, ?_⟩
    intro s hs
    rcases List.mem_cons.1 hs with rfl | hs
    · rfl
    · exact (hp s hs).2.1

/-- A search for transport lines among the audio lines of the text finds
those of the main stream. -/
theorem getLines_audio_transport (payload : GroupJoinResponsePayload) (isAnswer : Bool)
    (streams : List StreamSpec) (main : StreamSpec) (rest : List StreamSpec)
    (hs : streams = main :: rest) (hm : main.isMain = true) (ha : isAudioContent main = true)
    (hr : ∀ s ∈ rest, s.isMain = false) (p : Str)
    (hp : (["m=audio ".toList, "m=video ".toList, "c=IN".toList, "a=mid:".toList] ++
      contentHeads).all (clash p) = true) :
    getLines ((streams.filter isAudioContent).flatMap (streamLines payload isAnswer)) p =
      getLines (mainTransportLines payload) p := by
  have hx : ∀ s : StreamSpec, getLines (streamLines payload isAnswer s) p =
      if s.isMain then getLines (mainTransportLines payload) p else [] := by
    intro s
    have := getLines_streamLines_transport_only payload isAnswer s p [] hp
    rwa [List.append_nil] at this
  subst hs
  rw [List.filter_cons, if_pos ha, List.flatMap_cons, getLines_append, hx main, if_pos hm,
    getLines_flatMap, flatMap_nil_of_forall, List.append_nil]
  intro s hsm
  rw [hx s, hr s (List.mem_of_mem_filter hsm)]
  rfl



theorem allParticipantStreams_mem (P : List GroupParticipantDescription) :
    ∀ others : List StreamSpec, allParticipantStreams P = some others →
      ∀ s ∈ others, ∃ p ∈ P, ∃ ps, participantStreams p = some ps ∧ s ∈ ps := by
  induction P with
  | nil =>
    intro others h
    simp only [allParticipantStreams, Option.some.injEq] at h
    subst h
    simp
  | cons p P ih =>
    intro others h
    cases hps : participantStreams p with
    | none => simp [allParticipantStreams, hps] at h
    | some ps =>
      cases hmore : allParticipantStreams P with
      | none => simp [allParticipantStreams, hps, hmore] at h
      | some more =>
        simp only [allParticipantStreams, hps, hmore, Option.some.injEq] at h
        subst h
        intro s hs
        rcases List.mem_append.1 hs with hs | hs
        · exact ⟨p, by simp, ps, hps, hs⟩
        · obtain ⟨q, hq, qs, hqs, hsq⟩ := ih more hmore s hs
          exact ⟨q, by simp [hq], qs, hqs, hsq⟩

theorem participantStreams_noLineBreak (p : GroupParticipantDescription)
    (ps : List StreamSpec) (h : participantStreams p = some ps)
    (hp : participantNoLineBreak p = true) : ∀ s ∈ ps, streamNoLineBreak s = true := by
  simp only [participantStreams] at h
  split_ifs at h
  · split at h
    · exact absurd h (by simp)
    · simp only [Option.some.injEq] at h
      subst h
      intro s hs
      simp only [List.mem_cons, List.mem_singleton, List.not_mem_nil, or_false] at hs
      rcases hs with rfl | rfl
      · rfl
      · exact hp
  · simp only [Option.some.injEq] at h
    subst h
    intro s hs
    simp only [List.mem_singleton] at hs
    subst hs
    rfl

theorem outgoingStreams_noLineBreak (J : GroupJoinPayload) (out : List StreamSpec)
    (h : outgoingStreams J = some out) (hJ : joinPayloadNoLineBreak J = true) :
    ∀ s ∈ out, streamNoLineBreak s = true := by
  rcases outgoingStreams_cases J out h with ⟨_, rfl⟩ | ⟨ssrc, _, _, rfl⟩
  · intro s hs
    simp only [List.mem_singleton] at hs
    subst hs
    rfl
  · intro s hs
    simp only [List.mem_cons, List.mem_singleton, List.not_mem_nil, or_false] at hs
    rcases hs with rfl | rfl
    · rfl
    · exact hJ

theorem joinResponseStreams_noLineBreak (J : GroupJoinPayload)
    (P : List GroupParticipantDescription) (streams : List StreamSpec)
    (h : joinResponseStreams J P = some streams) (hJ : joinPayloadNoLineBreak J = true)
    (hP : ∀ p ∈ P, participantNoLineBreak p = true) :
    ∀ s ∈ streams, streamNoLineBreak s = true := by
  obtain ⟨out, others, hout, hothers, hsplit⟩ := joinResponseStreams_split J P streams h
  subst hsplit
  intro s hs
  rcases List.mem_append.1 hs with hs | hs
  · exact outgoingStreams_noLineBreak J out hout hJ s hs
  · obtain ⟨p, hp, ps, hps, hsp⟩ := allParticipantStreams_mem P others hothers s hs
    exact participantStreams_noLineBreak p ps hps (hP p hp) s hsp

theorem parseJoinResponseIntoSdp_eq_some (sessionId : Nat) (J : GroupJoinPayload)
    (R : GroupJoinResponsePayload) (isAnswer : Bool) (P : List GroupParticipantDescription)
    (text : Str) (h : parseJoinResponseIntoSdp sessionId J R isAnswer P = some text) :
    ∃ streams, joinResponseStreams J P = some streams ∧
      text = createSdp sessionId R isAnswer streams := by
  cases hs : joinResponseStreams J P with
  | none => simp [parseJoinResponseIntoSdp, hs] at h
  | some streams =>
    simp only [parseJoinResponseIntoSdp, hs, Option.some.injEq] at h
    exact ⟨streams, rfl, h.symm⟩

/-- The decoder applied to the text of the encoder, in terms of the lines of
the streams. -/
theorem parse_createSdp (sessionId : Nat) (R : GroupJoinResponsePayload) (isAnswer : Bool)
    (streams : List StreamSpec) (hR : responseNoLineBreak R = true)
    (hs : ∀ s ∈ streams, streamNoLineBreak s = true) :
    parseSdpIntoJoinPayload (createSdp sessionId R isAnswer streams) =
      parseSections ((streams.filter isAudioContent).flatMap (streamLines R isAnswer))
        (["v=0".toList, "o=- ".toList ++ showUInt sessionId ++ " 2 IN IP4 0.0.0.0".toList,
          "s=-".toList, "t=0 0".toList, bundleString streams, "a=ice-lite".toList] ++
         (streams.filter (fun s => !isAudioContent s)).flatMap (streamLines R isAnswer)) := by
  rw [parseSdpIntoJoinPayload_eq, splitSdpLines_createSdp sessionId R isAnswer streams hR hs,
    parseLines, splitAudioVideo_createSdpLines]

theorem responseNoLineBreak_of_tokens (R : GroupJoinResponsePayload)
    (hu : isToken R.ufrag = true) (hp : isToken R.pwd = true)
    (hf : ∀ f ∈ R.fingerprints, isToken f.hash = true ∧ isToken f.fingerprint = true)
    (hc : ∀ c ∈ R.candidates, candidateNoLineBreak c = true) :
    responseNoLineBreak R = true := by
  simp only [responseNoLineBreak, Bool.and_eq_true, List.all_eq_true]
  exact ⟨⟨⟨(isToken_spec _ hu).2.2, (isToken_spec _ hp).2.2⟩,
    fun f hfm => ⟨(isToken_spec _ (hf f hfm).1).2.2, (isToken_spec _ (hf f hfm).2).2.2⟩⟩, hc⟩

theorem filterMap_parseFingerprintLine (fps : List GroupJoinPayloadFingerprint)
    (h : ∀ f ∈ fps, isToken f.hash = true ∧ isToken f.fingerprint = true) :
    (fps.map (fun f => f.hash ++ ' ' :: f.fingerprint)).filterMap parseFingerprintLine =
      fps.map (fun f => { hash := f.hash, fingerprint := f.fingerprint,
                          setup := "active".toList }) := by
  induction fps with
  | nil => rfl
  | cons f fs ih =>
    have hf := h f (by simp)
    rw [List.map_cons, List.filterMap_cons,
      parseFingerprintLine_pair f.hash f.fingerprint hf.1 hf.2,
      ih (fun g hg => h g (by simp [hg]))]
    rfl

/-- Claim C1. Round trip of the transport credentials. When the text of
`parseJoinResponseIntoSdp` is defined, the ufrag, the pwd and the fingerprint
hashes and fingerprints of the response payload are not empty and hold no
space and no line break, and no other string that the encoder writes (the
strings of the candidates, of the join payload and of the participants) holds
a line break, `parseSdpIntoJoinPayload` returns a payload with the ufrag and
the pwd of the response payload and with its (hash, fingerprint) pairs in the
same order. -/
theorem credentials_round_trip (sessionId : Nat) (joinPayload : GroupJoinPayload)
    (payload : GroupJoinResponsePayload) (isAnswer : Bool)
    (allOtherParticipants : List GroupParticipantDescription) (text : Str)
    (henc : parseJoinResponseIntoSdp sessionId joinPayload payload isAnswer
      allOtherParticipants = some text)
    (hufrag : isToken payload.ufrag = true) (hpwd : isToken payload.pwd = true)
    (hfp : ∀ f ∈ payload.fingerprints, isToken f.hash = true ∧ isToken f.fingerprint = true)
    (hcand : ∀ c ∈ payload.candidates, candidateNoLineBreak c = true)
    (hjoin : joinPayloadNoLineBreak joinPayload = true)
    (hparts : ∀ p ∈ allOtherParticipants, participantNoLineBreak p = true) :
    ∃ decoded, parseSdpIntoJoinPayload text = some decoded ∧
      decoded.ufrag = payload.ufrag ∧ decoded.pwd = payload.pwd ∧
      decoded.fingerprints.map (fun f => (f.hash, f.fingerprint)) =
        payload.fingerprints.map (fun f => (f.hash, f.fingerprint)) := by
  obtain ⟨streams, hstreams, htext⟩ :=
    parseJoinResponseIntoSdp_eq_some _ _ _ _ _ _ henc
  obtain ⟨main, rest, hsplit, hmain, haudio, hrest⟩ :=
    joinResponseStreams_main _ _ _ hstreams
  have hR := responseNoLineBreak_of_tokens payload hufrag hpwd hfp hcand
  have hS := joinResponseStreams_noLineBreak _ _ _ hstreams hjoin hparts
  have h1 := getLines_audio_transport payload isAnswer streams main rest hsplit hmain haudio
    hrest "a=ice-ufrag:".toList (by decide)
  have h2 := getLines_audio_transport payload isAnswer streams main rest hsplit hmain haudio
    hrest "a=ice-pwd:".toList (by decide)
  have h3 := getLines_audio_transport payload isAnswer streams main rest hsplit hmain haudio
    hrest "a=fingerprint:".toList (by decide)
  rw [getLines_mainTransportLines_ufrag] at h1
  rw [getLines_mainTransportLines_pwd] at h2
  rw [getLines_mainTransportLines_fingerprint] at h3
  rw [htext, parse_createSdp sessionId payload isAnswer streams hR hS]
  simp only [parseSections, h1, h2, h3, List.length_singleton, ne_eq, not_true_eq_false,
    if_false]
  refine ⟨_, rfl, rfl, rfl, ?_⟩
  simp only [filterMap_parseFingerprintLine payload.fingerprints hfp, List.map_map]
  rfl

theorem credentials_round_trip_witness :
    ∃ decoded,
      parseSdpIntoJoinPayload (createSdp 7 exampleResponse false exampleStreams) =
        some decoded ∧
      decoded.ufrag = exampleResponse.ufrag ∧ decoded.pwd = exampleResponse.pwd ∧
      decoded.fingerprints.map (fun f => (f.hash, f.fingerprint)) =
        exampleResponse.fingerprints.map (fun f => (f.hash, f.fingerprint)) :=
  credentials_round_trip 7 exampleJoinPayload exampleResponse false exampleParticipants
    (createSdp 7 exampleResponse false exampleStreams) rfl (by decide) (by decide)
    (by decide) (by decide) (by decide) (by decide)

/-- Counterexample to claim C1 as it is stated. With a candidate whose last field holds a line
feed followed by `a=ice-ufrag:zz`, the text of the encoder holds two
`a=ice-ufrag:` lines in its main block and is decoded to no value, although
the ufrag and the pwd of the response payload are not empty and hold no space
and no line break. -/
theorem credentials_round_trip_fails :
    isToken responseWithLineFeed.ufrag = true ∧ isToken responseWithLineFeed.pwd = true ∧
    responseWithLineFeed.fingerprints = [] ∧
    (parseJoinResponseIntoSdp 7 audioOnlyJoinPayload responseWithLineFeed false []).map
      parseSdpIntoJoinPayload = some none := by
  decide

/-! ## Selecting lines from the lines of a video stream -/

theorem prefix_sep (a b X : Str) (ha : ' ' ∉ a) (hb : ' ' ∉ b)
    (h : b ++ [' '] <+: a ++ ' ' :: X) : a = b := by
  induction a generalizing b with
  | nil =>
    cases b with
    | nil => rfl
    | cons c b' =>
      exfalso
      simp only [List.nil_append, List.cons_append, List.cons_prefix_cons] at h
      exact hb (by simp [h.1])
  | cons x a' ih =>
    cases b with
    | nil =>
      exfalso
      simp only [List.nil_append, List.cons_append, List.cons_prefix_cons] at h
      exact ha (by simp [← h.1])
    | cons c b' =>
      simp only [List.cons_append, List.cons_prefix_cons] at h
      have := ih b' (fun hm => ha (by simp [hm])) (fun hm => hb (by simp [hm])) h.2
      rw [h.1, this]

/-- A line `lit a X`, with a space between `a` and `X`, is selected by the
search for `lit b` followed by a space exactly when `a` is `b`. -/
theorem getLines_tagged (lit a b X : Str) (ha : ' ' ∉ a) (hb : ' ' ∉ b) :
    getLines [lit ++ a ++ " ".toList ++ X] (lit ++ b ++ " ".toList) =
      if a = b then [X] else [] := by
  have hs : " ".toList = [' '] := rfl
  by_cases hab : a = b
  · subst hab
    have hp : (lit ++ a ++ [' ']).isPrefixOf (lit ++ a ++ [' '] ++ X) = true :=
      List.isPrefixOf_iff_prefix.2 (List.prefix_append _ _)
    simp only [getLines, hs, List.filterMap_cons, hp, if_true, List.filterMap_nil,
      List.drop_left]
  · have hp : (lit ++ b ++ [' ']).isPrefixOf (lit ++ a ++ [' '] ++ X) = false := by
      cases hc : (lit ++ b ++ [' ']).isPrefixOf (lit ++ a ++ [' '] ++ X) with
      | false => rfl
      | true =>
        rw [List.isPrefixOf_iff_prefix, List.append_assoc, List.append_assoc,
          List.append_assoc, List.prefix_append_right_inj, List.singleton_append] at hc
        exact absurd (prefix_sep a b X ha hb hc) hab
    simp only [getLines, hs, List.filterMap_cons, hp, Bool.false_eq_true, if_false,
      List.filterMap_nil, if_neg hab]

theorem space_not_mem_showUInt (v : Nat) : ' ' ∉ showUInt v :=
  not_mem_showUInt v ' ' (by decide)

theorem getLines_payloadTypeLines_rtpmap (it : GroupJoinPayloadVideoPayloadType) :
    getLines (payloadTypeLines it) "a=rtpmap:".toList = [rtpmapValue it] := by
  simp only [payloadTypeLines, getLines_append, getLines_map]
  rw [flatMap_nil_of_forall]
  · simp only [rtpmapValue]
    split_ifs <;> simp [getLines, List.isPrefixOf]
  · intro c _; simp [getLines, List.isPrefixOf]

theorem getLines_payloadTypeLines_feedback (it : GroupJoinPayloadVideoPayloadType) (id : Nat) :
    getLines (payloadTypeLines it) ("a=rtcp-fb:".toList ++ showUInt id ++ " ".toList) =
      if it.id = id then it.feedbackTypes.map feedbackValue else [] := by
  have h1 : ∀ l : List Str, l.all (hasHead ["a=rtpmap:".toList, "a=fmtp:".toList]) = true →
      getLines l ("a=rtcp-fb:".toList ++ showUInt id ++ " ".toList) = [] := by
    intro l hl
    rw [List.append_assoc]
    exact getLines_eq_nil_of_heads _ l _ _ hl (by decide)
  have h2 : ∀ f : GroupJoinPayloadVideoPayloadFeedbackType,
      getLines ["a=rtcp-fb:".toList ++ showUInt it.id ++ " ".toList ++ f.type ++
        (if f.subtype.length ≠ 0 then " ".toList ++ f.subtype else [])]
        ("a=rtcp-fb:".toList ++ showUInt id ++ " ".toList) =
      if it.id = id then [feedbackValue f] else [] := by
    intro f
    have := getLines_tagged "a=rtcp-fb:".toList (showUInt it.id) (showUInt id)
      (f.type ++ (if f.subtype.length ≠ 0 then " ".toList ++ f.subtype else []))
      (space_not_mem_showUInt _) (space_not_mem_showUInt _)
    rw [List.append_assoc _ f.type] 
    rw [this]
    by_cases hid : it.id = id
    · rw [if_pos hid, if_pos (by rw [hid])]; rfl
    · rw [if_neg hid, if_neg (fun h => hid (showUInt_injective _ _ h))]
  simp only [payloadTypeLines, getLines_append, getLines_map, h2]
  rw [h1, h1, List.nil_append, List.append_nil]
  · by_cases hid : it.id = id
    · simp only [hid, if_true, flatMap_singleton_eq_map]
    · simp only [hid, if_false]
      exact flatMap_nil_of_forall _ _ (fun _ _ => rfl)
  · split_ifs <;> simp [hasHead]
  · split_ifs <;> simp [hasHead]

theorem getLines_payloadTypeLines_fmtp (it : GroupJoinPayloadVideoPayloadType) (id : Nat) :
    getLines (payloadTypeLines it) ("a=fmtp:".toList ++ showUInt id ++ " ".toList) =
      if it.id = id then fmtpValues it else [] := by
  have h1 : ∀ l : List Str, l.all (hasHead ["a=rtpmap:".toList, "a=rtcp-fb:".toList]) = true →
      getLines l ("a=fmtp:".toList ++ showUInt id ++ " ".toList) = [] := by
    intro l hl
    rw [List.append_assoc]
    exact getLines_eq_nil_of_heads _ l _ _ hl (by decide)
  have h2 : getLines ["a=fmtp:".toList ++ showUInt it.id ++ " ".toList ++
        fmtpParameters 0 it.parameters]
        ("a=fmtp:".toList ++ showUInt id ++ " ".toList) =
      if it.id = id then [fmtpParameters 0 it.parameters] else [] := by
    rw [getLines_tagged "a=fmtp:".toList (showUInt it.id) (showUInt id) _
      (space_not_mem_showUInt _) (space_not_mem_showUInt _)]
    by_cases hid : it.id = id
    · rw [if_pos hid, if_pos (by rw [hid])]
    · rw [if_neg hid, if_neg (fun h => hid (showUInt_injective _ _ h))]
  simp only [payloadTypeLines, getLines_append]
  rw [h1, h1, List.nil_append]
  · simp only [fmtpValues]
    split_ifs with hp hid
    · rw [h2, if_pos hid]; rfl
    · rw [h2, if_neg hid]; rfl
    · rfl
    · rfl
  · apply all_map_of_forall
    intro f
    simp [hasHead]
  · split_ifs <;> simp [hasHead]

/-- A search that can match none of the other lines of a video stream finds
lines of its payload types only. -/
theorem getLines_videoContentLines_payloadTypes (isAnswer : Bool) (s : StreamSpec) (p y : Str)
    (hp : videoOtherHeads.all (clash p) = true) :
    getLines (videoContentLines isAnswer s) (p ++ y) =
      s.videoPayloadTypes.flatMap (fun it => getLines (payloadTypeLines it) (p ++ y)) := by
  have h0 : ∀ l : List Str, l.all (hasHead videoOtherHeads) = true →
      getLines l (p ++ y) = [] :=
    fun l hl => getLines_eq_nil_of_heads _ l p y hl hp
  simp only [videoContentLines, getLines_append, getLines_flatMap]
  rw [h0 ["a=rtcp:1 IN IP4 0.0.0.0".toList, "a=rtcp-mux".toList] (by decide),
    h0 (s.videoExtensionMap.map _), h0 (if (isAnswer && s.isOutgoing) = true then _ else _),
    List.nil_append, List.append_nil, List.append_nil]
  · split_ifs
    · decide
    · decide
    · simp only [List.all_append, Bool.and_eq_true]
      refine ⟨by decide, ?_, ?_⟩
      · exact all_map_of_forall _ _ _ (fun c => by simp [hasHead, videoOtherHeads, ssrcGroupLine])
      · exact all_flatMap_of_forall _ _ _ (fun c => by simp [hasHead, videoOtherHeads, ssrcLines])
  · exact all_map_of_forall _ _ _ (fun c => by simp [hasHead, videoOtherHeads])

theorem payloadTypeLines_noGroup_heads (it : GroupJoinPayloadVideoPayloadType) :
    (payloadTypeLines it).all (hasHead videoNoGroupHeads) = true := by
  simp only [payloadTypeLines, List.all_append, Bool.and_eq_true]
  refine ⟨⟨?_, ?_⟩, ?_⟩
  · simp [hasHead, videoNoGroupHeads]
  · exact all_map_of_forall _ _ _ (fun c => by simp [hasHead, videoNoGroupHeads])
  · split_ifs <;> simp [hasHead, videoNoGroupHeads]

/-- In an offer, a search that can match none of the other lines of a video
stream finds `a=ssrc-group:` lines only. -/
theorem getLines_videoContentLines_groups (s : StreamSpec) (hr : s.isRemoved = false)
    (p y : Str) (hp : videoNoGroupHeads.all (clash p) = true) :
    getLines (videoContentLines false s) (p ++ y) =
      getLines (s.videoSourceGroups.map ssrcGroupLine) (p ++ y) := by
  have h0 : ∀ l : List Str, l.all (hasHead videoNoGroupHeads) = true →
      getLines l (p ++ y) = [] :=
    fun l hl => getLines_eq_nil_of_heads _ l p y hl hp
  simp only [videoContentLines, Bool.false_and, Bool.false_eq_true, if_false, hr,
    getLines_append]
  rw [h0 ["a=rtcp:1 IN IP4 0.0.0.0".toList, "a=rtcp-mux".toList] (by decide),
    h0 (s.videoPayloadTypes.flatMap payloadTypeLines), h0 (s.videoExtensionMap.map _),
    h0 ["a=sendonly".toList, "a=bundle-only".toList] (by decide),
    h0 ((collectSsrcs s.videoSourceGroups).flatMap _)]
  · simp
  · exact all_flatMap_of_forall _ _ _ (fun c => by simp [hasHead, videoNoGroupHeads, ssrcLines])
  · exact all_map_of_forall _ _ _ (fun c => by simp [hasHead, videoNoGroupHeads])
  · exact all_flatMap_of_forall _ _ _ payloadTypeLines_noGroup_heads

/-- A search that can match neither an `m=` line, nor `c=IN`, nor `a=mid:`,
nor a transport line finds content lines only. -/
theorem getLines_streamLines_content_only (payload : GroupJoinResponsePayload)
    (isAnswer : Bool) (s : StreamSpec) (p y : Str)
    (hp : (["m=audio ".toList, "m=video ".toList, "c=IN".toList, "a=mid:".toList] ++
      transportHeads).all (clash p) = true) :
    getLines (streamLines payload isAnswer s) (p ++ y) =
      getLines (if s.videoPayloadTypes.length = 0 then audioContentLines isAnswer s
        else videoContentLines isAnswer s) (p ++ y) := by
  simp only [List.all_append, Bool.and_eq_true] at hp
  obtain ⟨hm, ht⟩ := hp
  simp only [List.all_cons, Bool.and_eq_true, List.all_nil, and_true] at hm
  have h1 : getLines [mLineString s] (p ++ y) = [] :=
    getLines_eq_nil_of_heads ["m=audio ".toList, "m=video ".toList] _ p y
      (by simp only [List.all_cons, List.all_nil, Bool.and_true]; exact mLineString_heads s)
      (by simp only [List.all_cons, List.all_nil, Bool.and_true, Bool.and_eq_true]
          exact ⟨hm.1, hm.2.1⟩)
  have h2 : getLines (if s.isMain then ["c=IN IP4 0.0.0.0".toList] else []) (p ++ y) = [] :=
    getLines_eq_nil_of_heads ["c=IN".toList] _ p y
      (by split_ifs <;> simp [hasHead])
      (by simp only [List.all_cons, List.all_nil, Bool.and_true]; exact hm.2.2.1)
  have h3 : getLines ["a=mid:".toList ++ streamMidString s] (p ++ y) = [] :=
    getLines_eq_nil_of_heads ["a=mid:".toList] _ p y
      (by simp [hasHead])
      (by simp only [List.all_cons, List.all_nil, Bool.and_true]; exact hm.2.2.2)
  have h4 : getLines (if s.isMain then mainTransportLines payload else []) (p ++ y) = [] :=
    getLines_eq_nil_of_heads transportHeads _ p y
      (by split_ifs
          · exact mainTransportLines_heads payload
          · rfl) ht
  simp only [streamLines, getLines_append, h1, h2, h3, h4, List.nil_append, List.append_nil]

/-- The video lines of the text of a join payload without other participants:
a search that can match neither a header line nor a line in front of the
content lines finds the content lines of the main video stream. -/
theorem getLines_video_outgoing (sessionId : Nat) (payload : GroupJoinResponsePayload)
    (isAnswer : Bool) (J : GroupJoinPayload) (out : List StreamSpec)
    (hout : outgoingStreams J = some out) (p y : Str)
    (hp : (headerHeads ++ ["m=audio ".toList, "m=video ".toList, "c=IN".toList,
      "a=mid:".toList] ++ transportHeads).all (clash p) = true) :
    getLines (["v=0".toList, "o=- ".toList ++ showUInt sessionId ++ " 2 IN IP4 0.0.0.0".toList,
        "s=-".toList, "t=0 0".toList, bundleString out, "a=ice-lite".toList] ++
       (out.filter (fun s => !isAudioContent s)).flatMap (streamLines payload isAnswer))
      (p ++ y) =
    if J.videoSourceGroups.length ≠ 0 ∧ J.videoPayloadTypes.length ≠ 0 then
      getLines (videoContentLines isAnswer
        (mainVideoStream J ((firstVideoSsrc J.videoSourceGroups).getD 0))) (p ++ y)
    else [] := by
  simp only [List.all_append, Bool.and_eq_true] at hp
  have hh := getLines_eq_nil_of_heads headerHeads _ p y (headerLines_heads sessionId out)
    hp.1.1
  have hc : ∀ s, getLines (streamLines payload isAnswer s) (p ++ y) =
      getLines (if s.videoPayloadTypes.length = 0 then audioContentLines isAnswer s
        else videoContentLines isAnswer s) (p ++ y) :=
    fun s => getLines_streamLines_content_only payload isAnswer s p y
      (by simp only [List.all_append, Bool.and_eq_true]; exact ⟨hp.1.2, hp.2⟩)
  have hmain : isAudioContent (mainStream J) = true := by rw [isAudioContent_iff]; rfl
  rw [getLines_append, hh, List.nil_append]
  rcases outgoingStreams_cases J out hout with ⟨hg, rfl⟩ | ⟨ssrc, hg, hf, rfl⟩
  · simp [hmain, hg, getLines_nil]
  · have hg' : J.videoSourceGroups.length ≠ 0 := fun h0 => hg (List.length_eq_zero.1 h0)
    by_cases hv : J.videoPayloadTypes.length = 0
    · have hjv : isAudioContent (mainVideoStream J ssrc) = true := by
        rw [isAudioContent_iff]; simpa [mainVideoStream] using hv
      simp [hmain, hjv, hv, getLines_nil]
    · have hjv : isAudioContent (mainVideoStream J ssrc) = false := by
        rw [isAudioContent_iff]; simpa [mainVideoStream] using hv
      have hv' : (mainVideoStream J ssrc).videoPayloadTypes.length ≠ 0 := hv
      simp only [List.filter_cons, hmain, hjv, Bool.not_true, Bool.not_false,
        Bool.false_eq_true, if_false, if_true, List.filter_nil, List.flatMap_cons,
        List.flatMap_nil, List.append_nil, hc, if_neg hv', hf, Option.getD_some]
      rw [if_pos ⟨hg', hv⟩]

/-! ## Reading back the lines of a video payload type -/

theorem isToken_all (s : Str) (h : isToken s = true) (c : Char)
    (hc : c = ' ' ∨ c = '\n' ∨ c = '\r') : c ∉ s := by
  simp only [isToken, Bool.and_eq_true, bne_iff_ne, List.all_eq_true, ne_eq] at h
  intro hm
  have := h.2 c hm
  rcases hc with rfl | rfl | rfl
  · exact this.1.1 rfl
  · exact this.1.2 rfl
  · exact this.2 rfl

theorem payloadTypeValid_spec (it : GroupJoinPayloadVideoPayloadType)
    (h : payloadTypeValid it = true) :
    it.id < 4294967296 ∧ it.id ≠ 0 ∧ it.clockrate < 4294967296 ∧ it.channels < 4294967296 ∧
    isToken it.name = true ∧ '/' ∉ it.name ∧
    ∀ f ∈ it.feedbackTypes, isToken f.type = true ∧ noSpaceNoBreak f.subtype = true := by
  simp only [payloadTypeValid, isUInt32, Bool.and_eq_true, decide_eq_true_eq, bne_iff_ne,
    ne_eq, List.all_eq_true] at h
  obtain ⟨⟨⟨⟨⟨⟨h1, h2⟩, h3⟩, h4⟩, h5⟩, h6⟩, h7⟩ := h
  exact ⟨h1, h2, h3, h4, h5, fun hm => h6 _ hm rfl, h7⟩

theorem parsePayloadType_value (id : Nat) (it : GroupJoinPayloadVideoPayloadType)
    (h : payloadTypeValid it = true) :
    parsePayloadType id (it.name ++ '/' :: (showUInt it.clockrate ++
      (if it.channels ≠ 0 then '/' :: showUInt it.channels else []))) =
      some { id := id, name := it.name, clockrate := it.clockrate, channels := it.channels,
             feedbackTypes := [], parameters := [] } := by
  obtain ⟨_, _, hclock, hch, hname, hslash, _⟩ := payloadTypeValid_spec it h
  have hne : it.name ≠ [] := (isToken_spec _ hname).1
  have hlen : it.name.length ≠ 0 := fun h0 => hne (List.length_eq_zero.1 h0)
  have hs : ∀ v, '/' ∉ showUInt v := fun v => not_mem_showUInt v '/' (by decide)
  have hl : ∀ v, (showUInt v).length ≠ 0 :=
    fun v h0 => showUInt_ne_nil v (List.length_eq_zero.1 h0)
  by_cases hc : it.channels = 0
  · have hsplit : getlineAll '/' (it.name ++ '/' :: (showUInt it.clockrate ++ [])) =
        [it.name, showUInt it.clockrate] := by
      rw [getlineAll_append_delim '/' _ _ hslash, List.append_nil,
        getlineAll_of_not_mem '/' _ (hs _) (showUInt_ne_nil _)]
    simp only [parsePayloadType, hc, ne_eq, not_true_eq_false, if_false, hsplit, forPieces,
      hlen, hl, if_true, Nat.zero_add, Nat.add_one_ne_zero, OfNat.ofNat_ne_zero,
      readUInt32_showUInt _ hclock]
    simp
  · have hsplit : getlineAll '/' (it.name ++ '/' :: (showUInt it.clockrate ++
        '/' :: showUInt it.channels)) =
        [it.name, showUInt it.clockrate, showUInt it.channels] := by
      rw [getlineAll_append_delim '/' _ _ hslash, getlineAll_append_delim '/' _ _ (hs _),
        getlineAll_of_not_mem '/' _ (hs _) (showUInt_ne_nil _)]
    simp only [parsePayloadType, hc, ne_eq, not_false_eq_true, if_true, hsplit, forPieces,
      hlen, hl, if_false, Nat.zero_add, Nat.add_one_ne_zero, OfNat.ofNat_ne_zero,
      readUInt32_showUInt _ hclock, readUInt32_showUInt _ hch]
    simp [hne]

theorem noSpaceNoBreak_spec (s : Str) (h : noSpaceNoBreak s = true) : ' ' ∉ s := by
  simp only [noSpaceNoBreak, Bool.and_eq_true, bne_iff_ne, List.all_eq_true, ne_eq] at h
  exact fun hm => (h _ hm).1.1 rfl

theorem parseFeedbackType_value (f : GroupJoinPayloadVideoPayloadFeedbackType)
    (ht : isToken f.type = true) (hs : noSpaceNoBreak f.subtype = true) :
    parseFeedbackType (feedbackValue f) = some f := by
  obtain ⟨hne, hsp, _⟩ := isToken_spec _ ht
  have hlen : f.type.length ≠ 0 := fun h0 => hne (List.length_eq_zero.1 h0)
  have hsub := noSpaceNoBreak_spec _ hs
  by_cases h0 : f.subtype.length = 0
  · have hsplit : getlineAll ' ' (f.type ++ []) = [f.type] := by
      rw [List.append_nil, getlineAll_of_not_mem ' ' _ hsp hne]
    have hsub0 : f.subtype = [] := List.length_eq_zero.1 h0
    simp only [parseFeedbackType, feedbackValue, h0, ne_eq, not_true_eq_false, if_false,
      hsplit, forPieces, hlen, if_true]
    cases f
    simp_all
  · have hsplit : getlineAll ' ' (f.type ++ ' ' :: f.subtype) = [f.type, f.subtype] := by
      rw [getlineAll_append_delim ' ' _ _ hsp,
        getlineAll_of_not_mem ' ' _ hsub (fun hn => h0 (by rw [hn]; rfl))]
    simp only [parseFeedbackType, feedbackValue, h0, ne_eq, not_false_eq_true, if_true,
      hsplit, forPieces, hlen, if_false, Nat.zero_add, Nat.add_one_ne_zero,
      OfNat.ofNat_ne_zero]

theorem filterMap_parseFeedbackType (fs : List GroupJoinPayloadVideoPayloadFeedbackType)
    (h : ∀ f ∈ fs, isToken f.type = true ∧ noSpaceNoBreak f.subtype = true) :
    (fs.map feedbackValue).filterMap parseFeedbackType = fs := by
  induction fs with
  | nil => rfl
  | cons f fs ih =>
    have hf := h f (by simp)
    rw [List.map_cons, List.filterMap_cons, parseFeedbackType_value f hf.1 hf.2,
      ih (fun g hg => h g (by simp [hg]))]

/-- The `a=rtpmap:` value of a valid payload type is read back, given the
`a=rtcp-fb:` and `a=fmtp:` lines of its id among the video lines. -/
theorem parseRtpmapLine_rtpmapValue (videoLines : List Str)
    (it : GroupJoinPayloadVideoPayloadType) (h : payloadTypeValid it = true)
    (hfb : getLines videoLines ("a=rtcp-fb:".toList ++ showUInt it.id ++ " ".toList) =
      it.feedbackTypes.map feedbackValue)
    (hfmtp : getLines videoLines ("a=fmtp:".toList ++ showUInt it.id ++ " ".toList) =
      fmtpValues it) :
    parseRtpmapLine videoLines (rtpmapValue it) = [decodedPayloadType it] := by
  obtain ⟨hid, hid0, _, _, hname, hslash, hfbs⟩ := payloadTypeValid_spec it h
  obtain ⟨hne, hsp, _⟩ := isToken_spec _ hname
  have hs : ∀ v, ' ' ∉ showUInt v := space_not_mem_showUInt
  have hl : ∀ v, (showUInt v).length ≠ 0 :=
    fun v h0 => showUInt_ne_nil v (List.length_eq_zero.1 h0)
  have hsecond : ' ' ∉ it.name ++ '/' :: (showUInt it.clockrate ++
      (if it.channels ≠ 0 then '/' :: showUInt it.channels else [])) := by
    split_ifs <;> simp [hsp, hs]
  have hsplit : getlineAll ' ' (rtpmapValue it) =
      [showUInt it.id, it.name ++ '/' :: (showUInt it.clockrate ++
        (if it.channels ≠ 0 then '/' :: showUInt it.channels else []))] := by
    rw [rtpmapValue, getlineAll_append_delim ' ' _ _ (hs _),
      getlineAll_of_not_mem ' ' _ hsecond (by simp)]
  have hlen2 : (it.name ++ '/' :: (showUInt it.clockrate ++
      (if it.channels ≠ 0 then '/' :: showUInt it.channels else []))).length ≠ 0 := by
    simp
  simp only [parseRtpmapLine, hsplit, forPieces, hl, hlen2, if_false, if_true, Nat.zero_add,
    Nat.add_one_ne_zero, OfNat.ofNat_ne_zero, readUInt32_showUInt _ hid, ne_eq, hid0,
    not_false_eq_true, parsePayloadType_value it.id it h, hfb, hfmtp,
    filterMap_parseFeedbackType _ hfbs, List.nil_append]
  rfl

/-! ## Reading back the format parameters and the source groups -/

theorem isParameterPart_spec (s : Str) (h : isParameterPart s = true) :
    s ≠ [] ∧ '=' ∉ s ∧ ';' ∉ s := by
  simp only [isParameterPart, Bool.and_eq_true, bne_iff_ne, List.all_eq_true, ne_eq,
    List.length_eq_zero] at h
  exact ⟨h.1, fun hm => (h.2 _ hm).1.1.1 rfl, fun hm => (h.2 _ hm).1.1.2 rfl⟩

theorem parsePayloadParameter_value (k v : Str) (result : List (Str × Str))
    (hk : isParameterPart k = true) (hv : isParameterPart v = true) :
    parsePayloadParameter (k ++ '=' :: v) result = result ++ [(k, v)] := by
  obtain ⟨hk1, hk2, _⟩ := isParameterPart_spec k hk
  obtain ⟨hv1, hv2, _⟩ := isParameterPart_spec v hv
  have hkl : k.length ≠ 0 := fun h0 => hk1 (List.length_eq_zero.1 h0)
  have hvl : v.length ≠ 0 := fun h0 => hv1 (List.length_eq_zero.1 h0)
  have hsplit : getlineAll '=' (k ++ '=' :: v) = [k, v] := by
    rw [getlineAll_append_delim '=' _ _ hk2, getlineAll_of_not_mem '=' _ hv2 hv1]
  simp only [parsePayloadParameter, hsplit, forPieces, hkl, hvl, if_false, if_true,
    Nat.zero_add, Nat.add_one_ne_zero, OfNat.ofNat_ne_zero, ne_eq, not_false_eq_true,
    and_self]

theorem fmtpParameters_succ (ps : List (Str × Str)) : ∀ i : Nat,
    fmtpParameters (i + 1) ps = (ps.map (fun p => p.1 ++ '=' :: p.2)).flatMap
      (fun s => ';' :: s) := by
  induction ps with
  | nil => intro i; rfl
  | cons p ps ih =>
    intro i
    simp only [fmtpParameters, ih, ne_eq, Nat.add_one_ne_zero, not_false_eq_true, if_true,
      List.map_cons, List.flatMap_cons]
    simp

theorem foldl_parsePayloadParameter (ps : List (Str × Str))
    (h : ∀ p ∈ ps, isParameterPart p.1 = true ∧ isParameterPart p.2 = true) :
    ∀ acc : List (Str × Str),
    (ps.map (fun p => p.1 ++ '=' :: p.2)).foldl (fun result s =>
      if s.length = 0 then result else parsePayloadParameter s result) acc = acc ++ ps := by
  induction ps with
  | nil => intro acc; simp
  | cons p ps ih =>
    intro acc
    have hp := h p (by simp)
    have hl : (p.1 ++ '=' :: p.2).length ≠ 0 := by simp
    rw [List.map_cons, List.foldl_cons, if_neg hl,
      parsePayloadParameter_value p.1 p.2 acc hp.1 hp.2, ih (fun q hq => h q (by simp [hq]))]
    simp

/-- A valid `key=value` list is read back from its `a=fmtp:` value. -/
theorem parsePayloadParameters_fmtpParameters (ps : List (Str × Str))
    (h : parametersValid ps = true) :
    parsePayloadParameters (fmtpParameters 0 ps) = ps := by
  simp only [parametersValid, List.all_eq_true, Bool.and_eq_true] at h
  cases ps with
  | nil => rfl
  | cons p ps =>
    have hp := h p (by simp)
    have hps : ∀ q ∈ ps, isParameterPart q.1 = true ∧ isParameterPart q.2 = true :=
      fun q hq => h q (by simp [hq])
    have hkv : ∀ q : Str × Str, isParameterPart q.1 = true ∧ isParameterPart q.2 = true →
        ';' ∉ q.1 ++ '=' :: q.2 ∧ q.1 ++ '=' :: q.2 ≠ [] := by
      intro q hq
      have h1 := (isParameterPart_spec _ hq.1).2.2
      have h2 := (isParameterPart_spec _ hq.2).2.2
      exact ⟨by simp [h1, h2], by simp⟩
    have hform : fmtpParameters 0 (p :: ps) = (p.1 ++ '=' :: p.2) ++
        (ps.map (fun q => q.1 ++ '=' :: q.2)).flatMap (fun s => ';' :: s) := by
      simp only [fmtpParameters, ne_eq, not_true_eq_false, if_false, Nat.zero_add,
        fmtpParameters_succ ps 0]
      simp
    have hsplit : getlineAll ';' (fmtpParameters 0 (p :: ps)) =
        (p :: ps).map (fun q => q.1 ++ '=' :: q.2) := by
      rw [hform, getlineAll_append_flatMap ';' _ _ (hkv p hp).1 (hkv p hp).2]
      · rfl
      · intro x hx
        obtain ⟨q, hq, rfl⟩ := List.mem_map.1 hx
        exact hkv q (hps q hq)
    rw [parsePayloadParameters, hsplit, foldl_parsePayloadParameter (p :: ps) h]
    rfl

theorem decodedPayloadType_parameters (it : GroupJoinPayloadVideoPayloadType)
    (h : parametersValid it.parameters = true) :
    (decodedPayloadType it).parameters = it.parameters := by
  simp only [decodedPayloadType, fmtpValues]
  split_ifs with h0
  · simp only [List.foldl_cons, List.foldl_nil]
    exact parsePayloadParameters_fmtpParameters _ h
  · simp only [List.foldl_nil]
    exact (List.length_eq_zero.1 (not_not.1 h0)).symm

/-- Among payload types with different ids, the lines that carry the id of
one of them are its own. -/
theorem flatMap_select_id {β : Type} (pts : List GroupJoinPayloadVideoPayloadType)
    (f : GroupJoinPayloadVideoPayloadType → List β) (hn : (pts.map (fun it => it.id)).Nodup)
    (it : GroupJoinPayloadVideoPayloadType) (hit : it ∈ pts) :
    pts.flatMap (fun x => if x.id = it.id then f x else []) = f it := by
  induction pts with
  | nil => exact absurd hit (by simp)
  | cons x xs ih =>
    simp only [List.map_cons, List.nodup_cons, List.mem_map, not_exists, not_and] at hn
    rw [List.flatMap_cons]
    rcases List.mem_cons.1 hit with rfl | hmem
    · rw [if_pos rfl, flatMap_nil_of_forall, List.append_nil]
      intro y hy
      rw [if_neg (hn.1 y hy)]
    · rw [if_neg (fun h => hn.1 it hmem h.symm), List.nil_append, ih hn.2 hmem]

theorem splitSsrcList_value (s0 : Nat) (rest : List Nat)
    (h : ∀ v ∈ s0 :: rest, v < 4294967296) :
    splitSsrcList (showUInt s0 ++ rest.flatMap (fun ssrc => " ".toList ++ showUInt ssrc)) =
      s0 :: rest := by
  have hform : (rest.flatMap (fun ssrc => " ".toList ++ showUInt ssrc)) =
      (rest.map showUInt).flatMap (fun s => ' ' :: s) := by
    induction rest with
    | nil => rfl
    | cons r rs ih =>
      simp only [List.flatMap_cons, List.map_cons]
      rw [ih (fun v hv => h v (by
        rcases List.mem_cons.1 hv with rfl | hv
        · simp
        · simp [hv]))]
      rfl
  have hsplit : getlineAll ' ' (showUInt s0 ++ (rest.map showUInt).flatMap (fun s => ' ' :: s))
      = (s0 :: rest).map showUInt := by
    rw [getlineAll_append_flatMap ' ' _ _ (space_not_mem_showUInt _) (showUInt_ne_nil _)]
    · rfl
    · intro x hx
      obtain ⟨v, _, rfl⟩ := List.mem_map.1 hx
      exact ⟨space_not_mem_showUInt _, showUInt_ne_nil _⟩
  rw [splitSsrcList, hform, hsplit]
  generalize s0 :: rest = l at h
  induction l with
  | nil => rfl
  | cons v vs ih =>
    have hl : (showUInt v).length ≠ 0 := fun h0 => showUInt_ne_nil v (List.length_eq_zero.1 h0)
    rw [List.map_cons, List.filterMap_cons, if_neg hl, readUInt32_showUInt v (h v (by simp)),
      ih (fun w hw => h w (by simp [hw]))]

theorem sourceGroupValid_spec (g : GroupJoinPayloadVideoSourceGroup)
    (h : sourceGroupValid g = true) :
    (g.semantics = "FID".toList ∨ g.semantics = "SIM".toList) ∧
    ∃ s0 rest, g.ssrcs = s0 :: rest ∧ ∀ v ∈ s0 :: rest, v < 4294967296 := by
  simp only [sourceGroupValid, isUInt32, Bool.and_eq_true, Bool.or_eq_true, decide_eq_true_eq,
    bne_iff_ne, ne_eq, List.all_eq_true] at h
  obtain ⟨⟨h1, h2⟩, h3⟩ := h
  refine ⟨h1, ?_⟩
  cases hs : g.ssrcs with
  | nil => rw [hs] at h2; exact absurd rfl h2
  | cons s0 rest => rw [hs] at h3; exact ⟨s0, rest, rfl, h3⟩

/-- The `a=ssrc-group:` line of a valid group is found by the search for the
semantics of the group, and is read back. -/
theorem getLines_ssrcGroupLine (g : GroupJoinPayloadVideoSourceGroup)
    (h : sourceGroupValid g = true) :
    (getLines [ssrcGroupLine g] "a=ssrc-group:FID ".toList).map
        (fun line => ({ semantics := "FID".toList, ssrcs := splitSsrcList line } :
          GroupJoinPayloadVideoSourceGroup)) =
      (if g.semantics = "FID".toList then [g] else []) ∧
    (getLines [ssrcGroupLine g] "a=ssrc-group:SIM ".toList).map
        (fun line => ({ semantics := "SIM".toList, ssrcs := splitSsrcList line } :
          GroupJoinPayloadVideoSourceGroup)) =
      (if g.semantics = "SIM".toList then [g] else []) := by
  obtain ⟨hsem, s0, rest, hss, hlt⟩ := sourceGroupValid_spec g h
  have hv := splitSsrcList_value s0 rest hlt
  cases g with
  | mk ssrcs semantics =>
    simp only at hsem hss
    subst hss
    rcases hsem with rfl | rfl
    · constructor
      · have : getLines [ssrcGroupLine ⟨s0 :: rest, "FID".toList⟩] "a=ssrc-group:FID ".toList
            = [showUInt s0 ++ rest.flatMap (fun ssrc => " ".toList ++ showUInt ssrc)] := by
          simp [getLines, List.isPrefixOf, ssrcGroupLine]
        rw [this, List.map_cons, hv]
        rfl
      · have : getLines [ssrcGroupLine ⟨s0 :: rest, "FID".toList⟩] "a=ssrc-group:SIM ".toList
            = [] := by
          simp [getLines, List.isPrefixOf, ssrcGroupLine]
        rw [this]
        rfl
    · constructor
      · have : getLines [ssrcGroupLine ⟨s0 :: rest, "SIM".toList⟩] "a=ssrc-group:FID ".toList
            = [] := by
          simp [getLines, List.isPrefixOf, ssrcGroupLine]
        rw [this]
        rfl
      · have : getLines [ssrcGroupLine ⟨s0 :: rest, "SIM".toList⟩] "a=ssrc-group:SIM ".toList
            = [showUInt s0 ++ rest.flatMap (fun ssrc => " ".toList ++ showUInt ssrc)] := by
          simp [getLines, List.isPrefixOf, ssrcGroupLine]
        rw [this, List.map_cons, hv]
        rfl

/-! ## Round trip of the video description -/

theorem joinResponseStreams_nil (J : GroupJoinPayload) (streams : List StreamSpec)
    (h : joinResponseStreams J [] = some streams) : outgoingStreams J = some streams := by
  obtain ⟨out, others, hout, hothers, hsplit⟩ := joinResponseStreams_split J [] streams h
  simp only [allParticipantStreams, Option.some.injEq] at hothers
  rw [hsplit, ← hothers, List.append_nil]
  exact hout

/-- The decoder on the text of a join payload without other participants:
the credentials are found, and the video description is read from the video
lines of the text. -/
theorem parse_outgoing_text (sessionId : Nat) (J : GroupJoinPayload)
    (R : GroupJoinResponsePayload) (isAnswer : Bool) (text : Str)
    (henc : parseJoinResponseIntoSdp sessionId J R isAnswer [] = some text)
    (hJ : joinPayloadNoLineBreak J = true) (hR : responseNoLineBreak R = true) :
    ∃ out decoded, outgoingStreams J = some out ∧
      parseSdpIntoJoinPayload text = some decoded ∧
      decoded.videoPayloadTypes =
        (getLines (encodedVideoLines sessionId R isAnswer out) "a=rtpmap:".toList).flatMap
          (parseRtpmapLine (encodedVideoLines sessionId R isAnswer out)) ∧
      decoded.videoSourceGroups =
        (getLines (encodedVideoLines sessionId R isAnswer out) "a=ssrc-group:FID ".toList).map
          (fun line => { semantics := "FID".toList, ssrcs := splitSsrcList line }) ++
        (getLines (encodedVideoLines sessionId R isAnswer out) "a=ssrc-group:SIM ".toList).map
          (fun line => { semantics := "SIM".toList, ssrcs := splitSsrcList line }) := by
  obtain ⟨streams, hstreams, htext⟩ := parseJoinResponseIntoSdp_eq_some _ _ _ _ _ _ henc
  obtain ⟨main, rest, hsplit, hmain, haudio, hrest⟩ := joinResponseStreams_main _ _ _ hstreams
  have hS := joinResponseStreams_noLineBreak _ _ _ hstreams hJ (fun p hp => absurd hp (by simp))
  have h1 := getLines_audio_transport R isAnswer streams main rest hsplit hmain haudio
    hrest "a=ice-ufrag:".toList (by decide)
  have h2 := getLines_audio_transport R isAnswer streams main rest hsplit hmain haudio
    hrest "a=ice-pwd:".toList (by decide)
  rw [getLines_mainTransportLines_ufrag] at h1
  rw [getLines_mainTransportLines_pwd] at h2
  have hparse := parse_createSdp sessionId R isAnswer streams hR hS
  simp only [parseSections, h1, h2, List.length_singleton, ne_eq, not_true_eq_false,
    if_false] at hparse
  rw [← htext] at hparse
  exact ⟨streams, _, joinResponseStreams_nil J streams hstreams, hparse, rfl, rfl⟩

/-- The payload types that the decoder reads from the video lines of the text
of a join payload with source groups and valid payload types. -/
theorem decode_outgoing_payloadTypes (sessionId : Nat) (J : GroupJoinPayload)
    (R : GroupJoinResponsePayload) (isAnswer : Bool) (out : List StreamSpec)
    (hout : outgoingStreams J = some out) (hgroups : J.videoSourceGroups ≠ [])
    (hvalid : ∀ it ∈ J.videoPayloadTypes, payloadTypeValid it = true)
    (hnodup : (J.videoPayloadTypes.map (fun it => it.id)).Nodup) :
    (getLines (encodedVideoLines sessionId R isAnswer out) "a=rtpmap:".toList).flatMap
        (parseRtpmapLine (encodedVideoLines sessionId R isAnswer out)) =
      J.videoPayloadTypes.map decodedPayloadType := by
  have hg : J.videoSourceGroups.length ≠ 0 := fun h0 => hgroups (List.length_eq_zero.1 h0)
  have hlook : ∀ (p y : Str), (headerHeads ++ ["m=audio ".toList, "m=video ".toList,
      "c=IN".toList, "a=mid:".toList] ++ transportHeads).all (clash p) = true →
      videoOtherHeads.all (clash p) = true →
      getLines (encodedVideoLines sessionId R isAnswer out) (p ++ y) =
        J.videoPayloadTypes.flatMap (fun it => getLines (payloadTypeLines it) (p ++ y)) := by
    intro p y h1 h2
    rw [encodedVideoLines, getLines_video_outgoing sessionId R isAnswer J out hout p y h1]
    by_cases hv : J.videoPayloadTypes.length = 0
    · rw [if_neg (fun h => h.2 hv), List.length_eq_zero.1 hv]
      rfl
    · rw [if_pos ⟨hg, hv⟩, getLines_videoContentLines_payloadTypes _ _ p y h2]
      rfl
  have hr : getLines (encodedVideoLines sessionId R isAnswer out) "a=rtpmap:".toList =
      J.videoPayloadTypes.map rtpmapValue := by
    have := hlook "a=rtpmap:".toList [] (by decide) (by decide)
    rw [List.append_nil] at this
    rw [this]
    simp only [getLines_payloadTypeLines_rtpmap, flatMap_singleton_eq_map]
  have hfb : ∀ it ∈ J.videoPayloadTypes,
      getLines (encodedVideoLines sessionId R isAnswer out)
        ("a=rtcp-fb:".toList ++ showUInt it.id ++ " ".toList) =
      it.feedbackTypes.map feedbackValue := by
    intro it hit
    have := hlook "a=rtcp-fb:".toList (showUInt it.id ++ " ".toList) (by decide) (by decide)
    rw [← List.append_assoc] at this
    rw [this]
    simp only [getLines_payloadTypeLines_feedback]
    exact flatMap_select_id _ (fun x => x.feedbackTypes.map feedbackValue) hnodup it hit
  have hfmtp : ∀ it ∈ J.videoPayloadTypes,
      getLines (encodedVideoLines sessionId R isAnswer out)
        ("a=fmtp:".toList ++ showUInt it.id ++ " ".toList) = fmtpValues it := by
    intro it hit
    have := hlook "a=fmtp:".toList (showUInt it.id ++ " ".toList) (by decide) (by decide)
    rw [← List.append_assoc] at this
    rw [this]
    simp only [getLines_payloadTypeLines_fmtp]
    exact flatMap_select_id _ fmtpValues hnodup it hit
  rw [hr, List.flatMap_map]
  have hall : ∀ it ∈ J.videoPayloadTypes,
      parseRtpmapLine (encodedVideoLines sessionId R isAnswer out) (rtpmapValue it) =
        [decodedPayloadType it] :=
    fun it hit => parseRtpmapLine_rtpmapValue _ it (hvalid it hit) (hfb it hit) (hfmtp it hit)
  generalize J.videoPayloadTypes = pts at hall
  induction pts with
  | nil => rfl
  | cons x xs ih =>
    rw [List.flatMap_cons, hall x (by simp), ih (fun y hy => hall y (by simp [hy]))]
    rfl

/-- Claim C2. Round trip of the video payload types. For a join payload with
a source group, whose video payload types have different non-zero ids, names
that are not empty and hold no `/`, no space and no line break, and feedback
types (not empty) and subtypes without space and line break, and provided no
string of the join payload and of the response payload holds a line break,
the decoder applied to the text encoded with no other participants returns
the video payload types with the same id, name, clockrate, channels and
feedback types, in the same order. -/
theorem payloadTypes_round_trip (sessionId : Nat) (joinPayload : GroupJoinPayload)
    (payload : GroupJoinResponsePayload) (isAnswer : Bool) (text : Str)
    (henc : parseJoinResponseIntoSdp sessionId joinPayload payload isAnswer [] = some text)
    (hgroups : joinPayload.videoSourceGroups ≠ [])
    (hvalid : ∀ it ∈ joinPayload.videoPayloadTypes, payloadTypeValid it = true)
    (hnodup : (joinPayload.videoPayloadTypes.map (fun it => it.id)).Nodup)
    (hjoin : joinPayloadNoLineBreak joinPayload = true)
    (hresp : responseNoLineBreak payload = true) :
    ∃ decoded, parseSdpIntoJoinPayload text = some decoded ∧
      decoded.videoPayloadTypes.map
          (fun it => (it.id, it.name, it.clockrate, it.channels, it.feedbackTypes)) =
        joinPayload.videoPayloadTypes.map
          (fun it => (it.id, it.name, it.clockrate, it.channels, it.feedbackTypes)) := by
  obtain ⟨out, decoded, hout, hdec, hpt, _⟩ :=
    parse_outgoing_text sessionId joinPayload payload isAnswer text henc hjoin hresp
  refine ⟨decoded, hdec, ?_⟩
  rw [hpt, decode_outgoing_payloadTypes sessionId joinPayload payload isAnswer out hout hgroups
    hvalid hnodup, List.map_map]
  rfl

theorem payloadTypes_round_trip_witness :
    ∃ decoded,
      parseSdpIntoJoinPayload
        (createSdp 7 exampleResponse false
          [mainStream exampleJoinPayload, mainVideoStream exampleJoinPayload 1]) =
        some decoded ∧
      decoded.videoPayloadTypes.map
          (fun it => (it.id, it.name, it.clockrate, it.channels, it.feedbackTypes)) =
        exampleJoinPayload.videoPayloadTypes.map
          (fun it => (it.id, it.name, it.clockrate, it.channels, it.feedbackTypes)) :=
  payloadTypes_round_trip 7 exampleJoinPayload exampleResponse false _ rfl (by decide)
    (by decide) (by decide) (by decide) (by decide)

/-- Counterexample to claim C2 as it is stated. The join payload meets the conditions of the
claim (a source group, one payload type with a non-zero id, a valid name and
no feedback type), one of its parameter values holds a line feed followed by
`a=rtpmap:7 H264/90000`, and the decoder returns two payload types. -/
theorem payloadTypes_round_trip_fails :
    (∀ it ∈ joinPayloadWithLineFeed.videoPayloadTypes, payloadTypeValid it = true) ∧
    ((parseJoinResponseIntoSdp 7 joinPayloadWithLineFeed exampleResponse false []).bind
      parseSdpIntoJoinPayload).map (fun j => j.videoPayloadTypes.map (fun it => it.id)) =
      some [100, 7] := by
  decide

/-- Claim C3. Round trip of the format parameters. Under the conditions of the
round trip of the payload types, the decoder returns, in the order of the
join payload, payload types with the ids of the join payload, and for every
payload type whose parameters have keys and values that are not empty and
hold no `=`, no `;` and no line break it returns the same (key, value) list
in the same order; without parameters it returns the empty list. -/
theorem parameters_round_trip (sessionId : Nat) (joinPayload : GroupJoinPayload)
    (payload : GroupJoinResponsePayload) (isAnswer : Bool) (text : Str)
    (henc : parseJoinResponseIntoSdp sessionId joinPayload payload isAnswer [] = some text)
    (hgroups : joinPayload.videoSourceGroups ≠ [])
    (hvalid : ∀ it ∈ joinPayload.videoPayloadTypes, payloadTypeValid it = true)
    (hnodup : (joinPayload.videoPayloadTypes.map (fun it => it.id)).Nodup)
    (hjoin : joinPayloadNoLineBreak joinPayload = true)
    (hresp : responseNoLineBreak payload = true) :
    ∃ decoded, parseSdpIntoJoinPayload text = some decoded ∧
      decoded.videoPayloadTypes.map (fun it => it.id) =
        joinPayload.videoPayloadTypes.map (fun it => it.id) ∧
      ∀ q ∈ decoded.videoPayloadTypes.zip joinPayload.videoPayloadTypes,
        parametersValid q.2.parameters = true → q.1.parameters = q.2.parameters := by
  obtain ⟨out, decoded, hout, hdec, hpt, _⟩ :=
    parse_outgoing_text sessionId joinPayload payload isAnswer text henc hjoin hresp
  refine ⟨decoded, hdec, ?_, ?_⟩
  · rw [hpt, decode_outgoing_payloadTypes sessionId joinPayload payload isAnswer out hout
      hgroups hvalid hnodup, List.map_map]
    rfl
  · rw [hpt, decode_outgoing_payloadTypes sessionId joinPayload payload isAnswer out hout
      hgroups hvalid hnodup]
    intro q hq hv
    have hz : ∀ (l : List GroupJoinPayloadVideoPayloadType),
        q ∈ (l.map decodedPayloadType).zip l → q.1 = decodedPayloadType q.2 := by
      intro l
      induction l with
      | nil => intro h; exact absurd h (by simp)
      | cons x xs ih =>
        intro h
        simp only [List.map_cons, List.zip_cons_cons, List.mem_cons] at h
        rcases h with rfl | h
        · rfl
        · exact ih h
    rw [hz _ hq]
    exact decodedPayloadType_parameters q.2 hv

theorem parameters_round_trip_witness :
    ∃ decoded,
      parseSdpIntoJoinPayload
        (createSdp 7 exampleResponse false
          [mainStream exampleJoinPayload, mainVideoStream exampleJoinPayload 1]) =
        some decoded ∧
      decoded.videoPayloadTypes.map (fun it => it.id) =
        exampleJoinPayload.videoPayloadTypes.map (fun it => it.id) ∧
      ∀ q ∈ decoded.videoPayloadTypes.zip exampleJoinPayload.videoPayloadTypes,
        parametersValid q.2.parameters = true → q.1.parameters = q.2.parameters :=
  parameters_round_trip 7 exampleJoinPayload exampleResponse false _ rfl (by decide)
    (by decide) (by decide) (by decide) (by decide)

/-- Counterexample to claim C3 as it is stated. A parameter value that holds `=` (and no `;` and
no line break) is cut at its first `=` by the decoder; and a payload type
without parameters is decoded with parameters when another string of the join
payload holds a line feed followed by an `a=fmtp:` line of its id. -/
theorem parameters_round_trip_fails :
    ((parseJoinResponseIntoSdp 7 joinPayloadWithEquals exampleResponse false []).bind
      parseSdpIntoJoinPayload).map (fun j => j.videoPayloadTypes.map (fun it => it.parameters)) =
      some [[("sprop-parameter-sets".toList, "Z0IAH5WoFAFuQA".toList)]] ∧
    ((parseJoinResponseIntoSdp 7 joinPayloadWithFmtpInUri exampleResponse false []).bind
      parseSdpIntoJoinPayload).map (fun j => j.videoPayloadTypes.map (fun it => it.parameters)) =
      some [[("k".toList, "v".toList)]] := by
  decide

theorem map_getLines_ssrcGroupLines (gs : List GroupJoinPayloadVideoSourceGroup)
    (h : ∀ g ∈ gs, sourceGroupValid g = true) :
    (getLines (gs.map ssrcGroupLine) "a=ssrc-group:FID ".toList).map
        (fun line => ({ semantics := "FID".toList, ssrcs := splitSsrcList line } :
          GroupJoinPayloadVideoSourceGroup)) =
      gs.filter (fun g => g.semantics = "FID".toList) ∧
    (getLines (gs.map ssrcGroupLine) "a=ssrc-group:SIM ".toList).map
        (fun line => ({ semantics := "SIM".toList, ssrcs := splitSsrcList line } :
          GroupJoinPayloadVideoSourceGroup)) =
      gs.filter (fun g => g.semantics = "SIM".toList) := by
  induction gs with
  | nil => exact ⟨rfl, rfl⟩
  | cons g gs ih =>
    obtain ⟨i1, i2⟩ := ih (fun x hx => h x (by simp [hx]))
    obtain ⟨g1, g2⟩ := getLines_ssrcGroupLine g (h g (by simp))
    rw [List.map_cons, getLines_cons (ssrcGroupLine g) _ "a=ssrc-group:FID ".toList,
      getLines_cons (ssrcGroupLine g) _ "a=ssrc-group:SIM ".toList, List.map_append,
      List.map_append, g1, g2, i1, i2, List.filter_cons, List.filter_cons]
    constructor
    · by_cases hs : g.semantics = "FID".toList
      · simp only [hs, decide_True, if_true, List.singleton_append]
      · simp only [hs, decide_False, if_false, Bool.false_eq_true, List.nil_append]
    · by_cases hs : g.semantics = "SIM".toList
      · simp only [hs, decide_True, if_true, List.singleton_append]
      · simp only [hs, decide_False, if_false, Bool.false_eq_true, List.nil_append]

/-- Claim C4. Round trip of the source groups. For a join payload with at least
one video payload type, whose source groups all have the semantics `FID` or
`SIM` and at least one source identifier, and provided no string of the join
payload and of the response payload holds a line break, the decoder applied
to the offer text encoded with no other participants returns the `FID` groups
of the join payload, in their order, followed by its `SIM` groups, in their
order, each with the same source identifiers. -/
theorem sourceGroups_round_trip (sessionId : Nat) (joinPayload : GroupJoinPayload)
    (payload : GroupJoinResponsePayload) (text : Str)
    (henc : parseJoinResponseIntoSdp sessionId joinPayload payload false [] = some text)
    (htypes : joinPayload.videoPayloadTypes ≠ [])
    (hvalid : ∀ g ∈ joinPayload.videoSourceGroups, sourceGroupValid g = true)
    (hjoin : joinPayloadNoLineBreak joinPayload = true)
    (hresp : responseNoLineBreak payload = true) :
    ∃ decoded, parseSdpIntoJoinPayload text = some decoded ∧
      decoded.videoSourceGroups =
        joinPayload.videoSourceGroups.filter (fun g => g.semantics = "FID".toList) ++
        joinPayload.videoSourceGroups.filter (fun g => g.semantics = "SIM".toList) := by
  obtain ⟨out, decoded, hout, hdec, _, hgr⟩ :=
    parse_outgoing_text sessionId joinPayload payload false text henc hjoin hresp
  refine ⟨decoded, hdec, ?_⟩
  have hv : joinPayload.videoPayloadTypes.length ≠ 0 :=
    fun h0 => htypes (List.length_eq_zero.1 h0)
  have hlook : ∀ p : Str, (headerHeads ++ ["m=audio ".toList, "m=video ".toList,
      "c=IN".toList, "a=mid:".toList] ++ transportHeads).all (clash p) = true →
      videoNoGroupHeads.all (clash p) = true →
      getLines (encodedVideoLines sessionId payload false out) p =
        getLines (joinPayload.videoSourceGroups.map ssrcGroupLine) p := by
    intro p h1 h2
    have h := getLines_video_outgoing sessionId payload false joinPayload out hout p [] h1
    rw [List.append_nil] at h
    rw [encodedVideoLines, h]
    by_cases hg : joinPayload.videoSourceGroups.length = 0
    · rw [if_neg (fun h => h.1 hg), List.length_eq_zero.1 hg]
      rfl
    · rw [if_pos ⟨hg, hv⟩]
      have h3 := getLines_videoContentLines_groups
        (mainVideoStream joinPayload ((firstVideoSsrc joinPayload.videoSourceGroups).getD 0))
        rfl p [] h2
      rw [List.append_nil] at h3
      rw [h3]
      rfl
  obtain ⟨m1, m2⟩ := map_getLines_ssrcGroupLines joinPayload.videoSourceGroups hvalid
  rw [hgr, hlook "a=ssrc-group:FID ".toList (by decide) (by decide),
    hlook "a=ssrc-group:SIM ".toList (by decide) (by decide), m1, m2]

theorem sourceGroups_round_trip_witness :
    ∃ decoded,
      parseSdpIntoJoinPayload
        (createSdp 7 exampleResponse false
          [mainStream joinPayloadSimFirst, mainVideoStream joinPayloadSimFirst 1]) =
        some decoded ∧
      decoded.videoSourceGroups =
        joinPayloadSimFirst.videoSourceGroups.filter (fun g => g.semantics = "FID".toList) ++
        joinPayloadSimFirst.videoSourceGroups.filter (fun g => g.semantics = "SIM".toList) :=
  sourceGroups_round_trip 7 joinPayloadSimFirst exampleResponse _ rfl (by decide)
    (by decide) (by decide) (by decide)

/-- Counterexample to claim C4 as it is stated. The source groups `SIM 1 2`, `FID 1 3` of a join
payload are decoded in the order `FID 1 3`, `SIM 1 2`; and a join payload with
the single group `FID 1 3` is decoded with the further group `FID 8 9` in front when
another of its strings holds a line feed followed by `a=ssrc-group:FID 8 9`. -/
theorem sourceGroups_round_trip_fails :
    ((parseJoinResponseIntoSdp 7 joinPayloadSimFirst exampleResponse false []).bind
      parseSdpIntoJoinPayload).map (fun j => j.videoSourceGroups) =
      some [ { semantics := "FID".toList, ssrcs := [1, 3] },
             { semantics := "SIM".toList, ssrcs := [1, 2] } ] ∧
    joinPayloadSimFirst.videoSourceGroups =
      [ { semantics := "SIM".toList, ssrcs := [1, 2] },
        { semantics := "FID".toList, ssrcs := [1, 3] } ] ∧
    ((parseJoinResponseIntoSdp 7 joinPayloadWithGroupInUri exampleResponse false []).bind
      parseSdpIntoJoinPayload).map (fun j => j.videoSourceGroups) =
      some [ { semantics := "FID".toList, ssrcs := [8, 9] },
             { semantics := "FID".toList, ssrcs := [1, 3] } ] := by
  decide

/-! ## Order of the content identifiers on the `a=group:BUNDLE` line -/

/-- The streams of audio-only participants: one audio stream each. -/
theorem allParticipantStreams_audio_only (P : List GroupParticipantDescription)
    (haudio : ∀ p ∈ P, p.videoPayloadTypes = []) :
    allParticipantStreams P = some (P.map (fun p =>
      { isMain := false, isOutgoing := false, streamId := p.audioSsrc, ssrc := p.audioSsrc,
        videoSourceGroups := [], videoPayloadTypes := [], videoExtensionMap := [],
        isRemoved := false })) := by
  induction P with
  | nil => rfl
  | cons p P ih =>
    have hp : p.videoPayloadTypes = [] := haudio p (by simp)
    simp only [allParticipantStreams, participantStreams, hp, List.length_nil, ne_eq,
      not_true_eq_false, if_false, ih (fun q hq => haudio q (by simp [hq]))]
    rfl

theorem lineFeed_not_mem_bundleString (streams : List StreamSpec) :
    '\n' ∉ bundleString streams := by
  have hs : ∀ s : StreamSpec, '\n' ∉ bundleEntry s := by
    intro s
    have h := not_mem_showUInt s.streamId '\n' (by decide)
    simp only [bundleEntry]
    split_ifs <;> simp [h]
  simp only [bundleString, List.mem_append, List.mem_flatMap, not_or, not_exists, not_and]
  refine ⟨by decide, ?_⟩
  intro s _
  exact ⟨by decide, hs s⟩

/-- The first lines of the text of `createSdp`. -/
theorem getlineAll_createSdp_take (sessionId : Nat) (payload : GroupJoinResponsePayload)
    (isAnswer : Bool) (streams : List StreamSpec) :
    (getlineAll '\n' (createSdp sessionId payload isAnswer streams)).take 5 =
      [ "v=0".toList, "o=- ".toList ++ showUInt sessionId ++ " 2 IN IP4 0.0.0.0".toList,
        "s=-".toList, "t=0 0".toList, bundleString streams ] := by
  have ho : '\n' ∉ "o=- ".toList ++ showUInt sessionId ++ " 2 IN IP4 0.0.0.0".toList := by
    have h := not_mem_showUInt sessionId '\n' (by decide)
    simp [h]
  have hb := lineFeed_not_mem_bundleString streams
  simp only [createSdp, createSdpLines]
  generalize "o=- ".toList ++ showUInt sessionId ++ " 2 IN IP4 0.0.0.0".toList = oline at ho ⊢
  simp only [List.flatMap_append, List.flatMap_cons, List.flatMap_nil, List.append_assoc]
  have e : "\n".toList = ['\n'] := rfl
  simp only [e, List.singleton_append]
  rw [getlineAll_append_delim '\n' _ _ (by decide)]
  rw [getlineAll_append_delim '\n' _ _ ho]
  rw [getlineAll_append_delim '\n' _ _ (by decide)]
  rw [getlineAll_append_delim '\n' _ _ (by decide)]
  rw [getlineAll_append_delim '\n' _ _ hb]
  rfl

/-- Claim C11. Insertion order of the participants is preserved on the
`a=group:BUNDLE` line: for audio-only participants with audio source ids
`s1 .. sn`, the text of `parseJoinResponseIntoSdp` begins with the lines
`v=0`, `o=`, `s=-`, `t=0 0` and the line `a=group:BUNDLE`, which lists the
identifiers of the outgoing streams first (` 0`, or ` 0 1` with outgoing video,
` 0 0` when the outgoing video has no payload type) and then ` audio<s1>` ..
` audio<sn>` in the order of the participant list. -/
theorem bundle_line_keeps_insertion_order (sessionId : Nat) (joinPayload : GroupJoinPayload)
    (payload : GroupJoinResponsePayload) (isAnswer : Bool)
    (allOtherParticipants : List GroupParticipantDescription) (text : Str)
    (haudio : ∀ p ∈ allOtherParticipants, p.videoPayloadTypes = [])
    (h : parseJoinResponseIntoSdp sessionId joinPayload payload isAnswer
      allOtherParticipants = some text) :
    ∃ outgoing, outgoingStreams joinPayload = some outgoing ∧
      (outgoing.flatMap (fun s => ' ' :: bundleEntry s) = " 0".toList ∨
        outgoing.flatMap (fun s => ' ' :: bundleEntry s) = " 0 1".toList ∨
        outgoing.flatMap (fun s => ' ' :: bundleEntry s) = " 0 0".toList) ∧
      (getlineAll '\n' text).take 5 =
        [ "v=0".toList,
          "o=- ".toList ++ showUInt sessionId ++ " 2 IN IP4 0.0.0.0".toList,
          "s=-".toList,
          "t=0 0".toList,
          "a=group:BUNDLE".toList ++ outgoing.flatMap (fun s => ' ' :: bundleEntry s) ++
            allOtherParticipants.flatMap (fun p => " audio".toList ++ showUInt p.audioSsrc) ] := by
  obtain ⟨streams, hs, rfl⟩ := parseJoinResponseIntoSdp_eq_some _ _ _ _ _ _ h
  obtain ⟨out, others, hout, hoth, rfl⟩ := joinResponseStreams_split _ _ _ hs
  rw [allParticipantStreams_audio_only _ haudio] at hoth
  cases Option.some.inj hoth
  refine ⟨out, hout, ?_, ?_⟩
  · rcases outgoingStreams_cases _ _ hout with ⟨_, rfl⟩ | ⟨ssrc, _, _, rfl⟩
    · left; rfl
    · by_cases hv : joinPayload.videoPayloadTypes = []
      · right; right
        simp [bundleEntry, mainStream, mainVideoStream, hv]
      · right; left
        simp [bundleEntry, mainStream, mainVideoStream, hv]
  · rw [getlineAll_createSdp_take]
    have hb : bundleString (out ++ allOtherParticipants.map (fun p =>
        ({ isMain := false, isOutgoing := false, streamId := p.audioSsrc, ssrc := p.audioSsrc,
           videoSourceGroups := [], videoPayloadTypes := [], videoExtensionMap := [],
           isRemoved := false } : StreamSpec))) =
        "a=group:BUNDLE".toList ++ out.flatMap (fun s => ' ' :: bundleEntry s) ++
          allOtherParticipants.flatMap (fun p => " audio".toList ++ showUInt p.audioSsrc) := by
      simp only [bundleString, List.flatMap_append, List.append_assoc]
      congr 2
      clear haudio h hs hoth
      induction allOtherParticipants with
      | nil => rfl
      | cons p P ih =>
        rw [List.map_cons, List.flatMap_cons, List.flatMap_cons, ih]
        simp [bundleEntry]
    rw [hb]

theorem bundle_line_keeps_insertion_order_witness :
    (∀ p ∈ twoAudioParticipants, p.videoPayloadTypes = []) ∧
    ∃ outgoing, outgoingStreams exampleJoinPayload = some outgoing ∧
      (outgoing.flatMap (fun s => ' ' :: bundleEntry s) = " 0".toList ∨
        outgoing.flatMap (fun s => ' ' :: bundleEntry s) = " 0 1".toList ∨
        outgoing.flatMap (fun s => ' ' :: bundleEntry s) = " 0 0".toList) ∧
      (getlineAll '\n' (createSdp 7 exampleResponse false
          (exampleStreams.take 2 ++ twoAudioParticipants.map (fun p =>
            { isMain := false, isOutgoing := false, streamId := p.audioSsrc,
              ssrc := p.audioSsrc, videoSourceGroups := [], videoPayloadTypes := [],
              videoExtensionMap := [], isRemoved := false })))).take 5 =
        [ "v=0".toList,
          "o=- ".toList ++ showUInt 7 ++ " 2 IN IP4 0.0.0.0".toList,
          "s=-".toList,
          "t=0 0".toList,
          "a=group:BUNDLE".toList ++ outgoing.flatMap (fun s => ' ' :: bundleEntry s) ++
            twoAudioParticipants.flatMap
              (fun p => " audio".toList ++ showUInt p.audioSsrc) ] :=
  ⟨by decide, bundle_line_keeps_insertion_order 7 exampleJoinPayload exampleResponse false
    twoAudioParticipants _ (by decide) rfl⟩

/-! ## The credential lines are carried by the main content block -/

theorem contentBlocks_of_no_media (ls rest : List Str)
    (h : ∀ l ∈ ls, isMediaLine l = false) :
    contentBlocks (ls ++ rest) = (ls ++ (contentBlocks rest).1, (contentBlocks rest).2) := by
  induction ls with
  | nil => rfl
  | cons l ls ih =>
    have hl := h l (by simp)
    rw [List.cons_append, contentBlocks]
    simp only [hl, Bool.false_eq_true, if_false, ih (fun x hx => h x (by simp [hx]))]
    rfl

theorem isMediaLine_mLineString (s : StreamSpec) : isMediaLine (mLineString s) = true := by
  simp only [isMediaLine, mLineString]
  split_ifs <;> simp [List.isPrefixOf]

/-- The content blocks of the lines of a list of streams: one block per
stream. -/
theorem contentBlocks_flatMap_streamLines (payload : GroupJoinResponsePayload)
    (isAnswer : Bool) (streams : List StreamSpec) :
    contentBlocks (streams.flatMap (streamLines payload isAnswer)) =
      ([], streams.map (streamLines payload isAnswer)) := by
  induction streams with
  | nil => rfl
  | cons s ss ih =>
    have htail : ∀ l ∈ (streamLines payload isAnswer s).tail, isMediaLine l = false :=
      fun l hl => isMediaLine_false_of_hasHead l
        (List.all_eq_true.1 (streamLines_tail_heads payload isAnswer s) l hl)
    rw [List.flatMap_cons, List.map_cons, streamLines_eq payload isAnswer s, List.cons_append,
      contentBlocks]
    simp only [isMediaLine_mLineString, if_true]
    rw [contentBlocks_of_no_media _ _ htail, ih]
    simp

/-- The content blocks of the lines of `createSdp`: the six session-level
lines, then one block per stream. -/
theorem contentBlocks_createSdpLines (sessionId : Nat) (payload : GroupJoinResponsePayload)
    (isAnswer : Bool) (streams : List StreamSpec) :
    contentBlocks (createSdpLines sessionId payload isAnswer streams) =
      (["v=0".toList, "o=- ".toList ++ showUInt sessionId ++ " 2 IN IP4 0.0.0.0".toList,
        "s=-".toList, "t=0 0".toList, bundleString streams, "a=ice-lite".toList],
       streams.map (streamLines payload isAnswer)) := by
  have hh : ∀ l ∈ ["v=0".toList, "o=- ".toList ++ showUInt sessionId ++
      " 2 IN IP4 0.0.0.0".toList, "s=-".toList, "t=0 0".toList, bundleString streams,
      "a=ice-lite".toList], isMediaLine l = false := by
    intro l hl
    have hhead := List.all_eq_true.1 (headerLines_heads sessionId streams) l hl
    have h1 := isPrefixOf_false_of_hasHead _ "m=audio".toList [] l hhead (by decide)
    have h2 := isPrefixOf_false_of_hasHead _ "m=video".toList [] l hhead (by decide)
    rw [List.append_nil] at h1 h2
    simp only [isMediaLine, h1, h2, Bool.or_false]
  rw [createSdpLines, contentBlocks_of_no_media _ _ hh, contentBlocks_flatMap_streamLines]
  simp

/-- A line that starts with one of `heads` starts with none of `others` when
the two families clash. -/
theorem hasHead_false_of_hasHead (heads others : List Str) (l : Str)
    (hl : hasHead heads l = true)
    (hc : others.all (fun p => heads.all (clash p)) = true) :
    hasHead others l = false := by
  cases h : hasHead others l with
  | false => rfl
  | true =>
    exfalso
    simp only [hasHead, List.any_eq_true] at h
    obtain ⟨p, hp, hpl⟩ := h
    have h1 := isPrefixOf_false_of_hasHead heads p [] l hl (List.all_eq_true.1 hc p hp)
    rw [List.append_nil, hpl] at h1
    exact Bool.noConfusion h1

/-- The lines of a stream that is not the main one start with none of the
beginnings of the credential lines. -/
theorem streamLines_no_transport (payload : GroupJoinResponsePayload) (isAnswer : Bool)
    (s : StreamSpec) (hs : s.isMain = false) :
    ∀ l ∈ streamLines payload isAnswer s, hasHead transportHeads l = false := by
  intro l hl
  simp only [streamLines, hs, Bool.false_eq_true, if_false, List.append_nil,
    List.mem_append, List.mem_singleton] at hl
  rcases hl with (rfl | rfl) | hl
  · exact hasHead_false_of_hasHead _ _ _ (mLineString_heads s) (by decide)
  · exact hasHead_false_of_hasHead ["a=mid:".toList] _ _ (by simp [hasHead]) (by decide)
  · split_ifs at hl
    · exact hasHead_false_of_hasHead _ _ _
        (List.all_eq_true.1 (audioContentLines_heads isAnswer s) l hl) (by decide)
    · exact hasHead_false_of_hasHead _ _ _
        (List.all_eq_true.1 (videoContentLines_heads isAnswer s) l hl) (by decide)

/-- Claim C12, with the condition it needs. One credential set, carried by the
main content only: when no string that the encoder writes holds a line break,
the first content block of the text of `parseJoinResponseIntoSdp` is its `m=`
line, `c=IN IP4 0.0.0.0`, `a=mid:0`, then `a=ice-ufrag:`, `a=ice-pwd:`, for
each fingerprint of the response payload its `a=fingerprint:` line followed by
`a=setup:passive`, one `a=candidate:` line per candidate in payload order, and
then content lines that start with none of these five beginnings; no line of
another content block and no session-level line starts with one of them. -/
theorem credentials_only_in_main_block (sessionId : Nat) (joinPayload : GroupJoinPayload)
    (payload : GroupJoinResponsePayload) (isAnswer : Bool)
    (allOtherParticipants : List GroupParticipantDescription) (text : Str)
    (h : parseJoinResponseIntoSdp sessionId joinPayload payload isAnswer
      allOtherParticipants = some text)
    (hjoin : joinPayloadNoLineBreak joinPayload = true)
    (hresp : responseNoLineBreak payload = true)
    (hpart : ∀ p ∈ allOtherParticipants, participantNoLineBreak p = true) :
    ∃ content rest,
      (contentBlocks (splitSdpLines text)).2 =
        ([ "m=audio 1 RTP/SAVPF 111 126".toList, "c=IN IP4 0.0.0.0".toList,
           "a=mid:0".toList,
           "a=ice-ufrag:".toList ++ payload.ufrag, "a=ice-pwd:".toList ++ payload.pwd ] ++
         payload.fingerprints.flatMap (fun f =>
           [ "a=fingerprint:".toList ++ f.hash ++ " ".toList ++ f.fingerprint,
             "a=setup:passive".toList ]) ++
         payload.candidates.map candidateString ++ content) :: rest ∧
      (∀ c ∈ payload.candidates, "a=candidate:".toList.isPrefixOf (candidateString c) = true) ∧
      (∀ l ∈ content, hasHead transportHeads l = false) ∧
      (∀ block ∈ rest, ∀ l ∈ block, hasHead transportHeads l = false) ∧
      (∀ l ∈ (contentBlocks (splitSdpLines text)).1, hasHead transportHeads l = false) := by
  obtain ⟨streams, hs, rfl⟩ := parseJoinResponseIntoSdp_eq_some _ _ _ _ _ _ h
  have hnb := joinResponseStreams_noLineBreak _ _ _ hs hjoin hpart
  rw [splitSdpLines_createSdp sessionId payload isAnswer streams hresp hnb,
    contentBlocks_createSdpLines]
  obtain ⟨out, others, hout, hoth, rfl⟩ := joinResponseStreams_split _ _ _ hs
  have hothers := allParticipantStreams_spec _ _ hoth
  have hmain : ∃ tail, out ++ others = mainStream joinPayload :: tail ∧
      ∀ s ∈ tail, s.isMain = false := by
    rcases outgoingStreams_cases _ _ hout with ⟨_, rfl⟩ | ⟨ssrc, _, _, rfl⟩
    · exact ⟨others, rfl, fun s hs => (hothers s hs).2.1⟩
    · refine ⟨mainVideoStream joinPayload ssrc :: others, rfl, ?_⟩
      intro s hs
      rcases List.mem_cons.1 hs with rfl | hs
      · rfl
      · exact (hothers s hs).2.1
  obtain ⟨tail, htail, hnot⟩ := hmain
  rw [htail]
  refine ⟨audioContentLines isAnswer (mainStream joinPayload),
    tail.map (streamLines payload isAnswer), ?_, ?_, ?_, ?_, ?_⟩
  · simp [streamLines, mainStream, mLineString, streamMidString, mainTransportLines]
  · intro c _
    simp [candidateString]
  · intro l hl
    exact hasHead_false_of_hasHead _ _ _
      (List.all_eq_true.1 (audioContentLines_heads isAnswer _) l hl) (by decide)
  · intro block hb l hl
    obtain ⟨s, hs, rfl⟩ := List.mem_map.1 hb
    exact streamLines_no_transport payload isAnswer s (hnot s hs) l hl
  · intro l hl
    exact hasHead_false_of_hasHead _ _ _
      (List.all_eq_true.1 (headerLines_heads sessionId _) l hl) (by decide)

theorem credentials_only_in_main_block_witness :
    joinPayloadNoLineBreak exampleJoinPayload = true ∧
    responseNoLineBreak exampleResponse = true ∧
    ∃ content rest,
      (contentBlocks (splitSdpLines (createSdp 7 exampleResponse false exampleStreams))).2 =
        ([ "m=audio 1 RTP/SAVPF 111 126".toList, "c=IN IP4 0.0.0.0".toList,
           "a=mid:0".toList,
           "a=ice-ufrag:".toList ++ exampleResponse.ufrag,
           "a=ice-pwd:".toList ++ exampleResponse.pwd ] ++
         exampleResponse.fingerprints.flatMap (fun f =>
           [ "a=fingerprint:".toList ++ f.hash ++ " ".toList ++ f.fingerprint,
             "a=setup:passive".toList ]) ++
         exampleResponse.candidates.map candidateString ++ content) :: rest ∧
      (∀ c ∈ exampleResponse.candidates,
        "a=candidate:".toList.isPrefixOf (candidateString c) = true) ∧
      (∀ l ∈ content, hasHead transportHeads l = false) ∧
      (∀ block ∈ rest, ∀ l ∈ block, hasHead transportHeads l = false) ∧
      (∀ l ∈ (contentBlocks (splitSdpLines
          (createSdp 7 exampleResponse false exampleStreams))).1,
        hasHead transportHeads l = false) :=
  ⟨by decide, by decide,
    credentials_only_in_main_block 7 exampleJoinPayload exampleResponse false
      exampleParticipants _ rfl (by decide) (by decide) (by decide)⟩

/-- Counterexample to claim C12 as it is stated. A participant whose extension
URI holds a line feed followed by `a=ice-ufrag:zz` puts a credential line into
its own video content block: of the content blocks after the first one, the
block `audio111` holds no `a=ice-ufrag:` line and the block `video7` holds the
line `a=ice-ufrag:zz`. -/
theorem credential_line_in_other_block :
    (parseJoinResponseIntoSdp 7 audioOnlyJoinPayload exampleResponse false
      participantWithCredentialLine).map (fun text =>
        ((contentBlocks (splitSdpLines text)).2.drop 1).map (fun block =>
          (getLines block "a=mid:".toList, getLines block "a=ice-ufrag:".toList))) =
      some [ (["audio111".toList], []), (["video7".toList], ["zz".toList]) ] := by
  decide

/-! ## Format of the candidate line -/

theorem candidateString_eq_format (c : GroupJoinResponseCandidate) :
    candidateString c = candidateLineFormat c := by
  simp only [candidateString, candidateLineFormat, ne_eq, List.length_eq_zero]
  by_cases h1 : c.type = "srflx".toList ∨ c.type = "prflx".toList ∨ c.type = "relay".toList <;>
  by_cases h2 : ¬c.relAddr = [] ∧ ¬c.relPort = [] <;>
  by_cases h3 : c.protocol = "tcp".toList <;>
  by_cases h4 : c.tcpType = [] <;>
  simp [h1, h2, h3, h4]

theorem filter_eq_nil_of_heads (heads : List Str) (ls : List Str) (p : Str)
    (hl : ls.all (hasHead heads) = true) (hp : heads.all (clash p) = true) :
    ls.filter (fun l => p.isPrefixOf l) = [] := by
  rw [List.filter_eq_nil_iff]
  intro l hlmem
  have h := isPrefixOf_false_of_hasHead heads p [] l (List.all_eq_true.1 hl l hlmem) hp
  rw [List.append_nil] at h
  simp [h]

/-- The candidate lines among the lines of one stream. -/
theorem filter_streamLines_candidate (payload : GroupJoinResponsePayload) (isAnswer : Bool)
    (s : StreamSpec) :
    (streamLines payload isAnswer s).filter (fun l => "a=candidate:".toList.isPrefixOf l) =
      if s.isMain then payload.candidates.map candidateString else [] := by
  have h1 : [mLineString s].filter (fun l => "a=candidate:".toList.isPrefixOf l) = [] :=
    filter_eq_nil_of_heads ["m=audio ".toList, "m=video ".toList] _ _
      (by simp only [List.all_cons, List.all_nil, Bool.and_true]; exact mLineString_heads s)
      (by decide)
  have h2 : (if s.isMain then ["c=IN IP4 0.0.0.0".toList] else []).filter
      (fun l => "a=candidate:".toList.isPrefixOf l) = [] := by
    split_ifs <;> rfl
  have h3 : ["a=mid:".toList ++ streamMidString s].filter
      (fun l => "a=candidate:".toList.isPrefixOf l) = [] :=
    filter_eq_nil_of_heads ["a=mid:".toList] _ _ (by simp [hasHead]) (by decide)
  have h4 : (if s.videoPayloadTypes.length = 0 then audioContentLines isAnswer s
      else videoContentLines isAnswer s).filter
      (fun l => "a=candidate:".toList.isPrefixOf l) = [] :=
    filter_eq_nil_of_heads contentHeads _ _
      (by split_ifs
          · exact audioContentLines_heads isAnswer s
          · exact videoContentLines_heads isAnswer s) (by decide)
  have h5 : (mainTransportLines payload).filter
      (fun l => "a=candidate:".toList.isPrefixOf l) = payload.candidates.map candidateString := by
    have hf : (payload.fingerprints.flatMap (fun fingerprint =>
        [ "a=fingerprint:".toList ++ fingerprint.hash ++ " ".toList ++ fingerprint.fingerprint,
          "a=setup:passive".toList ])).filter
        (fun l => "a=candidate:".toList.isPrefixOf l) = [] :=
      filter_eq_nil_of_heads ["a=fingerprint:".toList, "a=setup:passive".toList] _ _
        (all_flatMap_of_forall _ _ _ (fun fp => by simp [hasHead])) (by decide)
    have hc : (payload.candidates.map candidateString).filter
        (fun l => "a=candidate:".toList.isPrefixOf l) = payload.candidates.map candidateString := by
      rw [List.filter_eq_self]
      intro l hl
      obtain ⟨c, _, rfl⟩ := List.mem_map.1 hl
      simp [candidateString]
    have hu : ["a=ice-ufrag:".toList ++ payload.ufrag, "a=ice-pwd:".toList ++ payload.pwd].filter
        (fun l => "a=candidate:".toList.isPrefixOf l) = [] :=
      filter_eq_nil_of_heads ["a=ice-ufrag:".toList, "a=ice-pwd:".toList] _ _
        (by simp [hasHead]) (by decide)
    simp only [mainTransportLines, List.filter_append, hf, hc, hu, List.nil_append]
  simp only [streamLines, List.filter_append, h1, h2, h3, h4, List.nil_append, List.append_nil]
  split_ifs
  · exact h5
  · rfl

/-- The line of a relayed TCP candidate, and the line of the same candidate
without a related port. -/
theorem candidateString_example :
    candidateString
      { port := "1".toList, protocol := "tcp".toList, generation := "0".toList,
        component := "1".toList, foundation := "f".toList, priority := "9".toList,
        ip := "1.2.3.4".toList, type := "relay".toList, tcpType := "passive".toList,
        relAddr := "5.6.7.8".toList, relPort := "9".toList } =
      "a=candidate:f 1 tcp 9 1.2.3.4 1 typ relay raddr 5.6.7.8 rport 9 tcptype passive generation 0".toList ∧
    candidateString
      { port := "1".toList, protocol := "tcp".toList, generation := "0".toList,
        component := "1".toList, foundation := "f".toList, priority := "9".toList,
        ip := "1.2.3.4".toList, type := "relay".toList, tcpType := "passive".toList,
        relAddr := "5.6.7.8".toList, relPort := [] } =
      "a=candidate:f 1 tcp 9 1.2.3.4 1 typ relay tcptype passive generation 0".toList := by
  decide

/-- Claim C13. Candidate line format: the string `createSdp` builds for a
candidate is `a=candidate:<foundation> <component> <protocol> <priority> <ip>
<port> typ <type> `, then `raddr <relAddr> rport <relPort> ` exactly when the
type is `srflx`, `prflx` or `relay` and both values are non-empty, then
`tcptype <tcpType> ` exactly when the protocol is `tcp` and the value is
non-empty, then `generation <generation>`; and the lines of `createSdp` that
start with `a=candidate:` are these lines, one per candidate in payload order,
in the block of every main stream. -/
theorem candidate_line_format (sessionId : Nat) (payload : GroupJoinResponsePayload)
    (isAnswer : Bool) (bundleStreams : List StreamSpec) :
    (∀ candidate : GroupJoinResponseCandidate,
      candidateString candidate = candidateLineFormat candidate) ∧
    (createSdpLines sessionId payload isAnswer bundleStreams).filter
        (fun l => "a=candidate:".toList.isPrefixOf l) =
      (bundleStreams.filter (fun stream => stream.isMain)).flatMap
        (fun _ => payload.candidates.map candidateLineFormat) := by
  refine ⟨candidateString_eq_format, ?_⟩
  have hh : ["v=0".toList, "o=- ".toList ++ showUInt sessionId ++
      " 2 IN IP4 0.0.0.0".toList, "s=-".toList, "t=0 0".toList, bundleString bundleStreams,
      "a=ice-lite".toList].filter (fun l => "a=candidate:".toList.isPrefixOf l) = [] :=
    filter_eq_nil_of_heads _ _ _ (headerLines_heads sessionId bundleStreams) (by decide)
  rw [createSdpLines, List.filter_append, hh, List.nil_append]
  clear hh
  induction bundleStreams with
  | nil => rfl
  | cons s ss ih =>
    rw [List.flatMap_cons, List.filter_append, ih, filter_streamLines_candidate,
      List.filter_cons]
    have hm : payload.candidates.map candidateString =
        payload.candidates.map candidateLineFormat :=
      List.map_congr_left (fun c _ => candidateString_eq_format c)
    cases hmain : s.isMain with
    | true => simp [hm]
    | false => simp

/-! # Properties of the group call manager -/

/-! ## The ledger of participants (`_allOtherParticipants`) -/

theorem pushNewParticipants_nil (all : List GroupParticipantDescription) :
    pushNewParticipants all [] = all := rfl

theorem pushNewParticipants_cons (all : List GroupParticipantDescription)
    (p : GroupParticipantDescription) (ps : List GroupParticipantDescription) :
    pushNewParticipants all (p :: ps) =
      pushNewParticipants
        (if all.any (fun other => other.audioSsrc = p.audioSsrc) then all else all ++ [p]) ps :=
  rfl

theorem any_audioSsrc_iff (all : List GroupParticipantDescription) (ssrc : Nat) :
    all.any (fun other => other.audioSsrc = ssrc) = true ↔
      ssrc ∈ all.map (fun other => other.audioSsrc) := by
  simp only [List.any_eq_true, decide_eq_true_eq, List.mem_map]

/-- The loop of `addParticipantsInternal` appends to the ledger: the appended
entries are taken from the list in list order, each is the first entry of the
list with its identifier, the identifier was not in the ledger, no identifier
is appended twice, and afterwards the ledger holds the identifier of every
entry of the list. -/
theorem pushNewParticipants_spec (ps : List GroupParticipantDescription) :
    ∀ all : List GroupParticipantDescription,
      ∃ added, pushNewParticipants all ps = all ++ added ∧
        added.Sublist ps ∧
        (∀ p ∈ added, p.audioSsrc ∉ all.map (fun other => other.audioSsrc)) ∧
        (added.map (fun p => p.audioSsrc)).Nodup ∧
        (∀ p ∈ added, ps.find? (fun q => q.audioSsrc = p.audioSsrc) = some p) ∧
        (∀ p ∈ ps, p.audioSsrc ∈ (all ++ added).map (fun other => other.audioSsrc)) := by
  induction ps with
  | nil =>
    intro all
    exact ⟨[], by simp [pushNewParticipants_nil], List.Sublist.refl _, by simp, by simp,
      by simp, by simp⟩
  | cons p ps ih =>
    intro all
    rw [pushNewParticipants_cons]
    by_cases hfound : all.any (fun other => other.audioSsrc = p.audioSsrc) = true
    · rw [if_pos hfound]
      obtain ⟨added, h1, h2, h3, h4, h5, h6⟩ := ih all
      have hp : p.audioSsrc ∈ all.map (fun other => other.audioSsrc) :=
        (any_audioSsrc_iff all p.audioSsrc).1 hfound
      refine ⟨added, h1, h2.cons p, h3, h4, ?_, ?_⟩
      · intro q hq
        have hne : ¬ p.audioSsrc = q.audioSsrc := fun h => h3 q hq (h ▸ hp)
        rw [List.find?_cons]
        simp only [hne, decide_False]
        exact h5 q hq
      · intro q hq
        rcases List.mem_cons.1 hq with rfl | hq
        · rw [List.map_append]
          exact List.mem_append_left _ hp
        · exact h6 q hq
    · rw [if_neg hfound]
      obtain ⟨added, h1, h2, h3, h4, h5, h6⟩ := ih (all ++ [p])
      have hp : p.audioSsrc ∉ all.map (fun other => other.audioSsrc) :=
        fun h => hfound ((any_audioSsrc_iff all p.audioSsrc).2 h)
      have h3a : ∀ q ∈ added, q.audioSsrc ∉ all.map (fun other => other.audioSsrc) :=
        fun q hq h => h3 q hq (by rw [List.map_append]; exact List.mem_append_left _ h)
      have h3p : ∀ q ∈ added, ¬ p.audioSsrc = q.audioSsrc :=
        fun q hq h => h3 q hq (by rw [List.map_append, ← h]; simp)
      refine ⟨p :: added, by rw [h1]; simp, h2.cons₂ p, ?_, ?_, ?_, ?_⟩
      · intro q hq
        rcases List.mem_cons.1 hq with rfl | hq
        · exact hp
        · exact h3a q hq
      · rw [List.map_cons, List.nodup_cons]
        refine ⟨?_, h4⟩
        intro hmem
        obtain ⟨q, hq, hqp⟩ := List.mem_map.1 hmem
        exact h3p q hq hqp.symm
      · intro q hq
        rcases List.mem_cons.1 hq with rfl | hq
        · simp
        · rw [List.find?_cons]
          simp only [h3p q hq, decide_False]
          exact h5 q hq
      · intro q hq
        rcases List.mem_cons.1 hq with rfl | hq
        · simp
        · have := h6 q hq
          simpa using this

/-- A list whose identifiers are all in the ledger leaves the ledger as it
is. -/
theorem pushNewParticipants_of_known (ps all : List GroupParticipantDescription)
    (h : ∀ p ∈ ps, p.audioSsrc ∈ all.map (fun other => other.audioSsrc)) :
    pushNewParticipants all ps = all := by
  induction ps with
  | nil => rfl
  | cons p ps ih =>
    rw [pushNewParticipants_cons,
      if_pos ((any_audioSsrc_iff all p.audioSsrc).2 (h p (by simp)))]
    exact ih (fun q hq => h q (by simp [hq]))

/-- Running the loop a second time with the same list changes nothing. -/
theorem pushNewParticipants_idem (ps all : List GroupParticipantDescription) :
    pushNewParticipants (pushNewParticipants all ps) ps = pushNewParticipants all ps := by
  obtain ⟨added, h1, _, _, _, _, h6⟩ := pushNewParticipants_spec ps all
  apply pushNewParticipants_of_known
  rw [h1]
  exact h6

/-- The loop keeps the identifiers of the ledger pairwise distinct. -/
theorem pushNewParticipants_nodup (ps all : List GroupParticipantDescription)
    (h : (all.map (fun other => other.audioSsrc)).Nodup) :
    ((pushNewParticipants all ps).map (fun other => other.audioSsrc)).Nodup := by
  obtain ⟨added, h1, _, h3, h4, _, _⟩ := pushNewParticipants_spec ps all
  rw [h1, List.map_append, List.nodup_append]
  refine ⟨h, h4, ?_⟩
  intro x hx hx2
  obtain ⟨q, hq, rfl⟩ := List.mem_map.1 hx2
  exact h3 q hq hx

/-! ## `setOfferSdp` and `addParticipantsInternal` without recovery cycle -/

/-- With `completeMissingSsrcSetup = false`, `setOfferSdp` returns, and it
submits the text exactly when the guard lets it pass and the transport library
accepts it. -/
theorem setOfferSdpBody_false
    (complete : GroupInstanceManager → Option GroupInstanceManager)
    (createSessionDescription : Str → Str → Bool) (now : Int) (offerSdp : Str)
    (isInitialJoinAnswer isAnswer : Bool) (self : GroupInstanceManager) :
    ∃ after, setOfferSdpBody complete createSessionDescription now offerSdp
        isInitialJoinAnswer isAnswer false self = some after ∧
      after.allOtherParticipants = self.allOtherParticipants ∧
      after.joinPayload = self.joinPayload ∧
      after.joinResponsePayload = self.joinResponsePayload ∧
      after.sessionId = self.sessionId ∧
      after.missingSsrcQueue = self.missingSsrcQueue ∧
      after.isProcessingMissingSsrcs = self.isProcessingMissingSsrcs ∧
      after.appliedRemoteRescription = offerSdp ∧
      after.effects =
        if (isAnswer = true ∨ self.appliedRemoteRescription ≠ offerSdp) ∧
            createSessionDescription (if isAnswer then "answer".toList else "offer".toList)
              (adjustLocalDescription offerSdp) = true then
          self.effects ++
            [ GroupManagerEffect.setRemoteDescription
                (if isAnswer then "answer".toList else "offer".toList)
                (adjustLocalDescription offerSdp) isInitialJoinAnswer isAnswer false ]
        else self.effects := by
  cases isAnswer with
  | true =>
    simp only [setOfferSdpBody, if_true]
    generalize createSessionDescription "answer".toList (adjustLocalDescription offerSdp) = b
    cases b <;> simp
  | false =>
    simp only [setOfferSdpBody, Bool.false_eq_true, if_false]
    generalize createSessionDescription "offer".toList (adjustLocalDescription offerSdp) = b
    by_cases h : self.appliedRemoteRescription = offerSdp
    · simp [h]
    · cases b <;> simp [h]

/-- A manager that is not joined ignores `addParticipants`. -/
theorem addParticipants_not_joined (createSessionDescription : Str → Str → Bool) (now : Int)
    (fuel : Nat) (participants : List GroupParticipantDescription)
    (self : GroupInstanceManager) (h : isJoined self = false) :
    addParticipants createSessionDescription now fuel participants self = some self := by
  simp only [addParticipants, addParticipantsInternal, addParticipantsInternalBody]
  simp only [isJoined] at h
  cases hJ : self.joinPayload with
  | none => rfl
  | some J =>
    cases hR : self.joinResponsePayload with
    | none => rfl
    | some R => simp [hJ, hR] at h

/-- A joined manager runs the loop over the list, regenerates the text from
the ledger and passes it to `setOfferSdp` as an offer. -/
theorem addParticipants_joined (createSessionDescription : Str → Str → Bool) (now : Int)
    (fuel : Nat) (participants : List GroupParticipantDescription)
    (self : GroupInstanceManager) (joinPayload : GroupJoinPayload)
    (joinResponsePayload : GroupJoinResponsePayload)
    (hJ : self.joinPayload = some joinPayload)
    (hR : self.joinResponsePayload = some joinResponsePayload) :
    addParticipants createSessionDescription now fuel participants self =
      (parseJoinResponseIntoSdp self.sessionId joinPayload joinResponsePayload false
        (pushNewParticipants self.allOtherParticipants participants)).bind (fun sdp =>
          setOfferSdpBody (completeProcessingMissingSsrcs createSessionDescription now fuel)
            createSessionDescription now sdp false false false
            { self with allOtherParticipants :=
                pushNewParticipants self.allOtherParticipants participants }) := by
  simp only [addParticipants, addParticipantsInternal, addParticipantsInternalBody, hJ, hR]
  cases parseJoinResponseIntoSdp self.sessionId joinPayload joinResponsePayload false
    (pushNewParticipants self.allOtherParticipants participants) <;> rfl

/-- The state of a joined manager after `addParticipants`, when the text can
be regenerated. -/
theorem addParticipants_spec (createSessionDescription : Str → Str → Bool) (now : Int)
    (fuel : Nat) (participants : List GroupParticipantDescription)
    (self : GroupInstanceManager) (joinPayload : GroupJoinPayload)
    (joinResponsePayload : GroupJoinResponsePayload) (sdp : Str)
    (hJ : self.joinPayload = some joinPayload)
    (hR : self.joinResponsePayload = some joinResponsePayload)
    (hsdp : parseJoinResponseIntoSdp self.sessionId joinPayload joinResponsePayload false
      (pushNewParticipants self.allOtherParticipants participants) = some sdp) :
    ∃ after, addParticipants createSessionDescription now fuel participants self = some after ∧
      after.allOtherParticipants = pushNewParticipants self.allOtherParticipants participants ∧
      after.joinPayload = self.joinPayload ∧
      after.joinResponsePayload = self.joinResponsePayload ∧
      after.sessionId = self.sessionId ∧
      after.missingSsrcQueue = self.missingSsrcQueue ∧
      after.isProcessingMissingSsrcs = self.isProcessingMissingSsrcs ∧
      after.appliedRemoteRescription = sdp ∧
      after.effects =
        if self.appliedRemoteRescription ≠ sdp ∧
            createSessionDescription "offer".toList (adjustLocalDescription sdp) = true then
          self.effects ++
            [ GroupManagerEffect.setRemoteDescription "offer".toList (adjustLocalDescription sdp)
                false false false ]
        else self.effects := by
  rw [addParticipants_joined _ _ _ _ _ _ _ hJ hR, hsdp]
  obtain ⟨after, h0, h1, h2, h3, h4, h5, h6, h7, h8⟩ :=
    setOfferSdpBody_false (completeProcessingMissingSsrcs createSessionDescription now fuel)
      createSessionDescription now sdp false false
      { self with allOtherParticipants :=
          pushNewParticipants self.allOtherParticipants participants }
  refine ⟨after, h0, h1, h2, h3, h4, h5, h6, h7, ?_⟩
  rw [h8]
  simp

/-- When `addParticipants` returns for a joined manager, the text was
regenerated. -/
theorem addParticipants_defined (createSessionDescription : Str → Str → Bool) (now : Int)
    (fuel : Nat) (participants : List GroupParticipantDescription)
    (self after : GroupInstanceManager) (joinPayload : GroupJoinPayload)
    (joinResponsePayload : GroupJoinResponsePayload)
    (hJ : self.joinPayload = some joinPayload)
    (hR : self.joinResponsePayload = some joinResponsePayload)
    (h : addParticipants createSessionDescription now fuel participants self = some after) :
    ∃ sdp, parseJoinResponseIntoSdp self.sessionId joinPayload joinResponsePayload false
      (pushNewParticipants self.allOtherParticipants participants) = some sdp := by
  rw [addParticipants_joined _ _ _ _ _ _ _ hJ hR] at h
  cases hp : parseJoinResponseIntoSdp self.sessionId joinPayload joinResponsePayload false
    (pushNewParticipants self.allOtherParticipants participants) with
  | none => rw [hp] at h; exact Option.noConfusion h
  | some sdp => exact ⟨sdp, rfl⟩

/-- The ledger after `addParticipants`, joined or not. -/
theorem addParticipants_ledger (createSessionDescription : Str → Str → Bool) (now : Int)
    (fuel : Nat) (participants : List GroupParticipantDescription)
    (self after : GroupInstanceManager)
    (h : addParticipants createSessionDescription now fuel participants self = some after) :
    after.joinPayload = self.joinPayload ∧
    after.joinResponsePayload = self.joinResponsePayload ∧
    after.sessionId = self.sessionId ∧
    after.allOtherParticipants =
      if isJoined self then pushNewParticipants self.allOtherParticipants participants
      else self.allOtherParticipants := by
  cases hj : isJoined self with
  | false =>
    rw [addParticipants_not_joined _ _ _ _ _ hj] at h
    cases Option.some.inj h
    exact ⟨rfl, rfl, rfl, rfl⟩
  | true =>
    simp only [isJoined, Bool.and_eq_true, Option.isSome_iff_exists] at hj
    obtain ⟨⟨J, hJ⟩, ⟨R, hR⟩⟩ := hj
    obtain ⟨sdp, hsdp⟩ := addParticipants_defined _ _ _ _ _ _ _ _ hJ hR h
    obtain ⟨after2, h0, h1, h2, h3, h4, _⟩ :=
      addParticipants_spec createSessionDescription now fuel participants self J R sdp hJ hR hsdp
    rw [h] at h0
    cases Option.some.inj h0
    exact ⟨h2, h3, h4, by simpa using h1⟩

/-- The joined manager after `addParticipants` of a list that repeats an
identifier. -/
theorem addParticipants_joinedManager :
    addParticipants acceptAll 40 1 repeatingParticipants joinedManager = some offeredManager := by
  decide!

/-- Claim C14. Idempotence of `addParticipants`: in every manager state and for
every participant list, also one that repeats an audio source identifier, when
the first call returns, a second call with the same list returns too (at any
later time), and the ledger after it is the ledger after the first call. -/
theorem addParticipants_idempotent (createSessionDescription : Str → Str → Bool)
    (now later : Int) (fuel : Nat) (participants : List GroupParticipantDescription)
    (self after : GroupInstanceManager)
    (h : addParticipants createSessionDescription now fuel participants self = some after) :
    ∃ again, addParticipants createSessionDescription later fuel participants after =
        some again ∧
      again.allOtherParticipants = after.allOtherParticipants := by
  obtain ⟨h1, h2, h3, h4⟩ := addParticipants_ledger _ _ _ _ _ _ h
  cases hj : isJoined self with
  | false =>
    have hj2 : isJoined after = false := by
      simp only [isJoined, h1, h2] at hj ⊢
      exact hj
    exact ⟨after, addParticipants_not_joined _ _ _ _ _ hj2, rfl⟩
  | true =>
    rw [hj, if_pos rfl] at h4
    simp only [isJoined, Bool.and_eq_true, Option.isSome_iff_exists] at hj
    obtain ⟨⟨J, hJ⟩, ⟨R, hR⟩⟩ := hj
    obtain ⟨sdp, hsdp⟩ := addParticipants_defined _ _ _ _ _ _ _ _ hJ hR h
    have hsdp2 : parseJoinResponseIntoSdp after.sessionId J R false
        (pushNewParticipants after.allOtherParticipants participants) = some sdp := by
      rw [h3, h4, pushNewParticipants_idem]
      exact hsdp
    obtain ⟨again, g0, g1, _⟩ :=
      addParticipants_spec createSessionDescription later fuel participants after J R sdp
        (h1.trans hJ) (h2.trans hR) hsdp2
    refine ⟨again, g0, ?_⟩
    rw [g1, h4, pushNewParticipants_idem]

theorem addParticipants_idempotent_witness :
    addParticipants acceptAll 40 1 repeatingParticipants joinedManager = some offeredManager ∧
    ∃ again, addParticipants acceptAll 90 1 repeatingParticipants offeredManager = some again ∧
      again.allOtherParticipants = offeredManager.allOtherParticipants :=
  ⟨addParticipants_joinedManager,
    addParticipants_idempotent acceptAll 40 90 1 repeatingParticipants joinedManager
      offeredManager addParticipants_joinedManager⟩

/-- Claim C16, with the guard of `addParticipantsInternal`. Merge-add of
`addParticipants`: when the manager holds a join payload and a join response,
the ledger after the call is the ledger before the call followed by appended
entries; the appended entries are taken from the list in list order, each is
the first entry of the list with its identifier, none has an identifier that
was in the ledger, no identifier is appended twice, and the ledger then holds
an entry for the identifier of every candidate of the list. When the manager
lacks the join payload or the join response, the call changes nothing. -/
theorem addParticipants_merges (createSessionDescription : Str → Str → Bool) (now : Int)
    (fuel : Nat) (participants : List GroupParticipantDescription)
    (self after : GroupInstanceManager)
    (h : addParticipants createSessionDescription now fuel participants self = some after) :
    (isJoined self = true →
      ∃ added, after.allOtherParticipants = self.allOtherParticipants ++ added ∧
        added.Sublist participants ∧
        (∀ p ∈ added,
          p.audioSsrc ∉ self.allOtherParticipants.map (fun other => other.audioSsrc)) ∧
        (added.map (fun p => p.audioSsrc)).Nodup ∧
        (∀ p ∈ added, participants.find? (fun q => q.audioSsrc = p.audioSsrc) = some p) ∧
        (∀ p ∈ participants,
          p.audioSsrc ∈ after.allOtherParticipants.map (fun other => other.audioSsrc))) ∧
    (isJoined self = false → after = self) := by
  constructor
  · intro hjoined
    obtain ⟨_, _, _, h4⟩ := addParticipants_ledger _ _ _ _ _ _ h
    rw [hjoined, if_pos rfl] at h4
    obtain ⟨added, g1, g2, g3, g4, g5, g6⟩ :=
      pushNewParticipants_spec participants self.allOtherParticipants
    refine ⟨added, h4.trans g1, g2, g3, g4, g5, ?_⟩
    rw [h4, g1]
    exact g6
  · intro hnot
    rw [addParticipants_not_joined _ _ _ _ _ hnot] at h
    exact (Option.some.inj h).symm

theorem addParticipants_merges_witness :
    isJoined joinedManager = true ∧
    ∃ added, offeredManager.allOtherParticipants = joinedManager.allOtherParticipants ++ added ∧
      added.Sublist repeatingParticipants ∧
      (∀ p ∈ added,
        p.audioSsrc ∉ joinedManager.allOtherParticipants.map (fun other => other.audioSsrc)) ∧
      (added.map (fun p => p.audioSsrc)).Nodup ∧
      (∀ p ∈ added,
        repeatingParticipants.find? (fun q => q.audioSsrc = p.audioSsrc) = some p) ∧
      (∀ p ∈ repeatingParticipants,
        p.audioSsrc ∈ offeredManager.allOtherParticipants.map (fun other => other.audioSsrc)) :=
  ⟨by decide, (addParticipants_merges acceptAll 40 1 repeatingParticipants joinedManager
    offeredManager addParticipants_joinedManager).1 (by decide)⟩

/-- Counterexample to claim C16 as it is stated. A manager that holds no join
payload (the manager after construction) returns from `addParticipants` before
the loop: the ledger stays empty and holds no entry for the identifier `111`
of the list. -/
theorem addParticipants_not_joined_keeps_ledger :
    (addParticipants acceptAll 40 1 exampleParticipants newGroupInstanceManager).map
      (fun after => after.allOtherParticipants) = some [] ∧
    exampleParticipants.map (fun p => p.audioSsrc) = [111] := by
  decide

/-- Claim C17, with the guards of `setOfferSdp`. For a joined manager,
`addParticipants` regenerates the text from the ledger and `setOfferSdp`
records it as the applied remote description; the text is submitted to
`SetRemoteDescription` as an offer exactly when it differs from the remote
description applied before and the transport library creates a session
description from it; otherwise nothing is submitted. -/
theorem addParticipants_round (createSessionDescription : Str → Str → Bool) (now : Int)
    (fuel : Nat) (participants : List GroupParticipantDescription)
    (self : GroupInstanceManager) (joinPayload : GroupJoinPayload)
    (joinResponsePayload : GroupJoinResponsePayload) (sdp : Str)
    (hJ : self.joinPayload = some joinPayload)
    (hR : self.joinResponsePayload = some joinResponsePayload)
    (hsdp : parseJoinResponseIntoSdp self.sessionId joinPayload joinResponsePayload false
      (pushNewParticipants self.allOtherParticipants participants) = some sdp) :
    ∃ after, addParticipants createSessionDescription now fuel participants self = some after ∧
      after.appliedRemoteRescription = sdp ∧
      after.effects =
        if self.appliedRemoteRescription ≠ sdp ∧
            createSessionDescription "offer".toList (adjustLocalDescription sdp) = true then
          self.effects ++
            [ GroupManagerEffect.setRemoteDescription "offer".toList (adjustLocalDescription sdp)
                false false false ]
        else self.effects := by
  obtain ⟨after, h0, _, _, _, _, _, _, h7, h8⟩ :=
    addParticipants_spec createSessionDescription now fuel participants self joinPayload
      joinResponsePayload sdp hJ hR hsdp
  exact ⟨after, h0, h7, h8⟩

theorem addParticipants_round_witness :
    joinedManager.joinPayload = some audioOnlyJoinPayload ∧
    joinedManager.joinResponsePayload = some exampleResponse ∧
    ∃ after, addParticipants acceptAll 40 1 twoAudioParticipants joinedManager = some after ∧
      after.appliedRemoteRescription = twoAudioOffer ∧
      after.effects =
        if joinedManager.appliedRemoteRescription ≠ twoAudioOffer ∧
            acceptAll "offer".toList (adjustLocalDescription twoAudioOffer) = true then
          joinedManager.effects ++
            [ GroupManagerEffect.setRemoteDescription "offer".toList
                (adjustLocalDescription twoAudioOffer) false false false ]
        else joinedManager.effects :=
  ⟨rfl, rfl, addParticipants_round acceptAll 40 1 twoAudioParticipants joinedManager
    audioOnlyJoinPayload exampleResponse twoAudioOffer rfl rfl rfl⟩

/-- Counterexample to claim C17 as it is stated. The joined manager
`offeredManager` has submitted the offer for the participants `111` and `222`;
a further `addParticipants` with the same list regenerates the same text,
`setOfferSdp` returns at its first guard, and nothing is submitted: the calls
of `SetRemoteDescription` are the one of before. And when the transport
library creates no session description from the text, `addParticipants` of the
joined manager `joinedManager` submits nothing either. -/
theorem addParticipants_submits_nothing :
    isJoined offeredManager = true ∧
    (addParticipants acceptAll 90 1 twoAudioParticipants offeredManager).map
      (fun after => after.effects) = some offeredManager.effects ∧
    offeredManager.effects.length = 1 ∧
    isJoined joinedManager = true ∧
    (addParticipants acceptNone 40 1 twoAudioParticipants joinedManager).map
      (fun after => after.effects) = some [] := by
  decide!

/-! ## The ledger keeps its identifiers pairwise distinct -/

/-- `setOfferSdp` ends in a call of `completeProcessingMissingSsrcs` or
returns; up to there it changes neither the ledger nor the recovery state. -/
theorem setOfferSdpBody_cases
    (complete : GroupInstanceManager → Option GroupInstanceManager)
    (createSessionDescription : Str → Str → Bool) (now : Int) (offerSdp : Str)
    (isInitialJoinAnswer isAnswer completeMissingSsrcSetup : Bool)
    (self : GroupInstanceManager) :
    ∃ s1 : GroupInstanceManager,
      s1.allOtherParticipants = self.allOtherParticipants ∧
      s1.missingSsrcQueue = self.missingSsrcQueue ∧
      s1.isProcessingMissingSsrcs = self.isProcessingMissingSsrcs ∧
      (setOfferSdpBody complete createSessionDescription now offerSdp isInitialJoinAnswer
          isAnswer completeMissingSsrcSetup self = complete s1 ∨
       setOfferSdpBody complete createSessionDescription now offerSdp isInitialJoinAnswer
          isAnswer completeMissingSsrcSetup self = some s1) := by
  cases isAnswer with
  | true =>
    simp only [setOfferSdpBody, if_true, Bool.true_eq_false, false_and, if_false]
    generalize createSessionDescription "answer".toList (adjustLocalDescription offerSdp) = b
    cases b
    · cases completeMissingSsrcSetup
      · simp only [Bool.false_eq_true, if_false, if_true]
        refine ⟨_, ?_, ?_, ?_, Or.inr rfl⟩ <;> rfl
      · simp only [if_true]
        refine ⟨_, ?_, ?_, ?_, Or.inl rfl⟩ <;> rfl
    · simp only [Bool.true_eq_false, if_false]
      refine ⟨_, ?_, ?_, ?_, Or.inr rfl⟩ <;> rfl
  | false =>
    simp only [setOfferSdpBody, true_and, Bool.false_eq_true, if_false, if_true]
    generalize createSessionDescription "offer".toList (adjustLocalDescription offerSdp) = b
    by_cases h : self.appliedRemoteRescription = offerSdp
    · rw [if_pos h]
      cases completeMissingSsrcSetup
      · simp only [Bool.false_eq_true, if_false]
        refine ⟨_, ?_, ?_, ?_, Or.inr rfl⟩ <;> rfl
      · simp only [if_true]
        refine ⟨_, ?_, ?_, ?_, Or.inl rfl⟩ <;> rfl
    · rw [if_neg h]
      cases b
      · cases completeMissingSsrcSetup
        · simp only [Bool.false_eq_true, if_false, if_true]
          refine ⟨_, ?_, ?_, ?_, Or.inr rfl⟩ <;> rfl
        · simp only [if_true]
          refine ⟨_, ?_, ?_, ?_, Or.inl rfl⟩ <;> rfl
      · simp only [Bool.true_eq_false, if_false]
        refine ⟨_, ?_, ?_, ?_, Or.inr rfl⟩ <;> rfl

theorem setOfferSdpBody_unique
    (complete : GroupInstanceManager → Option GroupInstanceManager)
    (hc : ∀ s s2, complete s = some s2 → (ledgerIds s).Nodup → (ledgerIds s2).Nodup)
    (createSessionDescription : Str → Str → Bool) (now : Int) (offerSdp : Str)
    (isInitialJoinAnswer isAnswer completeMissingSsrcSetup : Bool)
    (self after : GroupInstanceManager)
    (h : setOfferSdpBody complete createSessionDescription now offerSdp isInitialJoinAnswer
      isAnswer completeMissingSsrcSetup self = some after)
    (hu : (ledgerIds self).Nodup) : (ledgerIds after).Nodup := by
  obtain ⟨s1, h1, _, _, h4⟩ := setOfferSdpBody_cases complete createSessionDescription now
    offerSdp isInitialJoinAnswer isAnswer completeMissingSsrcSetup self
  have hu1 : (ledgerIds s1).Nodup := by
    simp only [ledgerIds, h1]
    exact hu
  rcases h4 with h4 | h4
  · rw [h4] at h
    exact hc _ _ h hu1
  · rw [h4] at h
    cases Option.some.inj h
    exact hu1

theorem addParticipantsInternalBody_unique
    (complete : GroupInstanceManager → Option GroupInstanceManager)
    (hc : ∀ s s2, complete s = some s2 → (ledgerIds s).Nodup → (ledgerIds s2).Nodup)
    (createSessionDescription : Str → Str → Bool) (now : Int)
    (participants : List GroupParticipantDescription) (completeMissingSsrcSetup : Bool)
    (self after : GroupInstanceManager)
    (h : addParticipantsInternalBody complete createSessionDescription now participants
      completeMissingSsrcSetup self = some after)
    (hu : (ledgerIds self).Nodup) : (ledgerIds after).Nodup := by
  simp only [addParticipantsInternalBody] at h
  split at h
  · split at h
    · exact Option.noConfusion h
    · exact setOfferSdpBody_unique complete hc _ _ _ _ _ _ _ _ h
        (pushNewParticipants_nodup participants self.allOtherParticipants hu)
  · split_ifs at h
    · exact hc _ _ h hu
    · cases Option.some.inj h; exact hu

theorem completeProcessingMissingSsrcsBody_unique
    (begin : GroupInstanceManager → Option GroupInstanceManager)
    (hb : ∀ s s2, begin s = some s2 → (ledgerIds s).Nodup → (ledgerIds s2).Nodup)
    (now : Int) (self after : GroupInstanceManager)
    (h : completeProcessingMissingSsrcsBody begin now self = some after)
    (hu : (ledgerIds self).Nodup) : (ledgerIds after).Nodup := by
  simp only [completeProcessingMissingSsrcsBody] at h
  split_ifs at h
  · exact hb _ _ h hu
  · cases Option.some.inj h; exact hu

theorem applyMissingSsrcsBody_unique
    (complete : GroupInstanceManager → Option GroupInstanceManager)
    (hc : ∀ s s2, complete s = some s2 → (ledgerIds s).Nodup → (ledgerIds s2).Nodup)
    (createSessionDescription : Str → Str → Bool) (now : Int)
    (self after : GroupInstanceManager)
    (h : applyMissingSsrcsBody complete createSessionDescription now self = some after)
    (hu : (ledgerIds self).Nodup) : (ledgerIds after).Nodup := by
  simp only [applyMissingSsrcsBody] at h
  split_ifs at h
  · exact hc _ _ h hu
  · exact addParticipantsInternalBody_unique complete hc _ _ _ _ _ _ h hu

theorem beginProcessingMissingSsrcsBody_unique
    (apply : GroupInstanceManager → Option GroupInstanceManager)
    (ha : ∀ s s2, apply s = some s2 → (ledgerIds s).Nodup → (ledgerIds s2).Nodup)
    (now : Int) (self after : GroupInstanceManager)
    (h : beginProcessingMissingSsrcsBody apply now self = some after)
    (hu : (ledgerIds self).Nodup) : (ledgerIds after).Nodup := by
  simp only [beginProcessingMissingSsrcsBody] at h
  split_ifs at h
  · cases Option.some.inj h; exact hu
  · exact ha _ _ h hu
  · cases Option.some.inj h; exact hu

theorem beginProcessingMissingSsrcs_unique (createSessionDescription : Str → Str → Bool)
    (now : Int) (fuel : Nat) :
    ∀ self after : GroupInstanceManager,
      beginProcessingMissingSsrcs createSessionDescription now fuel self = some after →
      (ledgerIds self).Nodup → (ledgerIds after).Nodup := by
  induction fuel with
  | zero => intro self after h; exact Option.noConfusion h
  | succ fuel ih =>
    intro self after h hu
    rw [beginProcessingMissingSsrcs] at h
    exact beginProcessingMissingSsrcsBody_unique _
      (fun s s2 hs => applyMissingSsrcsBody_unique _
        (fun t t2 ht => completeProcessingMissingSsrcsBody_unique _ ih now t t2 ht)
        createSessionDescription now s s2 hs) now self after h hu

theorem completeProcessingMissingSsrcs_unique (createSessionDescription : Str → Str → Bool)
    (now : Int) (fuel : Nat) (self after : GroupInstanceManager)
    (h : completeProcessingMissingSsrcs createSessionDescription now fuel self = some after)
    (hu : (ledgerIds self).Nodup) : (ledgerIds after).Nodup :=
  completeProcessingMissingSsrcsBody_unique _
    (beginProcessingMissingSsrcs_unique createSessionDescription now fuel) now self after h hu

theorem callGroupManager_unique (createSessionDescription : Str → Str → Bool) (fuel : Nat)
    (call : GroupManagerCall) (self after : GroupInstanceManager)
    (h : callGroupManager createSessionDescription fuel call self = some after)
    (hu : (ledgerIds self).Nodup) : (ledgerIds after).Nodup := by
  cases call with
  | setJoinResponsePayload now payload participants =>
    simp only [callGroupManager, setJoinResponsePayload] at h
    split at h
    · cases Option.some.inj h; exact hu
    · split at h
      · exact Option.noConfusion h
      · split at h
        · exact Option.noConfusion h
        · rename_i s1 hs1
          have hu1 : (ledgerIds s1).Nodup :=
            setOfferSdpBody_unique _
              (completeProcessingMissingSsrcs_unique createSessionDescription now fuel)
              _ _ _ _ _ _ _ _ hs1 hu
          exact addParticipantsInternalBody_unique _
            (completeProcessingMissingSsrcs_unique createSessionDescription now fuel)
            _ _ _ _ _ _ h hu1
  | addParticipants now participants =>
    exact addParticipantsInternalBody_unique _
      (completeProcessingMissingSsrcs_unique createSessionDescription now fuel)
      _ _ _ _ _ _ h hu
  | applyMissingSsrcs now =>
    exact applyMissingSsrcsBody_unique _
      (completeProcessingMissingSsrcs_unique createSessionDescription now fuel)
      _ _ _ _ h hu

theorem callsGroupManager_unique (createSessionDescription : Str → Str → Bool) (fuel : Nat)
    (calls : List GroupManagerCall) :
    ∀ self after : GroupInstanceManager,
      callsGroupManager createSessionDescription fuel calls self = some after →
      (ledgerIds self).Nodup → (ledgerIds after).Nodup := by
  induction calls with
  | nil =>
    intro self after h hu
    cases Option.some.inj h
    exact hu
  | cons call rest ih =>
    intro self after h hu
    simp only [callsGroupManager] at h
    split at h
    · exact Option.noConfusion h
    · rename_i next hnext
      exact ih next after h (callGroupManager_unique _ _ _ _ _ hnext hu)

/-- The run of the example calls. -/
theorem callsGroupManager_exampleCalls :
    callsGroupManager acceptAll 1 exampleCalls awaitingManager = some recoveredManager := by
  decide!

/-- Claim C15. Ledger uniqueness invariant: in every state reached from a state
with an empty ledger by calls of `setJoinResponsePayload`, `addParticipants`
and `applyMissingSsrcs`, in any number and order, no two entries of the ledger
have the same audio source identifier. -/
theorem ledger_identifiers_unique (createSessionDescription : Str → Str → Bool) (fuel : Nat)
    (calls : List GroupManagerCall) (self after : GroupInstanceManager)
    (hempty : self.allOtherParticipants = [])
    (h : callsGroupManager createSessionDescription fuel calls self = some after) :
    (after.allOtherParticipants.map (fun other => other.audioSsrc)).Nodup := by
  have hu : (ledgerIds self).Nodup := by
    simp [ledgerIds, hempty]
  exact callsGroupManager_unique createSessionDescription fuel calls self after h hu

theorem ledger_identifiers_unique_witness :
    awaitingManager.allOtherParticipants = [] ∧
    callsGroupManager acceptAll 1 exampleCalls awaitingManager = some recoveredManager ∧
    (recoveredManager.allOtherParticipants.map (fun other => other.audioSsrc)).Nodup :=
  ⟨rfl, callsGroupManager_exampleCalls,
    ledger_identifiers_unique acceptAll 1 exampleCalls awaitingManager recoveredManager rfl
      callsGroupManager_exampleCalls⟩

/-! ## Orphan-source recovery -/

/-- With an empty queue and a running cycle, `completeProcessingMissingSsrcs`
ends the cycle and returns. -/
theorem completeProcessingMissingSsrcsBody_of_empty
    (begin : GroupInstanceManager → Option GroupInstanceManager) (now : Int)
    (self : GroupInstanceManager) (hrun : self.isProcessingMissingSsrcs = true)
    (hqueue : self.missingSsrcQueue = []) :
    completeProcessingMissingSsrcsBody begin now self =
      some { self with isProcessingMissingSsrcs := false,
                       missingSsrcsProcessedTimestamp := now } := by
  simp [completeProcessingMissingSsrcsBody, hrun, hqueue]

/-- `applyMissingSsrcs` of a joined manager with a running cycle and a queue
that is not empty. -/
theorem applyMissingSsrcs_spec (createSessionDescription : Str → Str → Bool) (now : Int)
    (fuel : Nat) (self : GroupInstanceManager) (joinPayload : GroupJoinPayload)
    (joinResponsePayload : GroupJoinResponsePayload) (sdp : Str)
    (hJ : self.joinPayload = some joinPayload)
    (hR : self.joinResponsePayload = some joinResponsePayload)
    (hrun : self.isProcessingMissingSsrcs = true) (hqueue : self.missingSsrcQueue ≠ [])
    (hsdp : parseJoinResponseIntoSdp self.sessionId joinPayload joinResponsePayload false
      (pushNewParticipants self.allOtherParticipants
        (self.missingSsrcQueue.map (fun ssrc =>
          { audioSsrc := ssrc, videoPayloadTypes := [], videoExtensionMap := [],
            videoSourceGroups := [] }))) = some sdp) :
    ∃ after, applyMissingSsrcs createSessionDescription now fuel self = some after ∧
      after.missingSsrcQueue = [] ∧
      after.allOtherParticipants =
        pushNewParticipants self.allOtherParticipants
          (self.missingSsrcQueue.map (fun ssrc =>
            { audioSsrc := ssrc, videoPayloadTypes := [], videoExtensionMap := [],
              videoSourceGroups := [] })) ∧
      after.appliedRemoteRescription = sdp ∧
      (if self.appliedRemoteRescription ≠ sdp ∧
          createSessionDescription "offer".toList (adjustLocalDescription sdp) = true then
        after.effects = self.effects ++
          [ GroupManagerEffect.setRemoteDescription "offer".toList (adjustLocalDescription sdp)
              false false true ] ∧
        after.isProcessingMissingSsrcs = true
       else
        after.effects = self.effects ∧ after.isProcessingMissingSsrcs = false ∧
        after.missingSsrcsProcessedTimestamp = now) := by
  have hq : ¬ self.missingSsrcQueue.length = 0 := fun h => hqueue (List.length_eq_zero.1 h)
  simp only [applyMissingSsrcs, applyMissingSsrcsBody, hrun, Bool.true_eq_false,
    Bool.false_eq_true, if_false, hq,
    addParticipantsInternalBody, hJ, hR, hsdp, setOfferSdpBody, true_and, if_true]
  generalize createSessionDescription "offer".toList (adjustLocalDescription sdp) = b
  by_cases h : self.appliedRemoteRescription = sdp
  · rw [if_pos h, completeProcessingMissingSsrcs,
      completeProcessingMissingSsrcsBody_of_empty _ _ _ rfl rfl]
    refine ⟨_, rfl, rfl, rfl, h, ?_⟩
    rw [if_neg (fun hh => hh.1 h)]
    exact ⟨rfl, rfl, rfl⟩
  · rw [if_neg h]
    cases b
    · simp only [if_true]
      rw [completeProcessingMissingSsrcs,
        completeProcessingMissingSsrcsBody_of_empty _ _ _ rfl rfl]
      refine ⟨_, rfl, rfl, rfl, rfl, ?_⟩
      rw [if_neg (fun hh => Bool.noConfusion hh.2)]
      exact ⟨rfl, rfl, rfl⟩
    · simp only [Bool.true_eq_false, if_false]
      refine ⟨_, rfl, rfl, rfl, rfl, ?_⟩
      rw [if_pos ⟨h, trivial⟩]
      exact ⟨rfl, rfl⟩

/-- Claim C18, for the code as it is. `onMissingSsrc` does nothing (its body is
commented out): any number of calls leaves the manager as it is, so no
identifier is queued, no cycle is started and no round is produced. The
recovery step that remains, `applyMissingSsrcs`, run in a joined manager with
a running cycle and a queue of `N ≥ 1` identifiers, empties the queue in one
call of `addParticipantsInternal`, after which the ledger holds every queued
identifier, and it submits at most one offer: the text regenerated from that
ledger, when it differs from the applied remote description and the transport
library accepts it; otherwise nothing is submitted and the cycle is
completed. -/
theorem orphan_sources_one_round (createSessionDescription : Str → Str → Bool) (now : Int)
    (fuel : Nat) (self : GroupInstanceManager) (joinPayload : GroupJoinPayload)
    (joinResponsePayload : GroupJoinResponsePayload) (sdp : Str)
    (hJ : self.joinPayload = some joinPayload)
    (hR : self.joinResponsePayload = some joinResponsePayload)
    (hrun : self.isProcessingMissingSsrcs = true) (hqueue : self.missingSsrcQueue ≠ [])
    (hsdp : parseJoinResponseIntoSdp self.sessionId joinPayload joinResponsePayload false
      (pushNewParticipants self.allOtherParticipants
        (self.missingSsrcQueue.map (fun ssrc =>
          { audioSsrc := ssrc, videoPayloadTypes := [], videoExtensionMap := [],
            videoSourceGroups := [] }))) = some sdp) :
    (∀ ssrcs : List Nat,
      ssrcs.foldl (fun manager ssrc => onMissingSsrc ssrc manager) self = self) ∧
    ∃ after, applyMissingSsrcs createSessionDescription now fuel self = some after ∧
      after.missingSsrcQueue = [] ∧
      (∀ ssrc ∈ self.missingSsrcQueue,
        ssrc ∈ after.allOtherParticipants.map (fun other => other.audioSsrc)) ∧
      parseJoinResponseIntoSdp self.sessionId joinPayload joinResponsePayload false
        after.allOtherParticipants = some sdp ∧
      after.appliedRemoteRescription = sdp ∧
      (if self.appliedRemoteRescription ≠ sdp ∧
          createSessionDescription "offer".toList (adjustLocalDescription sdp) = true then
        after.effects = self.effects ++
          [ GroupManagerEffect.setRemoteDescription "offer".toList (adjustLocalDescription sdp)
              false false true ] ∧
        after.isProcessingMissingSsrcs = true
       else
        after.effects = self.effects ∧ after.isProcessingMissingSsrcs = false ∧
        after.missingSsrcsProcessedTimestamp = now) := by
  constructor
  · intro ssrcs
    induction ssrcs with
    | nil => rfl
    | cons ssrc rest ih => exact ih
  · obtain ⟨after, h0, h1, h2, h3, h4⟩ :=
      applyMissingSsrcs_spec createSessionDescription now fuel self joinPayload
        joinResponsePayload sdp hJ hR hrun hqueue hsdp
    refine ⟨after, h0, h1, ?_, ?_, h3, h4⟩
    · intro ssrc hmem
      obtain ⟨added, g1, _, _, _, _, g6⟩ :=
        pushNewParticipants_spec
          (self.missingSsrcQueue.map (fun ssrc =>
            ({ audioSsrc := ssrc, videoPayloadTypes := [], videoExtensionMap := [],
               videoSourceGroups := [] } : GroupParticipantDescription)))
          self.allOtherParticipants
      rw [h2, g1]
      exact g6 _ (List.mem_map.2 ⟨ssrc, hmem, rfl⟩)
    · rw [h2]
      exact hsdp

theorem orphan_sources_one_round_witness :
    recoveringManager.isProcessingMissingSsrcs = true ∧
    recoveringManager.missingSsrcQueue = [111, 333] ∧
    ((∀ ssrcs : List Nat,
      ssrcs.foldl (fun manager ssrc => onMissingSsrc ssrc manager) recoveringManager =
        recoveringManager) ∧
    ∃ after, applyMissingSsrcs acceptAll 500 1 recoveringManager = some after ∧
      after.missingSsrcQueue = [] ∧
      (∀ ssrc ∈ recoveringManager.missingSsrcQueue,
        ssrc ∈ after.allOtherParticipants.map (fun other => other.audioSsrc)) ∧
      parseJoinResponseIntoSdp recoveringManager.sessionId audioOnlyJoinPayload exampleResponse
        false after.allOtherParticipants = some recoveredOffer ∧
      after.appliedRemoteRescription = recoveredOffer ∧
      (if recoveringManager.appliedRemoteRescription ≠ recoveredOffer ∧
          acceptAll "offer".toList (adjustLocalDescription recoveredOffer) = true then
        after.effects = recoveringManager.effects ++
          [ GroupManagerEffect.setRemoteDescription "offer".toList
              (adjustLocalDescription recoveredOffer) false false true ] ∧
        after.isProcessingMissingSsrcs = true
       else
        after.effects = recoveringManager.effects ∧ after.isProcessingMissingSsrcs = false ∧
        after.missingSsrcsProcessedTimestamp = 500)) :=
  ⟨rfl, rfl, orphan_sources_one_round acceptAll 500 1 recoveringManager audioOnlyJoinPayload
    exampleResponse recoveredOffer rfl rfl rfl (by decide) rfl⟩

/-- Counterexample to claim C18 as it is stated. Two calls of `onMissingSsrc`
with the distinct unknown identifiers `111` and `333` on the joined manager
`joinedManager` insert nothing into the queue, start no cycle, post no task
and submit no offer: the manager is unchanged. -/
theorem onMissingSsrc_queues_nothing :
    (onMissingSsrc 333 (onMissingSsrc 111 joinedManager)).missingSsrcQueue = [] ∧
    (onMissingSsrc 333 (onMissingSsrc 111 joinedManager)).isProcessingMissingSsrcs = false ∧
    (onMissingSsrc 333 (onMissingSsrc 111 joinedManager)).effects = [] ∧
    onMissingSsrc 333 (onMissingSsrc 111 joinedManager) = joinedManager := by
  decide

/-! ## The depth of the recovery recursion -/

theorem setOfferSdpBody_congr
    (c1 c2 : GroupInstanceManager → Option GroupInstanceManager)
    (createSessionDescription : Str → Str → Bool) (now : Int) (offerSdp : Str)
    (isInitialJoinAnswer isAnswer completeMissingSsrcSetup : Bool)
    (self : GroupInstanceManager)
    (h : ∀ s1 : GroupInstanceManager, s1.missingSsrcQueue = self.missingSsrcQueue →
      c1 s1 = c2 s1) :
    setOfferSdpBody c1 createSessionDescription now offerSdp isInitialJoinAnswer isAnswer
        completeMissingSsrcSetup self =
      setOfferSdpBody c2 createSessionDescription now offerSdp isInitialJoinAnswer isAnswer
        completeMissingSsrcSetup self := by
  simp only [setOfferSdpBody]
  split_ifs <;> first
    | rfl
    | exact h _ rfl

theorem addParticipantsInternalBody_congr
    (c1 c2 : GroupInstanceManager → Option GroupInstanceManager)
    (createSessionDescription : Str → Str → Bool) (now : Int)
    (participants : List GroupParticipantDescription) (completeMissingSsrcSetup : Bool)
    (self : GroupInstanceManager)
    (h : ∀ s1 : GroupInstanceManager, s1.missingSsrcQueue = self.missingSsrcQueue →
      c1 s1 = c2 s1) :
    addParticipantsInternalBody c1 createSessionDescription now participants
        completeMissingSsrcSetup self =
      addParticipantsInternalBody c2 createSessionDescription now participants
        completeMissingSsrcSetup self := by
  simp only [addParticipantsInternalBody]
  split
  · split
    · rfl
    · exact setOfferSdpBody_congr c1 c2 _ _ _ _ _ _ _ (fun s1 hs1 => h s1 hs1)
  · split_ifs
    · exact h _ rfl
    · rfl

/-- What `applyMissingSsrcs` does is the same whatever
`completeProcessingMissingSsrcs` would call when the queue is not empty: it
reaches `completeProcessingMissingSsrcs` with an empty queue only. -/
theorem applyMissingSsrcsBody_congr
    (b1 b2 : GroupInstanceManager → Option GroupInstanceManager)
    (createSessionDescription : Str → Str → Bool) (now : Int) (self : GroupInstanceManager) :
    applyMissingSsrcsBody (completeProcessingMissingSsrcsBody b1 now) createSessionDescription
        now self =
      applyMissingSsrcsBody (completeProcessingMissingSsrcsBody b2 now) createSessionDescription
        now self := by
  have hc : ∀ s1 : GroupInstanceManager, s1.missingSsrcQueue = [] →
      completeProcessingMissingSsrcsBody b1 now s1 =
        completeProcessingMissingSsrcsBody b2 now s1 := by
    intro s1 hs1
    simp [completeProcessingMissingSsrcsBody, hs1]
  simp only [applyMissingSsrcsBody]
  split_ifs with h1 h2
  · rfl
  · exact hc self (List.length_eq_zero.1 h2)
  · exact addParticipantsInternalBody_congr _ _ _ _ _ _ _ (fun s1 hs1 => hc s1 hs1)

/-- One unit of fuel is enough for `beginProcessingMissingSsrcs`: with more
fuel the result is the same, and it is the body of the function applied to an
`applyMissingSsrcs` that never calls back. -/
theorem beginProcessingMissingSsrcs_fuel (createSessionDescription : Str → Str → Bool)
    (now : Int) (fuel : Nat) (self : GroupInstanceManager) :
    beginProcessingMissingSsrcs createSessionDescription now (fuel + 1) self =
      beginProcessingMissingSsrcs createSessionDescription now 1 self := by
  simp only [beginProcessingMissingSsrcs]
  have h := fun s => applyMissingSsrcsBody_congr
    (fun next => beginProcessingMissingSsrcs createSessionDescription now fuel next)
    (fun next => beginProcessingMissingSsrcs createSessionDescription now 0 next)
    createSessionDescription now s
  simp only [beginProcessingMissingSsrcsBody]
  split_ifs
  · rfl
  · exact h _
  · rfl

/-- With one unit of fuel, `beginProcessingMissingSsrcs` returns in every state
in which the calls it makes are defined: a second start while a cycle runs
does nothing, a start within 200 ms of the last completion posts the delayed
task. -/
theorem beginProcessingMissingSsrcs_returns (createSessionDescription : Str → Str → Bool)
    (now : Int) (fuel : Nat) (self : GroupInstanceManager) :
    (self.isProcessingMissingSsrcs = true →
      beginProcessingMissingSsrcs createSessionDescription now (fuel + 1) self = some self) ∧
    (self.isProcessingMissingSsrcs = false →
      ¬ now > self.missingSsrcsProcessedTimestamp + 200 →
      beginProcessingMissingSsrcs createSessionDescription now (fuel + 1) self =
        some { self with
          isProcessingMissingSsrcs := true,
          effects := self.effects ++ [ GroupManagerEffect.postApplyMissingSsrcs 200 ] }) := by
  constructor
  · intro h
    simp [beginProcessingMissingSsrcs, beginProcessingMissingSsrcsBody, h]
  · intro h h2
    simp [beginProcessingMissingSsrcs, beginProcessingMissingSsrcsBody, h, h2]

/-! ## Connection state of the group call manager -/

/-- A call of `updateIsConnected` that returns has stored the raw value and
incremented the counter, and has appended one effect: the posted re-check when
the value is `false` and the last offer was applied less than 1000 ms ago,
the report to the application otherwise. -/
theorem updateIsConnected_spec (now : Int) (isConnected : Bool)
    (self after : GroupInstanceManager)
    (h : updateIsConnected now isConnected self = some after) :
    after.isConnectedUpdateValidTaskId = self.isConnectedUpdateValidTaskId + 1 ∧
    after.isConnected = isConnected ∧
    after.appliedOfferTimestamp = self.appliedOfferTimestamp ∧
    after.effects = self.effects ++
      [ if isConnected = false ∧ self.appliedOfferTimestamp > now - 1000 then
          GroupManagerEffect.postIsConnectedCheck (self.isConnectedUpdateValidTaskId + 1) 1000
        else GroupManagerEffect.networkStateUpdated isConnected ] := by
  simp only [updateIsConnected] at h
  split_ifs at h with h1 h2
  · cases Option.some.inj h
    exact ⟨rfl, rfl, rfl, by rw [if_pos h2]⟩
  · cases Option.some.inj h
    exact ⟨rfl, rfl, rfl, by rw [if_neg h2]⟩

/-- Every update increments the counter. -/
theorem updatesIsConnected_counter (updates : List (Int × Bool)) :
    ∀ self after : GroupInstanceManager, updatesIsConnected updates self = some after →
      after.isConnectedUpdateValidTaskId =
        self.isConnectedUpdateValidTaskId + updates.length := by
  induction updates with
  | nil =>
    intro self after h
    cases Option.some.inj h
    simp
  | cons update rest ih =>
    intro self after h
    simp only [updatesIsConnected] at h
    split at h
    · exact Option.noConfusion h
    · rename_i next hnext
      rw [ih next after h, (updateIsConnected_spec _ _ _ _ hnext).1, List.length_cons]
      push_cast
      ring

/-- Claim C19. Hysteresis by generation counter: every call of
`updateIsConnected` increments the counter; a disconnected update that arrives
less than 1000 ms after the last applied offer is deferred, which means that it
posts the re-check with the new counter value and reports nothing; when any
further updates follow before the re-check runs, the re-check does nothing;
when none follows, the re-check reports the state to the application once, as
disconnected. -/
theorem stale_check_reports_nothing (now : Int) (self deferred later : GroupInstanceManager)
    (updates : List (Int × Bool))
    (hrecent : self.appliedOfferTimestamp > now - 1000)
    (hdeferred : updateIsConnected now false self = some deferred)
    (hlater : updatesIsConnected updates deferred = some later) :
    (∀ (time : Int) (isConnected : Bool) (before after : GroupInstanceManager),
      updateIsConnected time isConnected before = some after →
      after.isConnectedUpdateValidTaskId = before.isConnectedUpdateValidTaskId + 1) ∧
    deferred.effects = self.effects ++
      [ GroupManagerEffect.postIsConnectedCheck deferred.isConnectedUpdateValidTaskId 1000 ] ∧
    (updates ≠ [] →
      isConnectedCheckTask deferred.isConnectedUpdateValidTaskId later = later) ∧
    (updates = [] →
      isConnectedCheckTask deferred.isConnectedUpdateValidTaskId later =
        { later with effects := later.effects ++
            [ GroupManagerEffect.networkStateUpdated false ] }) := by
  obtain ⟨h1, h2, _, h4⟩ := updateIsConnected_spec _ _ _ _ hdeferred
  have hc := updatesIsConnected_counter updates deferred later hlater
  refine ⟨fun t b s s2 hs => (updateIsConnected_spec t b s s2 hs).1, ?_, ?_, ?_⟩
  · rw [h4, if_pos ⟨rfl, hrecent⟩, h1]
  · intro hne
    have hlen : 0 < updates.length := List.length_pos.2 hne
    have hneq : ¬ later.isConnectedUpdateValidTaskId = deferred.isConnectedUpdateValidTaskId := by
      rw [hc]
      omega
    simp only [isConnectedCheckTask, hneq, if_false]
  · intro hnil
    subst hnil
    cases Option.some.inj hlater
    simp only [isConnectedCheckTask, if_true, h2]

theorem stale_check_reports_nothing_witness :
    newGroupInstanceManager.appliedOfferTimestamp > 500 - 1000 ∧
    updateIsConnected 500 false newGroupInstanceManager = some deferredManager ∧
    updatesIsConnected [(600, true), (700, false)] deferredManager = some flippedManager ∧
    isConnectedCheckTask deferredManager.isConnectedUpdateValidTaskId flippedManager =
      flippedManager :=
  ⟨by decide, by decide, by decide,
    (stale_check_reports_nothing 500 newGroupInstanceManager deferredManager flippedManager
      [(600, true), (700, false)] (by decide) (by decide) (by decide)).2.2.1 (by decide)⟩

/-! # Properties of the orchestrator -/

/-- The manager after the task of one transport state. -/
theorem stateUpdatedTask_spec (state : NetworkManagerState) (self : Manager) :
    (stateUpdatedTask state self).didConnectOnce =
      (self.didConnectOnce || state.isReadyToSendData) ∧
    (stateUpdatedTask state self).protocolVersion = self.protocolVersion ∧
    (stateUpdatedTask state self).localNetworkIsLowCost = self.localNetworkIsLowCost ∧
    (stateUpdatedTask state self).sendInitialSignalingMessagesCalls =
      self.sendInitialSignalingMessagesCalls +
        (if state.isReadyToSendData && !self.didConnectOnce then 1 else 0) ∧
    (stateUpdatedTask state self).effects =
      self.effects ++
        [ ManagerEffect.stateUpdated
            (if state.isFailed then State.Failed
             else if state.isReadyToSendData then State.Established else State.Reconnecting),
          ManagerEffect.mediaSetIsConnected state.isReadyToSendData ] ++
        (if (state.isReadyToSendData && !self.didConnectOnce) ∧
            self.protocolVersion = ProtocolVersion.V1 then
          [ ManagerEffect.sendTransportMessage
              (Message.remoteNetworkType self.localNetworkIsLowCost) ]
         else []) := by
  cases hr : state.isReadyToSendData <;> cases hd : self.didConnectOnce <;>
    cases hv : self.protocolVersion <;>
    simp [stateUpdatedTask, sendInitialSignalingMessages, hr, hd, hv]

theorem stateUpdatedTasks_cons (state : NetworkManagerState) (states : List NetworkManagerState)
    (self : Manager) :
    stateUpdatedTasks (state :: states) self =
      stateUpdatedTasks states (stateUpdatedTask state self) := rfl

theorem stateUpdatedTasks_append (pre post : List NetworkManagerState) (self : Manager) :
    stateUpdatedTasks (pre ++ post) self = stateUpdatedTasks post (stateUpdatedTasks pre self) := by
  simp [stateUpdatedTasks, List.foldl_append]

/-- The number of calls of `sendInitialSignalingMessages`, the number of
reports of `Established` and the number of transport messages after a
sequence of transport states. -/
theorem stateUpdatedTasks_spec (states : List NetworkManagerState) :
    ∀ self : Manager,
      (stateUpdatedTasks states self).sendInitialSignalingMessagesCalls =
        self.sendInitialSignalingMessagesCalls +
          (if !self.didConnectOnce && states.any (fun s => s.isReadyToSendData) then 1 else 0) ∧
      (stateUpdatedTasks states self).effects.count
          (ManagerEffect.stateUpdated State.Established) =
        self.effects.count (ManagerEffect.stateUpdated State.Established) +
          states.countP (fun s => s.isReadyToSendData && !s.isFailed) ∧
      (stateUpdatedTasks states self).effects.countP isSendTransportMessage =
        self.effects.countP isSendTransportMessage +
          (if (!self.didConnectOnce && states.any (fun s => s.isReadyToSendData)) ∧
              self.protocolVersion = ProtocolVersion.V1 then 1 else 0) := by
  induction states with
  | nil =>
    intro self
    simp [stateUpdatedTasks]
  | cons state rest ih =>
    intro self
    obtain ⟨h1, h2, _, h4, h5⟩ := stateUpdatedTask_spec state self
    obtain ⟨g1, g2, g3⟩ := ih (stateUpdatedTask state self)
    rw [stateUpdatedTasks_cons, g1, g2, g3, h1, h2, h4, h5]
    cases hr : state.isReadyToSendData <;> cases hd : self.didConnectOnce <;>
      cases hf : state.isFailed <;> cases hv : self.protocolVersion <;>
      simp [List.count_append, List.countP_append, List.countP_cons, isSendTransportMessage,
        hr, hf] <;> omega

/-- Claim C20, with the state reports of the code. Initial signaling exactly
once: for a manager that has not connected yet and every sequence of transport
states, the tasks of the state callback call `sendInitialSignalingMessages`
once when some state reports ready-to-send and never otherwise; the call is
made by the task of the first such state; the state is reported to the
application for every state of the sequence, so `Established` is reported once
for every state that is ready and not failed, hence exactly once when the
transport is ready in exactly one state of the sequence and has not failed in
it; and one transport message is sent in all when some state is ready, the
network type of protocol version `V1` (none under another version). -/
theorem initial_signaling_once (states : List NetworkManagerState) (self : Manager)
    (hfresh : self.didConnectOnce = false) :
    (stateUpdatedTasks states self).sendInitialSignalingMessagesCalls =
      self.sendInitialSignalingMessagesCalls +
        (if states.any (fun s => s.isReadyToSendData) then 1 else 0) ∧
    (∀ (pre post : List NetworkManagerState) (state : NetworkManagerState),
      states = pre ++ state :: post → (∀ s ∈ pre, s.isReadyToSendData = false) →
      state.isReadyToSendData = true →
      (stateUpdatedTasks pre self).sendInitialSignalingMessagesCalls =
        self.sendInitialSignalingMessagesCalls ∧
      (stateUpdatedTasks (pre ++ [state]) self).sendInitialSignalingMessagesCalls =
        self.sendInitialSignalingMessagesCalls + 1) ∧
    (stateUpdatedTasks states self).effects.count
        (ManagerEffect.stateUpdated State.Established) =
      self.effects.count (ManagerEffect.stateUpdated State.Established) +
        states.countP (fun s => s.isReadyToSendData && !s.isFailed) ∧
    (∀ (pre post : List NetworkManagerState) (state : NetworkManagerState),
      states = pre ++ state :: post → (∀ s ∈ pre ++ post, s.isReadyToSendData = false) →
      state.isReadyToSendData = true → state.isFailed = false →
      (stateUpdatedTasks states self).effects.count
          (ManagerEffect.stateUpdated State.Established) =
        self.effects.count (ManagerEffect.stateUpdated State.Established) + 1) ∧
    (stateUpdatedTasks states self).effects.countP isSendTransportMessage =
      self.effects.countP isSendTransportMessage +
        (if states.any (fun s => s.isReadyToSendData) = true ∧
            self.protocolVersion = ProtocolVersion.V1 then 1 else 0) := by
  obtain ⟨h1, h2, h3⟩ := stateUpdatedTasks_spec states self
  simp only [hfresh, Bool.not_false, Bool.true_and] at h1 h3
  refine ⟨h1, ?_, h2, ?_, h3⟩
  swap
  · intro pre post state hsplit hothers hstate hfailed
    have hzero : ∀ l : List NetworkManagerState, (∀ s ∈ l, s.isReadyToSendData = false) →
        l.countP (fun s => s.isReadyToSendData && !s.isFailed) = 0 := by
      intro l hl
      rw [List.countP_eq_zero]
      intro s hs
      simp [hl s hs]
    rw [h2, hsplit, List.countP_append, List.countP_cons,
      hzero pre (fun s hs => hothers s (List.mem_append_left _ hs)),
      hzero post (fun s hs => hothers s (List.mem_append_right _ hs))]
    simp [hstate, hfailed]
  intro pre post state _ hpre hstate
  have hany : pre.any (fun s => s.isReadyToSendData) = false := by
    rw [List.any_eq_false]
    intro s hs
    simp [hpre s hs]
  obtain ⟨p1, _, _⟩ := stateUpdatedTasks_spec pre self
  obtain ⟨q1, _, _⟩ := stateUpdatedTasks_spec (pre ++ [state]) self
  constructor
  · rw [p1, hany]
    simp
  · rw [q1]
    simp [hfresh, hstate]

theorem initial_signaling_once_witness :
    startedManager.didConnectOnce = false ∧
    (stateUpdatedTasks exampleStates startedManager).sendInitialSignalingMessagesCalls = 1 ∧
    (stateUpdatedTasks exampleStates startedManager).effects.countP isSendTransportMessage =
      1 ∧
    (stateUpdatedTasks readyOnceStates startedManager).effects.count
        (ManagerEffect.stateUpdated State.Established) = 1 :=
  ⟨rfl,
    (initial_signaling_once exampleStates startedManager rfl).1.trans (by decide),
    (initial_signaling_once exampleStates startedManager rfl).2.2.2.2.trans (by decide),
    ((initial_signaling_once readyOnceStates startedManager rfl).2.2.2.1
      [ { isReadyToSendData := false, isFailed := false } ]
      [ { isReadyToSendData := false, isFailed := false } ]
      { isReadyToSendData := true, isFailed := false } rfl (by decide) rfl rfl).trans
      (by decide)⟩

/-- The effects of the example sequence: the network type is sent once, by
the task of the first ready state; `Established` is reported for each of the
two ready states. -/
theorem stateUpdatedTasks_example :
    (stateUpdatedTasks exampleStates startedManager).effects =
      [ ManagerEffect.stateUpdated State.Reconnecting,
        ManagerEffect.mediaSetIsConnected false,
        ManagerEffect.stateUpdated State.Established,
        ManagerEffect.mediaSetIsConnected true,
        ManagerEffect.sendTransportMessage (Message.remoteNetworkType true),
        ManagerEffect.stateUpdated State.Reconnecting,
        ManagerEffect.mediaSetIsConnected false,
        ManagerEffect.stateUpdated State.Established,
        ManagerEffect.mediaSetIsConnected true ] := by
  decide

/-- The low-cost flag and the routing on concrete inputs: a change of the
local flag before the first connection is passed to the transport domain only;
a remote network type that makes both flags low-cost is passed to the media
domain as the current flag; a candidate list goes to the transport domain and
video parameters go to the callback and to the media domain. -/
theorem manager_examples :
    (setIsLocalNetworkLowCost false startedManager).effects =
      [ ManagerEffect.networkSetIsLocalNetworkLowCost false ] ∧
    setIsLocalNetworkLowCost true startedManager = startedManager ∧
    (receiveMessage (Message.remoteNetworkType true) startedManager).effects =
      [ ManagerEffect.mediaSetIsCurrentNetworkLowCost true ] ∧
    (receiveMessage Message.candidatesList startedManager).effects =
      [ ManagerEffect.networkReceiveSignalingMessage Message.candidatesList ] ∧
    (receiveMessage (Message.videoParameters 1500) startedManager).effects =
      [ ManagerEffect.remotePrefferedAspectRatioUpdated 1500,
        ManagerEffect.mediaReceiveMessage (Message.videoParameters 1500) ] := by
  decide

/-! ## The bandwidth line of `adjustLocalDescription` -/

/-- No piece read by `std::getline` holds the delimiter. -/
theorem not_mem_of_mem_getlineAll (d : Char) (s : Str) :
    ∀ l ∈ getlineAll d s, d ∉ l := by
  induction s with
  | nil => intro l hl; simp [getlineAll] at hl
  | cons c cs ih =>
    intro l hl
    by_cases hc : c = d
    · subst hc
      rw [getlineAll_delim_cons] at hl
      rcases List.mem_cons.1 hl with rfl | hl
      · simp
      · exact ih l hl
    · rw [getlineAll_cons_of_ne d c cs hc] at hl
      rcases List.mem_cons.1 hl with rfl | hl
      · intro hmem
        rcases List.mem_cons.1 hmem with h | h
        · exact hc h.symm
        · cases hg : getlineAll d cs with
          | nil => rw [hg] at h; simp at h
          | cons x xs =>
            rw [hg] at h
            exact ih x (by rw [hg]; simp) (by simpa using h)
      · exact ih l (List.mem_of_mem_tail hl)

/-- Once `foundAudio` is set, the loop writes the lines back. -/
theorem adjustLines_true (lines : List Str) :
    adjustLines true lines = lines.flatMap (fun l => l ++ "\n".toList) := by
  induction lines with
  | nil => rfl
  | cons l rest ih =>
    simp only [adjustLines, Bool.not_true, Bool.false_and, Bool.false_eq_true, if_false, ih,
      List.flatMap_cons]

/-- When no line starts with `c=IN `, the loop writes the lines back. -/
theorem adjustLines_of_no_match (lines : List Str)
    (h : ∀ l ∈ lines, "c=IN ".toList.isPrefixOf l = false) :
    adjustLines false lines = lines.flatMap (fun l => l ++ "\n".toList) := by
  induction lines with
  | nil => rfl
  | cons l rest ih =>
    simp only [adjustLines, h l (by simp), Bool.and_false, Bool.false_eq_true, if_false,
      ih (fun x hx => h x (by simp [hx])), List.flatMap_cons]

/-- The loop writes `b=AS:32` after the first line that starts with `c=IN `. -/
theorem adjustLines_of_first_match (pre post : List Str) (line : Str)
    (hpre : ∀ l ∈ pre, "c=IN ".toList.isPrefixOf l = false)
    (hline : "c=IN ".toList.isPrefixOf line = true) :
    adjustLines false (pre ++ line :: post) =
      (pre ++ line :: "b=AS:32".toList :: post).flatMap (fun l => l ++ "\n".toList) := by
  induction pre with
  | nil =>
    have h32 : "b=AS:".toList ++ showUInt 32 = "b=AS:32".toList := by decide
    simp only [List.nil_append, adjustLines, hline, Bool.not_false, Bool.and_self, if_true,
      adjustLines_true, List.flatMap_cons]
    rw [← h32]
  | cons l rest ih =>
    have ih2 := ih (fun x hx => hpre x (by simp [hx]))
    rw [List.cons_append, List.cons_append, adjustLines]
    simp only [hpre l (by simp), Bool.and_false, Bool.false_eq_true, if_false, ih2,
      List.flatMap_cons]

/-- Claim C30. Bandwidth line insertion of `adjustLocalDescription`: for every
text, with the lines that `split` reads from it at the line feeds: when no
line begins with `c=IN `, the output is these lines in their order, each
followed by a line feed; when `line` is the first line that begins with
`c=IN `, the output is the lines in their order, each followed by a line feed,
with the one line `b=AS:32` right after `line`; and the lines of the output
are then exactly the input lines with that one line added. -/
theorem adjustLocalDescription_inserts_bandwidth_line (sdp : Str) :
    ((∀ l ∈ getlineAll '\n' sdp, "c=IN ".toList.isPrefixOf l = false) →
      adjustLocalDescription sdp =
        (getlineAll '\n' sdp).flatMap (fun l => l ++ "\n".toList) ∧
      getlineAll '\n' (adjustLocalDescription sdp) = getlineAll '\n' sdp) ∧
    (∀ (pre post : List Str) (line : Str), getlineAll '\n' sdp = pre ++ line :: post →
      (∀ l ∈ pre, "c=IN ".toList.isPrefixOf l = false) →
      "c=IN ".toList.isPrefixOf line = true →
      adjustLocalDescription sdp =
        (pre ++ line :: "b=AS:32".toList :: post).flatMap (fun l => l ++ "\n".toList) ∧
      getlineAll '\n' (adjustLocalDescription sdp) =
        pre ++ line :: "b=AS:32".toList :: post) := by
  have hlines := not_mem_of_mem_getlineAll '\n' sdp
  have e : "\n".toList = ['\n'] := rfl
  constructor
  · intro hno
    rw [adjustLocalDescription, adjustLines_of_no_match _ hno]
    refine ⟨rfl, ?_⟩
    rw [e]
    exact getlineAll_flatMap '\n' _ hlines
  · intro pre post line hsplit hpre hline
    rw [adjustLocalDescription, hsplit, adjustLines_of_first_match pre post line hpre hline]
    refine ⟨rfl, ?_⟩
    rw [e]
    apply getlineAll_flatMap
    intro l hl
    rw [hsplit] at hlines
    rcases List.mem_append.1 hl with h | h
    · exact hlines l (List.mem_append_left _ h)
    · rcases List.mem_cons.1 h with rfl | h
      · exact hlines l (by simp)
      · rcases List.mem_cons.1 h with rfl | h
        · decide
        · exact hlines l (by simp [h])

/-- The function on a concrete text: the line `b=AS:32` follows the first
`c=IN ` line only, and the last line gets its line feed. -/
theorem adjustLocalDescription_example :
    adjustLocalDescription "v=0\nc=IN IP4 0.0.0.0\na=mid:0\nc=IN IP4 1.1.1.1".toList =
      "v=0\nc=IN IP4 0.0.0.0\nb=AS:32\na=mid:0\nc=IN IP4 1.1.1.1\n".toList ∧
    adjustLocalDescription "v=0\n\nc=INx\n".toList = "v=0\n\nc=INx\n".toList := by
  decide

/-! ## The low-cost flag of the orchestrator -/

/-- One step of the low-cost flags: the flags afterwards, and what is posted
to the media domain. -/
theorem lowCostStep_spec (event : LowCostEvent) (self : Manager) :
    ((lowCostStep event self).localNetworkIsLowCost,
        (lowCostStep event self).remoteNetworkIsLowCost) =
      flagsAfter (self.localNetworkIsLowCost, self.remoteNetworkIsLowCost) event ∧
    postedLowCost (lowCostStep event self).effects =
      postedLowCost self.effects ++
        (if calculateIsCurrentNetworkLowCost (lowCostStep event self) ≠
            calculateIsCurrentNetworkLowCost self then
          [ calculateIsCurrentNetworkLowCost (lowCostStep event self) ]
         else []) := by
  cases event with
  | setIsLocalNetworkLowCost b =>
    cases b <;> cases hl : self.localNetworkIsLowCost <;>
      cases hr : self.remoteNetworkIsLowCost <;> cases hv : self.protocolVersion <;>
      cases hd : self.didConnectOnce <;>
      simp [lowCostStep, setIsLocalNetworkLowCost, updateIsCurrentNetworkLowCost,
        calculateIsCurrentNetworkLowCost, flagsAfter, postedLowCost, hl, hr, hv, hd,
        List.filterMap_append]
  | remoteNetworkType b =>
    cases b <;> cases hl : self.localNetworkIsLowCost <;>
      cases hr : self.remoteNetworkIsLowCost <;>
      simp [lowCostStep, receiveMessage, updateIsCurrentNetworkLowCost,
        calculateIsCurrentNetworkLowCost, flagsAfter, postedLowCost, hl, hr,
        List.filterMap_append]

theorem lowCostSteps_cons (event : LowCostEvent) (events : List LowCostEvent) (self : Manager) :
    lowCostSteps (event :: events) self = lowCostSteps events (lowCostStep event self) := rfl

/-- The posts of a sequence of steps are the changes of the conjunction. -/
theorem lowCostSteps_posted (events : List LowCostEvent) :
    ∀ self : Manager,
      postedLowCost (lowCostSteps events self).effects =
        postedLowCost self.effects ++
          conjunctionChanges (self.localNetworkIsLowCost, self.remoteNetworkIsLowCost) events := by
  induction events with
  | nil => intro self; simp [lowCostSteps, conjunctionChanges]
  | cons event rest ih =>
    intro self
    obtain ⟨h1, h2⟩ := lowCostStep_spec event self
    rw [lowCostSteps_cons, ih, h2, h1, conjunctionChanges, List.append_assoc]
    simp only [calculateIsCurrentNetworkLowCost]
    have e1 := congrArg Prod.fst h1
    have e2 := congrArg Prod.snd h1
    simp only at e1 e2
    rw [e1, e2]

/-- Claim C21. Low-cost flag: at every step (a call of
`setIsLocalNetworkLowCost` or an inbound remote network-type message, from any
state of the manager) the local and the remote flag take the value of the
step, the derived flag is (local AND remote) of the new flags, and
`setIsCurrentNetworkLowCost` is posted to the media domain exactly when the
derived flag changes at the step, once, with the new value; over every
sequence of steps the posted values are the new values of the conjunction at
the steps where it changes, in order. -/
theorem low_cost_flag_posted_on_change (events : List LowCostEvent) (self : Manager) :
    (∀ (event : LowCostEvent) (manager : Manager),
      ((lowCostStep event manager).localNetworkIsLowCost,
          (lowCostStep event manager).remoteNetworkIsLowCost) =
        flagsAfter (manager.localNetworkIsLowCost, manager.remoteNetworkIsLowCost) event ∧
      calculateIsCurrentNetworkLowCost (lowCostStep event manager) =
        ((lowCostStep event manager).localNetworkIsLowCost &&
          (lowCostStep event manager).remoteNetworkIsLowCost) ∧
      postedLowCost (lowCostStep event manager).effects =
        postedLowCost manager.effects ++
          (if calculateIsCurrentNetworkLowCost (lowCostStep event manager) ≠
              calculateIsCurrentNetworkLowCost manager then
            [ calculateIsCurrentNetworkLowCost (lowCostStep event manager) ]
           else [])) ∧
    postedLowCost (lowCostSteps events self).effects =
      postedLowCost self.effects ++
        conjunctionChanges (self.localNetworkIsLowCost, self.remoteNetworkIsLowCost) events :=
  ⟨fun event manager =>
    ⟨(lowCostStep_spec event manager).1, rfl, (lowCostStep_spec event manager).2⟩,
   lowCostSteps_posted events self⟩

/-- The posts on a concrete sequence: the conjunction becomes true at the
second step and false at the fourth; the third step changes nothing. -/
theorem lowCostSteps_example :
    postedLowCost (lowCostSteps
      [ LowCostEvent.remoteNetworkType true,
        LowCostEvent.setIsLocalNetworkLowCost true,
        LowCostEvent.remoteNetworkType true,
        LowCostEvent.setIsLocalNetworkLowCost false,
        LowCostEvent.remoteNetworkType false ]
      { startedManager with localNetworkIsLowCost := false }).effects = [true, false] := by
  decide

/-! ## Message routing of the orchestrator -/

/-- Claim C22, with the video parameters as the code routes them. For every
inbound message and every state of the manager, the calls that
`receiveMessage` makes are: a candidate list goes to the transport domain
only; video formats and every other message go to `receiveMessage` of the
media domain only; a remote media state updates its callback (when set) and
passes the video state to `remoteVideoStateUpdated` of the media domain; a
remote battery level updates its callback (when set) only; a remote network
type changes the remote flag and posts the derived flag when it changes; video
parameters update the aspect-ratio callback (when set) and are forwarded to
`receiveMessage` of the media domain as well. So a message reaches the
transport domain exactly when it is a candidate list, and `receiveMessage` of
the media domain exactly when it is video formats, video parameters or
another message. -/
theorem receiveMessage_routing (message : Message) (self : Manager) :
    (receiveMessage message self).effects =
      self.effects ++
        (match message with
         | Message.candidatesList =>
           [ ManagerEffect.networkReceiveSignalingMessage Message.candidatesList ]
         | Message.videoFormats => [ ManagerEffect.mediaReceiveMessage Message.videoFormats ]
         | Message.remoteMediaState audio video =>
           (if self.hasRemoteMediaStateUpdated then
             [ ManagerEffect.remoteMediaStateUpdated audio video ] else []) ++
           [ ManagerEffect.mediaRemoteVideoStateUpdated video ]
         | Message.remoteBatteryLevelIsLow batteryLow =>
           if self.hasRemoteBatteryLevelIsLowUpdated then
             [ ManagerEffect.remoteBatteryLevelIsLowUpdated batteryLow ] else []
         | Message.remoteNetworkType isLowCost =>
           if (self.localNetworkIsLowCost && isLowCost) ≠
               (self.localNetworkIsLowCost && self.remoteNetworkIsLowCost) then
             [ ManagerEffect.mediaSetIsCurrentNetworkLowCost
                 (self.localNetworkIsLowCost && isLowCost) ]
           else []
         | Message.videoParameters aspectRatio =>
           (if self.hasRemotePrefferedAspectRatioUpdated then
             [ ManagerEffect.remotePrefferedAspectRatioUpdated aspectRatio ] else []) ++
           [ ManagerEffect.mediaReceiveMessage (Message.videoParameters aspectRatio) ]
         | Message.other => [ ManagerEffect.mediaReceiveMessage Message.other ]) ∧
    (toTransportDomain message ((receiveMessage message self).effects.drop self.effects.length) =
        true ↔ message = Message.candidatesList) ∧
    (toMediaReceiveMessage message
        ((receiveMessage message self).effects.drop self.effects.length) = true ↔
      message = Message.videoFormats ∨ (∃ aspectRatio, message = Message.videoParameters aspectRatio) ∨
        message = Message.other) := by
  cases message with
  | candidatesList => simp [receiveMessage, toTransportDomain, toMediaReceiveMessage]
  | videoFormats => simp [receiveMessage, toTransportDomain, toMediaReceiveMessage]
  | remoteMediaState audio video =>
    cases h : self.hasRemoteMediaStateUpdated <;>
      simp [receiveMessage, toTransportDomain, toMediaReceiveMessage, h]
  | remoteBatteryLevelIsLow batteryLow =>
    cases h : self.hasRemoteBatteryLevelIsLowUpdated <;>
      simp [receiveMessage, toTransportDomain, toMediaReceiveMessage, h]
  | remoteNetworkType isLowCost =>
    cases isLowCost <;> cases hl : self.localNetworkIsLowCost <;>
      cases hr : self.remoteNetworkIsLowCost <;>
      simp [receiveMessage, updateIsCurrentNetworkLowCost, calculateIsCurrentNetworkLowCost,
        toTransportDomain, toMediaReceiveMessage, hl, hr]
  | videoParameters aspectRatio =>
    cases h : self.hasRemotePrefferedAspectRatioUpdated <;>
      simp [receiveMessage, toTransportDomain, toMediaReceiveMessage, h]
  | other => simp [receiveMessage, toTransportDomain, toMediaReceiveMessage]

/-- Counterexample to claim C22 as it is stated. A remote video parameters
message (aspect ratio `1500`) updates the aspect-ratio callback and is also
forwarded to `receiveMessage` of the media domain. -/
theorem videoParameters_forwarded_to_media :
    (receiveMessage (Message.videoParameters 1500) startedManager).effects =
      [ ManagerEffect.remotePrefferedAspectRatioUpdated 1500,
        ManagerEffect.mediaReceiveMessage (Message.videoParameters 1500) ] ∧
    toMediaReceiveMessage (Message.videoParameters 1500)
      (receiveMessage (Message.videoParameters 1500) startedManager).effects = true := by
  decide

/-! ## The remote view of the local network cost -/

/-- One step of the remote view under protocol version `V1`: the local flag
and the latch afterwards, and the network types sent. -/
theorem localCostStep_spec (event : LocalCostEvent) (self : Manager)
    (hv : self.protocolVersion = ProtocolVersion.V1) :
    (localCostStep event self).protocolVersion = ProtocolVersion.V1 ∧
    (localCostStep event self).didConnectOnce = (self.didConnectOnce || isReadyEvent event) ∧
    (localCostStep event self).localNetworkIsLowCost =
      (match event with
       | LocalCostEvent.setIsLocalNetworkLowCost isLowCost => isLowCost
       | LocalCostEvent.stateUpdated _ => self.localNetworkIsLowCost) ∧
    sentNetworkTypes (localCostStep event self).effects =
      sentNetworkTypes self.effects ++
        (match event with
         | LocalCostEvent.setIsLocalNetworkLowCost isLowCost =>
           if isLowCost ≠ self.localNetworkIsLowCost ∧ self.didConnectOnce = true then
             [ isLowCost ] else []
         | LocalCostEvent.stateUpdated state =>
           if state.isReadyToSendData = true ∧ self.didConnectOnce = false then
             [ self.localNetworkIsLowCost ] else []) := by
  cases event with
  | setIsLocalNetworkLowCost b =>
    cases b <;> cases hl : self.localNetworkIsLowCost <;>
      cases hr : self.remoteNetworkIsLowCost <;> cases hd : self.didConnectOnce <;>
      simp [localCostStep, setIsLocalNetworkLowCost, updateIsCurrentNetworkLowCost,
        calculateIsCurrentNetworkLowCost, sentNetworkTypes, isReadyEvent, hl, hr, hv, hd,
        List.filterMap_append]
  | stateUpdated state =>
    cases hs : state.isReadyToSendData <;> cases hd : self.didConnectOnce <;>
      simp [localCostStep, stateUpdatedTask, sendInitialSignalingMessages, sentNetworkTypes,
        isReadyEvent, hs, hv, hd, List.filterMap_append]

theorem localCostSteps_cons (event : LocalCostEvent) (events : List LocalCostEvent)
    (self : Manager) :
    localCostSteps (event :: events) self = localCostSteps events (localCostStep event self) :=
  rfl

/-- The invariant of the remote view under protocol version `V1`: nothing is
sent while the latch is unset; once it is set, the last network type sent is
the local flag. -/
theorem localCostSteps_invariant (events : List LocalCostEvent) :
    ∀ self : Manager, self.protocolVersion = ProtocolVersion.V1 →
      (self.didConnectOnce = false → sentNetworkTypes self.effects = []) →
      (self.didConnectOnce = true →
        (sentNetworkTypes self.effects).getLast? = some self.localNetworkIsLowCost) →
      (localCostSteps events self).didConnectOnce =
        (self.didConnectOnce || events.any isReadyEvent) ∧
      ((localCostSteps events self).didConnectOnce = false →
        sentNetworkTypes (localCostSteps events self).effects = []) ∧
      ((localCostSteps events self).didConnectOnce = true →
        (sentNetworkTypes (localCostSteps events self).effects).getLast? =
          some (localCostSteps events self).localNetworkIsLowCost) := by
  induction events with
  | nil =>
    intro self _ h0 h1
    exact ⟨by simp [localCostSteps], h0, h1⟩
  | cons event rest ih =>
    intro self hv h0 h1
    obtain ⟨g1, g2, g3, g4⟩ := localCostStep_spec event self hv
    have hstep : ((localCostStep event self).didConnectOnce = false →
          sentNetworkTypes (localCostStep event self).effects = []) ∧
        ((localCostStep event self).didConnectOnce = true →
          (sentNetworkTypes (localCostStep event self).effects).getLast? =
            some (localCostStep event self).localNetworkIsLowCost) := by
      rw [g2, g3, g4]
      cases event with
      | setIsLocalNetworkLowCost b =>
        cases hd : self.didConnectOnce with
        | false =>
          simp only [hd] at h0
          simp [isReadyEvent, h0 trivial]
        | true =>
          simp only [hd] at h1
          have h1' := h1 trivial
          by_cases hb : b = self.localNetworkIsLowCost
          · simp [isReadyEvent, hb, h1']
          · simp [isReadyEvent, hb]
      | stateUpdated state =>
        cases hd : self.didConnectOnce with
        | false =>
          simp only [hd] at h0
          cases hs : state.isReadyToSendData <;> simp [isReadyEvent, hs, h0 trivial]
        | true =>
          simp only [hd] at h1
          simp [isReadyEvent, h1 trivial]
    obtain ⟨k1, k2, k3⟩ := ih (localCostStep event self) g1 hstep.1 hstep.2
    rw [localCostSteps_cons]
    refine ⟨?_, k2, k3⟩
    rw [k1, g2, List.any_cons, Bool.or_assoc]

/-- Claim C28. Remote view of the local network cost under protocol version
`V1`: for a manager that has not connected yet and has sent no network type,
and every sequence of `setIsLocalNetworkLowCost` calls and transport state
tasks, the manager has connected exactly when some state of the sequence was
ready to send; as long as it has not, no network type has been sent; once it
has, the network type sent last is the current local flag; and a call of
`setIsLocalNetworkLowCost` with the current value leaves the manager as it
is. -/
theorem remote_view_of_local_cost_current (events : List LocalCostEvent) (self : Manager)
    (hversion : self.protocolVersion = ProtocolVersion.V1)
    (hfresh : self.didConnectOnce = false)
    (hnone : sentNetworkTypes self.effects = []) :
    (localCostSteps events self).didConnectOnce = events.any isReadyEvent ∧
    ((localCostSteps events self).didConnectOnce = false →
      sentNetworkTypes (localCostSteps events self).effects = []) ∧
    ((localCostSteps events self).didConnectOnce = true →
      (sentNetworkTypes (localCostSteps events self).effects).getLast? =
        some (localCostSteps events self).localNetworkIsLowCost) ∧
    (∀ manager : Manager,
      setIsLocalNetworkLowCost manager.localNetworkIsLowCost manager = manager) := by
  obtain ⟨h1, h2, h3⟩ := localCostSteps_invariant events self hversion (fun _ => hnone)
    (fun h => by rw [hfresh] at h; exact Bool.noConfusion h)
  refine ⟨by rw [h1, hfresh, Bool.false_or], h2, h3, ?_⟩
  intro manager
  simp [setIsLocalNetworkLowCost]

theorem remote_view_of_local_cost_current_witness :
    startedManager.protocolVersion = ProtocolVersion.V1 ∧
    startedManager.didConnectOnce = false ∧
    sentNetworkTypes startedManager.effects = [] ∧
    sentNetworkTypes (localCostSteps exampleLocalCostEvents startedManager).effects =
      [false, true, false] ∧
    (sentNetworkTypes (localCostSteps exampleLocalCostEvents startedManager).effects).getLast? =
      some (localCostSteps exampleLocalCostEvents startedManager).localNetworkIsLowCost :=
  ⟨rfl, rfl, rfl, by decide,
    (remote_view_of_local_cost_current exampleLocalCostEvents startedManager rfl rfl rfl).2.2.1
      (by decide)⟩

/-! ## The deferral rule of `updateIsConnected` -/

/-- Claim C25, without the condition on the previous state. Deferral rule of
`updateIsConnected`: a call (with the counter below its maximum) returns, and
it defers the update, which means that it posts the re-check with a delay of
1000 ms and reports nothing, exactly when the raw value is `false` and the
last offer was applied less than 1000 ms before now, whatever the value of
`_isConnected` before the call; in every other case it reports the new value
to the application at once. -/
theorem deferral_rule (now : Int) (isConnected : Bool) (self : GroupInstanceManager)
    (hcounter : self.isConnectedUpdateValidTaskId < 2147483647) :
    ∃ after, updateIsConnected now isConnected self = some after ∧
      after.isConnected = isConnected ∧
      (isConnected = false ∧ now - self.appliedOfferTimestamp < 1000 →
        after.effects = self.effects ++
          [ GroupManagerEffect.postIsConnectedCheck
              (self.isConnectedUpdateValidTaskId + 1) 1000 ]) ∧
      (¬ (isConnected = false ∧ now - self.appliedOfferTimestamp < 1000) →
        after.effects = self.effects ++
          [ GroupManagerEffect.networkStateUpdated isConnected ]) := by
  have hlt : ¬ self.isConnectedUpdateValidTaskId ≥ 2147483647 := by omega
  have hsome : ∃ after, updateIsConnected now isConnected self = some after := by
    simp only [updateIsConnected, hlt, if_false]
    split_ifs <;> exact ⟨_, rfl⟩
  obtain ⟨after, hafter⟩ := hsome
  obtain ⟨_, h2, _, h4⟩ := updateIsConnected_spec now isConnected self after hafter
  refine ⟨after, hafter, h2, ?_, ?_⟩
  · intro hd
    rw [h4, if_pos ⟨hd.1, by omega⟩]
  · intro hd
    rw [h4, if_neg (fun h => hd ⟨h.1, by omega⟩)]

theorem deferral_rule_witness :
    newGroupInstanceManager.isConnectedUpdateValidTaskId < 2147483647 ∧
    ∃ after, updateIsConnected 500 false newGroupInstanceManager = some after ∧
      after.isConnected = false ∧
      (false = false ∧ 500 - newGroupInstanceManager.appliedOfferTimestamp < 1000 →
        after.effects = newGroupInstanceManager.effects ++
          [ GroupManagerEffect.postIsConnectedCheck
              (newGroupInstanceManager.isConnectedUpdateValidTaskId + 1) 1000 ]) ∧
      (¬ (false = false ∧ 500 - newGroupInstanceManager.appliedOfferTimestamp < 1000) →
        after.effects = newGroupInstanceManager.effects ++
          [ GroupManagerEffect.networkStateUpdated false ]) :=
  ⟨by decide, deferral_rule 500 false newGroupInstanceManager (by decide)⟩

/-- Counterexample to claim C25 as it is stated. The manager after construction
has never been connected (`_isConnected` is `false`); a disconnected update at
time `500`, less than 1000 ms after the timestamp `0` of the last applied
offer, is deferred all the same: the re-check is posted and nothing is
reported. -/
theorem update_deferred_without_established :
    newGroupInstanceManager.isConnected = false ∧
    (updateIsConnected 500 false newGroupInstanceManager).map (fun after => after.effects) =
      some [ GroupManagerEffect.postIsConnectedCheck 1 1000 ] := by
  decide

/-! ## The timing of `beginProcessingMissingSsrcs` -/

/-- Claim C26, with the comparison and the delay of the code. Debounce timing of
`beginProcessingMissingSsrcs`: when no cycle is running and the previous cycle
was completed at time `t`, a start at time `now` applies the queue at once (it
is the call of `applyMissingSsrcs` with the cycle marked as running) if
`now - t > 200`; otherwise it marks the cycle as running and posts the task
that applies the queue with the fixed delay of 200 ms. A start while a cycle
is running does nothing. -/
theorem debounce_timing (createSessionDescription : Str → Str → Bool) (now : Int)
    (fuel : Nat) (self : GroupInstanceManager)
    (hidle : self.isProcessingMissingSsrcs = false) :
    (now - self.missingSsrcsProcessedTimestamp > 200 →
      beginProcessingMissingSsrcs createSessionDescription now (fuel + 1) self =
        applyMissingSsrcs createSessionDescription now fuel
          { self with isProcessingMissingSsrcs := true }) ∧
    (now - self.missingSsrcsProcessedTimestamp ≤ 200 →
      beginProcessingMissingSsrcs createSessionDescription now (fuel + 1) self =
        some { self with
          isProcessingMissingSsrcs := true,
          effects := self.effects ++ [ GroupManagerEffect.postApplyMissingSsrcs 200 ] }) ∧
    (∀ running : GroupInstanceManager, running.isProcessingMissingSsrcs = true →
      beginProcessingMissingSsrcs createSessionDescription now (fuel + 1) running =
        some running) := by
  refine ⟨?_, ?_, ?_⟩
  · intro h
    have h2 : now > self.missingSsrcsProcessedTimestamp + 200 := by omega
    simp only [beginProcessingMissingSsrcs, beginProcessingMissingSsrcsBody, hidle,
      Bool.false_eq_true, if_false, h2, if_true, applyMissingSsrcs,
      completeProcessingMissingSsrcs]
    rfl
  · intro h
    have h2 : ¬ now > self.missingSsrcsProcessedTimestamp + 200 := by omega
    exact (beginProcessingMissingSsrcs_returns createSessionDescription now fuel self).2
      hidle h2
  · intro running hrun
    exact (beginProcessingMissingSsrcs_returns createSessionDescription now fuel running).1
      hrun

theorem debounce_timing_witness :
    idleManager.isProcessingMissingSsrcs = false ∧
    beginProcessingMissingSsrcs acceptAll 1300 1 idleManager =
      applyMissingSsrcs acceptAll 1300 0
        { idleManager with isProcessingMissingSsrcs := true } ∧
    beginProcessingMissingSsrcs acceptAll 1300 1 idleManager =
      some { idleManager with
        isProcessingMissingSsrcs := false, missingSsrcsProcessedTimestamp := 1300,
        missingSsrcQueue := [] } :=
  ⟨rfl, (debounce_timing acceptAll 1300 0 idleManager rfl).1 (by decide), by decide⟩

/-- Counterexample to claim C26 as it is stated. The previous cycle was
completed at time `1000`. A start at time `1200`, 200 ms later, does not apply
the queue at once: it posts the task with a delay of 200 ms and the queue keeps
its entry. A start at time `1050`, 50 ms later, posts the task with the same
delay of 200 ms, not with the remaining wait of 150 ms. -/
theorem debounce_delay_is_fixed :
    idleManager.missingSsrcsProcessedTimestamp = 1000 ∧
    beginProcessingMissingSsrcs acceptAll 1200 1 idleManager = some waitingManager ∧
    beginProcessingMissingSsrcs acceptAll 1050 1 idleManager = some waitingManager ∧
    waitingManager.missingSsrcQueue = [333] ∧
    waitingManager.effects = [ GroupManagerEffect.postApplyMissingSsrcs 200 ] := by
  decide

/-! ## Reads of `videoSourceGroups[0].ssrcs[0]` in `parseJoinResponseIntoSdp` -/

/-- The loop over the participants reads in range exactly when every
participant with a video payload type has a first source group with a first
identifier. -/
theorem allParticipantStreams_isSome_iff (P : List GroupParticipantDescription) :
    (allParticipantStreams P).isSome = true ↔
      ∀ p ∈ P, p.videoPayloadTypes = [] ∨ (firstVideoSsrc p.videoSourceGroups).isSome = true := by
  induction P with
  | nil => simp [allParticipantStreams]
  | cons p P ih =>
    have hp : (participantStreams p).isSome = true ↔
        (p.videoPayloadTypes = [] ∨ (firstVideoSsrc p.videoSourceGroups).isSome = true) := by
      simp only [participantStreams]
      by_cases hv : p.videoPayloadTypes = []
      · simp [hv]
      · have hl : p.videoPayloadTypes.length ≠ 0 := fun h0 => hv (List.length_eq_zero.1 h0)
        rw [if_pos hl]
        cases firstVideoSsrc p.videoSourceGroups <;> simp [hv]
    rw [List.forall_mem_cons, ← hp, ← ih]
    simp only [allParticipantStreams]
    cases participantStreams p with
    | none => simp
    | some ps => cases allParticipantStreams P <;> simp

/-- The encoder `parseJoinResponseIntoSdp` reads in range exactly when the join
payload has no source group or its first group has a first identifier, and
every participant with a video payload type has a first source group with a
first identifier. -/
theorem parseJoinResponseIntoSdp_isSome_iff (sessionId : Nat) (J : GroupJoinPayload)
    (R : GroupJoinResponsePayload) (isAnswer : Bool) (P : List GroupParticipantDescription) :
    (parseJoinResponseIntoSdp sessionId J R isAnswer P).isSome = true ↔
      (J.videoSourceGroups = [] ∨ (firstVideoSsrc J.videoSourceGroups).isSome = true) ∧
      ∀ p ∈ P, p.videoPayloadTypes = [] ∨ (firstVideoSsrc p.videoSourceGroups).isSome = true := by
  rw [← allParticipantStreams_isSome_iff]
  have hJ : (outgoingStreams J).isSome = true ↔
      (J.videoSourceGroups = [] ∨ (firstVideoSsrc J.videoSourceGroups).isSome = true) := by
    simp only [outgoingStreams]
    by_cases hg : J.videoSourceGroups = []
    · simp [hg]
    · have hl : J.videoSourceGroups.length ≠ 0 := fun h0 => hg (List.length_eq_zero.1 h0)
      rw [if_pos hl]
      cases firstVideoSsrc J.videoSourceGroups <;> simp [hg]
  rw [← hJ]
  simp only [parseJoinResponseIntoSdp, joinResponseStreams]
  cases outgoingStreams J with
  | none => simp
  | some out => cases allParticipantStreams P <;> simp

/-- Claim C23. Reads out of range are reachable in `parseJoinResponseIntoSdp`:
for a participant with a video payload type and no video source group the
encoder reads `videoSourceGroups[0]` of an empty vector, and for the join
payload that `parseSdpIntoJoinPayload` returns for a text with the line
`a=ssrc-group:FID ` (no identifier after it) the encoder reads `ssrcs[0]` of
an empty vector. -/
theorem out_of_range_read_reachable :
    parseJoinResponseIntoSdp 7 audioOnlyJoinPayload exampleResponse false
      participantWithoutGroups = none ∧
    (parseSdpIntoJoinPayload textWithEmptyGroup).map (fun joinPayload =>
        joinPayload.videoSourceGroups) =
      some [ { semantics := "FID".toList, ssrcs := [] } ] ∧
    (parseSdpIntoJoinPayload textWithEmptyGroup).map (fun joinPayload =>
        parseJoinResponseIntoSdp 7 joinPayload exampleResponse false []) = some none := by
  refine ⟨by decide, by decide, by decide⟩

/-! ## Distinct content identifiers -/

theorem audio_ne_video (s t : Str) : "audio".toList ++ s ≠ "video".toList ++ t := by
  intro h
  exact absurd (List.cons.inj h).1 (by decide)

theorem audio_mid_injective (a b : Nat)
    (h : "audio".toList ++ showUInt a = "audio".toList ++ showUInt b) : a = b :=
  showUInt_injective a b (List.append_cancel_left h)

theorem video_mid_injective (a b : Nat)
    (h : "video".toList ++ showUInt a = "video".toList ++ showUInt b) : a = b :=
  showUInt_injective a b (List.append_cancel_left h)

/-- The identifiers of the streams of one participant. -/
theorem participantStreams_mids (p : GroupParticipantDescription) (ps : List StreamSpec)
    (h : participantStreams p = some ps) :
    ps.map streamMidString =
      ("audio".toList ++ showUInt p.audioSsrc) ::
        (participantVideoSsrc p).toList.map (fun v => "video".toList ++ showUInt v) := by
  simp only [participantStreams] at h
  split_ifs at h with hv
  · cases hf : firstVideoSsrc p.videoSourceGroups with
    | none => simp [hf] at h
    | some v =>
      simp only [hf, Option.some.injEq] at h
      subst h
      simp only [participantVideoSsrc, if_pos hv, hf, Option.toList, List.map_cons, List.map_nil,
        streamMidString, List.length_nil, if_true, if_neg hv, Bool.false_eq_true, if_false]
  · simp only [Option.some.injEq] at h
    subst h
    simp only [participantVideoSsrc, if_neg hv, Option.toList, List.map_cons, List.map_nil,
      streamMidString, List.length_nil, if_true, Bool.false_eq_true, if_false]

/-- The identifiers of the streams of the participants. -/
theorem allParticipantStreams_mids (P : List GroupParticipantDescription) :
    ∀ others : List StreamSpec, allParticipantStreams P = some others →
      others.map streamMidString =
        P.flatMap (fun p => ("audio".toList ++ showUInt p.audioSsrc) ::
          (participantVideoSsrc p).toList.map (fun v => "video".toList ++ showUInt v)) := by
  induction P with
  | nil =>
    intro others h
    simp only [allParticipantStreams, Option.some.injEq] at h
    subst h
    rfl
  | cons p P ih =>
    intro others h
    simp only [allParticipantStreams] at h
    split at h
    · exact absurd h (by simp)
    · rename_i ps hps
      split at h
      · exact absurd h (by simp)
      · rename_i more hmore
        simp only [Option.some.injEq] at h
        subst h
        rw [List.map_append, participantStreams_mids p ps hps, ih more hmore, List.flatMap_cons]

theorem mem_participant_mids (P : List GroupParticipantDescription) (x : Str)
    (hx : x ∈ P.flatMap (fun p => ("audio".toList ++ showUInt p.audioSsrc) ::
      (participantVideoSsrc p).toList.map (fun v => "video".toList ++ showUInt v))) :
    (∃ a ∈ P.map (fun p => p.audioSsrc), x = "audio".toList ++ showUInt a) ∨
    (∃ v ∈ firstVideoSsrcs P, x = "video".toList ++ showUInt v) := by
  obtain ⟨p, hp, hxp⟩ := List.mem_flatMap.1 hx
  rcases List.mem_cons.1 hxp with hxa | hxv
  · exact Or.inl ⟨p.audioSsrc, List.mem_map.2 ⟨p, hp, rfl⟩, hxa⟩
  · obtain ⟨v, hv, hxv⟩ := List.mem_map.1 hxv
    exact Or.inr ⟨v, List.mem_flatMap.2 ⟨p, hp, hv⟩, hxv.symm⟩

/-- The identifiers of the participants are pairwise distinct when the audio
identifiers are and the video identifiers are. -/
theorem participant_mids_nodup (P : List GroupParticipantDescription)
    (ha : (P.map (fun p => p.audioSsrc)).Nodup) (hv : (firstVideoSsrcs P).Nodup) :
    (P.flatMap (fun p => ("audio".toList ++ showUInt p.audioSsrc) ::
      (participantVideoSsrc p).toList.map (fun v => "video".toList ++ showUInt v))).Nodup := by
  induction P with
  | nil => exact List.nodup_nil
  | cons p P ih =>
    rw [List.map_cons, List.nodup_cons] at ha
    have hv2 : ((participantVideoSsrc p).toList ++ firstVideoSsrcs P).Nodup := hv
    rw [List.nodup_append] at hv2
    obtain ⟨_, hvP, hdisj⟩ := hv2
    have ihP := ih ha.2 hvP
    rw [List.flatMap_cons, List.cons_append, List.nodup_cons]
    refine ⟨?_, ?_⟩
    · intro hmem
      rcases List.mem_append.1 hmem with hm | hm
      · obtain ⟨v, _, hxv⟩ := List.mem_map.1 hm
        exact audio_ne_video _ _ hxv.symm
      · rcases mem_participant_mids P _ hm with ⟨a, haP, hxa⟩ | ⟨v, _, hxv⟩
        · rw [← audio_mid_injective _ _ hxa] at haP
          exact ha.1 haP
        · exact audio_ne_video _ _ hxv
    · cases hpv : participantVideoSsrc p with
      | none => simpa [Option.toList] using ihP
      | some v =>
        simp only [Option.toList, List.map_cons, List.map_nil, List.cons_append, List.nil_append,
          List.nodup_cons]
        refine ⟨?_, ihP⟩
        intro hm
        rcases mem_participant_mids P _ hm with ⟨a, _, hxa⟩ | ⟨w, hw, hxw⟩
        · exact audio_ne_video _ _ hxa.symm
        · rw [← video_mid_injective _ _ hxw] at hw
          exact hdisj (by simp [hpv, Option.toList]) hw

/-- The identifiers of the streams of `parseJoinResponseIntoSdp` are pairwise
distinct under the three conditions. -/
theorem joinResponseStreams_mids_nodup (J : GroupJoinPayload)
    (P : List GroupParticipantDescription) (streams : List StreamSpec)
    (h : joinResponseStreams J P = some streams)
    (hJ : J.videoSourceGroups = [] ∨ J.videoPayloadTypes ≠ [])
    (ha : (P.map (fun p => p.audioSsrc)).Nodup) (hv : (firstVideoSsrcs P).Nodup) :
    (streams.map streamMidString).Nodup := by
  obtain ⟨out, others, hout, hoth, rfl⟩ := joinResponseStreams_split J P streams h
  rw [List.map_append, allParticipantStreams_mids P others hoth, List.nodup_append]
  refine ⟨?_, participant_mids_nodup P ha hv, ?_⟩
  · rcases outgoingStreams_cases J out hout with ⟨_, rfl⟩ | ⟨ssrc, hg, _, rfl⟩
    · simp
    · have hp : J.videoPayloadTypes.length ≠ 0 := by
        rcases hJ with hJ | hJ
        · exact absurd hJ hg
        · exact fun h0 => hJ (List.length_eq_zero.1 h0)
      simp [streamMidString, mainStream, mainVideoStream, hp]
  · intro x hxo hxp
    have hx01 : x = "0".toList ∨ x = "1".toList := by
      rcases outgoingStreams_cases J out hout with ⟨_, rfl⟩ | ⟨ssrc, hg, _, rfl⟩
      · simp only [List.map_cons, List.map_nil, List.mem_singleton] at hxo
        subst hxo
        left; rfl
      · simp only [List.map_cons, List.map_nil, List.mem_cons, List.mem_singleton,
          List.not_mem_nil, or_false] at hxo
        rcases hxo with rfl | rfl
        · left; rfl
        · simp only [streamMidString, mainVideoStream, if_true]
          split_ifs
          · left; rfl
          · right; rfl
    rcases mem_participant_mids P x hxp with ⟨a, _, hxa⟩ | ⟨v, _, hxv⟩
    · rcases hx01 with h0 | h0 <;> rw [h0] at hxa <;>
        exact absurd (List.cons.inj hxa).1 (by decide)
    · rcases hx01 with h0 | h0 <;> rw [h0] at hxv <;>
        exact absurd (List.cons.inj hxv).1 (by decide)

/-- Claim C27. Distinct content identifiers. For a join payload that has no
video source group or has a video payload type, and a ledger whose participants
have pairwise distinct audio identifiers and, among those with video, pairwise
distinct first video identifiers, the `a=mid:` values that
`parseJoinResponseIntoSdp` writes are pairwise distinct, and so are the
entries of the `a=group:BUNDLE` line; when no encoded string holds a line
break these are the `a=mid:` lines read back from the text. -/
theorem content_identifiers_distinct (sessionId : Nat) (joinPayload : GroupJoinPayload)
    (payload : GroupJoinResponsePayload) (isAnswer : Bool)
    (allOtherParticipants : List GroupParticipantDescription) (text : Str)
    (h : parseJoinResponseIntoSdp sessionId joinPayload payload isAnswer
      allOtherParticipants = some text)
    (hJ : joinPayload.videoSourceGroups = [] ∨ joinPayload.videoPayloadTypes ≠ [])
    (haudio : (allOtherParticipants.map (fun p => p.audioSsrc)).Nodup)
    (hvideo : (firstVideoSsrcs allOtherParticipants).Nodup) :
    ∃ bundleStreams, joinResponseStreams joinPayload allOtherParticipants = some bundleStreams ∧
      text = createSdp sessionId payload isAnswer bundleStreams ∧
      (getLines (createSdpLines sessionId payload isAnswer bundleStreams)
        "a=mid:".toList).Nodup ∧
      (bundleStreams.map bundleEntry).Nodup ∧
      (joinPayloadNoLineBreak joinPayload = true → responseNoLineBreak payload = true →
        (∀ p ∈ allOtherParticipants, participantNoLineBreak p = true) →
        (getLines (splitSdpLines text) "a=mid:".toList).Nodup) := by
  obtain ⟨streams, hs, rfl⟩ := parseJoinResponseIntoSdp_eq_some _ _ _ _ _ _ h
  have hn := joinResponseStreams_mids_nodup joinPayload allOtherParticipants streams hs hJ
    haudio hvideo
  refine ⟨streams, hs, rfl, ?_, hn, ?_⟩
  · rw [getLines_createSdpLines_mid]
    exact hn
  · intro h1 h2 h3
    rw [splitSdpLines_createSdp sessionId payload isAnswer streams h2
      (joinResponseStreams_noLineBreak _ _ _ hs h1 h3), getLines_createSdpLines_mid]
    exact hn

theorem content_identifiers_distinct_witness :
    ∃ bundleStreams,
      joinResponseStreams exampleJoinPayload participantsSameVideo.tail = some bundleStreams ∧
      (getLines (createSdpLines 7 exampleResponse false bundleStreams) "a=mid:".toList).Nodup ∧
      (bundleStreams.map bundleEntry).Nodup :=
  (content_identifiers_distinct 7 exampleJoinPayload exampleResponse false
    participantsSameVideo.tail _ rfl (by decide) (by decide) (by decide)).imp
    (fun _ hb => ⟨hb.1, hb.2.2.1, hb.2.2.2.1⟩)

/-- With two participants whose video source groups start with the same
identifier the text holds `a=mid:video7` twice, and with a join payload that
has a video source group and no video payload type it holds `a=mid:0` twice. -/
theorem content_identifiers_repeat :
    ((parseJoinResponseIntoSdp 7 audioOnlyJoinPayload exampleResponse false
        participantsSameVideo).map
      (fun text => getLines (splitSdpLines text) "a=mid:".toList)) =
      some [ "0".toList, "audio111".toList, "video7".toList, "audio222".toList,
        "video7".toList ] ∧
    (participantsSameVideo.map (fun p => p.audioSsrc)).Nodup ∧
    ((parseJoinResponseIntoSdp 7 joinPayloadGroupsOnly exampleResponse false []).map
      (fun text => getLines (splitSdpLines text) "a=mid:".toList)) =
      some [ "0".toList, "0".toList ] := by
  refine ⟨by decide!, by decide, by decide!⟩

/-! ## Line endings and empty lines -/

theorem lfToCrLf_nil : lfToCrLf [] = [] := rfl

theorem lfToCrLf_lf (cs : Str) : lfToCrLf ('\n' :: cs) = '\r' :: '\n' :: lfToCrLf cs := rfl

theorem lfToCrLf_cons_of_ne (c : Char) (cs : Str) (h : c ≠ '\n') :
    lfToCrLf (c :: cs) = c :: lfToCrLf cs := by
  simp only [lfToCrLf, List.flatMap_cons, if_neg h, List.singleton_append]

/-- The pieces of the converted text are those of the text, some of them
followed by a carriage return. -/
theorem getlineAll_lfToCrLf (text : Str) (hcr : '\r' ∉ text) :
    List.Forall₂ (fun converted piece : Str =>
        '\r' ∉ piece ∧ (converted = piece ∨ converted = piece ++ ['\r']))
      (getlineAll '\n' (lfToCrLf text)) (getlineAll '\n' text) := by
  induction text with
  | nil => exact List.Forall₂.nil
  | cons c cs ih =>
    have hcs : '\r' ∉ cs := fun h => hcr (List.mem_cons_of_mem _ h)
    have hc : c ≠ '\r' := fun h => hcr (by rw [h]; exact List.mem_cons_self _ _)
    have ih2 := ih hcs
    by_cases hlf : c = '\n'
    · subst hlf
      rw [lfToCrLf_lf, getlineAll_cons_of_ne '\n' '\r' _ (by decide), getlineAll_delim_cons,
        getlineAll_delim_cons]
      exact List.Forall₂.cons ⟨by simp, Or.inr rfl⟩ ih2
    · rw [lfToCrLf_cons_of_ne c cs hlf, getlineAll_cons_of_ne '\n' c _ hlf,
        getlineAll_cons_of_ne '\n' c _ hlf]
      generalize getlineAll '\n' (lfToCrLf cs) = convertedPieces at ih2 ⊢
      generalize getlineAll '\n' cs = pieces at ih2 ⊢
      cases ih2 with
      | nil =>
        exact List.Forall₂.cons ⟨by simpa using hc.symm, Or.inl rfl⟩ List.Forall₂.nil
      | cons hhead htail =>
        refine List.Forall₂.cons ⟨?_, ?_⟩ htail
        · simp only [List.headD_cons, List.mem_cons, not_or]
          exact ⟨hc.symm, hhead.1⟩
        · rcases hhead.2 with h | h
          · left; simp only [List.headD_cons, h]
          · right; simp only [List.headD_cons, h, List.cons_append]

theorem ignorable_nil : ignorable [] = true := by decide

/-- Pieces that differ by a carriage return at the end give the same result
of `parseLines`, after any lines. -/
theorem parseLines_filterMap_of_forall₂ (converted pieces : List Str)
    (h : List.Forall₂ (fun converted piece : Str =>
        '\r' ∉ piece ∧ (converted = piece ∨ converted = piece ++ ['\r'])) converted pieces) :
    ∀ pre : List Str,
      parseLines (pre ++ converted.filterMap (fun s =>
        if s.length = 0 then none
        else if s.getLast? = some '\r' then some s.dropLast
        else some s)) =
      parseLines (pre ++ pieces.filterMap (fun s =>
        if s.length = 0 then none
        else if s.getLast? = some '\r' then some s.dropLast
        else some s)) := by
  induction h with
  | nil => intro pre; rfl
  | @cons q p qs ps hhead _ ih =>
    intro pre
    obtain ⟨hp, hq⟩ := hhead
    have hlast : p.getLast? ≠ some '\r' := by
      intro hl
      exact hp (List.mem_of_getLast?_eq_some hl)
    rcases hq with hq | hq
    · subst hq
      rw [List.filterMap_cons, List.filterMap_cons]
      split_ifs with h0
      · exact ih pre
      · have := ih (pre ++ [q])
        simpa only [List.append_assoc, List.singleton_append] using this
    · subst hq
      rw [List.filterMap_cons, List.filterMap_cons]
      have h1 : (p ++ ['\r']).length ≠ 0 := by simp
      have h2 : (p ++ ['\r']).getLast? = some '\r' := by simp
      rw [if_neg h1, if_pos h2, List.dropLast_concat, if_neg hlast]
      by_cases h0 : p.length = 0
      · rw [if_pos h0, List.length_eq_zero.1 h0, parseLines_insert _ _ [] ignorable_nil]
        exact ih pre
      · rw [if_neg h0]
        have := ih (pre ++ [p])
        simpa only [List.append_assoc, List.singleton_append] using this

/-- Claim C29. Line-ending tolerance of the decoder. For every text without
carriage return, `parseSdpIntoJoinPayload` returns the same result on the text
and on the text in which every line feed is replaced by a carriage return and
a line feed; and an empty line (a line feed, or a carriage return and a line
feed, at a line start of any text) or a line feed after the end of the text
does not change the result. -/
theorem line_ending_tolerance (text : Str) (hcr : '\r' ∉ text) :
    parseSdpIntoJoinPayload (lfToCrLf text) = parseSdpIntoJoinPayload text ∧
    (∀ before after : Str, atLineStart before = true →
      parseSdpIntoJoinPayload (before ++ '\n' :: after) =
        parseSdpIntoJoinPayload (before ++ after)) ∧
    (∀ before after : Str, atLineStart before = true →
      parseSdpIntoJoinPayload (before ++ '\r' :: '\n' :: after) =
        parseSdpIntoJoinPayload (before ++ after)) ∧
    (∀ other : Str, parseSdpIntoJoinPayload (other ++ ['\n']) =
      parseSdpIntoJoinPayload other) := by
  refine ⟨?_, ?_, ?_, ?_⟩
  · rw [parseSdpIntoJoinPayload_eq, parseSdpIntoJoinPayload_eq]
    exact parseLines_filterMap_of_forall₂ _ _ (getlineAll_lfToCrLf text hcr) []
  · intro before after hb
    have := parse_insert_line [] (by simp) (by intro x hx; simp [splitSdpLines, getlineAll] at hx)
      before after hb
    simpa only [List.append_nil] using this
  · intro before after hb
    have := parse_insert_line ['\r'] (by simp)
      (by
        intro x hx
        have hx2 : x = [] := by simpa [splitSdpLines, getlineAll] using hx
        rw [hx2]
        exact ignorable_nil)
      before after hb
    simpa only [List.append_assoc, List.singleton_append] using this
  · intro other
    exact parse_append_line [] (by simp) (by intro x hx; simp [splitSdpLines, getlineAll] at hx)
      other

theorem line_ending_tolerance_witness :
    parseSdpIntoJoinPayload (lfToCrLf textWithEmptyLine) =
      parseSdpIntoJoinPayload textWithEmptyLine ∧
    (parseSdpIntoJoinPayload textWithEmptyLine).isSome = true ∧
    splitSdpLines (lfToCrLf textWithEmptyLine) ≠ splitSdpLines textWithEmptyLine :=
  ⟨(line_ending_tolerance textWithEmptyLine (by decide)).1, by decide, by decide⟩

/-! ## Exclusivity of offers in the content coordination context -/

/-- The identifier of a pending offer is below the next exchange identifier
after every sequence of calls. -/
theorem callsContext_pending_lt {Content : Type} [DecidableEq Content]
    (calls : List (ContextCall Content)) :
    ∀ self : ContentCoordinationContext Content,
      (∀ pending, self.pendingOutgoingOffer = some pending →
        pending.exchangeId < self.nextExchangeId) →
      ∀ pending, (callsContext calls self).pendingOutgoingOffer = some pending →
        pending.exchangeId < (callsContext calls self).nextExchangeId := by
  induction calls with
  | nil => intro self h; exact h
  | cons call calls ih =>
    intro self h
    refine ih (callContext call self) ?_
    intro pending hp
    cases call with
    | addOutgoingChannel content => exact h pending hp
    | getOffer =>
      simp only [callContext, getOffer] at hp ⊢
      cases hs : self.pendingOutgoingOffer with
      | none =>
        simp only [hs, Option.some.injEq] at hp ⊢
        rw [← hp]
        exact Nat.lt_succ_self _
      | some p =>
        simp only [hs, Option.some.injEq] at hp ⊢
        rw [← hp]
        exact h p hs
    | setRemoteNegotiationContent remote =>
      simp only [callContext, setRemoteNegotiationContent] at hp ⊢
      cases hs : self.pendingOutgoingOffer with
      | none => simp [hs] at hp
      | some p =>
        simp only [hs] at hp ⊢
        split_ifs at hp ⊢ with he
        exact h pending hp

/-- Claim C24. Exclusivity of offers. After every sequence of calls that
leaves an offer pending, a further offer request returns no offer and leaves
the context (the pending exchange and the coordinated state) unchanged; and
the reply to the pending exchange is applied, the coordinated state is
returned, nothing is pending then, and a following offer request returns an
offer whose exchange identifier is greater than that of the resolved
exchange and that is pending from then on. -/
theorem offer_exclusivity {Content : Type} [DecidableEq Content]
    (calls : List (ContextCall Content)) (pending : PendingOutgoingOffer Content)
    (hpending : (callsContext calls newContentCoordinationContext).pendingOutgoingOffer =
      some pending) :
    getOffer (callsContext calls newContentCoordinationContext) =
      (none, callsContext calls newContentCoordinationContext) ∧
    ∀ remote : RemoteNegotiationContents Content, remote.exchangeId = pending.exchangeId →
      ∃ applied,
        setRemoteNegotiationContent remote (callsContext calls newContentCoordinationContext) =
          (some (coordinatedState applied), applied) ∧
        applied.pendingOutgoingOffer = none ∧
        (coordinatedState applied).outgoingContents =
          pending.contents.filter (fun content => content ∈ remote.accepted) ∧
        (coordinatedState applied).incomingContents = remote.declared ∧
        ∃ offer next,
          getOffer applied = (some offer, next) ∧
          pending.exchangeId < offer.exchangeId ∧
          offer.contents = applied.outgoingChannelDescriptions ∧
          next.pendingOutgoingOffer =
            some { exchangeId := offer.exchangeId, contents := offer.contents } ∧
          coordinatedState next = coordinatedState applied := by
  have hlt := callsContext_pending_lt calls newContentCoordinationContext
    (fun p hp => by simp [newContentCoordinationContext] at hp) pending hpending
  generalize callsContext calls newContentCoordinationContext = context at hpending hlt ⊢
  refine ⟨?_, ?_⟩
  · simp only [getOffer, hpending]
  · intro remote hremote
    simp only [setRemoteNegotiationContent, hpending, hremote, if_true]
    refine ⟨_, rfl, rfl, rfl, rfl, ?_⟩
    simp only [getOffer]
    exact ⟨_, _, rfl, hlt, rfl, rfl, rfl⟩

theorem offer_exclusivity_witness :
    getOffer (callsContext pendingCalls newContentCoordinationContext) =
      (none, callsContext pendingCalls newContentCoordinationContext) ∧
    (callsContext pendingCalls newContentCoordinationContext).pendingOutgoingOffer =
      some { exchangeId := 0, contents := [1, 2] } :=
  ⟨(offer_exclusivity pendingCalls { exchangeId := 0, contents := [1, 2] } rfl).1, rfl⟩

/-! ## The bundle line and the `a=mid:` lines of the text of `createSdp` -/

theorem flatMap_map_blocks {α β γ : Type} (f : α → β) (g : β → List γ) (l : List α) :
    (l.map f).flatMap g = l.flatMap (fun x => g (f x)) := by
  induction l with
  | nil => rfl
  | cons x xs ih => simp only [List.map_cons, List.flatMap_cons, ih]

/-- Claim C9, for inputs without line breaks. For every response payload and
every stream list passed to `createSdp` none of whose strings holds a carriage
return or a line feed, the text has exactly one `a=group:BUNDLE` line, its
value is every `a=mid:` value of the text preceded by one space, in the order
of the `a=mid:` lines; cutting it at the spaces gives back exactly those
values; the content blocks of the text are those of the streams, in stream
order; and the `a=mid:` lines of the text are those of its content blocks, in
block order, one in each block. -/
theorem createSdp_bundle_enumerates_mids (sessionId : Nat) (payload : GroupJoinResponsePayload)
    (isAnswer : Bool) (bundleStreams : List StreamSpec)
    (hpayload : responseNoLineBreak payload = true)
    (hstreams : ∀ stream ∈ bundleStreams, streamNoLineBreak stream = true) :
    getLines (splitSdpLines (createSdp sessionId payload isAnswer bundleStreams))
        "a=group:BUNDLE".toList =
      [ (getLines (splitSdpLines (createSdp sessionId payload isAnswer bundleStreams))
          "a=mid:".toList).flatMap (fun mid => ' ' :: mid) ] ∧
    splitFingerprintLines
      ((getLines (splitSdpLines (createSdp sessionId payload isAnswer bundleStreams))
          "a=mid:".toList).flatMap (fun mid => ' ' :: mid)) =
      getLines (splitSdpLines (createSdp sessionId payload isAnswer bundleStreams))
        "a=mid:".toList ∧
    (contentBlocks (splitSdpLines (createSdp sessionId payload isAnswer bundleStreams))).2 =
      bundleStreams.map (streamLines payload isAnswer) ∧
    getLines (splitSdpLines (createSdp sessionId payload isAnswer bundleStreams))
        "a=mid:".toList =
      (contentBlocks (splitSdpLines
        (createSdp sessionId payload isAnswer bundleStreams))).2.flatMap
          (fun block => getLines block "a=mid:".toList) ∧
    ∀ block ∈ (contentBlocks (splitSdpLines
        (createSdp sessionId payload isAnswer bundleStreams))).2,
      (getLines block "a=mid:".toList).length = 1 := by
  obtain ⟨h1, h2, h3, h4⟩ :=
    createSdpLines_bundle_enumerates_mids sessionId payload isAnswer bundleStreams
  rw [splitSdpLines_createSdp sessionId payload isAnswer bundleStreams hpayload hstreams,
    contentBlocks_createSdpLines]
  refine ⟨h1, h2, rfl, ?_, ?_⟩
  · rw [h3, flatMap_map_blocks]
  · intro block hblock
    obtain ⟨stream, _, rfl⟩ := List.mem_map.1 hblock
    exact h4 stream

theorem createSdp_bundle_enumerates_mids_witness :
    responseNoLineBreak exampleResponse = true ∧
    (∀ stream ∈ exampleStreams, streamNoLineBreak stream = true) ∧
    getLines (splitSdpLines (createSdp 7 exampleResponse false exampleStreams))
        "a=group:BUNDLE".toList = [ " 0 1 audio111".toList ] ∧
    getLines (splitSdpLines (createSdp 7 exampleResponse false exampleStreams))
        "a=mid:".toList = [ "0".toList, "1".toList, "audio111".toList ] :=
  ⟨by decide, by decide,
    (createSdp_bundle_enumerates_mids 7 exampleResponse false exampleStreams (by decide)
      (by decide)).1.trans (by decide!),
    by decide!⟩

/-- Counterexample to claim C9 as it is stated. The extension URI of the third
stream holds a line feed followed by `a=mid:zz`; `createSdp` writes it as it
is, so the text of the three streams has four `a=mid:` lines, the last one in
the block of the third stream, and the `a=group:BUNDLE` line has the three
entries of the streams. -/
theorem bundle_line_misses_mid_line :
    getLines (splitSdpLines (createSdp 7 exampleResponse false streamsWithMidLine))
        "a=mid:".toList =
      [ "0".toList, "audio111".toList, "video7".toList, "zz".toList ] ∧
    getLines (splitSdpLines (createSdp 7 exampleResponse false streamsWithMidLine))
        "a=group:BUNDLE".toList = [ " 0 audio111 video7".toList ] ∧
    ((contentBlocks (splitSdpLines
        (createSdp 7 exampleResponse false streamsWithMidLine))).2.map
      (fun block => getLines block "a=mid:".toList)) =
      [ [ "0".toList ], [ "audio111".toList ], [ "video7".toList, "zz".toList ] ] := by
  refine ⟨by decide!, by decide!, by decide!⟩

/-! ## Reports of `Established` -/

/-- Counterexample to claim C20 as it is stated. The transport becomes ready
once and reports ready again in the next state: `Established` is reported to
the application twice, while `sendInitialSignalingMessages` is called once. -/
theorem established_reported_twice :
    (stateUpdatedTasks readyTwiceStates startedManager).effects.count
        (ManagerEffect.stateUpdated State.Established) = 2 ∧
    (stateUpdatedTasks readyTwiceStates startedManager).sendInitialSignalingMessagesCalls = 1 ∧
    (stateUpdatedTasks readyTwiceStates startedManager).effects =
      [ ManagerEffect.stateUpdated State.Reconnecting,
        ManagerEffect.mediaSetIsConnected false,
        ManagerEffect.stateUpdated State.Established,
        ManagerEffect.mediaSetIsConnected true,
        ManagerEffect.sendTransportMessage (Message.remoteNetworkType true),
        ManagerEffect.stateUpdated State.Established,
        ManagerEffect.mediaSetIsConnected true ] := by
  decide

end tgcalls
